import Mathlib

/-!
Samsung S5P DisplayPort driver: link-training core.

A shallow embedding of `drivers/video/s5p-dp-core.c`.

* Pure helpers (`s5p_dp_get_lane_status`, `s5p_dp_clock_recovery_ok`, ...) are
  Lean functions on byte buffers (`List Nat`, one entry per `u8`).
* Stateful code threads a `Dev` value: the `link_train` part of
  `struct s5p_dp_device`, the per-lane `LINK_TRAINING_CTL` registers of the
  transmitter, and a chronological log of every call that leaves the file.
* The sink and the AUX channel are an oracle `Env`: the answer to the n-th
  AUX transaction is `env.aux n addr`, so any sequence of answers and
  transport errors can be expressed.
* Constants and macros of `s5p-dp-core.h` that the file uses but does not
  define are the fields of `Hdr`; the theorems quantify over all of them and
  state as a hypothesis whatever they need to know about a macro.
-/

namespace S5pDp

/-! ## Constants -/

/-- Linux errno `EIO`. -/
def EIO : Int := 5

/-- Linux errno `EINVAL`. -/
def EINVAL : Int := 22

/-- Linux errno `ETIMEDOUT`. -/
def ETIMEDOUT : Int := 110

/-- Linux errno `EREMOTEIO`. -/
def EREMOTEIO : Int := 121

/-- Modelled from the spec: `MAX_CR_LOOP` of the header `s5p-dp-core.h`
(not under src/); the spec gives "`MAX_CR_LOOP` (4)". -/
def MAX_CR_LOOP : Nat := 4

/-- Modelled from the spec: `MAX_EQ_LOOP` of the header `s5p-dp-core.h`
(not under src/); the spec gives "`MAX_EQ_LOOP` (5)". -/
def MAX_EQ_LOOP : Nat := 5

/-- Modelled from the spec: enumerator `VOLTAGE_LEVEL_3` of the header; the
spec's lane state has `voltage_swing: 0..3` with 3 the maximum level. -/
def VOLTAGE_LEVEL_3 : Nat := 3

/-- Modelled from the spec: enumerator `PRE_EMPHASIS_LEVEL_3` of the header;
the spec's lane state has `pre_emphasis: 0..3` with 3 the maximum level. -/
def PRE_EMPHASIS_LEVEL_3 : Nat := 3

/-- Modelled from the spec: enumerator `PRE_EMPHASIS_LEVEL_1` of the header
("sets per-lane pre-emphasis to level 1"). -/
def PRE_EMPHASIS_LEVEL_1 : Nat := 1

/-- Modelled from the spec: `LINK_RATE_1_62GBPS` (0x06) of the header. -/
def LINK_RATE_1_62GBPS : Nat := 0x06

/-- Modelled from the spec: `LINK_RATE_2_70GBPS` (0x0a) of the header. -/
def LINK_RATE_2_70GBPS : Nat := 0x0a

/-- The macros of `s5p-dp-core.h` used by the link-training code. The header
is not under src/, so their values are parameters. `CONFIG_S5P_DP_PSR` is the
build-time option that selects the `#ifdef` branches. -/
structure Hdr where
  CONFIG_S5P_DP_PSR : Bool
  DPCD_LANE_CR_DONE : Nat
  DPCD_CHANNEL_EQ_BITS : Nat
  DPCD_INTERLANE_ALIGN_DONE : Nat
  DPCD_SET_POWER_STATE_D0 : Nat
  DPCD_ENHANCED_FRAME_EN : Nat
  DPCD_SCRAMBLING_DISABLED : Nat
  DPCD_TRAINING_PATTERN_1 : Nat
  DPCD_TRAINING_PATTERN_2 : Nat
  DPCD_TRAINING_PATTERN_DISABLED : Nat
  DPCD_MAX_SWING_REACHED : Nat
  DPCD_MAX_PRE_EMPHASIS_REACHED : Nat
  DPCD_PRE_EMPHASIS_PATTERN2_LEVEL0 : Nat
  DPCD_VOLTAGE_SWING_PATTERN1_LEVEL0 : Nat
  DPCD_VOLTAGE_SWING_SET : Nat → Nat
  DPCD_PRE_EMPHASIS_SET : Nat → Nat
  DPCD_VOLTAGE_SWING_GET : Nat → Nat
  DPCD_PRE_EMPHASIS_GET : Nat → Nat
  DPCD_MAX_LANE_COUNT : Nat → Nat
  DPCD_LANE_COUNT_SET : Nat → Nat
  DP_TIMEOUT_LOOP_COUNT : Nat
  PSR_STATUS_ACTIVE : Nat
  PSR_STATUS_INACTIVE : Nat
  PLL_UNLOCKED : Nat
  SINK_PSR_INACTIVE_STATE : Nat
  DPCD_TEST_EDID_READ : Nat
  DPCD_TEST_EDID_CHECKSUM_WRITE : Nat
  I2C_EDID_DEVICE_ADDR : Nat
  EDID_EXTENSION_FLAG : Nat
  EDID_CHECKSUM : Nat
  DPCD_PSR_ENABLE : Nat

/-- The DPCD register layout of the DisplayPort standard, used for concrete
runs: CR_DONE is bit 0 of a lane nibble, the EQ bits are bits 0..2,
swing occupies bits 0..1 and pre-emphasis bits 3..4 of a training-lane byte,
with the two "max reached" flags at bits 2 and 5; the EDID extension flag and
checksum are bytes 126 and 127 of a block. The poll bound and the encodings of
the transmitter status registers are one possible choice. -/
def stdHdr : Hdr where
  CONFIG_S5P_DP_PSR := false
  DPCD_LANE_CR_DONE := 0x1
  DPCD_CHANNEL_EQ_BITS := 0x7
  DPCD_INTERLANE_ALIGN_DONE := 0x1
  DPCD_SET_POWER_STATE_D0 := 0x1
  DPCD_ENHANCED_FRAME_EN := 0x80
  DPCD_SCRAMBLING_DISABLED := 0x20
  DPCD_TRAINING_PATTERN_1 := 0x1
  DPCD_TRAINING_PATTERN_2 := 0x2
  DPCD_TRAINING_PATTERN_DISABLED := 0x0
  DPCD_MAX_SWING_REACHED := 0x4
  DPCD_MAX_PRE_EMPHASIS_REACHED := 0x20
  DPCD_PRE_EMPHASIS_PATTERN2_LEVEL0 := 0x0
  DPCD_VOLTAGE_SWING_PATTERN1_LEVEL0 := 0x0
  DPCD_VOLTAGE_SWING_SET := fun x => (x &&& 0x3) <<< 0
  DPCD_PRE_EMPHASIS_SET := fun x => (x &&& 0x3) <<< 3
  DPCD_VOLTAGE_SWING_GET := fun x => (x >>> 0) &&& 0x3
  DPCD_PRE_EMPHASIS_GET := fun x => (x >>> 3) &&& 0x3
  DPCD_MAX_LANE_COUNT := fun x => x &&& 0x1f
  DPCD_LANE_COUNT_SET := fun x => x &&& 0x1f
  DP_TIMEOUT_LOOP_COUNT := 100
  PSR_STATUS_ACTIVE := 2
  PSR_STATUS_INACTIVE := 0
  PLL_UNLOCKED := 0
  SINK_PSR_INACTIVE_STATE := 0
  DPCD_TEST_EDID_READ := 0x4
  DPCD_TEST_EDID_CHECKSUM_WRITE := 0x4
  I2C_EDID_DEVICE_ADDR := 0x50
  EDID_EXTENSION_FLAG := 0x7e
  EDID_CHECKSUM := 0x7f
  DPCD_PSR_ENABLE := 0x1

/-! ## Pure helpers (lines 431-489) -/

/-- `s5p_dp_get_lane_status`: the 4-bit status field of `lane`. -/
def s5p_dp_get_lane_status (link_status : List Nat) (lane : Nat) : Nat :=
  let shift := (lane &&& 1) * 4
  let link_value := link_status.getD (lane >>> 1) 0
  (link_value >>> shift) &&& 0xf

/-- The `for (lane = ...; lane < lane_count; lane++)` loop of
`s5p_dp_clock_recovery_ok`; the first argument counts the iterations left. -/
def clock_recovery_ok_loop (hdr : Hdr) (link_status : List Nat) : Nat → Nat → Int
  | 0, _ => 0
  | n + 1, lane =>
    let lane_status := s5p_dp_get_lane_status link_status lane
    if lane_status &&& hdr.DPCD_LANE_CR_DONE = 0 then - EINVAL
    else clock_recovery_ok_loop hdr link_status n (lane + 1)

/-- `s5p_dp_clock_recovery_ok`. -/
def s5p_dp_clock_recovery_ok (hdr : Hdr) (link_status : List Nat) (lane_count : Nat) : Int :=
  clock_recovery_ok_loop hdr link_status lane_count 0

/-- The lane loop of `s5p_dp_channel_eq_ok`. -/
def channel_eq_ok_loop (hdr : Hdr) (link_align : List Nat) : Nat → Nat → Int
  | 0, _ => 0
  | n + 1, lane =>
    let lane_status := s5p_dp_get_lane_status link_align lane
    let lane_status := lane_status &&& hdr.DPCD_CHANNEL_EQ_BITS
    if lane_status ≠ hdr.DPCD_CHANNEL_EQ_BITS then - EINVAL
    else channel_eq_ok_loop hdr link_align n (lane + 1)

/-- `s5p_dp_channel_eq_ok`: `link_align` holds the two lane-status bytes and
the align byte. -/
def s5p_dp_channel_eq_ok (hdr : Hdr) (link_align : List Nat) (lane_count : Nat) : Int :=
  let lane_align := link_align.getD 2 0
  if lane_align &&& hdr.DPCD_INTERLANE_ALIGN_DONE = 0 then - EINVAL
  else channel_eq_ok_loop hdr link_align lane_count 0

/-- `s5p_dp_get_adjust_request_voltage`. -/
def s5p_dp_get_adjust_request_voltage (adjust_request : List Nat) (lane : Nat) : Nat :=
  let shift := (lane &&& 1) * 4
  let link_value := adjust_request.getD (lane >>> 1) 0
  (link_value >>> shift) &&& 0x3

/-- `s5p_dp_get_adjust_request_pre_emphasis`. -/
def s5p_dp_get_adjust_request_pre_emphasis (adjust_request : List Nat) (lane : Nat) : Nat :=
  let shift := (lane &&& 1) * 4
  let link_value := adjust_request.getD (lane >>> 1) 0
  ((link_value >>> shift) &&& 0xc) >>> 2

/-- The status or request nibble of `lane` in a packed buffer, in the words
of the spec: low nibble of byte `lane / 2` for an even lane, high nibble for
an odd lane. -/
def lane_nibble (buf : List Nat) (lane : Nat) : Nat :=
  if lane % 2 = 0 then buf.getD (lane / 2) 0 % 16 else buf.getD (lane / 2) 0 / 16 % 16

/-! ## Device state and the register channel -/

/-- The `enum link_training_state` of the header, as used by the switch of
`s5p_dp_sw_link_training`. -/
inductive LtState where
  | START
  | CLOCK_RECOVERY
  | EQUALIZER_TRAINING
  | FINISHED
  | FAILED
  deriving DecidableEq, Repr

/-- The values of `enum pattern_set` that the file passes to
`s5p_dp_set_training_pattern`. -/
inductive PatternSet where
  | TRAINING_PTN1
  | TRAINING_PTN2
  | DP_NONE
  deriving DecidableEq, Repr

/-- The DPCD addresses (`DPCD_ADDR_*`) the file touches, kept symbolic: only
their identity matters. `ADDR addr` is an address that the file writes as a
number (0x491, 0x492 and 0x493 in `s5p_dp_enable`). -/
inductive DpcdAddr where
  | SINK_POWER_STATE
  | LINK_BW_SET
  | TRAINING_PATTERN_SET
  | TRAINING_LANE0_SET
  | LANE0_1_STATUS
  | LANE_ALIGN_STATUS_UPDATED
  | ADJUST_REQUEST_LANE0_1
  | ADJUST_REQUEST_LANE2_3
  | MAX_LINK_RATE
  | MAX_LANE_COUNT
  | LANE_COUNT_SET
  | CONFIGURATION_SET
  | EDP_CONFIGURATION_SET
  | TEST_REQUEST
  | TEST_RESPONSE
  | TEST_EDID_CHECKSUM
  | SINK_PSR_STATUS
  | TRAINING_LANE0_SET_PLUS (lane : Nat)
  | USER_DEFINED1
  | USER_DEFINED2
  | USER_DEFINED3
  | PSR_CONFIGURATION
  | ADDR (addr : Nat)
  deriving DecidableEq, Repr

/-- The blocks named in calls of `s5p_dp_set_analog_power_down`. -/
inductive PowerBlock where
  | POWER_ALL
  | ANALOG_TOTAL
  deriving DecidableEq, Repr

/-- The calls into the transmitter driver (`s5p-dp-reg.c`) and the kernel
that the PSR controller, `s5p_dp_init_training`, the PSR training engine and
the bring-up of `s5p_dp_enable` make and that carry no data back, or whose
answer is recorded with them. An argument that is the same constant at every
call in the file is left out: `s5p_dp_set_video_cr_mn(dp, CALCULATED_M, 0,
0)`, `s5p_dp_set_video_timing_mode(dp, VIDEO_TIMING_FROM_CAPTURE)` and the
fields of `video_info` passed to `s5p_dp_config_video_slave_mode` and
`s5p_dp_set_video_color_format`. `writel value offset` and `readl offset
value` are accesses to the register at `dp->reg_base + offset`. -/
inductive HwOp where
  | reset_macro
  | enable_enhanced_mode (enable : Bool)
  | enable_ssc (enable : Bool)
  | set_analog_power_down (block : PowerBlock) (enable : Bool)
  | sr_wait_on
  | mutex_lock
  | mutex_unlock
  | enable_psr
  | exit_psr
  | get_psr_status (status : Nat)
  | get_pll_lock_status (status : Nat)
  | is_video_stream_on (status : Int)
  | mdelay (ms : Nat)
  | ndelay (ns : Nat)
  | usleep_range (lo hi : Nat)
  | clk_enable
  | clk_disable
  | fb_notifier_call_chain_PSR_DONE
  | set_fifo_reset
  | clear_fifo_reset
  | set_idle_en
  | set_force_stream_valid
  | reset
  | enable_sw_function
  | config_interrupt
  | init_analog_func
  | init_hpd
  | init_aux
  | enable_scrambling
  | disable_scrambling
  | init_video
  | config_video_slave_mode
  | set_video_color_format
  | is_slave_video_stream_clock_on (status : Int)
  | set_video_cr_mn
  | set_video_timing_mode
  | enable_video_mute (enable : Bool)
  | enable_video_master (enable : Bool)
  | start_video
  | scramber_rst_cnt
  | set_pll_power_down (enable : Bool)
  | writel (value offset : Nat)
  | readl (offset value : Nat)
  deriving DecidableEq, Repr

/-- The functions of the link-training engine whose entry is recorded in the
log. -/
inductive Fn where
  | link_start
  | process_clock_recovery
  | process_equalizer_training
  | reduce_link_rate
  deriving DecidableEq, Repr

/-- One entry of the log: a call that leaves the file (AUX transaction,
transmitter register write, delay) or the entry of an engine function. -/
inductive Event where
  | udelay (us : Nat)
  | dpcd_read (addr : DpcdAddr) (count : Nat) (ret : Int)
  | dpcd_write (addr : DpcdAddr) (data : List Nat) (ret : Int)
  | set_training_pattern (p : PatternSet)
  | set_link_bandwidth (bw : Nat)
  | set_lane_count (count : Nat)
  | set_lane_pre_emphasis (level : Nat) (lane : Nat)
  | set_lane_link_training (training_lane : Nat) (lane : Nat)
  | call (fn : Fn)
  | i2c_read (device_addr reg_addr count : Nat) (ret : Int)
  | hw (op : HwOp)
  deriving DecidableEq, Repr

/-- `struct link_train`. The two retry counters are C `int`s that a session
keeps below 7; they are natural numbers here. `link_rate`, `lane_count` and
`training_lane[]` are `u8`. -/
structure LinkTrain where
  eq_loop : Nat
  cr_loop : Nat → Nat
  link_rate : Nat
  lane_count : Nat
  training_lane : Nat → Nat
  lt_state : LtState

/-- The part of `struct s5p_dp_device` and of the transmitter that link
training reads or writes. `ln_link_training_ctl lane` is the lane's
`LINK_TRAINING_CTL` register, `tick` counts the AUX transactions issued so
far and `log` lists the calls made so far, oldest first. -/
structure Dev where
  link_train : LinkTrain
  ln_link_training_ctl : Nat → Nat
  tick : Nat
  log : List Event

/-- The answer of the AUX channel to one transaction: the return value
(negative on a transport error) and, for a read, the bytes delivered. -/
structure Resp where
  ret : Int
  data : Nat → Nat

/-- Everything outside the file. `aux n addr` answers the n-th AUX
transaction, addressed to `addr`. `link_bandwidth n` and `lane_count n` are
what `s5p_dp_get_link_bandwidth` and `s5p_dp_get_lane_count` read back when
`n` AUX transactions have been issued. `pre_emphasis_ctl old level` is the
content of a lane's `LINK_TRAINING_CTL` register after
`s5p_dp_set_laneN_pre_emphasis(dp, level)` when it held `old` before.
`i2c n reg_addr` answers the n-th AUX transaction when it is an I2C-over-AUX
read of the EDID device at `reg_addr`. `psr_status k`, `pll_lock_status k`,
`video_stream_on k` and `slave_video_stream_clock_on k` are what
`s5p_dp_get_psr_status`, `s5p_dp_get_pll_lock_status`,
`s5p_dp_is_video_stream_on` and `s5p_dp_is_slave_video_stream_clock_on`
return, and `readl k offset` is what `readl(dp->reg_base + offset)` returns,
when `k` transmitter status reads have been made before. -/
structure Env where
  aux : Nat → DpcdAddr → Resp
  link_bandwidth : Nat → Nat
  lane_count : Nat → Nat
  pre_emphasis_ctl : Nat → Nat → Nat
  i2c : Nat → Nat → Resp := fun _ _ => ⟨0, fun _ => 0⟩
  psr_status : Nat → Nat := fun _ => 0
  pll_lock_status : Nat → Nat := fun _ => 1
  video_stream_on : Nat → Int := fun _ => 0
  slave_video_stream_clock_on : Nat → Int := fun _ => 0
  readl : Nat → Nat → Nat := fun _ _ => 0

/-- Append an entry to the log. -/
def emit (e : Event) (dp : Dev) : Dev :=
  { dp with log := dp.log ++ [e] }

/-- Modelled from the spec: `s5p_dp_read_bytes_from_dpcd(dp, addr, count,
buf)` of `s5p-dp-reg.c`, which is not under src/; the spec's register channel,
"potentially failing I/O calls with no implicit retry". Gives the return
value, the `u8` buffer and the new state. -/
def s5p_dp_read_bytes_from_dpcd (env : Env) (addr : DpcdAddr) (count : Nat) (dp : Dev) :
    Int × List Nat × Dev :=
  let r := env.aux dp.tick addr
  (r.ret, (List.range count).map (fun i => r.data i % 256),
    { dp with tick := dp.tick + 1, log := dp.log ++ [Event.dpcd_read addr count r.ret] })

/-- Modelled from the spec: `s5p_dp_read_byte_from_dpcd(dp, addr, &data)`
of `s5p-dp-reg.c` (not under src/), the register channel's `read_byte`. -/
def s5p_dp_read_byte_from_dpcd (env : Env) (addr : DpcdAddr) (dp : Dev) : Int × Nat × Dev :=
  let r := env.aux dp.tick addr
  (r.ret, r.data 0 % 256,
    { dp with tick := dp.tick + 1, log := dp.log ++ [Event.dpcd_read addr 1 r.ret] })

/-- Modelled from the spec: `s5p_dp_write_byte_to_dpcd(dp, addr, data)` of
`s5p-dp-reg.c` (not under src/), the register channel's `write_byte`; `data`
is an `unsigned char`. -/
def s5p_dp_write_byte_to_dpcd (env : Env) (addr : DpcdAddr) (data : Nat) (dp : Dev) : Int × Dev :=
  let r := env.aux dp.tick addr
  (r.ret, { dp with tick := dp.tick + 1,
                    log := dp.log ++ [Event.dpcd_write addr [data % 256] r.ret] })

/-- Modelled from the spec: `s5p_dp_write_bytes_to_dpcd(dp, addr, count,
buf)` of `s5p-dp-reg.c` (not under src/), the register channel's bulk write;
`data` lists the first `count` bytes of `buf`. -/
def s5p_dp_write_bytes_to_dpcd (env : Env) (addr : DpcdAddr) (data : List Nat) (dp : Dev) :
    Int × Dev :=
  let r := env.aux dp.tick addr
  (r.ret, { dp with tick := dp.tick + 1, log := dp.log ++ [Event.dpcd_write addr data r.ret] })

/-- Modelled from the spec: `s5p_dp_set_training_pattern` of `s5p-dp-reg.c`
(not under src/), a transmitter register write; only the call is recorded. -/
def s5p_dp_set_training_pattern (p : PatternSet) (dp : Dev) : Dev :=
  emit (Event.set_training_pattern p) dp

/-- Modelled from the spec: `s5p_dp_set_link_bandwidth` of `s5p-dp-reg.c`
(not under src/), a transmitter register write; only the call is recorded. -/
def s5p_dp_set_link_bandwidth (bwtype : Nat) (dp : Dev) : Dev :=
  emit (Event.set_link_bandwidth bwtype) dp

/-- Modelled from the spec: `s5p_dp_set_lane_count` of `s5p-dp-reg.c` (not
under src/), a transmitter register write; only the call is recorded. -/
def s5p_dp_set_lane_count (count : Nat) (dp : Dev) : Dev :=
  emit (Event.set_lane_count count) dp

/-- Modelled from the spec: `s5p_dp_set_lane0_pre_emphasis` ...
`s5p_dp_set_lane3_pre_emphasis` of `s5p-dp-reg.c`, which is not under src/.
They write the lane's `LINK_TRAINING_CTL` register; what the register holds
afterwards is left to `env.pre_emphasis_ctl`. -/
def s5p_dp_set_laneN_pre_emphasis (env : Env) (lane : Nat) (level : Nat) (dp : Dev) : Dev :=
  let reg := env.pre_emphasis_ctl (dp.ln_link_training_ctl lane) level
  emit (Event.set_lane_pre_emphasis level lane)
    { dp with ln_link_training_ctl := Function.update dp.ln_link_training_ctl lane reg }

/-- Modelled from the spec: `s5p_dp_set_lane0_link_training` ...
`s5p_dp_set_lane3_link_training` of `s5p-dp-reg.c`, which is not under src/.
The spec has the engine compare "each lane's current swing/emphasis against
what was last requested": the lane's `LINK_TRAINING_CTL` register keeps the
`u8` stored last. -/
def s5p_dp_set_laneN_link_training (lane : Nat) (training_lane : Nat) (dp : Dev) : Dev :=
  let reg := training_lane % 256
  emit (Event.set_lane_link_training reg lane)
    { dp with ln_link_training_ctl := Function.update dp.ln_link_training_ctl lane reg }

/-- Modelled from the spec: `s5p_dp_get_lane0_link_training` ...
`s5p_dp_get_lane3_link_training` of `s5p-dp-reg.c`, which is not under src/:
read the lane's `LINK_TRAINING_CTL` register back. -/
def s5p_dp_get_laneN_link_training (dp : Dev) (lane : Nat) : Nat :=
  dp.ln_link_training_ctl lane

/-- `s5p_dp_set_lane_lane_pre_emphasis` (lines 337-356): the switch reaches a
register only for lanes 0..3. -/
def s5p_dp_set_lane_lane_pre_emphasis (env : Env) (pre_emphasis : Nat) (lane : Nat) (dp : Dev) :
    Dev :=
  if lane < 4 then s5p_dp_set_laneN_pre_emphasis env lane pre_emphasis dp else dp

/-- `s5p_dp_set_lane_link_training` (lines 491-510): the switch reaches a
register only for lanes 0..3; `training_lane_set` is a `u8`. -/
def s5p_dp_set_lane_link_training (training_lane_set : Nat) (lane : Nat) (dp : Dev) : Dev :=
  if lane < 4 then s5p_dp_set_laneN_link_training lane training_lane_set dp else dp

/-- `s5p_dp_get_lane_link_training` (lines 512-534): `reg` stays 0 for a
lane outside 0..3. -/
def s5p_dp_get_lane_link_training (dp : Dev) (lane : Nat) : Nat :=
  if lane < 4 then s5p_dp_get_laneN_link_training dp lane else 0

/-- Assign `dp->link_train.lt_state`. -/
def set_lt_state (s : LtState) (dp : Dev) : Dev :=
  { dp with link_train := { dp.link_train with lt_state := s } }

/-- Assign `dp->link_train.training_lane[lane]` (a `u8`). -/
def set_training_lane (lane : Nat) (v : Nat) (dp : Dev) : Dev :=
  { dp with link_train :=
      { dp.link_train with training_lane := Function.update dp.link_train.training_lane lane v } }

/-- The first `lane_count` bytes of `dp->link_train.training_lane`. -/
def training_lane_buf (dp : Dev) (lane_count : Nat) : List Nat :=
  (List.range lane_count).map dp.link_train.training_lane

/-! ## The link-training engine -/

/-- The loop `for (lane = 0; lane < lane_count; lane++)
dp->link_train.cr_loop[lane] = 0;` of `s5p_dp_link_start` (lines 370-371). -/
def reset_cr_loop (lane_count : Nat) (dp : Dev) : Dev :=
  (List.range lane_count).foldl
    (fun dp lane => { dp with link_train :=
      { dp.link_train with cr_loop := Function.update dp.link_train.cr_loop lane 0 } }) dp

/-- The loop of `s5p_dp_link_start` that sets the TX pre-emphasis of every
lane to `PRE_EMPHASIS_LEVEL_1` (lines 400-402). -/
def set_lanes_pre_emphasis (env : Env) (lane_count : Nat) (dp : Dev) : Dev :=
  (List.range lane_count).foldl
    (fun dp lane => s5p_dp_set_lane_lane_pre_emphasis env PRE_EMPHASIS_LEVEL_1 lane dp) dp

/-- The loop of `s5p_dp_process_equalizer_training` that copies every
`training_lane[lane]` to the transmitter (lines 817-820). -/
def set_lanes_link_training (lane_count : Nat) (dp : Dev) : Dev :=
  (List.range lane_count).foldl
    (fun dp lane => s5p_dp_set_lane_link_training (dp.link_train.training_lane lane) lane dp) dp

/-- `s5p_dp_training_pattern_dis` (lines 322-335). -/
def s5p_dp_training_pattern_dis (hdr : Hdr) (env : Env) (dp : Dev) : Int × Dev :=
  let dp := s5p_dp_set_training_pattern PatternSet.DP_NONE dp
  let (retval, dp) := s5p_dp_write_byte_to_dpcd env DpcdAddr.TRAINING_PATTERN_SET
    hdr.DPCD_TRAINING_PATTERN_DISABLED dp
  if retval < 0 then (retval, dp) else (0, dp)

/-- `s5p_dp_reduce_link_rate` (lines 536-541). -/
def s5p_dp_reduce_link_rate (hdr : Hdr) (env : Env) (dp : Dev) : Dev :=
  let dp := emit (Event.call Fn.reduce_link_rate) dp
  let dp := (s5p_dp_training_pattern_dis hdr env dp).2
  set_lt_state LtState.FAILED dp

/-- `s5p_dp_link_start` (lines 358-429). -/
def s5p_dp_link_start (hdr : Hdr) (env : Env) (dp : Dev) : Int × Dev :=
  let dp := emit (Event.call Fn.link_start) dp
  let lane_count := dp.link_train.lane_count
  let dp := set_lt_state LtState.CLOCK_RECOVERY dp
  let dp := { dp with link_train := { dp.link_train with eq_loop := 0 } }
  let dp := reset_cr_loop lane_count dp
  let (retval, dp) := s5p_dp_write_byte_to_dpcd env DpcdAddr.SINK_POWER_STATE
    hdr.DPCD_SET_POWER_STATE_D0 dp
  if retval < 0 then (retval, dp) else
  let dp := s5p_dp_set_link_bandwidth dp.link_train.link_rate dp
  let dp := s5p_dp_set_lane_count dp.link_train.lane_count dp
  let buf0 := dp.link_train.link_rate
  let buf1 := if hdr.CONFIG_S5P_DP_PSR
    then (hdr.DPCD_ENHANCED_FRAME_EN ||| dp.link_train.lane_count) % 256
    else dp.link_train.lane_count
  let (retval, dp) := s5p_dp_write_bytes_to_dpcd env DpcdAddr.LINK_BW_SET [buf0, buf1] dp
  if retval < 0 then (retval, dp) else
  let dp := set_lanes_pre_emphasis env lane_count dp
  let dp := s5p_dp_set_training_pattern PatternSet.TRAINING_PTN1 dp
  let (retval, dp) := s5p_dp_write_byte_to_dpcd env DpcdAddr.TRAINING_PATTERN_SET
    (hdr.DPCD_SCRAMBLING_DISABLED ||| hdr.DPCD_TRAINING_PATTERN_1) dp
  if retval < 0 then (retval, dp) else
  let buf := (List.range lane_count).map (fun _ =>
    (hdr.DPCD_PRE_EMPHASIS_PATTERN2_LEVEL0 ||| hdr.DPCD_VOLTAGE_SWING_PATTERN1_LEVEL0) % 256)
  let (retval, dp) := s5p_dp_write_bytes_to_dpcd env DpcdAddr.TRAINING_LANE0_SET buf dp
  if retval < 0 then (retval, dp) else
  (0, dp)

/-- The `u8 training_lane` computed from a requested swing and pre-emphasis;
the same six lines appear at 625-631, 694-700 and 776-782. -/
def next_training_lane (hdr : Hdr) (voltage_swing pre_emphasis : Nat) : Nat :=
  let training_lane :=
    (hdr.DPCD_VOLTAGE_SWING_SET voltage_swing ||| hdr.DPCD_PRE_EMPHASIS_SET pre_emphasis) % 256
  let training_lane := if voltage_swing = VOLTAGE_LEVEL_3
    then (training_lane ||| hdr.DPCD_MAX_SWING_REACHED) % 256 else training_lane
  if pre_emphasis = PRE_EMPHASIS_LEVEL_3
    then (training_lane ||| hdr.DPCD_MAX_PRE_EMPHASIS_REACHED) % 256 else training_lane

/-- Lines 625-637 and 694-705: compute the lane's next `training_lane`
byte, store it in `dp->link_train.training_lane[lane]` and copy it to the
transmitter with `s5p_dp_set_lane_link_training`. -/
def apply_training_lane (hdr : Hdr) (voltage_swing pre_emphasis lane : Nat) (dp : Dev) : Dev :=
  let training_lane := next_training_lane hdr voltage_swing pre_emphasis
  let dp := set_training_lane lane training_lane dp
  s5p_dp_set_lane_link_training (dp.link_train.training_lane lane) lane dp

/-- The statement `dp->link_train.cr_loop[lane]++`. -/
def incr_cr_loop (lane : Nat) (dp : Dev) : Dev :=
  { dp with link_train := { dp.link_train with
      cr_loop := Function.update dp.link_train.cr_loop lane (dp.link_train.cr_loop lane + 1) } }

/-- How a lane loop with early exits ends: it ran through, it returned
`retval`, or it jumped to the label `reduce_link_rate`. -/
inductive Flow where
  | next (dp : Dev)
  | ret (retval : Int) (dp : Dev)
  | reduce (dp : Dev)

/-- The device state at the end of a lane loop. -/
def Flow.dev : Flow → Dev
  | Flow.next dp => dp
  | Flow.ret _ dp => dp
  | Flow.reduce dp => dp

/-- The lane loop of the success branch of `s5p_dp_process_clock_recovery`
(lines 612-638); the first argument counts the iterations left. -/
def cr_done_lanes (hdr : Hdr) (env : Env) : Nat → Nat → Dev → Flow
  | 0, _, dp => Flow.next dp
  | n + 1, lane, dp =>
    let (retval, adjust_request, dp) :=
      s5p_dp_read_bytes_from_dpcd env DpcdAddr.ADJUST_REQUEST_LANE0_1 2 dp
    if retval < 0 then Flow.ret retval dp else
    let voltage_swing := s5p_dp_get_adjust_request_voltage adjust_request lane
    let pre_emphasis := s5p_dp_get_adjust_request_pre_emphasis adjust_request lane
    cr_done_lanes hdr env n (lane + 1) (apply_training_lane hdr voltage_swing pre_emphasis lane dp)

/-- The lane loop of the failure branch of `s5p_dp_process_clock_recovery`
(lines 661-706). -/
def cr_retry_lanes (hdr : Hdr) (env : Env) : Nat → Nat → Dev → Flow
  | 0, _, dp => Flow.next dp
  | n + 1, lane, dp =>
    let training_lane := s5p_dp_get_lane_link_training dp lane % 256
    let (retval, adjust_request, dp) :=
      s5p_dp_read_bytes_from_dpcd env DpcdAddr.ADJUST_REQUEST_LANE0_1 2 dp
    if retval < 0 then Flow.ret retval dp else
    let voltage_swing := s5p_dp_get_adjust_request_voltage adjust_request lane
    let pre_emphasis := s5p_dp_get_adjust_request_pre_emphasis adjust_request lane
    if voltage_swing = VOLTAGE_LEVEL_3 ∨ pre_emphasis = PRE_EMPHASIS_LEVEL_3 then
      Flow.reduce dp
    else
    if hdr.DPCD_VOLTAGE_SWING_GET training_lane = voltage_swing ∧
        hdr.DPCD_PRE_EMPHASIS_GET training_lane = pre_emphasis then
      let dp := incr_cr_loop lane dp
      if dp.link_train.cr_loop lane = MAX_CR_LOOP then Flow.reduce dp
      else
        cr_retry_lanes hdr env n (lane + 1)
          (apply_training_lane hdr voltage_swing pre_emphasis lane dp)
    else
      cr_retry_lanes hdr env n (lane + 1)
        (apply_training_lane hdr voltage_swing pre_emphasis lane dp)

/-- `s5p_dp_process_clock_recovery` (lines 584-723). -/
def s5p_dp_process_clock_recovery (hdr : Hdr) (env : Env) (dp : Dev) : Int × Dev :=
  let dp := emit (Event.call Fn.process_clock_recovery) dp
  let dp := emit (Event.udelay 100) dp
  let lane_count := dp.link_train.lane_count
  let (retval, link_status, dp) :=
    s5p_dp_read_bytes_from_dpcd env DpcdAddr.LANE0_1_STATUS 2 dp
  if retval < 0 then (retval, dp) else
  if s5p_dp_clock_recovery_ok hdr link_status lane_count = 0 then
    let dp := s5p_dp_set_training_pattern PatternSet.TRAINING_PTN2 dp
    match cr_done_lanes hdr env lane_count 0 dp with
    | Flow.ret retval dp => (retval, dp)
    | Flow.reduce dp => (- EIO, s5p_dp_reduce_link_rate hdr env dp)
    | Flow.next dp =>
      let (retval, dp) := s5p_dp_write_byte_to_dpcd env DpcdAddr.TRAINING_PATTERN_SET
        (hdr.DPCD_SCRAMBLING_DISABLED ||| hdr.DPCD_TRAINING_PATTERN_2) dp
      if retval < 0 then (retval, dp) else
      let (retval, dp) := s5p_dp_write_bytes_to_dpcd env DpcdAddr.TRAINING_LANE0_SET
        (training_lane_buf dp lane_count) dp
      if retval < 0 then (retval, dp) else
      (0, set_lt_state LtState.EQUALIZER_TRAINING dp)
  else
    match cr_retry_lanes hdr env lane_count 0 dp with
    | Flow.ret retval dp => (retval, dp)
    | Flow.reduce dp => (- EIO, s5p_dp_reduce_link_rate hdr env dp)
    | Flow.next dp =>
      let (retval, dp) := s5p_dp_write_bytes_to_dpcd env DpcdAddr.TRAINING_LANE0_SET
        (training_lane_buf dp lane_count) dp
      if retval < 0 then (retval, dp) else
      (0, dp)

/-- The lane loop of `s5p_dp_process_equalizer_training` (lines 763-785). -/
def eq_adjust_lanes (hdr : Hdr) (env : Env) : Nat → Nat → Dev → Flow
  | 0, _, dp => Flow.next dp
  | n + 1, lane, dp =>
    let (retval, adjust_request, dp) :=
      s5p_dp_read_bytes_from_dpcd env DpcdAddr.ADJUST_REQUEST_LANE0_1 2 dp
    if retval < 0 then Flow.ret retval dp else
    let voltage_swing := s5p_dp_get_adjust_request_voltage adjust_request lane
    let pre_emphasis := s5p_dp_get_adjust_request_pre_emphasis adjust_request lane
    let training_lane := next_training_lane hdr voltage_swing pre_emphasis
    let dp := set_training_lane lane training_lane dp
    eq_adjust_lanes hdr env n (lane + 1) dp

/-- `s5p_dp_process_equalizer_training` (lines 725-840). -/
def s5p_dp_process_equalizer_training (hdr : Hdr) (env : Env) (dp : Dev) : Int × Dev :=
  let dp := emit (Event.call Fn.process_equalizer_training) dp
  let dp := emit (Event.udelay 400) dp
  let lane_count := dp.link_train.lane_count
  let (retval, link_status, dp) :=
    s5p_dp_read_bytes_from_dpcd env DpcdAddr.LANE0_1_STATUS 2 dp
  if retval < 0 then (retval, dp) else
  if s5p_dp_clock_recovery_ok hdr link_status lane_count = 0 then
    let (retval, align, dp) :=
      s5p_dp_read_byte_from_dpcd env DpcdAddr.LANE_ALIGN_STATUS_UPDATED dp
    if retval < 0 then (retval, dp) else
    let link_align := [link_status.getD 0 0, link_status.getD 1 0, align]
    match eq_adjust_lanes hdr env lane_count 0 dp with
    | Flow.ret retval dp => (retval, dp)
    | Flow.reduce dp => (- EIO, s5p_dp_reduce_link_rate hdr env dp)
    | Flow.next dp =>
      if s5p_dp_channel_eq_ok hdr link_align lane_count = 0 then
        let (retval, dp) := s5p_dp_training_pattern_dis hdr env dp
        if retval < 0 then (retval, dp) else
        let reg := env.link_bandwidth dp.tick
        let dp := { dp with link_train := { dp.link_train with link_rate := reg % 256 } }
        let reg := env.lane_count dp.tick
        let dp := { dp with link_train := { dp.link_train with lane_count := reg % 256 } }
        (0, set_lt_state LtState.FINISHED dp)
      else
        let dp := { dp with link_train :=
          { dp.link_train with eq_loop := dp.link_train.eq_loop + 1 } }
        if dp.link_train.eq_loop > MAX_EQ_LOOP then
          (- EIO, s5p_dp_reduce_link_rate hdr env dp)
        else
        let dp := set_lanes_link_training lane_count dp
        let (retval, dp) := s5p_dp_write_bytes_to_dpcd env DpcdAddr.TRAINING_LANE0_SET
          (training_lane_buf dp lane_count) dp
        if retval < 0 then (retval, dp) else
        (0, dp)
  else
    (- EIO, s5p_dp_reduce_link_rate hdr env dp)

/-- One pass through the body of the `while (!training_finished)` loop of
`s5p_dp_sw_link_training` (lines 952-973), `retval` being the local variable
of that name: `Sum.inl` is the state in which the loop condition is tested
again, `Sum.inr` is the function returning. In state `FINISHED` the pass sets
`training_finished`, the loop ends and line 976 returns `retval`. -/
def sw_link_training_body (hdr : Hdr) (env : Env) (retval : Int) (dp : Dev) :
    (Int × Dev) ⊕ (Int × Dev) :=
  match dp.link_train.lt_state with
  | LtState.START => Sum.inl (s5p_dp_link_start hdr env dp)
  | LtState.CLOCK_RECOVERY => Sum.inl (s5p_dp_process_clock_recovery hdr env dp)
  | LtState.EQUALIZER_TRAINING => Sum.inl (s5p_dp_process_equalizer_training hdr env dp)
  | LtState.FINISHED => Sum.inr (retval, dp)
  | LtState.FAILED => Sum.inr (- EREMOTEIO, dp)

/-- The `while (!training_finished)` loop of `s5p_dp_sw_link_training`:
`fuel` bounds the number of passes, `none` means the loop is still running
when the fuel is spent. -/
def sw_link_training_loop (hdr : Hdr) (env : Env) : Nat → Int → Dev → Option (Int × Dev)
  | 0, _, _ => none
  | fuel + 1, retval, dp =>
    match sw_link_training_body hdr env retval dp with
    | Sum.inl (retval, dp) => sw_link_training_loop hdr env fuel retval dp
    | Sum.inr result => some result

/-- The local `retval` and the device after `n` passes through the loop body
of a session that started in `(retval, dp)`; it stays where it is once the
function has returned. This exposes the intermediate states of a session,
also of one that never returns. -/
def sw_link_training_after (hdr : Hdr) (env : Env) : Nat → Int × Dev → Int × Dev
  | 0, x => x
  | n + 1, x =>
    match sw_link_training_body hdr env x.1 x.2 with
    | Sum.inl y => sw_link_training_after hdr env n y
    | Sum.inr y => y

/-- `s5p_dp_sw_link_training` (lines 943-977). -/
def s5p_dp_sw_link_training (hdr : Hdr) (env : Env) (fuel : Nat) (dp : Dev) : Option (Int × Dev) :=
  let dp := set_lt_state LtState.START dp
  sw_link_training_loop hdr env fuel 0 dp

/-- Number of entries of `fn` recorded in a log. -/
def calls (fn : Fn) (log : List Event) : Nat :=
  log.count (Event.call fn)

/-- Modelled from the spec: enumerator `LANE_COUNT1` of the header; "a
sink-reported lane count of 0 is invalid and defaulted to 1 lane". -/
def LANE_COUNT1 : Nat := 1

/-! ## Link negotiation: `s5p_dp_init_training` -/

/-- Record a call into the transmitter driver or the kernel. -/
def hw (op : HwOp) (dp : Dev) : Dev :=
  emit (Event.hw op) dp

/-- `s5p_dp_enable_rx_to_enhanced_mode` (lines 239-265). -/
def s5p_dp_enable_rx_to_enhanced_mode (hdr : Hdr) (env : Env) (enable : Bool) (dp : Dev) :
    Int × Dev :=
  let (retval, data, dp) := s5p_dp_read_byte_from_dpcd env DpcdAddr.LANE_COUNT_SET dp
  if retval < 0 then (retval, dp) else
  if enable then
    s5p_dp_write_byte_to_dpcd env DpcdAddr.LANE_COUNT_SET
      (hdr.DPCD_ENHANCED_FRAME_EN ||| hdr.DPCD_LANE_COUNT_SET data) dp
  else
    let (_, dp) := s5p_dp_write_byte_to_dpcd env DpcdAddr.CONFIGURATION_SET 0 dp
    s5p_dp_write_byte_to_dpcd env DpcdAddr.LANE_COUNT_SET (hdr.DPCD_LANE_COUNT_SET data) dp

/-- `s5p_dp_get_max_rx_bandwidth` (lines 842-859): the return value, the
byte stored through `bandwidth` if any, and the new state. -/
def s5p_dp_get_max_rx_bandwidth (env : Env) (dp : Dev) : Int × Option Nat × Dev :=
  let (retval, data, dp) := s5p_dp_read_byte_from_dpcd env DpcdAddr.MAX_LINK_RATE dp
  if retval < 0 then (retval, none, dp) else (0, some data, dp)

/-- `s5p_dp_get_max_rx_lane_count` (lines 861-878): the return value, the
`u8` stored through `lane_count` if any, and the new state. -/
def s5p_dp_get_max_rx_lane_count (hdr : Hdr) (env : Env) (dp : Dev) : Int × Option Nat × Dev :=
  let (retval, data, dp) := s5p_dp_read_byte_from_dpcd env DpcdAddr.MAX_LANE_COUNT dp
  if retval < 0 then (retval, none, dp) else (0, some (hdr.DPCD_MAX_LANE_COUNT data % 256), dp)

/-- The block of `s5p_dp_init_training` compiled under `CONFIG_S5P_DP_PSR`
(lines 894-903); every return value in it is ignored. -/
def init_training_psr_block (hdr : Hdr) (env : Env) (dp : Dev) : Dev :=
  let dp := (s5p_dp_enable_rx_to_enhanced_mode hdr env false dp).2
  let (_, data, dp) := s5p_dp_read_byte_from_dpcd env DpcdAddr.EDP_CONFIGURATION_SET dp
  let dp := (s5p_dp_write_byte_to_dpcd env DpcdAddr.EDP_CONFIGURATION_SET (data ||| (1 <<< 1)) dp).2
  hw (HwOp.enable_enhanced_mode true) dp

/-- The state in which `s5p_dp_init_training` starts to read the sink's
capabilities: after `s5p_dp_reset_macro` and, under `CONFIG_S5P_DP_PSR`, the
enhanced-mode block. -/
def init_training_begin (hdr : Hdr) (env : Env) (dp : Dev) : Dev :=
  let dp := hw HwOp.reset_macro dp
  if hdr.CONFIG_S5P_DP_PSR then init_training_psr_block hdr env dp else dp

/-- Assign `dp->link_train.link_rate` (a `u8`). -/
def set_link_rate (v : Nat) (dp : Dev) : Dev :=
  { dp with link_train := { dp.link_train with link_rate := v } }

/-- Assign `dp->link_train.lane_count` (a `u8`). -/
def set_lane_count_field (v : Nat) (dp : Dev) : Dev :=
  { dp with link_train := { dp.link_train with lane_count := v } }

/-- `s5p_dp_init_training` (lines 880-941); `max_lane` and `max_rate` are
the enumerators passed by the caller. -/
def s5p_dp_init_training (hdr : Hdr) (env : Env) (max_lane max_rate : Nat) (dp : Dev) :
    Int × Dev :=
  let dp := init_training_begin hdr env dp
  let (retval, bandwidth, dp) := s5p_dp_get_max_rx_bandwidth env dp
  let dp := match bandwidth with
    | some b => set_link_rate b dp
    | none => dp
  if retval < 0 then (retval, dp) else
  let (retval, lane_count, dp) := s5p_dp_get_max_rx_lane_count hdr env dp
  let dp := match lane_count with
    | some c => set_lane_count_field c dp
    | none => dp
  if retval < 0 then (retval, dp) else
  let dp := if dp.link_train.link_rate ≠ LINK_RATE_1_62GBPS ∧
      dp.link_train.link_rate ≠ LINK_RATE_2_70GBPS
    then set_link_rate LINK_RATE_1_62GBPS dp else dp
  let dp := if dp.link_train.lane_count = 0 then set_lane_count_field LANE_COUNT1 dp else dp
  let dp := if dp.link_train.lane_count > max_lane
    then set_lane_count_field (max_lane % 256) dp else dp
  let dp := if dp.link_train.link_rate > max_rate
    then set_link_rate (max_rate % 256) dp else dp
  let dp := if hdr.CONFIG_S5P_DP_PSR then hw (HwOp.enable_ssc false) dp else dp
  let dp := hw (HwOp.set_analog_power_down PowerBlock.POWER_ALL false) dp
  (0, dp)

/-! ## The EDID reader (lines 75-214) -/

/-- Modelled from the spec: `EDID_BLOCK_LENGTH` of the header, "EdidBlock:
128 bytes". -/
def EDID_BLOCK_LENGTH : Nat := 128

/-- Modelled from the spec: `EDID_HEADER_PATTERN` of the header, the I2C
register address at which the base block starts, "base block (bytes
0..127)". -/
def EDID_HEADER_PATTERN : Nat := 0

/-- `s5p_dp_calc_edid_check_sum` (lines 75-84): `edid_data` is the pointer
argument, indexed from 0, and `sum` is an `unsigned char`. -/
def s5p_dp_calc_edid_check_sum (edid_data : Nat → Nat) : Nat :=
  (List.range EDID_BLOCK_LENGTH).foldl (fun sum i => (sum + edid_data i) % 256) 0

/-- Modelled from the spec: `s5p_dp_read_byte_from_i2c(dp, device_addr,
reg_addr, &data)` of `s5p-dp-reg.c` (not under src/), the register channel's
`read_byte` over the I2C-over-AUX EDID space: one potentially failing call
that delivers a byte. -/
def s5p_dp_read_byte_from_i2c (env : Env) (device_addr reg_addr : Nat) (dp : Dev) :
    Int × Nat × Dev :=
  let r := env.i2c dp.tick reg_addr
  (r.ret, r.data 0 % 256,
    { dp with tick := dp.tick + 1,
              log := dp.log ++ [Event.i2c_read device_addr reg_addr 1 r.ret] })

/-- Modelled from the spec: `s5p_dp_read_bytes_from_i2c(dp, device_addr,
reg_addr, count, edid)` of `s5p-dp-reg.c` (not under src/), the register
channel's bulk read over the I2C-over-AUX EDID space. Gives the return value,
the bytes delivered (indexed from 0) and the new state. -/
def s5p_dp_read_bytes_from_i2c (env : Env) (device_addr reg_addr count : Nat) (dp : Dev) :
    Int × (Nat → Nat) × Dev :=
  let r := env.i2c dp.tick reg_addr
  (r.ret, fun i => r.data i % 256,
    { dp with tick := dp.tick + 1,
              log := dp.log ++ [Event.i2c_read device_addr reg_addr count r.ret] })

/-- The array `edid` after a bulk read has stored `count` bytes from index
`offset` on. -/
def store_bytes (edid : Nat → Nat) (offset count : Nat) (data : Nat → Nat) : Nat → Nat :=
  fun i => if offset ≤ i ∧ i < offset + count then data (i - offset) else edid i

/-- The test handshake of `s5p_dp_read_edid`, which follows the last block
read in both branches (lines 143-164 and 186-207); `checksum` is the byte
`edid[EDID_BLOCK_LENGTH + EDID_CHECKSUM]` or `edid[EDID_CHECKSUM]`. -/
def edid_test_handshake (hdr : Hdr) (env : Env) (checksum : Nat) (dp : Dev) : Int × Dev :=
  let (retval, test_vector, dp) := s5p_dp_read_byte_from_dpcd env DpcdAddr.TEST_REQUEST dp
  if retval < 0 then (retval, dp) else
  if test_vector &&& hdr.DPCD_TEST_EDID_READ ≠ 0 then
    let (retval, dp) := s5p_dp_write_byte_to_dpcd env DpcdAddr.TEST_EDID_CHECKSUM checksum dp
    if retval < 0 then (retval, dp) else
    let (retval, dp) := s5p_dp_write_byte_to_dpcd env DpcdAddr.TEST_RESPONSE
      hdr.DPCD_TEST_EDID_CHECKSUM_WRITE dp
    if retval < 0 then (retval, dp) else
    (0, dp)
  else
    (0, dp)

/-- `s5p_dp_read_edid` (lines 86-214). `edid` is the local array
`unsigned char edid[EDID_BLOCK_LENGTH * 2]` as the function finds it on the
stack. -/
def s5p_dp_read_edid (hdr : Hdr) (env : Env) (edid : Nat → Nat) (dp : Dev) : Int × Dev :=
  let (retval, extend_block, dp) :=
    s5p_dp_read_byte_from_i2c env hdr.I2C_EDID_DEVICE_ADDR hdr.EDID_EXTENSION_FLAG dp
  if retval < 0 then (- EIO, dp) else
  if extend_block > 0 then
    let (retval, data, dp) := s5p_dp_read_bytes_from_i2c env hdr.I2C_EDID_DEVICE_ADDR
      EDID_HEADER_PATTERN EDID_BLOCK_LENGTH dp
    let edid := store_bytes edid EDID_HEADER_PATTERN EDID_BLOCK_LENGTH data
    if retval ≠ 0 then (- EIO, dp) else
    let sum := s5p_dp_calc_edid_check_sum edid
    if sum ≠ 0 then (- EIO, dp) else
    let (retval, data, dp) := s5p_dp_read_bytes_from_i2c env hdr.I2C_EDID_DEVICE_ADDR
      EDID_BLOCK_LENGTH EDID_BLOCK_LENGTH dp
    let edid := store_bytes edid EDID_BLOCK_LENGTH EDID_BLOCK_LENGTH data
    if retval ≠ 0 then (- EIO, dp) else
    let sum := s5p_dp_calc_edid_check_sum (fun i => edid (EDID_BLOCK_LENGTH + i))
    if sum ≠ 0 then (- EIO, dp) else
    edid_test_handshake hdr env (edid (EDID_BLOCK_LENGTH + hdr.EDID_CHECKSUM)) dp
  else
    let (retval, data, dp) := s5p_dp_read_bytes_from_i2c env hdr.I2C_EDID_DEVICE_ADDR
      EDID_HEADER_PATTERN EDID_BLOCK_LENGTH dp
    let edid := store_bytes edid EDID_HEADER_PATTERN EDID_BLOCK_LENGTH data
    if retval ≠ 0 then (- EIO, dp) else
    let sum := s5p_dp_calc_edid_check_sum edid
    if sum ≠ 0 then (- EIO, dp) else
    edid_test_handshake hdr env (edid hdr.EDID_CHECKSUM) dp

/-! ## The PSR training engine (lines 544-581 and 997-1204) -/

/-- The DPCD address `DPCD_ADDR_TRAINING_LANE0_SET + lane`. -/
def training_lane_set_addr (lane : Nat) : DpcdAddr :=
  if lane = 0 then DpcdAddr.TRAINING_LANE0_SET else DpcdAddr.TRAINING_LANE0_SET_PLUS lane

/-- The lane loop of `s5p_dp_check_max_cr_loop` (lines 549-553); the first
argument counts the iterations left. -/
def check_max_cr_loop_lanes (dp : Dev) (voltage_swing : Nat) : Nat → Nat → Int
  | 0, _ => 0
  | n + 1, lane =>
    if voltage_swing = VOLTAGE_LEVEL_3 ∨ dp.link_train.cr_loop lane = MAX_CR_LOOP then - EINVAL
    else check_max_cr_loop_lanes dp voltage_swing n (lane + 1)

/-- `s5p_dp_check_max_cr_loop` (lines 544-555). -/
def s5p_dp_check_max_cr_loop (dp : Dev) (voltage_swing : Nat) : Int :=
  check_max_cr_loop_lanes dp voltage_swing dp.link_train.lane_count 0

/-- The `u8 training_lane` that `s5p_dp_get_adjust_train` computes for one
lane (lines 572-578): both "max reached" flags are added when the swing or the
pre-emphasis is at level 3. -/
def adjust_train_lane (hdr : Hdr) (voltage_swing pre_emphasis : Nat) : Nat :=
  let training_lane :=
    (hdr.DPCD_VOLTAGE_SWING_SET voltage_swing ||| hdr.DPCD_PRE_EMPHASIS_SET pre_emphasis) % 256
  if voltage_swing = VOLTAGE_LEVEL_3 ∨ pre_emphasis = PRE_EMPHASIS_LEVEL_3 then
    ((training_lane ||| hdr.DPCD_MAX_SWING_REACHED) % 256 |||
      hdr.DPCD_MAX_PRE_EMPHASIS_REACHED) % 256
  else training_lane

/-- The lane loop of `s5p_dp_get_adjust_train` (lines 567-580). -/
def get_adjust_train_lanes (hdr : Hdr) (adjust_request : List Nat) : Nat → Nat → Dev → Dev
  | 0, _, dp => dp
  | n + 1, lane, dp =>
    let voltage_swing := s5p_dp_get_adjust_request_voltage adjust_request lane
    let pre_emphasis := s5p_dp_get_adjust_request_pre_emphasis adjust_request lane
    let training_lane := adjust_train_lane hdr voltage_swing pre_emphasis
    get_adjust_train_lanes hdr adjust_request n (lane + 1) (set_training_lane lane training_lane dp)

/-- `s5p_dp_get_adjust_train` (lines 557-581). -/
def s5p_dp_get_adjust_train (hdr : Hdr) (adjust_request : List Nat) (dp : Dev) : Dev :=
  get_adjust_train_lanes hdr adjust_request dp.link_train.lane_count 0 dp

/-- The loop that copies every `training_lane[lane]` to the transmitter and
to the sink's `TRAINING_LANE0_SET + lane` (lines 1046-1053, 1080-1087 and
1133-1140); the result of the write is ignored. -/
def psr_set_lanes (env : Env) : Nat → Nat → Dev → Dev
  | 0, _, dp => dp
  | n + 1, lane, dp =>
    let dp := s5p_dp_set_lane_link_training (dp.link_train.training_lane lane) lane dp
    let buf_lane := dp.link_train.training_lane lane
    let dp := (s5p_dp_write_byte_to_dpcd env (training_lane_set_addr lane) buf_lane dp).2
    psr_set_lanes env n (lane + 1) dp

/-- `s5p_dp_link_start_for_psr` (lines 997-1024); the results of the two
writes are ignored. -/
def s5p_dp_link_start_for_psr (hdr : Hdr) (env : Env) (dp : Dev) : Dev :=
  let lane_count := dp.link_train.lane_count
  let dp := set_lt_state LtState.CLOCK_RECOVERY dp
  let dp := { dp with link_train := { dp.link_train with eq_loop := 0 } }
  let dp := reset_cr_loop lane_count dp
  let dp := s5p_dp_set_training_pattern PatternSet.TRAINING_PTN1 dp
  let dp := (s5p_dp_write_byte_to_dpcd env DpcdAddr.TRAINING_PATTERN_SET
    (hdr.DPCD_SCRAMBLING_DISABLED ||| hdr.DPCD_TRAINING_PATTERN_1) dp).2
  let buf := (List.range lane_count).map (fun _ =>
    (hdr.DPCD_PRE_EMPHASIS_PATTERN2_LEVEL0 ||| hdr.DPCD_VOLTAGE_SWING_PATTERN1_LEVEL0) % 256)
  (s5p_dp_write_bytes_to_dpcd env DpcdAddr.TRAINING_LANE0_SET buf dp).2

/-- The lane loop of the failure branch of
`s5p_dp_process_clock_recovery_for_psr` (lines 1064-1074). It also carries the
local `voltage_swing`, which holds the last lane's request when the loop
ends. -/
def cr_count_lanes_for_psr (hdr : Hdr) (adjust_request : List Nat) :
    Nat → Nat → Nat → Dev → Nat × Dev
  | 0, _, voltage_swing, dp => (voltage_swing, dp)
  | n + 1, lane, _, dp =>
    let training_lane := s5p_dp_get_lane_link_training dp lane % 256
    let voltage_swing := s5p_dp_get_adjust_request_voltage adjust_request lane
    let pre_emphasis := s5p_dp_get_adjust_request_pre_emphasis adjust_request lane
    let dp := if hdr.DPCD_VOLTAGE_SWING_GET training_lane = voltage_swing ∧
        hdr.DPCD_PRE_EMPHASIS_GET training_lane = pre_emphasis
      then incr_cr_loop lane dp else dp
    let dp := set_training_lane lane training_lane dp
    cr_count_lanes_for_psr hdr adjust_request n (lane + 1) voltage_swing dp

/-- `s5p_dp_process_clock_recovery_for_psr` (lines 1026-1092); the result of
every register access is ignored. The local `voltage_swing` is not
initialized; it is 0 here, and `s5p_dp_check_max_cr_loop` looks at it only
after the lane loop has assigned it. -/
def s5p_dp_process_clock_recovery_for_psr (hdr : Hdr) (env : Env) (dp : Dev) : Int × Dev :=
  let (_, link_status, dp) := s5p_dp_read_bytes_from_dpcd env DpcdAddr.LANE0_1_STATUS 6 dp
  let lane_count := dp.link_train.lane_count
  if s5p_dp_clock_recovery_ok hdr link_status lane_count = 0 then
    let dp := s5p_dp_set_training_pattern PatternSet.TRAINING_PTN2 dp
    let adjust_request := [link_status.getD 4 0, link_status.getD 5 0]
    let dp := s5p_dp_get_adjust_train hdr adjust_request dp
    let dp := (s5p_dp_write_byte_to_dpcd env DpcdAddr.TRAINING_PATTERN_SET
      (hdr.DPCD_SCRAMBLING_DISABLED ||| hdr.DPCD_TRAINING_PATTERN_2) dp).2
    let dp := psr_set_lanes env lane_count 0 dp
    (0, set_lt_state LtState.EQUALIZER_TRAINING dp)
  else
    let (_, data0, dp) := s5p_dp_read_byte_from_dpcd env DpcdAddr.ADJUST_REQUEST_LANE0_1 dp
    let (_, data1, dp) := s5p_dp_read_byte_from_dpcd env DpcdAddr.ADJUST_REQUEST_LANE2_3 dp
    let adjust_request := [data0, data1]
    let (voltage_swing, dp) := cr_count_lanes_for_psr hdr adjust_request lane_count 0 0 dp
    if s5p_dp_check_max_cr_loop dp voltage_swing ≠ 0 then
      (0, s5p_dp_reduce_link_rate hdr env dp)
    else
      let dp := s5p_dp_get_adjust_train hdr adjust_request dp
      (0, psr_set_lanes env lane_count 0 dp)

/-- `s5p_dp_process_equalizer_training_for_psr` (lines 1094-1146); the
result of every register access is ignored. -/
def s5p_dp_process_equalizer_training_for_psr (hdr : Hdr) (env : Env) (dp : Dev) : Int × Dev :=
  let dp := hw HwOp.sr_wait_on dp
  let (_, link_status, dp) := s5p_dp_read_bytes_from_dpcd env DpcdAddr.LANE0_1_STATUS 6 dp
  let lane_count := dp.link_train.lane_count
  if s5p_dp_clock_recovery_ok hdr link_status lane_count = 0 then
    let adjust_request := [link_status.getD 4 0, link_status.getD 5 0]
    if s5p_dp_channel_eq_ok hdr link_status lane_count = 0 then
      let dp := (s5p_dp_training_pattern_dis hdr env dp).2
      let reg := env.link_bandwidth dp.tick
      let dp := { dp with link_train := { dp.link_train with link_rate := reg % 256 } }
      let reg := env.lane_count dp.tick
      let dp := { dp with link_train := { dp.link_train with lane_count := reg % 256 } }
      (0, set_lt_state LtState.FINISHED dp)
    else
      let dp := { dp with link_train :=
        { dp.link_train with eq_loop := dp.link_train.eq_loop + 1 } }
      if dp.link_train.eq_loop > MAX_EQ_LOOP then
        (0, s5p_dp_reduce_link_rate hdr env dp)
      else
        let dp := s5p_dp_get_adjust_train hdr adjust_request dp
        (0, psr_set_lanes env lane_count 0 dp)
  else
    (0, s5p_dp_reduce_link_rate hdr env dp)

/-- One pass through the body of the `while (!training_finished)` loop of
`s5p_dp_sw_link_training_for_psr` (lines 1159-1175): `Sum.inl` is the state in
which the loop condition is tested again, `Sum.inr` is the function returning.
The local `retval` stays 0, so in state `FINISHED` the function returns 0. -/
def sw_link_training_for_psr_body (hdr : Hdr) (env : Env) (dp : Dev) : Dev ⊕ (Int × Dev) :=
  match dp.link_train.lt_state with
  | LtState.START => Sum.inl (s5p_dp_link_start_for_psr hdr env dp)
  | LtState.CLOCK_RECOVERY => Sum.inl (s5p_dp_process_clock_recovery_for_psr hdr env dp).2
  | LtState.EQUALIZER_TRAINING =>
    Sum.inl (s5p_dp_process_equalizer_training_for_psr hdr env dp).2
  | LtState.FINISHED => Sum.inr (0, dp)
  | LtState.FAILED => Sum.inr (- EREMOTEIO, dp)

/-- The `while (!training_finished)` loop of
`s5p_dp_sw_link_training_for_psr`: `fuel` bounds the number of passes, `none`
means the loop is still running when the fuel is spent. -/
def sw_link_training_for_psr_loop (hdr : Hdr) (env : Env) : Nat → Dev → Option (Int × Dev)
  | 0, _ => none
  | fuel + 1, dp =>
    match sw_link_training_for_psr_body hdr env dp with
    | Sum.inl dp => sw_link_training_for_psr_loop hdr env fuel dp
    | Sum.inr result => some result

/-- The device after `n` passes through the loop body of a PSR session that
started in `dp`; it stays where it is once the function has returned. -/
def sw_link_training_for_psr_after (hdr : Hdr) (env : Env) : Nat → Dev → Dev
  | 0, dp => dp
  | n + 1, dp =>
    match sw_link_training_for_psr_body hdr env dp with
    | Sum.inl dp => sw_link_training_for_psr_after hdr env n dp
    | Sum.inr result => result.2

/-- `s5p_dp_sw_link_training_for_psr` (lines 1148-1178). -/
def s5p_dp_sw_link_training_for_psr (hdr : Hdr) (env : Env) (fuel : Nat) (dp : Dev) :
    Option (Int × Dev) :=
  let dp := set_lt_state LtState.START dp
  sw_link_training_for_psr_loop hdr env fuel dp

/-- The `for (i = 0; i < DP_TIMEOUT_LOOP_COUNT; i++)` loop of
`s5p_dp_set_link_train_for_psr` (lines 1187-1191); the first argument after
`fuel` counts the iterations left and `retval` is the local of that name. -/
def set_link_train_for_psr_loop (hdr : Hdr) (env : Env) (fuel : Nat) :
    Nat → Int → Dev → Option (Int × Dev)
  | 0, retval, dp => some (retval, dp)
  | n + 1, _, dp =>
    match s5p_dp_sw_link_training_for_psr hdr env fuel dp with
    | none => none
    | some (retval, dp) =>
      if retval = 0 then some (retval, dp)
      else set_link_train_for_psr_loop hdr env fuel n retval dp

/-- `s5p_dp_set_link_train_for_psr` (lines 1180-1194); the parameters
`count` and `bwtype` are not used. The local `retval` is not initialized and
is returned as it is when `DP_TIMEOUT_LOOP_COUNT` is 0; `retval` stands for
what it holds then. `fuel` bounds the passes of every session. -/
def s5p_dp_set_link_train_for_psr (hdr : Hdr) (env : Env) (fuel : Nat) (retval : Int)
    (dp : Dev) : Option (Int × Dev) :=
  set_link_train_for_psr_loop hdr env fuel hdr.DP_TIMEOUT_LOOP_COUNT retval dp

/-! ## The PSR controller (lines 1206-1401) -/

/-- Modelled from the spec: the enumerators of the header for the two PSR
state flags, "`psr_enter_state ∈ {NONE, PRE_ENTER, ENTER_DONE,
PRE_ENTRY_DONE}` and `psr_exit_state ∈ {NONE, PRE_EXIT, EXIT_DONE}`". -/
inductive PsrState where
  | PSR_NONE
  | PSR_PRE_ENTER
  | PSR_ENTER_DONE
  | PSR_PRE_ENTRY_DONE
  | PSR_PRE_EXIT
  | PSR_EXIT_DONE
  deriving DecidableEq, Repr

/-- The device with the two PSR state flags of `struct s5p_dp_device`.
`hw_tick` counts the reads of transmitter status registers made so far. -/
structure PsrDev where
  dp : Dev
  psr_enter_state : PsrState
  psr_exit_state : PsrState
  hw_tick : Nat

/-- Record a call into the transmitter driver or the kernel. -/
def psr_hw (op : HwOp) (d : PsrDev) : PsrDev :=
  { d with dp := hw op d.dp }

/-- Modelled from the spec: `s5p_dp_get_psr_status` of `s5p-dp-reg.c` (not
under src/), a read of the transmitter's PSR status register. -/
def s5p_dp_get_psr_status (env : Env) (d : PsrDev) : Nat × PsrDev :=
  let status := env.psr_status d.hw_tick
  (status, { d with hw_tick := d.hw_tick + 1, dp := hw (HwOp.get_psr_status status) d.dp })

/-- Modelled from the spec: `s5p_dp_get_pll_lock_status` of `s5p-dp-reg.c`
(not under src/), a read of the transmitter's PLL lock status. -/
def s5p_dp_get_pll_lock_status (env : Env) (d : PsrDev) : Nat × PsrDev :=
  let status := env.pll_lock_status d.hw_tick
  (status, { d with hw_tick := d.hw_tick + 1,
                    dp := hw (HwOp.get_pll_lock_status status) d.dp })

/-- Modelled from the spec: `s5p_dp_is_video_stream_on` of `s5p-dp-reg.c`
(not under src/), a read of the transmitter's video stream status; 0 means
that the stream is on. -/
def s5p_dp_is_video_stream_on (env : Env) (d : PsrDev) : Int × PsrDev :=
  let status := env.video_stream_on d.hw_tick
  (status, { d with hw_tick := d.hw_tick + 1,
                    dp := hw (HwOp.is_video_stream_on status) d.dp })

/-- The bounded busy-poll `for (;;) { timeout_loop++; if (condition) break;
if (DP_TIMEOUT_LOOP_COUNT < timeout_loop) time out; delay; }` of lines
1233-1244, 1341-1351, 1357-1367 and 1370-1386. `read` makes the status read
and tells whether the condition holds, `delay` is the call that ends an
iteration, the second number is `timeout_loop`. The result is `true` when the
loop ends by `break` and `false` when it times out; `none` means that the loop
is still running when the fuel is spent. -/
def poll_loop (hdr : Hdr) (read : PsrDev → Bool × PsrDev) (delay : HwOp) :
    Nat → Nat → PsrDev → Option (Bool × PsrDev)
  | 0, _, _ => none
  | fuel + 1, timeout_loop, d =>
    let timeout_loop := timeout_loop + 1
    let (ok, d) := read d
    if ok then some (true, d) else
    if hdr.DP_TIMEOUT_LOOP_COUNT < timeout_loop then some (false, d) else
    poll_loop hdr read delay fuel timeout_loop (psr_hw delay d)

/-- The condition `s5p_dp_get_psr_status(dp) == PSR_STATUS_ACTIVE` of
`s5p_dp_psr_enter` (line 1235). -/
def read_psr_active (hdr : Hdr) (env : Env) (d : PsrDev) : Bool × PsrDev :=
  let (status, d) := s5p_dp_get_psr_status env d
  (decide (status = hdr.PSR_STATUS_ACTIVE), d)

/-- The condition `s5p_dp_get_psr_status(dp) == PSR_STATUS_INACTIVE` of
`s5p_dp_psr_exit` (line 1343). -/
def read_psr_inactive (hdr : Hdr) (env : Env) (d : PsrDev) : Bool × PsrDev :=
  let (status, d) := s5p_dp_get_psr_status env d
  (decide (status = hdr.PSR_STATUS_INACTIVE), d)

/-- The condition `s5p_dp_is_video_stream_on(dp) == 0` of `s5p_dp_psr_exit`
(line 1359). -/
def read_video_stream_on (env : Env) (d : PsrDev) : Bool × PsrDev :=
  let (status, d) := s5p_dp_is_video_stream_on env d
  (decide (status = 0), d)

/-- The read of `DPCD_ADDR_SINK_PSR_STATUS` and the condition `data ==
SINK_PSR_INACTIVE_STATE || data == 4` of `s5p_dp_psr_exit` (lines 1372-1377);
the result of the read is ignored. -/
def read_sink_psr_inactive (hdr : Hdr) (env : Env) (d : PsrDev) : Bool × PsrDev :=
  let (_, data, dp) := s5p_dp_read_byte_from_dpcd env DpcdAddr.SINK_PSR_STATUS d.dp
  (decide (data = hdr.SINK_PSR_INACTIVE_STATE ∨ data = 4), { d with dp := dp })

/-- `s5p_dp_psr_enter` (lines 1206-1260); `fuel` bounds the passes of the
poll loop. -/
def s5p_dp_psr_enter (hdr : Hdr) (env : Env) (fuel : Nat) (d : PsrDev) : Option (Int × PsrDev) :=
  let d := psr_hw HwOp.mutex_lock d
  if d.psr_enter_state = PsrState.PSR_ENTER_DONE then some (0, psr_hw HwOp.mutex_unlock d) else
  if d.psr_exit_state = PsrState.PSR_PRE_EXIT then some (0, psr_hw HwOp.mutex_unlock d) else
  let d := { d with psr_enter_state := PsrState.PSR_PRE_ENTER }
  let d := psr_hw HwOp.enable_psr d
  match poll_loop hdr (read_psr_active hdr env) (HwOp.mdelay 1) fuel 0 d with
  | none => none
  | some (false, d) =>
    let d := { d with psr_enter_state := PsrState.PSR_NONE }
    some (- ETIMEDOUT, psr_hw HwOp.mutex_unlock d)
  | some (true, d) =>
    let d := psr_hw (HwOp.mdelay 2) d
    let d := psr_hw (HwOp.set_analog_power_down PowerBlock.ANALOG_TOTAL true) d
    let d := psr_hw HwOp.clk_disable d
    let d := psr_hw HwOp.fb_notifier_call_chain_PSR_DONE d
    let d := { d with psr_enter_state := PsrState.PSR_ENTER_DONE }
    some (0, psr_hw HwOp.mutex_unlock d)

/-- The wait for the PLL lock of `s5p_dp_psr_exit`: the `while` loop of
lines 1320-1328, `timeout_loop` being the second number. The result is `true`
when the PLL is found locked and `false` on a timeout. -/
def pll_wait_loop (hdr : Hdr) (env : Env) : Nat → Nat → PsrDev → Option (Bool × PsrDev)
  | 0, _, _ => none
  | fuel + 1, timeout_loop, d =>
    let (status, d) := s5p_dp_get_pll_lock_status env d
    if status = hdr.PLL_UNLOCKED then
      let timeout_loop := timeout_loop + 1
      if hdr.DP_TIMEOUT_LOOP_COUNT < timeout_loop then some (false, d) else
      pll_wait_loop hdr env fuel timeout_loop { d with dp := emit (Event.udelay 10) d.dp }
    else some (true, d)

/-- Lines 1319-1329 of `s5p_dp_psr_exit`: the `if` around the `while`
loop. -/
def pll_wait (hdr : Hdr) (env : Env) (fuel : Nat) (d : PsrDev) : Option (Bool × PsrDev) :=
  let (status, d) := s5p_dp_get_pll_lock_status env d
  if status = hdr.PLL_UNLOCKED then pll_wait_loop hdr env fuel 0 d else some (true, d)

/-- The label `err_exit` of `s5p_dp_psr_exit` (lines 1396-1400). -/
def psr_exit_err_exit (ret : Int) (d : PsrDev) : Int × PsrDev :=
  let d := { d with psr_exit_state := PsrState.PSR_NONE }
  (ret, psr_hw HwOp.mutex_unlock d)

/-- Lines 1338-1394 of `s5p_dp_psr_exit`: what follows the link training,
from `s5p_dp_set_idle_en` on. -/
def psr_exit_polls (hdr : Hdr) (env : Env) (fuel : Nat) (d : PsrDev) : Option (Int × PsrDev) :=
  let d := psr_hw HwOp.set_idle_en d
  match poll_loop hdr (read_psr_inactive hdr env) (HwOp.usleep_range 100 110) fuel 0 d with
  | none => none
  | some (false, d) => some (psr_exit_err_exit (- ETIMEDOUT) d)
  | some (true, d) =>
    let d := psr_hw HwOp.set_force_stream_valid d
    match poll_loop hdr (read_video_stream_on env) (HwOp.usleep_range 1000 1100) fuel 0 d with
    | none => none
    | some (false, d) => some (psr_exit_err_exit (- ETIMEDOUT) d)
    | some (true, d) =>
      match poll_loop hdr (read_sink_psr_inactive hdr env) (HwOp.usleep_range 100 110)
          fuel 0 d with
      | none => none
      | some (false, d) => some (psr_exit_err_exit (- ETIMEDOUT) d)
      | some (true, d) =>
        let d := { d with psr_enter_state := PsrState.PSR_NONE }
        let d := { d with psr_exit_state := PsrState.PSR_EXIT_DONE }
        some (0, psr_hw HwOp.mutex_unlock d)

/-- Lines 1304-1333 of `s5p_dp_psr_exit`, for a device that is in self
refresh: from `clk_enable` to the write of the sink power state, whose result
is ignored. `Sum.inr` is the function returning through `err_exit`. -/
def psr_exit_resume (hdr : Hdr) (env : Env) (fuel : Nat) (d : PsrDev) :
    Option (PsrDev ⊕ (Int × PsrDev)) :=
  let d := psr_hw HwOp.clk_enable d
  let d := psr_hw HwOp.exit_psr d
  let d := psr_hw HwOp.set_fifo_reset d
  let d := psr_hw (HwOp.set_analog_power_down PowerBlock.ANALOG_TOTAL false) d
  match pll_wait hdr env fuel d with
  | none => none
  | some (false, d) => some (Sum.inr (psr_exit_err_exit (- ETIMEDOUT) d))
  | some (true, d) =>
    let d := psr_hw (HwOp.ndelay 600) d
    let d := psr_hw HwOp.clear_fifo_reset d
    let dp := (s5p_dp_write_byte_to_dpcd env DpcdAddr.SINK_POWER_STATE
      hdr.DPCD_SET_POWER_STATE_D0 d.dp).2
    some (Sum.inl { d with dp := dp })

/-- `s5p_dp_psr_exit` (lines 1291-1401). `fuel` bounds the passes of every
poll loop and of every training session; the value returned by
`s5p_dp_set_link_train_for_psr` is ignored. -/
def s5p_dp_psr_exit (hdr : Hdr) (env : Env) (fuel : Nat) (d : PsrDev) : Option (Int × PsrDev) :=
  let d := psr_hw HwOp.mutex_lock d
  if d.psr_enter_state = PsrState.PSR_NONE then some (0, psr_hw HwOp.mutex_unlock d) else
  match psr_exit_resume hdr env fuel d with
  | none => none
  | some (Sum.inr result) => some result
  | some (Sum.inl d) =>
    match s5p_dp_set_link_train_for_psr hdr env fuel 0 d.dp with
    | none => none
    | some (_, dp) => psr_exit_polls hdr env fuel { d with dp := dp }

/-! ## Bring-up and shutdown: `s5p_dp_enable` and `s5p_dp_disable` -/

/-- What the board gives the driver. `soc_is_exynos5250` is the value of the
macro of `plat/cpu.h`; `backlight_on`, `backlight_off`, `lcd_on` and `lcd_off`
tell whether the hook of that name in `struct s5p_dp_platdata` is installed
(not NULL); `lane_count` and `link_rate` are the fields of `dp->video_info`
that the bring-up passes on. -/
structure Board where
  soc_is_exynos5250 : Bool
  backlight_on : Bool
  backlight_off : Bool
  lcd_on : Bool
  lcd_off : Bool
  lane_count : Nat
  link_rate : Nat

/-- The calls that `s5p_dp_enable` and `s5p_dp_disable` make to the kernel
(device lock, link clock, runtime power management) and to the hooks of the
platform data. `dp_phy_init` records that control reaches the label
`dp_phy_init` of `s5p_dp_enable`, where a bring-up pass starts. -/
inductive PlatCall where
  | mutex_lock
  | mutex_unlock
  | clk_enable
  | clk_disable
  | pm_runtime_get_sync
  | pm_runtime_put_sync
  | backlight_on
  | backlight_off
  | lcd_on
  | lcd_off
  | dp_phy_init
  deriving DecidableEq, Repr

/-- The device as `s5p_dp_enable` and `s5p_dp_disable` see it: the device of
the PSR controller, the flag `dp->enabled`, and the calls of `PlatCall` made so
far, oldest first. -/
structure DpDevice where
  psr : PsrDev
  enabled : Bool
  plat_log : List PlatCall

/-- Record a call to the kernel or to a hook of the platform data. -/
def plat_call (c : PlatCall) (dev : DpDevice) : DpDevice :=
  { dev with plat_log := dev.plat_log ++ [c] }

/-- The statement `if (pdata->hook) pdata->hook();`. -/
def plat_hook (installed : Bool) (c : PlatCall) (dev : DpDevice) : DpDevice :=
  if installed then plat_call c dev else dev

/-- `s5p_dp_init_dp` (lines 37-53). -/
def s5p_dp_init_dp (bd : Board) (dp : Dev) : Int × Dev :=
  let dp := hw HwOp.reset dp
  let dp := hw HwOp.enable_sw_function dp
  let dp := if !bd.soc_is_exynos5250 then hw HwOp.config_interrupt dp else dp
  let dp := hw HwOp.init_analog_func dp
  let dp := hw HwOp.init_hpd dp
  let dp := hw HwOp.init_aux dp
  (0, dp)

/-- `s5p_dp_rx_control` (lines 267-278); the results of the writes are
ignored. -/
def s5p_dp_rx_control (env : Env) (enable : Bool) (dp : Dev) : Dev :=
  let dp := (s5p_dp_write_byte_to_dpcd env DpcdAddr.USER_DEFINED1 0 dp).2
  let dp := (s5p_dp_write_byte_to_dpcd env DpcdAddr.USER_DEFINED2 0x90 dp).2
  if enable then
    let dp := (s5p_dp_write_byte_to_dpcd env DpcdAddr.USER_DEFINED3 0x84 dp).2
    (s5p_dp_write_byte_to_dpcd env DpcdAddr.USER_DEFINED3 0x00 dp).2
  else
    (s5p_dp_write_byte_to_dpcd env DpcdAddr.USER_DEFINED3 0x80 dp).2

/-- `s5p_dp_disable_rx_zmux` (lines 293-301); the results of the writes are
ignored. -/
def s5p_dp_disable_rx_zmux (env : Env) (dp : Dev) : Dev :=
  let dp := (s5p_dp_write_byte_to_dpcd env DpcdAddr.USER_DEFINED1 0 dp).2
  let dp := (s5p_dp_write_byte_to_dpcd env DpcdAddr.USER_DEFINED2 0x83 dp).2
  (s5p_dp_write_byte_to_dpcd env DpcdAddr.USER_DEFINED3 0x27 dp).2

/-- `s5p_dp_set_link_train` (lines 979-994): the value returned by
`s5p_dp_init_training` is only reported, the session runs in any case. -/
def s5p_dp_set_link_train (hdr : Hdr) (env : Env) (fuel : Nat) (count bwtype : Nat) (dp : Dev) :
    Option (Int × Dev) :=
  let (_, dp) := s5p_dp_init_training hdr env count bwtype dp
  s5p_dp_sw_link_training hdr env fuel dp

/-- Modelled from the spec: `s5p_dp_is_slave_video_stream_clock_on` of
`s5p-dp-reg.c` (not under src/), a read of the transmitter's stream clock
status; 0 means that the clock is on. -/
def s5p_dp_is_slave_video_stream_clock_on (env : Env) (d : PsrDev) : Int × PsrDev :=
  let status := env.slave_video_stream_clock_on d.hw_tick
  (status, { d with hw_tick := d.hw_tick + 1,
                    dp := hw (HwOp.is_slave_video_stream_clock_on status) d.dp })

/-- The condition `s5p_dp_is_slave_video_stream_clock_on(dp) == 0` of
`s5p_dp_config_video` (line 1461). -/
def read_slave_video_stream_clock_on (env : Env) (d : PsrDev) : Bool × PsrDev :=
  let (status, d) := s5p_dp_is_slave_video_stream_clock_on env d
  (decide (status = 0), d)

/-- The second poll loop of `s5p_dp_config_video` (lines 1487-1502): the
stream must be found on in more than 10 polls with no poll in between that
finds it off. The numbers are the fuel, `timeout_loop` and `done_count`; the
result is `true` when the loop ends by `break` and `false` when it times out. -/
def video_stream_loop (hdr : Hdr) (env : Env) : Nat → Nat → Nat → PsrDev → Option (Bool × PsrDev)
  | 0, _, _, _ => none
  | fuel + 1, timeout_loop, done_count, d =>
    let timeout_loop := timeout_loop + 1
    let (status, d) := s5p_dp_is_video_stream_on env d
    if status = 0 then
      let done_count := done_count + 1
      if done_count > 10 then some (true, d) else
      if hdr.DP_TIMEOUT_LOOP_COUNT < timeout_loop then some (false, d) else
      video_stream_loop hdr env fuel timeout_loop done_count
        (psr_hw (HwOp.usleep_range 1000 1000) d)
    else
      let done_count := if done_count ≠ 0 then 0 else done_count
      if hdr.DP_TIMEOUT_LOOP_COUNT < timeout_loop then some (false, d) else
      video_stream_loop hdr env fuel timeout_loop done_count
        (psr_hw (HwOp.usleep_range 1000 1000) d)

/-- `s5p_dp_config_video` (lines 1440-1508); `fuel` bounds the passes of
each poll loop. -/
def s5p_dp_config_video (hdr : Hdr) (env : Env) (fuel : Nat) (d : PsrDev) :
    Option (Int × PsrDev) :=
  let retval : Int := 0
  let d := psr_hw HwOp.config_video_slave_mode d
  let d := psr_hw HwOp.set_video_color_format d
  let (status, d) := s5p_dp_get_pll_lock_status env d
  if status = hdr.PLL_UNLOCKED then some (- EINVAL, d) else
  match poll_loop hdr (read_slave_video_stream_clock_on env) (HwOp.usleep_range 2 2) fuel 0 d with
  | none => none
  | some (false, d) => some (- ETIMEDOUT, d)
  | some (true, d) =>
    let d := psr_hw HwOp.set_video_cr_mn d
    let d := psr_hw HwOp.set_video_timing_mode d
    let d := psr_hw (HwOp.enable_video_mute false) d
    let d := psr_hw (HwOp.enable_video_master false) d
    let d := psr_hw HwOp.start_video d
    match video_stream_loop hdr env fuel 0 0 d with
    | none => none
    | some (false, d) => some (- ETIMEDOUT, d)
    | some (true, d) => some (retval, d)

/-- `s5p_dp_enable_scramble` (lines 1511-1547); `data` is a `u8` and the
byte written is `(u8)(data & ~DPCD_SCRAMBLING_DISABLED)` or `(u8)(data |
DPCD_SCRAMBLING_DISABLED)`. -/
def s5p_dp_enable_scramble (hdr : Hdr) (env : Env) (enable : Bool) (dp : Dev) : Int × Dev :=
  if enable then
    let dp := hw HwOp.enable_scrambling dp
    let (retval, data, dp) := s5p_dp_read_byte_from_dpcd env DpcdAddr.TRAINING_PATTERN_SET dp
    if retval < 0 then (retval, dp) else
    let (retval, dp) := s5p_dp_write_byte_to_dpcd env DpcdAddr.TRAINING_PATTERN_SET
      (data &&& (255 ^^^ (hdr.DPCD_SCRAMBLING_DISABLED % 256))) dp
    if retval < 0 then (retval, dp) else (0, dp)
  else
    let dp := hw HwOp.disable_scrambling dp
    let (retval, data, dp) := s5p_dp_read_byte_from_dpcd env DpcdAddr.TRAINING_PATTERN_SET dp
    if retval < 0 then (retval, dp) else
    let (retval, dp) := s5p_dp_write_byte_to_dpcd env DpcdAddr.TRAINING_PATTERN_SET
      ((data ||| hdr.DPCD_SCRAMBLING_DISABLED) % 256) dp
    if retval < 0 then (retval, dp) else (0, dp)

/-- The block of `s5p_dp_enable` compiled under `CONFIG_S5P_DP_PSR` (lines
1664-1677); `reg` is a `u32` and the results of the writes are ignored. -/
def enable_psr_block (hdr : Hdr) (env : Env) (d : PsrDev) : PsrDev :=
  let d := psr_hw HwOp.scramber_rst_cnt d
  let dp := (s5p_dp_write_byte_to_dpcd env (DpcdAddr.ADDR 0x491) 0x80 d.dp).2
  let dp := (s5p_dp_write_byte_to_dpcd env (DpcdAddr.ADDR 0x492) 0x04 dp).2
  let dp := (s5p_dp_write_byte_to_dpcd env (DpcdAddr.ADDR 0x493) 0x31 dp).2
  let d := psr_hw (HwOp.writel 0x2a 0x730) { d with dp := dp }
  let reg := env.readl d.hw_tick 0x800 % 2 ^ 32
  let d := { d with hw_tick := d.hw_tick + 1, dp := hw (HwOp.readl 0x800 reg) d.dp }
  let reg := (reg ||| (1 <<< 31)) % 2 ^ 32
  let d := psr_hw (HwOp.writel reg 0x800) d
  let dp := (s5p_dp_write_byte_to_dpcd env DpcdAddr.PSR_CONFIGURATION hdr.DPCD_PSR_ENABLE d.dp).2
  { d with dp := dp }

/-- Lines 1600-1677 of `s5p_dp_enable`: one pass from the label `dp_phy_init`
to the end of the block compiled under `CONFIG_S5P_DP_PSR`. The number
returned is `ret`; a pass that returns a number other than 0 leaves through
`goto out`. `fuel` bounds the passes of the training session and of every
poll loop. -/
def enable_bring_up (hdr : Hdr) (bd : Board) (env : Env) (fuel : Nat) (d : PsrDev) :
    Option (Int × PsrDev) :=
  let dp := (s5p_dp_init_dp bd d.dp).2
  let dp := if bd.soc_is_exynos5250 then s5p_dp_disable_rx_zmux env dp else dp
  let (ret, dp) := s5p_dp_enable_scramble hdr env false dp
  if ret ≠ 0 then some (ret, { d with dp := dp }) else
  let (ret, dp) := s5p_dp_enable_rx_to_enhanced_mode hdr env false dp
  if ret ≠ 0 then some (ret, { d with dp := dp }) else
  let dp := hw (HwOp.enable_enhanced_mode false) dp
  let dp := if bd.soc_is_exynos5250 then s5p_dp_rx_control env false dp else dp
  match s5p_dp_set_link_train hdr env fuel bd.lane_count bd.link_rate dp with
  | none => none
  | some (ret, dp) =>
    if ret ≠ 0 then some (ret, { d with dp := dp }) else
    let dp := if bd.soc_is_exynos5250 then s5p_dp_rx_control env true dp else dp
    let dp := s5p_dp_set_lane_count bd.lane_count dp
    let dp := s5p_dp_set_link_bandwidth bd.link_rate dp
    let d := psr_hw HwOp.init_video { d with dp := dp }
    match s5p_dp_config_video hdr env fuel d with
    | none => none
    | some (ret, d) =>
      if ret ≠ 0 then some (ret, d) else
      some (0, if hdr.CONFIG_S5P_DP_PSR then enable_psr_block hdr env d else d)

/-- The two labels of `s5p_dp_enable` that a `goto` names. -/
inductive EnableLabel where
  | dp_phy_init
  | out
  deriving DecidableEq, Repr

/-- The body of `s5p_dp_enable` from one of its labels on (lines 1600-1708).
At `dp_phy_init` a bring-up pass runs: when it ends with `ret` 0 the function
calls the hook `backlight_on`, releases the lock and returns 0, otherwise it
jumps to `out`. At `out`, `retry < 3` calls the hooks `lcd_off` and `lcd_on`,
increments `retry` and jumps to `dp_phy_init`; otherwise the function calls
the hooks `backlight_off` and `lcd_off`, releases the lock and returns `ret`.
The first number bounds the jumps, the arguments after the label are `ret` and
`retry`. -/
def enable_goto (hdr : Hdr) (bd : Board) (env : Env) (fuel : Nat) :
    Nat → EnableLabel → Int → Nat → DpDevice → Option (Int × DpDevice)
  | 0, _, _, _, _ => none
  | n + 1, EnableLabel.dp_phy_init, _, retry, dev =>
    let dev := plat_call PlatCall.dp_phy_init dev
    match enable_bring_up hdr bd env fuel dev.psr with
    | none => none
    | some (ret, d) =>
      let dev := { dev with psr := d }
      if ret ≠ 0 then enable_goto hdr bd env fuel n EnableLabel.out ret retry dev else
      let dev := plat_hook bd.backlight_on PlatCall.backlight_on dev
      let dev := plat_call PlatCall.mutex_unlock dev
      some (0, dev)
  | n + 1, EnableLabel.out, ret, retry, dev =>
    if retry < 3 then
      let dev := plat_hook bd.lcd_off PlatCall.lcd_off dev
      let dev := plat_hook bd.lcd_on PlatCall.lcd_on dev
      let retry := retry + 1
      enable_goto hdr bd env fuel n EnableLabel.dp_phy_init ret retry dev
    else
      let dev := plat_hook bd.backlight_off PlatCall.backlight_off dev
      let dev := plat_hook bd.lcd_off PlatCall.lcd_off dev
      let dev := plat_call PlatCall.mutex_unlock dev
      some (ret, dev)

/-- `s5p_dp_enable` (lines 1582-1709). `fuel` bounds the jumps to a label,
the passes of every training session and the passes of every poll loop. -/
def s5p_dp_enable (hdr : Hdr) (bd : Board) (env : Env) (fuel : Nat) (dev : DpDevice) :
    Option (Int × DpDevice) :=
  let ret : Int := 0
  let retry : Nat := 0
  let dev := plat_call PlatCall.mutex_lock dev
  if dev.enabled then enable_goto hdr bd env fuel fuel EnableLabel.out ret retry dev else
  let dev := { dev with enabled := true }
  let dev := plat_call PlatCall.clk_enable dev
  let dev := plat_call PlatCall.pm_runtime_get_sync dev
  enable_goto hdr bd env fuel fuel EnableLabel.dp_phy_init ret retry dev

/-- `s5p_dp_disable` (lines 1711-1739), built without
`CONFIG_S5P_DP_ESD_RECOVERY`. -/
def s5p_dp_disable (hdr : Hdr) (dev : DpDevice) : DpDevice :=
  let dev := plat_call PlatCall.mutex_lock dev
  if !dev.enabled then plat_call PlatCall.mutex_unlock dev else
  let dev := { dev with enabled := false }
  let d := psr_hw HwOp.reset dev.psr
  let d := psr_hw (HwOp.set_pll_power_down true) d
  let d := psr_hw (HwOp.set_analog_power_down PowerBlock.POWER_ALL true) d
  let dev := { dev with psr := d }
  let dev :=
    if hdr.CONFIG_S5P_DP_PSR then
      if dev.psr.psr_enter_state ≠ PsrState.PSR_ENTER_DONE
      then plat_call PlatCall.clk_disable dev else dev
    else plat_call PlatCall.clk_disable dev
  let dev := plat_call PlatCall.pm_runtime_put_sync dev
  plat_call PlatCall.mutex_unlock dev

/-! ## Auxiliary predicates and concrete inputs -/

/-- The state `dp'` has the training state, the equalizer counter, the lane
count and the recorded engine calls of `dp`. -/
def Keeps (dp dp' : Dev) : Prop :=
  dp'.link_train.lt_state = dp.link_train.lt_state ∧
  dp'.link_train.eq_loop = dp.link_train.eq_loop ∧
  dp'.link_train.lane_count = dp.link_train.lane_count ∧
  ∀ fn, calls fn dp'.log = calls fn dp.log

/-- At the head of the training loop the local `retval` is 0 whenever the
state is FINISHED. -/
def RetvalOk (retval : Int) (dp : Dev) : Prop :=
  dp.link_train.lt_state = LtState.FINISHED → retval = 0

/-- A sink that reports clock recovery and channel equalization at once on
two lanes, with adjustment request swing 1, pre-emphasis 0 for both. -/
def env_ok : Env where
  aux := fun _ addr => match addr with
    | DpcdAddr.LANE0_1_STATUS => ⟨0, fun _ => 0x77⟩
    | DpcdAddr.LANE_ALIGN_STATUS_UPDATED => ⟨0, fun _ => 1⟩
    | DpcdAddr.ADJUST_REQUEST_LANE0_1 => ⟨0, fun i => if i = 0 then 0x11 else 0⟩
    | _ => ⟨0, fun _ => 0⟩
  link_bandwidth := fun _ => 0x0a
  lane_count := fun _ => 2
  pre_emphasis_ctl := fun _ level => level <<< 3

/-- A device configured for two lanes at 2.7 Gbps, left in state FAILED by
an earlier session. -/
def dp_two_lanes : Dev where
  link_train :=
    { eq_loop := 7, cr_loop := fun _ => 9, link_rate := LINK_RATE_2_70GBPS, lane_count := 2,
      training_lane := fun _ => 0, lt_state := LtState.FAILED }
  ln_link_training_ctl := fun _ => 0
  tick := 0
  log := []

/-- The two bytes that a 2-byte read of `addr` delivers when it is AUX
transaction number `tick`. -/
def aux_bytes (env : Env) (tick : Nat) (addr : DpcdAddr) : List Nat :=
  [(env.aux tick addr).data 0 % 256, (env.aux tick addr).data 1 % 256]

/-- The training-lane byte in the words of the spec: the swing and
pre-emphasis fields, the max-swing flag added exactly when the swing is 3 and
the max-pre-emphasis flag added exactly when the pre-emphasis is 3, as a
`u8`. -/
def training_lane_byte (hdr : Hdr) (v p : Nat) : Nat :=
  (hdr.DPCD_VOLTAGE_SWING_SET v ||| hdr.DPCD_PRE_EMPHASIS_SET p |||
    (if v = 3 then hdr.DPCD_MAX_SWING_REACHED else 0) |||
    (if p = 3 then hdr.DPCD_MAX_PRE_EMPHASIS_REACHED else 0)) % 256

/-- The swing that the sink requests for `lane` in the adjustment request
read as AUX transaction number `tick`. -/
def requested_swing (env : Env) (tick lane : Nat) : Nat :=
  s5p_dp_get_adjust_request_voltage (aux_bytes env tick DpcdAddr.ADJUST_REQUEST_LANE0_1) lane

/-- The pre-emphasis that the sink requests for `lane` in the adjustment
request read as AUX transaction number `tick`. -/
def requested_pre_emphasis (env : Env) (tick lane : Nat) : Nat :=
  s5p_dp_get_adjust_request_pre_emphasis
    (aux_bytes env tick DpcdAddr.ADJUST_REQUEST_LANE0_1) lane

/-- In the words of the spec: the lane's current swing and pre-emphasis, as
held by the byte `ctl` read back from its transmitter register, equal the
requested swing `v` and pre-emphasis `p`. -/
def lane_unchanged (hdr : Hdr) (ctl v p : Nat) : Prop :=
  hdr.DPCD_VOLTAGE_SWING_GET (ctl % 256) = v ∧ hdr.DPCD_PRE_EMPHASIS_GET (ctl % 256) = p

instance (hdr : Hdr) (ctl v p : Nat) : Decidable (lane_unchanged hdr ctl v p) := by
  unfold lane_unchanged; exact inferInstance

/-- In the words of the spec: the lane forces the link-rate downgrade. Its
request asks for swing 3 or pre-emphasis 3, or its swing and pre-emphasis are
unchanged and its retry counter `cr` reaches `MAX_CR_LOOP` with this poll. -/
def lane_gives_up (hdr : Hdr) (ctl cr v p : Nat) : Prop :=
  v = 3 ∨ p = 3 ∨ (lane_unchanged hdr ctl v p ∧ cr + 1 = MAX_CR_LOOP)

instance (hdr : Hdr) (ctl cr v p : Nat) : Decidable (lane_gives_up hdr ctl cr v p) := by
  unfold lane_gives_up; exact inferInstance

/-- The loop-head invariant of a session whose sink never reports CR_DONE
and always returns the request `req`, after `k` clock-recovery polls: the
state is CLOCK_RECOVERY, every active lane's counter is at most 3, at most `k`
and at least `k - 1`, from the second poll on every active lane's transmitter
register holds the byte computed from the request, `c0 + k` polls and `cred`
calls of `s5p_dp_reduce_link_rate` are recorded. -/
def CrSteady (hdr : Hdr) (req : List Nat) (lc c0 cred k : Nat) (dp : Dev) : Prop :=
  dp.link_train.lt_state = LtState.CLOCK_RECOVERY ∧
  dp.link_train.lane_count = lc ∧
  (∀ l, l < lc → dp.link_train.cr_loop l ≤ 3 ∧ k ≤ dp.link_train.cr_loop l + 1 ∧
    dp.link_train.cr_loop l ≤ k) ∧
  (1 ≤ k → ∀ l, l < lc → dp.ln_link_training_ctl l =
    next_training_lane hdr (s5p_dp_get_adjust_request_voltage req l)
      (s5p_dp_get_adjust_request_pre_emphasis req l)) ∧
  calls Fn.process_clock_recovery dp.log = c0 + k ∧
  calls Fn.reduce_link_rate dp.log = cred

/-- A two-lane sink on which lane 0 never reaches clock recovery (status
byte 0x10) and which asks for swing 1, pre-emphasis 0 on both lanes at every
poll. -/
def env_no_cr : Env where
  aux := fun _ addr => match addr with
    | DpcdAddr.LANE0_1_STATUS => ⟨0, fun i => if i = 0 then 0x10 else 0⟩
    | DpcdAddr.ADJUST_REQUEST_LANE0_1 => ⟨0, fun i => if i = 0 then 0x11 else 0⟩
    | _ => ⟨0, fun _ => 0⟩
  link_bandwidth := fun _ => 0x0a
  lane_count := fun _ => 2
  pre_emphasis_ctl := fun _ level => level <<< 3

/-- The device `dp_two_lanes` in state CLOCK_RECOVERY with fresh counters,
as `s5p_dp_link_start` leaves it. -/
def dp_polling : Dev :=
  (s5p_dp_link_start stdHdr env_ok (set_lt_state LtState.START dp_two_lanes)).2

/-- The byte that a 1-byte read of `addr` delivers when it is AUX
transaction number `tick`. -/
def aux_byte (env : Env) (tick : Nat) (addr : DpcdAddr) : Nat :=
  (env.aux tick addr).data 0 % 256

/-- The loop-head invariant that bounds the equalizer polls of a session
which had `c0` of them recorded when it started: none are added before
EQUALIZER_TRAINING, where `eq_loop` starts at 0; in EQUALIZER_TRAINING
`eq_loop` counts the polls and is at most `MAX_EQ_LOOP`; a finished or failed
session has added at most `MAX_EQ_LOOP + 1`. -/
def EqBudget (c0 : Nat) (dp : Dev) : Prop :=
  match dp.link_train.lt_state with
  | LtState.START => calls Fn.process_equalizer_training dp.log = c0
  | LtState.CLOCK_RECOVERY =>
    calls Fn.process_equalizer_training dp.log = c0 ∧ dp.link_train.eq_loop = 0
  | LtState.EQUALIZER_TRAINING =>
    calls Fn.process_equalizer_training dp.log = c0 + dp.link_train.eq_loop ∧
    dp.link_train.eq_loop ≤ MAX_EQ_LOOP
  | LtState.FINISHED => calls Fn.process_equalizer_training dp.log ≤ c0 + (MAX_EQ_LOOP + 1)
  | LtState.FAILED => calls Fn.process_equalizer_training dp.log ≤ c0 + (MAX_EQ_LOOP + 1)

/-- A two-lane sink that keeps clock recovery and the align bit but never
completes the equalization of lane 1 (status byte 0x37). -/
def env_no_eq : Env where
  aux := fun _ addr => match addr with
    | DpcdAddr.LANE0_1_STATUS => ⟨0, fun i => if i = 0 then 0x37 else 0⟩
    | DpcdAddr.LANE_ALIGN_STATUS_UPDATED => ⟨0, fun _ => 1⟩
    | DpcdAddr.ADJUST_REQUEST_LANE0_1 => ⟨0, fun i => if i = 0 then 0x11 else 0⟩
    | _ => ⟨0, fun _ => 0⟩
  link_bandwidth := fun _ => 0x0a
  lane_count := fun _ => 2
  pre_emphasis_ctl := fun _ level => level <<< 3

/-- The device `dp_polling` in state EQUALIZER_TRAINING. -/
def dp_equalizing : Dev := set_lt_state LtState.EQUALIZER_TRAINING dp_polling

/-- A sink as `env_ok` whose first AUX transaction, the write of the sink
power state in `s5p_dp_link_start`, fails with `-EIO`. -/
def env_start_fails : Env where
  aux := fun n addr => if n = 0 then ⟨- EIO, fun _ => 0⟩ else env_ok.aux n addr
  link_bandwidth := fun _ => 0x0a
  lane_count := fun _ => 2
  pre_emphasis_ctl := fun _ level => level <<< 3

/-- A sink whose receiver capability field reports the link rate 0x14, which
this driver does not support, and four lanes with the enhanced-framing bit
set (byte 0x84). -/
def env_caps : Env where
  aux := fun _ addr => match addr with
    | DpcdAddr.MAX_LINK_RATE => ⟨0, fun _ => 0x14⟩
    | DpcdAddr.MAX_LANE_COUNT => ⟨0, fun _ => 0x84⟩
    | _ => ⟨0, fun _ => 0⟩
  link_bandwidth := fun _ => 0x0a
  lane_count := fun _ => 2
  pre_emphasis_ctl := fun _ level => level <<< 3

/-- The state `dp'` has the link rate and the lane count of `dp`. -/
def SameLink (dp dp' : Dev) : Prop :=
  dp'.link_train.link_rate = dp.link_train.link_rate ∧
  dp'.link_train.lane_count = dp.link_train.lane_count

/-- The bytes that a bulk I2C read of `reg_addr` delivers when it is
transaction number `tick`, indexed from 0. -/
def i2c_block (env : Env) (tick reg_addr : Nat) : Nat → Nat :=
  fun i => (env.i2c tick reg_addr).data i % 256

/-- The block `block` as a pointer argument; an index past its end reads
0. -/
def block_at (block : List Nat) : Nat → Nat :=
  fun i => block.getD i 0

/-- A base block with check sum 0: bytes 0x01 and 0xff followed by 126
zero bytes. -/
def edid_base_block : List Nat := 0x01 :: 0xff :: List.replicate 126 0

/-- An extension block with check sum 0 whose first and last byte are
0x80. -/
def edid_ext_block : List Nat := 0x80 :: (List.replicate 126 0 ++ [0x80])

/-- A sink whose EDID has one extension block, `edid_base_block` followed by
`edid_ext_block`, and whose TEST_REQUEST register has the TEST_EDID_READ bit
set; no transaction fails. -/
def env_edid : Env where
  aux := fun _ addr => match addr with
    | DpcdAddr.TEST_REQUEST => ⟨0, fun _ => 0x04⟩
    | _ => ⟨0, fun _ => 0⟩
  link_bandwidth := fun _ => 0x0a
  lane_count := fun _ => 2
  pre_emphasis_ctl := fun _ level => level <<< 3
  i2c := fun _ reg_addr =>
    if reg_addr = 0x7e then ⟨0, fun _ => 1⟩
    else if reg_addr = 0 then ⟨0, block_at edid_base_block⟩
    else ⟨0, block_at edid_ext_block⟩

/-- The sink `env_edid` with byte 5 of the base block changed from 0 to
7. -/
def env_edid_bad : Env where
  aux := env_edid.aux
  link_bandwidth := fun _ => 0x0a
  lane_count := fun _ => 2
  pre_emphasis_ctl := fun _ level => level <<< 3
  i2c := fun _ reg_addr =>
    if reg_addr = 0x7e then ⟨0, fun _ => 1⟩
    else if reg_addr = 0 then ⟨0, block_at (edid_base_block.set 5 7)⟩
    else ⟨0, block_at edid_ext_block⟩

/-- Number of entries of the call `op` recorded in a log. -/
def hw_calls (op : HwOp) (log : List Event) : Nat :=
  log.count (Event.hw op)

/-- Number of reads of the transmitter's PSR status register recorded in a
log. -/
def psr_status_reads (log : List Event) : Nat :=
  log.countP (fun e => match e with
    | Event.hw (HwOp.get_psr_status _) => true
    | _ => false)

/-- The byte that the sink's PSR status register delivers when its read is
AUX transaction number `tick`. -/
def sink_psr_status (env : Env) (tick : Nat) : Nat :=
  aux_byte env tick DpcdAddr.SINK_PSR_STATUS

/-- A read step of a poll loop keeps the two PSR state flags. -/
def KeepsFlags (read : PsrDev → Bool × PsrDev) : Prop :=
  ∀ d, (read d).2.psr_enter_state = d.psr_enter_state ∧
    (read d).2.psr_exit_state = d.psr_exit_state

/-- A device outside self refresh: `dp_two_lanes` with both PSR state flags
at `PSR_NONE`. -/
def psr_dev_none : PsrDev where
  dp := dp_two_lanes
  psr_enter_state := PsrState.PSR_NONE
  psr_exit_state := PsrState.PSR_NONE
  hw_tick := 0

/-- A transmitter as in `env_ok` whose PSR status register reads "active"
(2) from the third read on. -/
def env_psr_active : Env where
  aux := env_ok.aux
  link_bandwidth := fun _ => 0x0a
  lane_count := fun _ => 2
  pre_emphasis_ctl := fun _ level => level <<< 3
  psr_status := fun k => if k < 2 then 0 else 2

/-- A device in self refresh for which `s5p_dp_notify` has announced the
exit: `dp_two_lanes` with `psr_enter_state = PSR_ENTER_DONE` and
`psr_exit_state = PSR_PRE_EXIT`. -/
def psr_dev_entered : PsrDev where
  dp := dp_two_lanes
  psr_enter_state := PsrState.PSR_ENTER_DONE
  psr_exit_state := PsrState.PSR_PRE_EXIT
  hw_tick := 0

/-- A transmitter as in `env_ok` whose PLL never locks: its lock status
always reads `PLL_UNLOCKED` (0). -/
def env_pll_unlocked : Env where
  aux := env_ok.aux
  link_bandwidth := fun _ => 0x0a
  lane_count := fun _ => 2
  pre_emphasis_ctl := fun _ level => level <<< 3
  pll_lock_status := fun _ => 0

/-- Every retry counter of the lanes below `lc` is below `MAX_CR_LOOP`. -/
def CrBelow (lc : Nat) (dp : Dev) : Prop :=
  ∀ lane, lane < lc → dp.link_train.cr_loop lane < MAX_CR_LOOP

/-- The retry-counter invariant in the words of the spec, for the lanes
below `lc`: every counter is at most `MAX_CR_LOOP`, and a counter that equals
`MAX_CR_LOOP` comes with the state FAILED. -/
def CrBound (lc : Nat) (dp : Dev) : Prop :=
  ∀ lane, lane < lc → dp.link_train.cr_loop lane ≤ MAX_CR_LOOP ∧
    (dp.link_train.cr_loop lane = MAX_CR_LOOP → dp.link_train.lt_state = LtState.FAILED)

/-- The loop-head invariant behind `CrBound` for a session on `lc` lanes:
the lane count is `lc` until the session is FINISHED, and either every counter
is below `MAX_CR_LOOP` or the state is FAILED and every counter is at most
`MAX_CR_LOOP`. -/
def CrInv (lc : Nat) (dp : Dev) : Prop :=
  (dp.link_train.lane_count = lc ∨ dp.link_train.lt_state = LtState.FINISHED) ∧
  (CrBelow lc dp ∨
    (dp.link_train.lt_state = LtState.FAILED ∧
      ∀ lane, lane < lc → dp.link_train.cr_loop lane ≤ MAX_CR_LOOP))

/-- The state `dp'` has the retry counters of `dp`. -/
def SameCr (dp dp' : Dev) : Prop :=
  dp'.link_train.cr_loop = dp.link_train.cr_loop

/-- A channel on which every AUX transaction fails with `-EIO`. -/
def env_all_fail : Env where
  aux := fun _ _ => ⟨- EIO, fun _ => 0⟩
  link_bandwidth := fun _ => 0x0a
  lane_count := fun _ => 2
  pre_emphasis_ctl := fun _ level => level <<< 3

/-- A device configured for one lane at 2.7 Gbps. -/
def dp_one_lane : Dev where
  link_train :=
    { eq_loop := 0, cr_loop := fun _ => 0, link_rate := LINK_RATE_2_70GBPS, lane_count := 1,
      training_lane := fun _ => 0, lt_state := LtState.START }
  ln_link_training_ctl := fun _ => 0
  tick := 0
  log := []

/-- A board that is not an Exynos 5250, with the four hooks of the platform
data installed and a panel configured for two lanes at 2.7 Gbps. -/
def board_hooks : Board where
  soc_is_exynos5250 := false
  backlight_on := true
  backlight_off := true
  lcd_on := true
  lcd_off := true
  lane_count := 2
  link_rate := LINK_RATE_2_70GBPS

/-- A device that is not enabled: `psr_dev_none` with the flag `enabled`
clear and no call recorded. -/
def dp_device_off : DpDevice where
  psr := psr_dev_none
  enabled := false
  plat_log := []

/-- The calls that the statement `if (pdata->hook) pdata->hook();` makes. -/
def hook_calls (installed : Bool) (c : PlatCall) : List PlatCall :=
  if installed then [c] else []

/-- The calls of a bring-up pass that fails and is retried: control reaches
`dp_phy_init`, then the hooks `lcd_off` and `lcd_on` are called. -/
def retried_pass (bd : Board) : List PlatCall :=
  [PlatCall.dp_phy_init] ++ hook_calls bd.lcd_off PlatCall.lcd_off ++
    hook_calls bd.lcd_on PlatCall.lcd_on

/-- The calls with which `s5p_dp_enable` ends after a pass that has returned
`ret`. -/
def final_calls (bd : Board) (ret : Int) : List PlatCall :=
  (if ret = 0 then hook_calls bd.backlight_on PlatCall.backlight_on
    else hook_calls bd.backlight_off PlatCall.backlight_off ++
      hook_calls bd.lcd_off PlatCall.lcd_off) ++ [PlatCall.mutex_unlock]

/-- The result of bring-up pass number `k`, counted from 0, when pass 0
starts in the state `d` and every later pass starts in the state that the
pass before it has left. -/
def bring_up_pass (hdr : Hdr) (bd : Board) (env : Env) (fuel : Nat) :
    Nat → PsrDev → Option (Int × PsrDev)
  | 0, d => enable_bring_up hdr bd env fuel d
  | k + 1, d =>
    match enable_bring_up hdr bd env fuel d with
    | none => none
    | some (_, d) => bring_up_pass hdr bd env fuel k d

/-- Number of entries of the call `c` in a list of calls. -/
def plat_calls (c : PlatCall) (log : List PlatCall) : Nat :=
  log.count c

/-- A device that is enabled: `dp_device_off` with the flag `enabled` set, as
`s5p_dp_enable_boot` sets it. -/
def dp_device_on : DpDevice where
  psr := psr_dev_none
  enabled := true
  plat_log := []

/-- The calls of `PlatCall` that are a hook of the platform data or the mark
of the label `dp_phy_init`: the ones that touch neither the lock, the clock
nor the runtime power management. -/
def PanelCall (c : PlatCall) : Prop :=
  c = PlatCall.dp_phy_init ∨ c = PlatCall.lcd_off ∨ c = PlatCall.lcd_on ∨
    c = PlatCall.backlight_on ∨ c = PlatCall.backlight_off

/-- The number of the first read of a bounded poll that finds its condition
met: the first `k` among `start`, ..., `start + bound - 1` with `good k`, if
there is one. -/
def first_good (good : Nat → Bool) : Nat → Nat → Option Nat
  | _, 0 => none
  | start, bound + 1 => if good start then some start else first_good good (start + 1) bound

/-- Status read number `k` finds the PLL locked. -/
def pll_locked (hdr : Hdr) (env : Env) (k : Nat) : Bool :=
  decide (env.pll_lock_status k ≠ hdr.PLL_UNLOCKED)

/-- Status read number `k` finds the PSR status inactive. -/
def psr_inactive (hdr : Hdr) (env : Env) (k : Nat) : Bool :=
  decide (env.psr_status k = hdr.PSR_STATUS_INACTIVE)

/-- Status read number `k` finds the video stream on. -/
def video_on (env : Env) (k : Nat) : Bool :=
  decide (env.video_stream_on k = 0)

/-- AUX transaction number `t`, as a read of the sink's PSR status, delivers
`SINK_PSR_INACTIVE_STATE` or 4. -/
def sink_inactive (hdr : Hdr) (env : Env) (t : Nat) : Bool :=
  decide (sink_psr_status env t = hdr.SINK_PSR_INACTIVE_STATE ∨ sink_psr_status env t = 4)

/-- In the words of the spec, what the three polls that end a PSR exit come
to when `h` status reads and `t` AUX transactions have been made before:
"polls, each with its own bounded timeout: PSR-inactive status,
video-stream-on status, and the sink's own PSR-inactive DPCD register
(accepting either of two inactive encodings). Any timeout aborts". A poll
makes at most `DP_TIMEOUT_LOOP_COUNT + 1` reads and the next poll starts with
the read after the first good one; the value is 0 when the three polls meet
their condition and `-ETIMEDOUT` otherwise. -/
def psr_exit_polls_result (hdr : Hdr) (env : Env) (h t : Nat) : Int :=
  match first_good (psr_inactive hdr env) h (hdr.DP_TIMEOUT_LOOP_COUNT + 1) with
  | none => - ETIMEDOUT
  | some i =>
    match first_good (video_on env) (i + 1) (hdr.DP_TIMEOUT_LOOP_COUNT + 1) with
    | none => - ETIMEDOUT
    | some _ =>
      match first_good (sink_inactive hdr env) t (hdr.DP_TIMEOUT_LOOP_COUNT + 1) with
      | none => - ETIMEDOUT
      | some _ => 0

/-- A transmitter as in `env_ok` whose PSR status register reads "active"
(2) in the first four status reads and "inactive" (0) from the fifth on. -/
def env_psr_slow : Env where
  aux := env_ok.aux
  link_bandwidth := fun _ => 0x0a
  lane_count := fun _ => 2
  pre_emphasis_ctl := fun _ level => level <<< 3
  psr_status := fun k => if k < 4 then 2 else 0

/-- A transmitter as in `env_ok` whose PSR status register reads "active"
(2) in the first 150 status reads, more than a poll makes. -/
def env_psr_late : Env where
  aux := env_ok.aux
  link_bandwidth := fun _ => 0x0a
  lane_count := fun _ => 2
  pre_emphasis_ctl := fun _ level => level <<< 3
  psr_status := fun k => if k < 150 then 2 else 0

theorem get_lane_status_eq (buf : List Nat) (lane : Nat) :
    s5p_dp_get_lane_status buf lane = lane_nibble buf lane := by
  unfold s5p_dp_get_lane_status lane_nibble
  have h1 : lane &&& 1 = lane % 2 := Nat.and_one_is_mod lane
  have h2 : lane >>> 1 = lane / 2 := by rw [Nat.shiftRight_eq_div_pow]
  have h3 : ∀ x : Nat, x &&& 0xf = x % 16 := fun x => Nat.and_pow_two_sub_one_eq_mod x 4
  simp only [h1, h2, h3]
  rcases Nat.mod_two_eq_zero_or_one lane with h | h
  · simp [h]
  · simp [h, Nat.shiftRight_eq_div_pow]

theorem clock_recovery_ok_loop_eq_zero (hdr : Hdr) (ls : List Nat) (n lane : Nat) :
    clock_recovery_ok_loop hdr ls n lane = 0 ↔
      ∀ k, k < n → lane_nibble ls (lane + k) &&& hdr.DPCD_LANE_CR_DONE ≠ 0 := by
  induction n generalizing lane with
  | zero => simp [clock_recovery_ok_loop]
  | succ n ih =>
    simp only [clock_recovery_ok_loop, get_lane_status_eq]
    split
    · rename_i h
      constructor
      · intro h0; simp [EINVAL] at h0
      · intro hall; exact absurd h (by simpa using hall 0 (Nat.succ_pos n))
    · rename_i h
      rw [ih]
      constructor
      · intro hall k hk
        rcases k with _ | k
        · simpa using h
        · have := hall k (by omega)
          rwa [show lane + 1 + k = lane + (k + 1) by omega] at this
      · intro hall k hk
        have := hall (k + 1) (by omega)
        rwa [show lane + (k + 1) = lane + 1 + k by omega] at this

theorem clock_recovery_ok_eq_zero (hdr : Hdr) (ls : List Nat) (lane_count : Nat) :
    s5p_dp_clock_recovery_ok hdr ls lane_count = 0 ↔
      ∀ lane, lane < lane_count → lane_nibble ls lane &&& hdr.DPCD_LANE_CR_DONE ≠ 0 := by
  unfold s5p_dp_clock_recovery_ok
  rw [clock_recovery_ok_loop_eq_zero]
  simp

theorem clock_recovery_ok_loop_cases (hdr : Hdr) (ls : List Nat) (n lane : Nat) :
    clock_recovery_ok_loop hdr ls n lane = 0 ∨ clock_recovery_ok_loop hdr ls n lane = - EINVAL := by
  induction n generalizing lane with
  | zero => simp [clock_recovery_ok_loop]
  | succ n ih =>
    simp only [clock_recovery_ok_loop]
    split
    · right; rfl
    · exact ih _

theorem channel_eq_ok_loop_eq_zero (hdr : Hdr) (ls : List Nat) (n lane : Nat) :
    channel_eq_ok_loop hdr ls n lane = 0 ↔
      ∀ k, k < n → lane_nibble ls (lane + k) &&& hdr.DPCD_CHANNEL_EQ_BITS
        = hdr.DPCD_CHANNEL_EQ_BITS := by
  induction n generalizing lane with
  | zero => simp [channel_eq_ok_loop]
  | succ n ih =>
    simp only [channel_eq_ok_loop, get_lane_status_eq]
    split
    · rename_i h
      constructor
      · intro h0; simp [EINVAL] at h0
      · intro hall; exact absurd (by simpa using hall 0 (Nat.succ_pos n)) h
    · rename_i h
      rw [ih]
      constructor
      · intro hall k hk
        rcases k with _ | k
        · simpa using h
        · have := hall k (by omega)
          rwa [show lane + 1 + k = lane + (k + 1) by omega] at this
      · intro hall k hk
        have := hall (k + 1) (by omega)
        rwa [show lane + (k + 1) = lane + 1 + k by omega] at this

theorem channel_eq_ok_eq_zero (hdr : Hdr) (ls : List Nat) (lane_count : Nat) :
    s5p_dp_channel_eq_ok hdr ls lane_count = 0 ↔
      (ls.getD 2 0 &&& hdr.DPCD_INTERLANE_ALIGN_DONE ≠ 0 ∧
       ∀ lane, lane < lane_count →
        lane_nibble ls lane &&& hdr.DPCD_CHANNEL_EQ_BITS = hdr.DPCD_CHANNEL_EQ_BITS) := by
  unfold s5p_dp_channel_eq_ok
  simp only []
  split
  · rename_i h
    constructor
    · intro h0; simp [EINVAL] at h0
    · intro hc; exact absurd h hc.1
  · rename_i h
    rw [channel_eq_ok_loop_eq_zero]
    constructor
    · intro hall; exact ⟨h, fun lane hl => by simpa using hall lane hl⟩
    · intro hc k hk; simpa using hc.2 k hk

theorem adjust_request_voltage_eq (buf : List Nat) (lane : Nat) :
    s5p_dp_get_adjust_request_voltage buf lane = lane_nibble buf lane % 4 := by
  unfold s5p_dp_get_adjust_request_voltage lane_nibble
  have h1 : lane &&& 1 = lane % 2 := Nat.and_one_is_mod lane
  have h2 : lane >>> 1 = lane / 2 := by rw [Nat.shiftRight_eq_div_pow]
  have h3 : ∀ x : Nat, x &&& 0x3 = x % 4 := fun x => Nat.and_pow_two_sub_one_eq_mod x 2
  simp only [h1, h2, h3]
  rcases Nat.mod_two_eq_zero_or_one lane with h | h
  · simp [h]; omega
  · simp [h, Nat.shiftRight_eq_div_pow]; omega

theorem and_0xc_shift (x : Nat) : (x &&& 0xc) >>> 2 = x / 4 % 4 := by
  have h : x &&& 0xc = (x % 16) &&& 0xc := by
    rw [← Nat.and_pow_two_sub_one_eq_mod x 4, Nat.and_assoc]; rfl
  have key : ∀ y, y < 16 → (y &&& 0xc) >>> 2 = y / 4 % 4 := by decide
  rw [h, key _ (Nat.mod_lt _ (by decide))]
  omega

theorem adjust_request_pre_emphasis_eq (buf : List Nat) (lane : Nat) :
    s5p_dp_get_adjust_request_pre_emphasis buf lane = lane_nibble buf lane / 4 % 4 := by
  unfold s5p_dp_get_adjust_request_pre_emphasis lane_nibble
  have h1 : lane &&& 1 = lane % 2 := Nat.and_one_is_mod lane
  have h2 : lane >>> 1 = lane / 2 := by rw [Nat.shiftRight_eq_div_pow]
  simp only [h1, h2, and_0xc_shift]
  rcases Nat.mod_two_eq_zero_or_one lane with h | h
  · simp [h]; omega
  · simp [h, Nat.shiftRight_eq_div_pow]; omega


/-- C2: for every 2-byte link status and every lane count in {1,2,4},
`s5p_dp_clock_recovery_ok` returns 0 exactly when every lane below the lane
count has the `DPCD_LANE_CR_DONE` bit set in its status nibble (low nibble of
byte `lane / 2` for an even lane, high nibble for an odd lane), it returns
`-EINVAL` otherwise, and two link statuses that agree on the nibbles of the
active lanes give the same result. -/
theorem clock_recovery_ok_spec (hdr : Hdr) (b0 b1 lane_count : Nat)
    (hlc : lane_count = 1 ∨ lane_count = 2 ∨ lane_count = 4) :
    (s5p_dp_clock_recovery_ok hdr [b0, b1] lane_count = 0 ↔
      ∀ lane, lane < lane_count →
        lane_nibble [b0, b1] lane &&& hdr.DPCD_LANE_CR_DONE ≠ 0) ∧
    (s5p_dp_clock_recovery_ok hdr [b0, b1] lane_count = 0 ∨
      s5p_dp_clock_recovery_ok hdr [b0, b1] lane_count = - EINVAL) ∧
    (∀ c0 c1 : Nat,
      (∀ lane, lane < lane_count → lane_nibble [c0, c1] lane = lane_nibble [b0, b1] lane) →
      s5p_dp_clock_recovery_ok hdr [c0, c1] lane_count =
        s5p_dp_clock_recovery_ok hdr [b0, b1] lane_count) := by
  have _ := hlc
  refine ⟨clock_recovery_ok_eq_zero hdr _ _, clock_recovery_ok_loop_cases hdr _ _ _, ?_⟩
  intro c0 c1 hagree
  have hb := clock_recovery_ok_eq_zero hdr [b0, b1] lane_count
  have hc := clock_recovery_ok_eq_zero hdr [c0, c1] lane_count
  have hiff : s5p_dp_clock_recovery_ok hdr [c0, c1] lane_count = 0 ↔
      s5p_dp_clock_recovery_ok hdr [b0, b1] lane_count = 0 := by
    rw [hb, hc]
    constructor
    · intro h lane hl; rw [← hagree lane hl]; exact h lane hl
    · intro h lane hl; rw [hagree lane hl]; exact h lane hl
  have hne : (- EINVAL : Int) ≠ 0 := by decide
  rcases clock_recovery_ok_loop_cases hdr [b0, b1] lane_count 0 with h1 | h1 <;>
    rcases clock_recovery_ok_loop_cases hdr [c0, c1] lane_count 0 with h2 | h2
  · unfold s5p_dp_clock_recovery_ok; rw [h1, h2]
  · exact absurd (h2 ▸ hiff.mpr h1) hne
  · exact absurd (h1 ▸ hiff.mp h2) hne
  · unfold s5p_dp_clock_recovery_ok; rw [h1, h2]

/-- Witness of C2: two lanes, lane 0 without CR_DONE (status byte 0x10). -/
theorem clock_recovery_ok_spec_witness :
    ((2 : Nat) = 1 ∨ (2 : Nat) = 2 ∨ (2 : Nat) = 4) ∧
    s5p_dp_clock_recovery_ok stdHdr [0x10, 0x00] 2 = - EINVAL ∧
    ((s5p_dp_clock_recovery_ok stdHdr [0x10, 0x00] 2 = 0 ↔
      ∀ lane, lane < 2 →
        lane_nibble [0x10, 0x00] lane &&& stdHdr.DPCD_LANE_CR_DONE ≠ 0)) :=
  ⟨by decide, by decide, (clock_recovery_ok_spec stdHdr 0x10 0x00 2 (by decide)).1⟩

/-- C3: for every 3-byte input (two lane-status bytes and the align byte) and
every lane count in {1,2,4}, `s5p_dp_channel_eq_ok` returns 0 exactly when the
align byte has `DPCD_INTERLANE_ALIGN_DONE` set and every lane below the lane
count has all of `DPCD_CHANNEL_EQ_BITS` set in its status nibble; an input
whose lanes all have their EQ bits set but whose align bit is clear is
rejected with `-EINVAL`. -/
theorem channel_eq_ok_spec (hdr : Hdr) (b0 b1 align lane_count : Nat)
    (hlc : lane_count = 1 ∨ lane_count = 2 ∨ lane_count = 4) :
    (s5p_dp_channel_eq_ok hdr [b0, b1, align] lane_count = 0 ↔
      (align &&& hdr.DPCD_INTERLANE_ALIGN_DONE ≠ 0 ∧
        ∀ lane, lane < lane_count →
          lane_nibble [b0, b1, align] lane &&& hdr.DPCD_CHANNEL_EQ_BITS
            = hdr.DPCD_CHANNEL_EQ_BITS)) ∧
    ((∀ lane, lane < lane_count →
        lane_nibble [b0, b1, align] lane &&& hdr.DPCD_CHANNEL_EQ_BITS
          = hdr.DPCD_CHANNEL_EQ_BITS) →
      align &&& hdr.DPCD_INTERLANE_ALIGN_DONE = 0 →
      s5p_dp_channel_eq_ok hdr [b0, b1, align] lane_count = - EINVAL) := by
  have _ := hlc
  constructor
  · have h := channel_eq_ok_eq_zero hdr [b0, b1, align] lane_count
    simpa using h
  · intro _ halign
    unfold s5p_dp_channel_eq_ok
    simp [halign]

/-- Witness of C3: four lanes with all EQ bits set (0x77, 0x77) and the
align bit clear. -/
theorem channel_eq_ok_spec_witness :
    ((4 : Nat) = 1 ∨ (4 : Nat) = 2 ∨ (4 : Nat) = 4) ∧
    s5p_dp_channel_eq_ok stdHdr [0x77, 0x77, 0x00] 4 = - EINVAL ∧
    s5p_dp_channel_eq_ok stdHdr [0x77, 0x77, 0x01] 4 = 0 ∧
    (s5p_dp_channel_eq_ok stdHdr [0x77, 0x77, 0x00] 4 = 0 ↔
      (0x00 &&& stdHdr.DPCD_INTERLANE_ALIGN_DONE ≠ 0 ∧
        ∀ lane, lane < 4 →
          lane_nibble [0x77, 0x77, 0x00] lane &&& stdHdr.DPCD_CHANNEL_EQ_BITS
            = stdHdr.DPCD_CHANNEL_EQ_BITS)) :=
  ⟨by decide, by decide, by decide, (channel_eq_ok_spec stdHdr 0x77 0x77 0x00 4 (by decide)).1⟩

/-- C10: for every 2-byte adjustment request and every lane in 0..3,
`s5p_dp_get_adjust_request_voltage` returns bits 0-1 and
`s5p_dp_get_adjust_request_pre_emphasis` returns bits 2-3 of the lane's
nibble (low nibble of byte `lane / 2` for an even lane, high nibble for an odd
lane); both results are below 4, and they are the same for any other request
with the same nibble for that lane. -/
theorem adjust_request_decode (b0 b1 lane : Nat) (hlane : lane < 4) :
    s5p_dp_get_adjust_request_voltage [b0, b1] lane = lane_nibble [b0, b1] lane % 4 ∧
    s5p_dp_get_adjust_request_pre_emphasis [b0, b1] lane = lane_nibble [b0, b1] lane / 4 % 4 ∧
    s5p_dp_get_adjust_request_voltage [b0, b1] lane < 4 ∧
    s5p_dp_get_adjust_request_pre_emphasis [b0, b1] lane < 4 ∧
    (∀ c0 c1 : Nat, lane_nibble [c0, c1] lane = lane_nibble [b0, b1] lane →
      s5p_dp_get_adjust_request_voltage [c0, c1] lane =
        s5p_dp_get_adjust_request_voltage [b0, b1] lane ∧
      s5p_dp_get_adjust_request_pre_emphasis [c0, c1] lane =
        s5p_dp_get_adjust_request_pre_emphasis [b0, b1] lane) := by
  have _ := hlane
  refine ⟨adjust_request_voltage_eq _ _, adjust_request_pre_emphasis_eq _ _, ?_, ?_, ?_⟩
  · rw [adjust_request_voltage_eq]; exact Nat.mod_lt _ (by decide)
  · rw [adjust_request_pre_emphasis_eq]; exact Nat.mod_lt _ (by decide)
  · intro c0 c1 h
    simp only [adjust_request_voltage_eq, adjust_request_pre_emphasis_eq, h, and_self]

/-- Witness of C10: lane 3 of the request bytes 0x21, 0x94 has nibble 0x9:
swing 1, pre-emphasis 2. -/
theorem adjust_request_decode_witness :
    (3 : Nat) < 4 ∧
    s5p_dp_get_adjust_request_voltage [0x21, 0x94] 3 = 1 ∧
    s5p_dp_get_adjust_request_pre_emphasis [0x21, 0x94] 3 = 2 ∧
    s5p_dp_get_adjust_request_voltage [0x21, 0x94] 3 = lane_nibble [0x21, 0x94] 3 % 4 :=
  ⟨by decide, by decide, by decide, (adjust_request_decode 0x21 0x94 3 (by decide)).1⟩



/-! ## What the register-level helpers and the lane loops leave alone -/

theorem Keeps.refl (dp : Dev) : Keeps dp dp := ⟨rfl, rfl, rfl, fun _ => rfl⟩

theorem Keeps.trans {a b c : Dev} (h1 : Keeps a b) (h2 : Keeps b c) : Keeps a c :=
  ⟨h2.1.trans h1.1, h2.2.1.trans h1.2.1, h2.2.2.1.trans h1.2.2.1,
    fun fn => (h2.2.2.2 fn).trans (h1.2.2.2 fn)⟩

theorem calls_append_singleton (fn : Fn) (log : List Event) (e : Event) :
    calls fn (log ++ [e]) = calls fn log + if e = Event.call fn then 1 else 0 := by
  unfold calls
  rw [List.count_append, List.count_singleton]
  by_cases h : e = Event.call fn
  · simp [h]
  · have h' : ¬ (Event.call fn = e) := fun h2 => h h2.symm
    simp [h, h']

theorem keeps_read_bytes (env : Env) (addr : DpcdAddr) (count : Nat) (dp : Dev) :
    Keeps dp (s5p_dp_read_bytes_from_dpcd env addr count dp).2.2 := by
  simp [Keeps, s5p_dp_read_bytes_from_dpcd, calls_append_singleton]

theorem keeps_read_byte (env : Env) (addr : DpcdAddr) (dp : Dev) :
    Keeps dp (s5p_dp_read_byte_from_dpcd env addr dp).2.2 := by
  simp [Keeps, s5p_dp_read_byte_from_dpcd, calls_append_singleton]

theorem keeps_write_byte (env : Env) (addr : DpcdAddr) (data : Nat) (dp : Dev) :
    Keeps dp (s5p_dp_write_byte_to_dpcd env addr data dp).2 := by
  simp [Keeps, s5p_dp_write_byte_to_dpcd, calls_append_singleton]

theorem keeps_write_bytes (env : Env) (addr : DpcdAddr) (data : List Nat) (dp : Dev) :
    Keeps dp (s5p_dp_write_bytes_to_dpcd env addr data dp).2 := by
  simp [Keeps, s5p_dp_write_bytes_to_dpcd, calls_append_singleton]

theorem keeps_set_training_pattern (p : PatternSet) (dp : Dev) :
    Keeps dp (s5p_dp_set_training_pattern p dp) := by
  simp [Keeps, s5p_dp_set_training_pattern, emit, calls_append_singleton]

theorem keeps_set_link_bandwidth (bw : Nat) (dp : Dev) :
    Keeps dp (s5p_dp_set_link_bandwidth bw dp) := by
  simp [Keeps, s5p_dp_set_link_bandwidth, emit, calls_append_singleton]

theorem keeps_set_lane_count (c : Nat) (dp : Dev) :
    Keeps dp (s5p_dp_set_lane_count c dp) := by
  simp [Keeps, s5p_dp_set_lane_count, emit, calls_append_singleton]

theorem keeps_udelay (us : Nat) (dp : Dev) : Keeps dp (emit (Event.udelay us) dp) := by
  simp [Keeps, emit, calls_append_singleton]

theorem keeps_set_lane_link_training (v lane : Nat) (dp : Dev) :
    Keeps dp (s5p_dp_set_lane_link_training v lane dp) := by
  unfold s5p_dp_set_lane_link_training
  split <;> simp [Keeps, s5p_dp_set_laneN_link_training, emit, calls_append_singleton]

theorem keeps_set_lane_lane_pre_emphasis (env : Env) (v lane : Nat) (dp : Dev) :
    Keeps dp (s5p_dp_set_lane_lane_pre_emphasis env v lane dp) := by
  unfold s5p_dp_set_lane_lane_pre_emphasis
  split <;> simp [Keeps, s5p_dp_set_laneN_pre_emphasis, emit, calls_append_singleton]

theorem keeps_set_training_lane (lane v : Nat) (dp : Dev) :
    Keeps dp (set_training_lane lane v dp) := by
  simp [Keeps, set_training_lane]

theorem keeps_foldl (f : Dev → Nat → Dev) (hf : ∀ dp lane, Keeps dp (f dp lane))
    (l : List Nat) (dp : Dev) : Keeps dp (l.foldl f dp) := by
  induction l generalizing dp with
  | nil => exact Keeps.refl dp
  | cons a l ih => exact Keeps.trans (hf dp a) (ih (f dp a))

theorem keeps_reset_cr_loop (n : Nat) (dp : Dev) : Keeps dp (reset_cr_loop n dp) := by
  unfold reset_cr_loop
  apply keeps_foldl
  intro dp lane
  simp [Keeps]

theorem keeps_set_lanes_pre_emphasis (env : Env) (n : Nat) (dp : Dev) :
    Keeps dp (set_lanes_pre_emphasis env n dp) := by
  unfold set_lanes_pre_emphasis
  apply keeps_foldl
  intro dp lane
  exact keeps_set_lane_lane_pre_emphasis env _ lane dp

theorem keeps_set_lanes_link_training (n : Nat) (dp : Dev) :
    Keeps dp (set_lanes_link_training n dp) := by
  unfold set_lanes_link_training
  apply keeps_foldl
  intro dp lane
  exact keeps_set_lane_link_training _ lane dp

theorem keeps_training_pattern_dis (hdr : Hdr) (env : Env) (dp : Dev) :
    Keeps dp (s5p_dp_training_pattern_dis hdr env dp).2 := by
  unfold s5p_dp_training_pattern_dis
  have h := Keeps.trans (keeps_set_training_pattern PatternSet.DP_NONE dp)
    (keeps_write_byte env DpcdAddr.TRAINING_PATTERN_SET hdr.DPCD_TRAINING_PATTERN_DISABLED
      (s5p_dp_set_training_pattern PatternSet.DP_NONE dp))
  simp only []
  split <;> exact h

theorem keeps_apply_training_lane (hdr : Hdr) (v p lane : Nat) (dp : Dev) :
    Keeps dp (apply_training_lane hdr v p lane dp) :=
  Keeps.trans (keeps_set_training_lane _ _ _) (keeps_set_lane_link_training _ _ _)

theorem keeps_incr_cr_loop (lane : Nat) (dp : Dev) : Keeps dp (incr_cr_loop lane dp) := by
  simp [Keeps, incr_cr_loop]

theorem keeps_cr_done_lanes (hdr : Hdr) (env : Env) (n lane : Nat) (dp : Dev) :
    Keeps dp (cr_done_lanes hdr env n lane dp).dev := by
  induction n generalizing lane dp with
  | zero => exact Keeps.refl dp
  | succ n ih =>
    simp only [cr_done_lanes]
    have h1 := keeps_read_bytes env DpcdAddr.ADJUST_REQUEST_LANE0_1 2 dp
    split
    · exact h1
    · exact Keeps.trans h1 (Keeps.trans (keeps_apply_training_lane _ _ _ _ _) (ih _ _))

theorem keeps_eq_adjust_lanes (hdr : Hdr) (env : Env) (n lane : Nat) (dp : Dev) :
    Keeps dp (eq_adjust_lanes hdr env n lane dp).dev := by
  induction n generalizing lane dp with
  | zero => exact Keeps.refl dp
  | succ n ih =>
    simp only [eq_adjust_lanes]
    have h1 := keeps_read_bytes env DpcdAddr.ADJUST_REQUEST_LANE0_1 2 dp
    split
    · exact h1
    · exact Keeps.trans h1 (Keeps.trans (keeps_set_training_lane _ _ _) (ih _ _))

theorem keeps_cr_retry_lanes (hdr : Hdr) (env : Env) (n lane : Nat) (dp : Dev) :
    Keeps dp (cr_retry_lanes hdr env n lane dp).dev := by
  induction n generalizing lane dp with
  | zero => exact Keeps.refl dp
  | succ n ih =>
    simp only [cr_retry_lanes]
    have h1 := keeps_read_bytes env DpcdAddr.ADJUST_REQUEST_LANE0_1 2 dp
    split
    · exact h1
    · split
      · exact h1
      · split
        · split
          · exact Keeps.trans h1 (keeps_incr_cr_loop _ _)
          · exact Keeps.trans h1 (Keeps.trans (keeps_incr_cr_loop _ _)
              (Keeps.trans (keeps_apply_training_lane _ _ _ _ _) (ih _ _)))
        · exact Keeps.trans h1 (Keeps.trans (keeps_apply_training_lane _ _ _ _ _) (ih _ _))

/-! ## Training-state transitions of the engine functions -/

theorem reduce_link_rate_state (hdr : Hdr) (env : Env) (dp : Dev) :
    (s5p_dp_reduce_link_rate hdr env dp).link_train.lt_state = LtState.FAILED := by
  simp [s5p_dp_reduce_link_rate, set_lt_state]

theorem reduce_link_rate_eq_loop (hdr : Hdr) (env : Env) (dp : Dev) :
    (s5p_dp_reduce_link_rate hdr env dp).link_train.eq_loop = dp.link_train.eq_loop := by
  have h := keeps_training_pattern_dis hdr env (emit (Event.call Fn.reduce_link_rate) dp)
  simpa [s5p_dp_reduce_link_rate, set_lt_state, emit] using h.2.1

theorem reduce_link_rate_calls (hdr : Hdr) (env : Env) (dp : Dev) (fn : Fn) :
    calls fn (s5p_dp_reduce_link_rate hdr env dp).log =
      calls fn dp.log + if Fn.reduce_link_rate = fn then 1 else 0 := by
  have h := keeps_training_pattern_dis hdr env (emit (Event.call Fn.reduce_link_rate) dp)
  have h2 := h.2.2.2 fn
  simp only [s5p_dp_reduce_link_rate, set_lt_state]
  rw [h2]
  simp [emit, calls_append_singleton]

/-! ## Field-by-field effect of the helpers -/

@[simp]
theorem emit_link_train (e : Event) (dp : Dev) :
    (emit e dp).link_train = dp.link_train := rfl
@[simp]
theorem emit_tick (e : Event) (dp : Dev) : (emit e dp).tick = dp.tick := rfl
@[simp]
theorem emit_ctl (e : Event) (dp : Dev) :
    (emit e dp).ln_link_training_ctl = dp.ln_link_training_ctl := rfl
@[simp]
theorem emit_log (e : Event) (dp : Dev) : (emit e dp).log = dp.log ++ [e] := rfl

@[simp]
theorem read_bytes_ret (env : Env) (addr : DpcdAddr) (count : Nat) (dp : Dev) :
    (s5p_dp_read_bytes_from_dpcd env addr count dp).1 = (env.aux dp.tick addr).ret := rfl
@[simp]
theorem read_bytes_buf (env : Env) (addr : DpcdAddr) (dp : Dev) :
    (s5p_dp_read_bytes_from_dpcd env addr 2 dp).2.1 =
      [(env.aux dp.tick addr).data 0 % 256, (env.aux dp.tick addr).data 1 % 256] := rfl
@[simp]
theorem read_bytes_link_train (env : Env) (addr : DpcdAddr) (count : Nat) (dp : Dev) :
    (s5p_dp_read_bytes_from_dpcd env addr count dp).2.2.link_train = dp.link_train := rfl
@[simp]
theorem read_bytes_tick (env : Env) (addr : DpcdAddr) (count : Nat) (dp : Dev) :
    (s5p_dp_read_bytes_from_dpcd env addr count dp).2.2.tick = dp.tick + 1 := rfl
@[simp]
theorem read_bytes_ctl (env : Env) (addr : DpcdAddr) (count : Nat) (dp : Dev) :
    (s5p_dp_read_bytes_from_dpcd env addr count dp).2.2.ln_link_training_ctl =
      dp.ln_link_training_ctl := rfl

@[simp]
theorem read_byte_ret (env : Env) (addr : DpcdAddr) (dp : Dev) :
    (s5p_dp_read_byte_from_dpcd env addr dp).1 = (env.aux dp.tick addr).ret := rfl
@[simp]
theorem read_byte_val (env : Env) (addr : DpcdAddr) (dp : Dev) :
    (s5p_dp_read_byte_from_dpcd env addr dp).2.1 = (env.aux dp.tick addr).data 0 % 256 := rfl
@[simp]
theorem read_byte_link_train (env : Env) (addr : DpcdAddr) (dp : Dev) :
    (s5p_dp_read_byte_from_dpcd env addr dp).2.2.link_train = dp.link_train := rfl
@[simp]
theorem read_byte_tick (env : Env) (addr : DpcdAddr) (dp : Dev) :
    (s5p_dp_read_byte_from_dpcd env addr dp).2.2.tick = dp.tick + 1 := rfl
@[simp]
theorem read_byte_ctl (env : Env) (addr : DpcdAddr) (dp : Dev) :
    (s5p_dp_read_byte_from_dpcd env addr dp).2.2.ln_link_training_ctl =
      dp.ln_link_training_ctl := rfl

@[simp]
theorem write_byte_ret (env : Env) (addr : DpcdAddr) (data : Nat) (dp : Dev) :
    (s5p_dp_write_byte_to_dpcd env addr data dp).1 = (env.aux dp.tick addr).ret := rfl
@[simp]
theorem write_byte_link_train (env : Env) (addr : DpcdAddr) (data : Nat) (dp : Dev) :
    (s5p_dp_write_byte_to_dpcd env addr data dp).2.link_train = dp.link_train := rfl
@[simp]
theorem write_byte_tick (env : Env) (addr : DpcdAddr) (data : Nat) (dp : Dev) :
    (s5p_dp_write_byte_to_dpcd env addr data dp).2.tick = dp.tick + 1 := rfl
@[simp]
theorem write_byte_ctl (env : Env) (addr : DpcdAddr) (data : Nat) (dp : Dev) :
    (s5p_dp_write_byte_to_dpcd env addr data dp).2.ln_link_training_ctl =
      dp.ln_link_training_ctl := rfl

@[simp]
theorem write_bytes_ret (env : Env) (addr : DpcdAddr) (data : List Nat) (dp : Dev) :
    (s5p_dp_write_bytes_to_dpcd env addr data dp).1 = (env.aux dp.tick addr).ret := rfl
@[simp]
theorem write_bytes_link_train (env : Env) (addr : DpcdAddr) (data : List Nat)
    (dp : Dev) : (s5p_dp_write_bytes_to_dpcd env addr data dp).2.link_train = dp.link_train := rfl
@[simp]
theorem write_bytes_ctl (env : Env) (addr : DpcdAddr) (data : List Nat) (dp : Dev) :
    (s5p_dp_write_bytes_to_dpcd env addr data dp).2.ln_link_training_ctl =
      dp.ln_link_training_ctl := rfl

@[simp]
theorem set_training_pattern_link_train (p : PatternSet) (dp : Dev) :
    (s5p_dp_set_training_pattern p dp).link_train = dp.link_train := rfl
@[simp]
theorem set_training_pattern_tick (p : PatternSet) (dp : Dev) :
    (s5p_dp_set_training_pattern p dp).tick = dp.tick := rfl
@[simp]
theorem set_training_pattern_ctl (p : PatternSet) (dp : Dev) :
    (s5p_dp_set_training_pattern p dp).ln_link_training_ctl = dp.ln_link_training_ctl := rfl

@[simp]
theorem set_link_bandwidth_link_train (bw : Nat) (dp : Dev) :
    (s5p_dp_set_link_bandwidth bw dp).link_train = dp.link_train := rfl
@[simp]
theorem set_link_bandwidth_tick (bw : Nat) (dp : Dev) :
    (s5p_dp_set_link_bandwidth bw dp).tick = dp.tick := rfl
@[simp]
theorem set_link_bandwidth_ctl (bw : Nat) (dp : Dev) :
    (s5p_dp_set_link_bandwidth bw dp).ln_link_training_ctl = dp.ln_link_training_ctl := rfl

@[simp]
theorem set_lane_count_link_train (c : Nat) (dp : Dev) :
    (s5p_dp_set_lane_count c dp).link_train = dp.link_train := rfl
@[simp]
theorem set_lane_count_tick (c : Nat) (dp : Dev) :
    (s5p_dp_set_lane_count c dp).tick = dp.tick := rfl
@[simp]
theorem set_lane_count_ctl (c : Nat) (dp : Dev) :
    (s5p_dp_set_lane_count c dp).ln_link_training_ctl = dp.ln_link_training_ctl := rfl

@[simp]
theorem set_lane_link_training_link_train (v lane : Nat) (dp : Dev) :
    (s5p_dp_set_lane_link_training v lane dp).link_train = dp.link_train := by
  unfold s5p_dp_set_lane_link_training; split <;> rfl
@[simp]
theorem set_lane_link_training_tick (v lane : Nat) (dp : Dev) :
    (s5p_dp_set_lane_link_training v lane dp).tick = dp.tick := by
  unfold s5p_dp_set_lane_link_training; split <;> rfl
theorem set_lane_link_training_ctl (v lane : Nat) (dp : Dev) (h : lane < 4) :
    (s5p_dp_set_lane_link_training v lane dp).ln_link_training_ctl =
      Function.update dp.ln_link_training_ctl lane (v % 256) := by
  unfold s5p_dp_set_lane_link_training; rw [if_pos h]; rfl

@[simp]
theorem set_lane_lane_pre_emphasis_link_train (env : Env) (v lane : Nat) (dp : Dev) :
    (s5p_dp_set_lane_lane_pre_emphasis env v lane dp).link_train = dp.link_train := by
  unfold s5p_dp_set_lane_lane_pre_emphasis; split <;> rfl
@[simp]
theorem set_lane_lane_pre_emphasis_tick (env : Env) (v lane : Nat) (dp : Dev) :
    (s5p_dp_set_lane_lane_pre_emphasis env v lane dp).tick = dp.tick := by
  unfold s5p_dp_set_lane_lane_pre_emphasis; split <;> rfl
theorem set_lane_lane_pre_emphasis_ctl (env : Env) (v lane : Nat) (dp : Dev) (h : lane < 4) :
    (s5p_dp_set_lane_lane_pre_emphasis env v lane dp).ln_link_training_ctl =
      Function.update dp.ln_link_training_ctl lane
        (env.pre_emphasis_ctl (dp.ln_link_training_ctl lane) v) := by
  unfold s5p_dp_set_lane_lane_pre_emphasis; rw [if_pos h]; rfl

@[simp]
theorem set_lt_state_tick (s : LtState) (dp : Dev) :
    (set_lt_state s dp).tick = dp.tick := rfl
@[simp]
theorem set_lt_state_ctl (s : LtState) (dp : Dev) :
    (set_lt_state s dp).ln_link_training_ctl = dp.ln_link_training_ctl := rfl
@[simp]
theorem set_lt_state_log (s : LtState) (dp : Dev) :
    (set_lt_state s dp).log = dp.log := rfl
@[simp]
theorem set_lt_state_state (s : LtState) (dp : Dev) :
    (set_lt_state s dp).link_train.lt_state = s := rfl
@[simp]
theorem set_lt_state_eq_loop (s : LtState) (dp : Dev) :
    (set_lt_state s dp).link_train.eq_loop = dp.link_train.eq_loop := rfl
@[simp]
theorem set_lt_state_cr_loop (s : LtState) (dp : Dev) :
    (set_lt_state s dp).link_train.cr_loop = dp.link_train.cr_loop := rfl
@[simp]
theorem set_lt_state_lane_count (s : LtState) (dp : Dev) :
    (set_lt_state s dp).link_train.lane_count = dp.link_train.lane_count := rfl
@[simp]
theorem set_lt_state_training_lane (s : LtState) (dp : Dev) :
    (set_lt_state s dp).link_train.training_lane = dp.link_train.training_lane := rfl

@[simp]
theorem read_bytes_log (env : Env) (addr : DpcdAddr) (count : Nat) (dp : Dev) :
    (s5p_dp_read_bytes_from_dpcd env addr count dp).2.2.log =
      dp.log ++ [Event.dpcd_read addr count (env.aux dp.tick addr).ret] := rfl
@[simp]
theorem read_byte_log (env : Env) (addr : DpcdAddr) (dp : Dev) :
    (s5p_dp_read_byte_from_dpcd env addr dp).2.2.log =
      dp.log ++ [Event.dpcd_read addr 1 (env.aux dp.tick addr).ret] := rfl
@[simp]
theorem write_byte_log (env : Env) (addr : DpcdAddr) (data : Nat) (dp : Dev) :
    (s5p_dp_write_byte_to_dpcd env addr data dp).2.log =
      dp.log ++ [Event.dpcd_write addr [data % 256] (env.aux dp.tick addr).ret] := rfl
@[simp]
theorem write_bytes_log (env : Env) (addr : DpcdAddr) (data : List Nat) (dp : Dev) :
    (s5p_dp_write_bytes_to_dpcd env addr data dp).2.log =
      dp.log ++ [Event.dpcd_write addr data (env.aux dp.tick addr).ret] := rfl
@[simp]
theorem set_training_pattern_log (p : PatternSet) (dp : Dev) :
    (s5p_dp_set_training_pattern p dp).log = dp.log ++ [Event.set_training_pattern p] := rfl
@[simp]
theorem set_link_bandwidth_log (bw : Nat) (dp : Dev) :
    (s5p_dp_set_link_bandwidth bw dp).log = dp.log ++ [Event.set_link_bandwidth bw] := rfl
@[simp]
theorem set_lane_count_log (c : Nat) (dp : Dev) :
    (s5p_dp_set_lane_count c dp).log = dp.log ++ [Event.set_lane_count c] := rfl

@[simp]
theorem calls_set_lanes_pre_emphasis (env : Env) (n : Nat) (dp : Dev) (fn : Fn) :
    calls fn (set_lanes_pre_emphasis env n dp).log = calls fn dp.log :=
  (keeps_set_lanes_pre_emphasis env n dp).2.2.2 fn

@[simp]
theorem calls_set_lanes_link_training (n : Nat) (dp : Dev) (fn : Fn) :
    calls fn (set_lanes_link_training n dp).log = calls fn dp.log :=
  (keeps_set_lanes_link_training n dp).2.2.2 fn

theorem calls_append (fn : Fn) (l1 l2 : List Event) :
    calls fn (l1 ++ l2) = calls fn l1 + calls fn l2 := by
  unfold calls; exact List.count_append _ _ _

theorem calls_nil (fn : Fn) : calls fn [] = 0 := rfl

theorem calls_cons (fn : Fn) (e : Event) (l : List Event) :
    calls fn (e :: l) = (if e = Event.call fn then 1 else 0) + calls fn l := by
  unfold calls
  rw [List.count_cons]
  by_cases h : e = Event.call fn
  · simp [h, Nat.add_comm]
  · simp [h, Nat.add_comm]

theorem calls_emit_call (fn g : Fn) (dp : Dev) :
    calls fn (dp.log ++ [Event.call g]) = calls fn dp.log + if g = fn then 1 else 0 := by
  simp [calls_append, calls_cons, calls_nil]

/-- Closed form of the counter-reset loop of `s5p_dp_link_start`. -/
theorem reset_cr_loop_eq (n : Nat) (dp : Dev) :
    reset_cr_loop n dp = { dp with link_train := { dp.link_train with
      cr_loop := fun l => if l < n then 0 else dp.link_train.cr_loop l } } := by
  induction n with
  | zero => simp [reset_cr_loop]
  | succ n ih =>
    unfold reset_cr_loop at ih ⊢
    rw [List.range_succ, List.foldl_append, ih]
    simp only [List.foldl_cons, List.foldl_nil]
    congr 2
    funext l
    by_cases h : l = n
    · subst h; simp
    · simp only [Function.update_noteq h]
      by_cases h2 : l < n
      · simp [h2, Nat.lt_succ_of_lt h2]
      · have : ¬ l < n + 1 := by omega
        simp [h2, this]

theorem foldl_link_train (f : Dev → Nat → Dev)
    (hf : ∀ dp lane, (f dp lane).link_train = dp.link_train ∧ (f dp lane).tick = dp.tick)
    (l : List Nat) (dp : Dev) :
    (l.foldl f dp).link_train = dp.link_train ∧ (l.foldl f dp).tick = dp.tick := by
  induction l generalizing dp with
  | nil => exact ⟨rfl, rfl⟩
  | cons a l ih =>
    simp only [List.foldl_cons]
    exact ⟨(ih _).1.trans (hf dp a).1, (ih _).2.trans (hf dp a).2⟩

@[simp]
theorem set_lanes_pre_emphasis_link_train (env : Env) (n : Nat) (dp : Dev) :
    (set_lanes_pre_emphasis env n dp).link_train = dp.link_train :=
  (foldl_link_train _ (fun _ _ => ⟨by simp, by simp⟩) _ dp).1

@[simp]
theorem set_lanes_pre_emphasis_tick (env : Env) (n : Nat) (dp : Dev) :
    (set_lanes_pre_emphasis env n dp).tick = dp.tick :=
  (foldl_link_train _ (fun _ _ => ⟨by simp, by simp⟩) _ dp).2

@[simp]
theorem set_lanes_link_training_link_train (n : Nat) (dp : Dev) :
    (set_lanes_link_training n dp).link_train = dp.link_train :=
  (foldl_link_train _ (fun _ _ => ⟨by simp, by simp⟩) _ dp).1

@[simp]
theorem set_lanes_link_training_tick (n : Nat) (dp : Dev) :
    (set_lanes_link_training n dp).tick = dp.tick :=
  (foldl_link_train _ (fun _ _ => ⟨by simp, by simp⟩) _ dp).2

/-- After `s5p_dp_link_start` the state is CLOCK_RECOVERY, `eq_loop` is 0
and the retry counters of the active lanes are 0, whatever the AUX channel
answers. -/
theorem link_start_link_train (hdr : Hdr) (env : Env) (dp : Dev) :
    (s5p_dp_link_start hdr env dp).2.link_train =
      { dp.link_train with
        lt_state := LtState.CLOCK_RECOVERY
        eq_loop := 0
        cr_loop := fun l => if l < dp.link_train.lane_count then 0 else dp.link_train.cr_loop l } := by
  unfold s5p_dp_link_start
  simp only [reset_cr_loop_eq]
  split_ifs <;> simp [set_lt_state]

theorem link_start_calls (hdr : Hdr) (env : Env) (dp : Dev) (fn : Fn) :
    calls fn (s5p_dp_link_start hdr env dp).2.log =
      calls fn dp.log + if Fn.link_start = fn then 1 else 0 := by
  unfold s5p_dp_link_start
  simp only [reset_cr_loop_eq]
  split_ifs <;> simp [*, set_lt_state, calls_append, calls_cons, calls_nil]


/-- Outcomes of one clock-recovery poll for any answers of the AUX channel:
apart from the recorded entry of the function, the poll leaves state,
`eq_loop` and lane count alone, or it moves to EQUALIZER_TRAINING with return
value 0, or it goes through `s5p_dp_reduce_link_rate` with return value
`-EIO`. -/
theorem process_clock_recovery_cases (hdr : Hdr) (env : Env) (dp : Dev) :
    Keeps (emit (Event.call Fn.process_clock_recovery) dp)
        (s5p_dp_process_clock_recovery hdr env dp).2 ∨
    (∃ dX, Keeps (emit (Event.call Fn.process_clock_recovery) dp) dX ∧
      s5p_dp_process_clock_recovery hdr env dp = (0, set_lt_state LtState.EQUALIZER_TRAINING dX)) ∨
    (∃ dX, Keeps (emit (Event.call Fn.process_clock_recovery) dp) dX ∧
      s5p_dp_process_clock_recovery hdr env dp = (- EIO, s5p_dp_reduce_link_rate hdr env dX)) := by
  unfold s5p_dp_process_clock_recovery
  generalize emit (Event.call Fn.process_clock_recovery) dp = d0
  have k1 : Keeps d0 (s5p_dp_read_bytes_from_dpcd env DpcdAddr.LANE0_1_STATUS 2
      (emit (Event.udelay 100) d0)).2.2 :=
    Keeps.trans (keeps_udelay 100 d0) (keeps_read_bytes _ _ _ _)
  simp only []
  generalize (s5p_dp_read_bytes_from_dpcd env DpcdAddr.LANE0_1_STATUS 2
      (emit (Event.udelay 100) d0)) = rd at k1 ⊢
  obtain ⟨rv, buf, d1⟩ := rd
  simp only [] at k1 ⊢
  split
  · exact Or.inl k1
  · split
    · have k2 : Keeps d0 (s5p_dp_set_training_pattern PatternSet.TRAINING_PTN2 d1) :=
        Keeps.trans k1 (keeps_set_training_pattern _ _)
      have k3 := keeps_cr_done_lanes hdr env (emit (Event.udelay 100) d0).link_train.lane_count 0
        (s5p_dp_set_training_pattern PatternSet.TRAINING_PTN2 d1)
      split
      · rename_i r dX heq
        rw [heq] at k3
        exact Or.inl (Keeps.trans k2 k3)
      · rename_i dX heq
        rw [heq] at k3
        exact Or.inr (Or.inr ⟨dX, Keeps.trans k2 k3, rfl⟩)
      · rename_i dX heq
        rw [heq] at k3
        have k4 : Keeps d0 dX := Keeps.trans k2 k3
        have k5 := Keeps.trans k4 (keeps_write_byte env DpcdAddr.TRAINING_PATTERN_SET
          (hdr.DPCD_SCRAMBLING_DISABLED ||| hdr.DPCD_TRAINING_PATTERN_2) dX)
        split
        · exact Or.inl k5
        · have k6 := Keeps.trans k5 (keeps_write_bytes env DpcdAddr.TRAINING_LANE0_SET
            (training_lane_buf (s5p_dp_write_byte_to_dpcd env DpcdAddr.TRAINING_PATTERN_SET
              (hdr.DPCD_SCRAMBLING_DISABLED ||| hdr.DPCD_TRAINING_PATTERN_2) dX).2
              (emit (Event.udelay 100) d0).link_train.lane_count)
            (s5p_dp_write_byte_to_dpcd env DpcdAddr.TRAINING_PATTERN_SET
              (hdr.DPCD_SCRAMBLING_DISABLED ||| hdr.DPCD_TRAINING_PATTERN_2) dX).2)
          split
          · exact Or.inl k6
          · exact Or.inr (Or.inl ⟨_, k6, rfl⟩)
    · have k3 := keeps_cr_retry_lanes hdr env (emit (Event.udelay 100) d0).link_train.lane_count 0 d1
      split
      · rename_i r dX heq
        rw [heq] at k3
        exact Or.inl (Keeps.trans k1 k3)
      · rename_i dX heq
        rw [heq] at k3
        exact Or.inr (Or.inr ⟨dX, Keeps.trans k1 k3, rfl⟩)
      · rename_i dX heq
        rw [heq] at k3
        have k4 : Keeps d0 dX := Keeps.trans k1 k3
        have k5 := Keeps.trans k4 (keeps_write_bytes env DpcdAddr.TRAINING_LANE0_SET
          (training_lane_buf dX (emit (Event.udelay 100) d0).link_train.lane_count) dX)
        split
        · exact Or.inl k5
        · exact Or.inl k5


theorem eq_adjust_lanes_flow (hdr : Hdr) (env : Env) (n lane : Nat) (dp : Dev) :
    (∀ r dX, eq_adjust_lanes hdr env n lane dp = Flow.ret r dX →
      r < 0 ∧ ∃ k a, (env.aux k a).ret = r) ∧
    (∀ dX, eq_adjust_lanes hdr env n lane dp ≠ Flow.reduce dX) := by
  induction n generalizing lane dp with
  | zero => simp [eq_adjust_lanes]
  | succ n ih =>
    simp only [eq_adjust_lanes]
    split
    · rename_i h
      refine ⟨?_, by simp⟩
      intro r dX heq
      simp only [Flow.ret.injEq] at heq
      rw [← heq.1]
      exact ⟨h, _, _, rfl⟩
    · exact ih _ _

theorem cr_retry_lanes_flow (hdr : Hdr) (env : Env) (n lane : Nat) (dp : Dev) :
    ∀ r dX, cr_retry_lanes hdr env n lane dp = Flow.ret r dX →
      r < 0 ∧ ∃ k a, (env.aux k a).ret = r := by
  induction n generalizing lane dp with
  | zero => simp [cr_retry_lanes]
  | succ n ih =>
    simp only [cr_retry_lanes]
    split
    · rename_i h
      intro r dX heq
      simp only [Flow.ret.injEq] at heq
      rw [← heq.1]
      exact ⟨h, _, _, rfl⟩
    · split
      · simp
      · split
        · split
          · simp
          · exact ih _ _
        · exact ih _ _

theorem training_pattern_dis_ret (hdr : Hdr) (env : Env) (dp : Dev) :
    (s5p_dp_training_pattern_dis hdr env dp).1 = 0 ∨
    ((s5p_dp_training_pattern_dis hdr env dp).1 < 0 ∧
      ∃ k a, (env.aux k a).ret = (s5p_dp_training_pattern_dis hdr env dp).1) := by
  unfold s5p_dp_training_pattern_dis
  simp only []
  split
  · rename_i h
    exact Or.inr ⟨h, _, _, rfl⟩
  · exact Or.inl rfl

/-- Outcomes of one equalizer poll for any answers of the AUX channel. Apart
from the recorded entry of the function: (A) a transport error is returned
and state, `eq_loop` and lane count are as before; (B) the state becomes
FINISHED and the return value is 0; (C) the poll goes through
`s5p_dp_reduce_link_rate` and returns `-EIO`; (D) the state is as before,
`eq_loop` has grown by one and is at most `MAX_EQ_LOOP`. -/
theorem process_equalizer_training_cases (hdr : Hdr) (env : Env) (dp : Dev) :
    (Keeps (emit (Event.call Fn.process_equalizer_training) dp)
        (s5p_dp_process_equalizer_training hdr env dp).2 ∧
      (s5p_dp_process_equalizer_training hdr env dp).1 < 0 ∧
      ∃ k a, (env.aux k a).ret = (s5p_dp_process_equalizer_training hdr env dp).1) ∨
    ((s5p_dp_process_equalizer_training hdr env dp).1 = 0 ∧
      (s5p_dp_process_equalizer_training hdr env dp).2.link_train.lt_state = LtState.FINISHED ∧
      (s5p_dp_process_equalizer_training hdr env dp).2.link_train.eq_loop = dp.link_train.eq_loop ∧
      ∀ fn, calls fn (s5p_dp_process_equalizer_training hdr env dp).2.log =
        calls fn (emit (Event.call Fn.process_equalizer_training) dp).log) ∨
    (∃ dX, s5p_dp_process_equalizer_training hdr env dp =
        (- EIO, s5p_dp_reduce_link_rate hdr env dX) ∧
      (dX.link_train.eq_loop = dp.link_train.eq_loop ∨
        dX.link_train.eq_loop = dp.link_train.eq_loop + 1) ∧
      ∀ fn, calls fn dX.log =
        calls fn (emit (Event.call Fn.process_equalizer_training) dp).log) ∨
    ((s5p_dp_process_equalizer_training hdr env dp).2.link_train.lt_state =
        dp.link_train.lt_state ∧
      (s5p_dp_process_equalizer_training hdr env dp).2.link_train.eq_loop =
        dp.link_train.eq_loop + 1 ∧
      dp.link_train.eq_loop + 1 ≤ MAX_EQ_LOOP ∧
      (s5p_dp_process_equalizer_training hdr env dp).2.link_train.lane_count =
        dp.link_train.lane_count ∧
      ∀ fn, calls fn (s5p_dp_process_equalizer_training hdr env dp).2.log =
        calls fn (emit (Event.call Fn.process_equalizer_training) dp).log) := by
  unfold s5p_dp_process_equalizer_training
  have e0 : (emit (Event.call Fn.process_equalizer_training) dp).link_train = dp.link_train := rfl
  rw [← e0]
  generalize emit (Event.call Fn.process_equalizer_training) dp = d0
  have k1 : Keeps d0 (s5p_dp_read_bytes_from_dpcd env DpcdAddr.LANE0_1_STATUS 2
      (emit (Event.udelay 400) d0)).2.2 :=
    Keeps.trans (keeps_udelay 400 d0) (keeps_read_bytes _ _ _ _)
  have r1 : (s5p_dp_read_bytes_from_dpcd env DpcdAddr.LANE0_1_STATUS 2
      (emit (Event.udelay 400) d0)).1 = (env.aux d0.tick DpcdAddr.LANE0_1_STATUS).ret := rfl
  simp only []
  generalize (s5p_dp_read_bytes_from_dpcd env DpcdAddr.LANE0_1_STATUS 2
      (emit (Event.udelay 400) d0)) = rd at k1 r1 ⊢
  obtain ⟨rv, buf, d1⟩ := rd
  simp only [] at k1 r1 ⊢
  simp only [emit_link_train]
  split
  · rename_i h
    exact Or.inl ⟨k1, h, _, _, r1.symm⟩
  · split
    · have k2 := Keeps.trans k1 (keeps_read_byte env DpcdAddr.LANE_ALIGN_STATUS_UPDATED d1)
      have r2 : (s5p_dp_read_byte_from_dpcd env DpcdAddr.LANE_ALIGN_STATUS_UPDATED d1).1 =
        (env.aux d1.tick DpcdAddr.LANE_ALIGN_STATUS_UPDATED).ret := rfl
      generalize s5p_dp_read_byte_from_dpcd env DpcdAddr.LANE_ALIGN_STATUS_UPDATED d1 = rd2
        at k2 r2 ⊢
      obtain ⟨rv2, align, d2⟩ := rd2
      simp only [] at k2 r2 ⊢
      split
      · rename_i h
        exact Or.inl ⟨k2, h, _, _, r2.symm⟩
      · have k3 := keeps_eq_adjust_lanes hdr env d0.link_train.lane_count 0 d2
        have f3 := eq_adjust_lanes_flow hdr env d0.link_train.lane_count 0 d2
        split
        · rename_i r dX heq
          rw [heq] at k3
          exact Or.inl ⟨Keeps.trans k2 k3, f3.1 r dX heq⟩
        · rename_i dX heq
          exact absurd heq (f3.2 dX)
        · rename_i dX heq
          rw [heq] at k3
          have k4 : Keeps d0 dX := Keeps.trans k2 k3
          simp only [Flow.dev] at k3
          split
          · have k5 := Keeps.trans k4 (keeps_training_pattern_dis hdr env dX)
            have r5 := training_pattern_dis_ret hdr env dX
            generalize s5p_dp_training_pattern_dis hdr env dX = rd5 at k5 r5 ⊢
            obtain ⟨rv5, d5⟩ := rd5
            simp only [] at k5 r5 ⊢
            split
            · rename_i h
              rcases r5 with r5 | r5
              · omega
              · exact Or.inl ⟨k5, r5.1, r5.2⟩
            · refine Or.inr (Or.inl ⟨rfl, rfl, ?_, ?_⟩)
              · simpa [set_lt_state] using k5.2.1
              · intro fn; simpa [set_lt_state] using k5.2.2.2 fn
          · split
            · rename_i h
              refine Or.inr (Or.inr (Or.inl ⟨_, rfl, Or.inr ?_, ?_⟩))
              · simpa using k4.2.1
              · intro fn; simpa using k4.2.2.2 fn
            · rename_i h
              have k6 := keeps_write_bytes env DpcdAddr.TRAINING_LANE0_SET
                (training_lane_buf (set_lanes_link_training d0.link_train.lane_count
                  { dX with link_train :=
                    { dX.link_train with eq_loop := dX.link_train.eq_loop + 1 } })
                  d0.link_train.lane_count)
                (set_lanes_link_training d0.link_train.lane_count
                  { dX with link_train :=
                    { dX.link_train with eq_loop := dX.link_train.eq_loop + 1 } })
              have hle : d0.link_train.eq_loop + 1 ≤ MAX_EQ_LOOP := by
                have := k4.2.1
                simp only [gt_iff_lt, not_lt] at h
                omega
              refine Or.inr (Or.inr (Or.inr ?_))
              split
              · refine ⟨?_, ?_, hle, ?_, ?_⟩
                · simpa using k4.1
                · simpa using k4.2.1
                · simpa using k4.2.2.1
                · intro fn
                  simpa [calls_append, calls_cons, calls_nil] using k4.2.2.2 fn
              · refine ⟨?_, ?_, hle, ?_, ?_⟩
                · simpa using k4.1
                · simpa using k4.2.1
                · simpa using k4.2.2.1
                · intro fn
                  simpa [calls_append, calls_cons, calls_nil] using k4.2.2.2 fn
    · refine Or.inr (Or.inr (Or.inl ⟨_, rfl, Or.inl k1.2.1, k1.2.2.2⟩))


/-! ## Sessions: `s5p_dp_sw_link_training` -/

theorem sw_body_retval_ok (hdr : Hdr) (env : Env) (retval : Int) (dp : Dev) (y : Int × Dev)
    (h : sw_link_training_body hdr env retval dp = Sum.inl y) : RetvalOk y.1 y.2 := by
  unfold sw_link_training_body at h
  split at h
  · simp only [Sum.inl.injEq] at h
    subst h
    intro hfin
    rw [link_start_link_train] at hfin
    simp at hfin
  · rename_i hst
    simp only [Sum.inl.injEq] at h
    subst h
    intro hfin
    rcases process_clock_recovery_cases hdr env dp with k | ⟨dX, _, e⟩ | ⟨dX, _, e⟩
    · rw [k.1] at hfin
      simp [hst] at hfin
    · rw [e] at hfin; simp at hfin
    · rw [e] at hfin; simp [reduce_link_rate_state] at hfin
  · rename_i hst
    simp only [Sum.inl.injEq] at h
    subst h
    intro hfin
    rcases process_equalizer_training_cases hdr env dp with k | k | ⟨dX, e, _⟩ | k
    · rw [k.1.1] at hfin
      simp [hst] at hfin
    · exact k.1
    · rw [e] at hfin; simp [reduce_link_rate_state] at hfin
    · rw [k.1, hst] at hfin
      simp at hfin
  · simp at h
  · simp at h

theorem sw_body_return (hdr : Hdr) (env : Env) (retval : Int) (dp : Dev) (r : Int) (dp' : Dev)
    (hok : RetvalOk retval dp)
    (h : sw_link_training_body hdr env retval dp = Sum.inr (r, dp')) :
    (dp'.link_train.lt_state = LtState.FINISHED ∨ dp'.link_train.lt_state = LtState.FAILED) ∧
    (r = - EREMOTEIO ↔ dp'.link_train.lt_state = LtState.FAILED) ∧
    (r = 0 ↔ dp'.link_train.lt_state = LtState.FINISHED) := by
  unfold sw_link_training_body at h
  split at h
  · simp at h
  · simp at h
  · simp at h
  · rename_i hst
    simp only [Sum.inr.injEq, Prod.mk.injEq] at h
    obtain ⟨h1, h2⟩ := h
    subst h2
    have hr : r = 0 := by rw [← h1]; exact hok hst
    subst hr
    simp [hst, EREMOTEIO]
  · rename_i hst
    simp only [Sum.inr.injEq, Prod.mk.injEq] at h
    obtain ⟨h1, h2⟩ := h
    subst h2
    subst h1
    simp [hst, EREMOTEIO]

theorem sw_loop_result (hdr : Hdr) (env : Env) (fuel : Nat) (retval : Int) (dp : Dev)
    (r : Int) (dp' : Dev) (hok : RetvalOk retval dp)
    (h : sw_link_training_loop hdr env fuel retval dp = some (r, dp')) :
    (dp'.link_train.lt_state = LtState.FINISHED ∨ dp'.link_train.lt_state = LtState.FAILED) ∧
    (r = - EREMOTEIO ↔ dp'.link_train.lt_state = LtState.FAILED) ∧
    (r = 0 ↔ dp'.link_train.lt_state = LtState.FINISHED) := by
  induction fuel generalizing retval dp with
  | zero => simp [sw_link_training_loop] at h
  | succ fuel ih =>
    simp only [sw_link_training_loop] at h
    split at h
    · rename_i rv d hb
      exact ih rv d (sw_body_retval_ok hdr env retval dp (rv, d) hb) h
    · rename_i res hb
      simp only [Option.some.injEq] at h
      subst h
      exact sw_body_return hdr env retval dp r dp' hok hb

/-- C1: whenever a call of `s5p_dp_sw_link_training` returns, the training
state is FINISHED or FAILED; the return value is `-EREMOTEIO` exactly when the
final state is FAILED and 0 exactly when it is FINISHED, so no other value is
returned; and the call starts from START whatever the state was before: its
outcome does not depend on the previous training state. -/
theorem sw_link_training_result (hdr : Hdr) (env : Env) (fuel : Nat) (dp : Dev)
    (r : Int) (dp' : Dev)
    (h : s5p_dp_sw_link_training hdr env fuel dp = some (r, dp')) :
    (dp'.link_train.lt_state = LtState.FINISHED ∨ dp'.link_train.lt_state = LtState.FAILED) ∧
    (r = - EREMOTEIO ↔ dp'.link_train.lt_state = LtState.FAILED) ∧
    (r = 0 ↔ dp'.link_train.lt_state = LtState.FINISHED) ∧
    (r = 0 ∨ r = - EREMOTEIO) ∧
    (∀ s : LtState, s5p_dp_sw_link_training hdr env fuel (set_lt_state s dp) =
      s5p_dp_sw_link_training hdr env fuel dp) := by
  unfold s5p_dp_sw_link_training at h
  have hok : RetvalOk 0 (set_lt_state LtState.START dp) := fun _ => rfl
  obtain ⟨h1, h2, h3⟩ := sw_loop_result hdr env fuel 0 _ r dp' hok h
  refine ⟨h1, h2, h3, ?_, ?_⟩
  · rcases h1 with h1 | h1
    · exact Or.inl (h3.mpr h1)
    · exact Or.inr (h2.mpr h1)
  · intro s
    rfl

/-- Witness of C1: against `env_ok` the session returns 0 after four passes
of the loop, in state FINISHED. -/
theorem sw_link_training_result_witness :
    s5p_dp_sw_link_training stdHdr env_ok 4 dp_two_lanes =
      some (0, ((s5p_dp_sw_link_training stdHdr env_ok 4 dp_two_lanes).getD (1, dp_two_lanes)).2) ∧
    (((s5p_dp_sw_link_training stdHdr env_ok 4 dp_two_lanes).getD
        (1, dp_two_lanes)).2.link_train.lt_state = LtState.FINISHED ∨
      ((s5p_dp_sw_link_training stdHdr env_ok 4 dp_two_lanes).getD
        (1, dp_two_lanes)).2.link_train.lt_state = LtState.FAILED) :=
  ⟨by rfl, (sw_link_training_result stdHdr env_ok 4 dp_two_lanes 0 _ (by rfl)).1⟩



/-- C4: for every lane count in {1,2,4} and both link rates, after
`s5p_dp_link_start` the training state is CLOCK_RECOVERY, `eq_loop` is 0 and
`cr_loop[lane]` is 0 for every lane below the lane count, whatever the AUX
channel answers to the writes: the environment `env`, and with it the success
or failure of every DPCD write, is arbitrary. -/
theorem link_start_spec (hdr : Hdr) (env : Env) (dp : Dev)
    (hlc : dp.link_train.lane_count = 1 ∨ dp.link_train.lane_count = 2 ∨
      dp.link_train.lane_count = 4)
    (hrate : dp.link_train.link_rate = LINK_RATE_1_62GBPS ∨
      dp.link_train.link_rate = LINK_RATE_2_70GBPS) :
    (s5p_dp_link_start hdr env dp).2.link_train.lt_state = LtState.CLOCK_RECOVERY ∧
    (s5p_dp_link_start hdr env dp).2.link_train.eq_loop = 0 ∧
    ∀ lane, lane < dp.link_train.lane_count →
      (s5p_dp_link_start hdr env dp).2.link_train.cr_loop lane = 0 := by
  have _ := hlc
  have _ := hrate
  rw [link_start_link_train]
  refine ⟨rfl, rfl, ?_⟩
  intro lane hl
  simp [hl]

/-- Witness of C4: two lanes at 2.7 Gbps, the first DPCD write failing. -/
theorem link_start_spec_witness :
    (dp_two_lanes.link_train.lane_count = 1 ∨ dp_two_lanes.link_train.lane_count = 2 ∨
      dp_two_lanes.link_train.lane_count = 4) ∧
    (dp_two_lanes.link_train.link_rate = LINK_RATE_1_62GBPS ∨
      dp_two_lanes.link_train.link_rate = LINK_RATE_2_70GBPS) ∧
    (s5p_dp_link_start stdHdr env_start_fails dp_two_lanes).1 = - EIO ∧
    (s5p_dp_link_start stdHdr env_start_fails dp_two_lanes).2.link_train.lt_state
      = LtState.CLOCK_RECOVERY :=
  ⟨by decide, by decide, by decide,
    (link_start_spec stdHdr env_start_fails dp_two_lanes (by decide) (by decide)).1⟩

/-- C5 (evaluation at the failing input): the first DPCD write of
`s5p_dp_link_start` fails with `-EIO`, yet the session goes on to poll clock
recovery once and equalization once and returns 0 in state FINISHED. -/
theorem sw_link_training_ignores_link_start_failure :
    (s5p_dp_link_start stdHdr env_start_fails (set_lt_state LtState.START dp_two_lanes)).1
      = - EIO ∧
    (s5p_dp_sw_link_training stdHdr env_start_fails 4 dp_two_lanes).map
        (fun x => (x.1, x.2.link_train.lt_state,
          calls Fn.process_clock_recovery x.2.log,
          calls Fn.process_equalizer_training x.2.log))
      = some (0, LtState.FINISHED, 1, 1) := by
  constructor
  · decide
  · rfl



/-! ## The training-lane byte -/

theorem or_mod_256 (a b : Nat) : (a ||| b) % 256 = a % 256 ||| b % 256 := by
  apply Nat.eq_of_testBit_eq
  intro i
  have h : (256 : Nat) = 2 ^ 8 := rfl
  simp only [h, Nat.testBit_mod_two_pow, Nat.testBit_or]
  cases decide (i < 8) <;> simp

theorem next_training_lane_eq (hdr : Hdr) (v p : Nat) :
    next_training_lane hdr v p = training_lane_byte hdr v p := by
  unfold next_training_lane training_lane_byte VOLTAGE_LEVEL_3 PRE_EMPHASIS_LEVEL_3
  by_cases hv : v = 3 <;> by_cases hp : p = 3 <;>
    simp [hv, hp, or_mod_256, Nat.mod_mod]

theorem next_training_lane_lt (hdr : Hdr) (v p : Nat) : next_training_lane hdr v p < 256 := by
  rw [next_training_lane_eq]
  exact Nat.mod_lt _ (by decide)

/-! ## Effect of the per-lane steps -/

@[simp]
theorem apply_training_lane_tick (hdr : Hdr) (v p lane : Nat) (dp : Dev) :
    (apply_training_lane hdr v p lane dp).tick = dp.tick := by
  simp [apply_training_lane, set_training_lane]

@[simp]
theorem apply_training_lane_cr_loop (hdr : Hdr) (v p lane : Nat) (dp : Dev) :
    (apply_training_lane hdr v p lane dp).link_train.cr_loop = dp.link_train.cr_loop := by
  simp [apply_training_lane, set_training_lane]

@[simp]
theorem apply_training_lane_training_lane (hdr : Hdr) (v p lane : Nat) (dp : Dev) :
    (apply_training_lane hdr v p lane dp).link_train.training_lane =
      Function.update dp.link_train.training_lane lane (next_training_lane hdr v p) := by
  simp [apply_training_lane, set_training_lane]

theorem apply_training_lane_ctl (hdr : Hdr) (v p lane : Nat) (dp : Dev) (h : lane < 4) :
    (apply_training_lane hdr v p lane dp).ln_link_training_ctl =
      Function.update dp.ln_link_training_ctl lane (next_training_lane hdr v p) := by
  unfold apply_training_lane
  simp only []
  rw [set_lane_link_training_ctl _ _ _ h]
  simp [set_training_lane, Nat.mod_eq_of_lt (next_training_lane_lt hdr v p)]

@[simp]
theorem incr_cr_loop_tick (lane : Nat) (dp : Dev) :
    (incr_cr_loop lane dp).tick = dp.tick := rfl
@[simp]
theorem incr_cr_loop_ctl (lane : Nat) (dp : Dev) :
    (incr_cr_loop lane dp).ln_link_training_ctl = dp.ln_link_training_ctl := rfl
@[simp]
theorem incr_cr_loop_training_lane (lane : Nat) (dp : Dev) :
    (incr_cr_loop lane dp).link_train.training_lane = dp.link_train.training_lane := rfl
@[simp]
theorem incr_cr_loop_cr_loop (lane : Nat) (dp : Dev) :
    (incr_cr_loop lane dp).link_train.cr_loop =
      Function.update dp.link_train.cr_loop lane (dp.link_train.cr_loop lane + 1) := rfl

/-- When no adjustment-request read fails, the lane loop of the success
branch runs through: it issues one read per lane and leaves, for every lane
it visits, the byte computed from that lane's request both in
`training_lane[lane]` and in the lane's transmitter register. `t0 + l` is the
number of the AUX transaction that reads the request for lane `l`. -/
theorem cr_done_lanes_next (hdr : Hdr) (env : Env) (t0 : Nat)
    (hio : ∀ k, 0 ≤ (env.aux k DpcdAddr.ADJUST_REQUEST_LANE0_1).ret)
    (n lane : Nat) (dp : Dev) (htick : dp.tick = t0 + lane) (hn : lane + n ≤ 4) :
    ∃ dX, cr_done_lanes hdr env n lane dp = Flow.next dX ∧ Keeps dp dX ∧
      dX.tick = t0 + lane + n ∧
      (∀ l, dX.link_train.training_lane l =
        if lane ≤ l ∧ l < lane + n then
          next_training_lane hdr (requested_swing env (t0 + l) l)
            (requested_pre_emphasis env (t0 + l) l)
        else dp.link_train.training_lane l) ∧
      (∀ l, dX.ln_link_training_ctl l =
        if lane ≤ l ∧ l < lane + n then
          next_training_lane hdr (requested_swing env (t0 + l) l)
            (requested_pre_emphasis env (t0 + l) l)
        else dp.ln_link_training_ctl l) := by
  induction n generalizing lane dp with
  | zero =>
    refine ⟨dp, rfl, Keeps.refl dp, by simpa using htick, ?_, ?_⟩
    · intro l; rw [if_neg (by omega)]
    · intro l; rw [if_neg (by omega)]
  | succ n ih =>
    simp only [cr_done_lanes]
    have hret : ¬ (s5p_dp_read_bytes_from_dpcd env DpcdAddr.ADJUST_REQUEST_LANE0_1 2 dp).1 < 0 := by
      simp only [read_bytes_ret, not_lt]; exact hio _
    rw [if_neg hret]
    have hl4 : lane < 4 := by omega
    obtain ⟨dX, e, k, ht, htl, hctl⟩ := ih (lane + 1)
      (apply_training_lane hdr
        (s5p_dp_get_adjust_request_voltage
          (s5p_dp_read_bytes_from_dpcd env DpcdAddr.ADJUST_REQUEST_LANE0_1 2 dp).2.1 lane)
        (s5p_dp_get_adjust_request_pre_emphasis
          (s5p_dp_read_bytes_from_dpcd env DpcdAddr.ADJUST_REQUEST_LANE0_1 2 dp).2.1 lane)
        lane (s5p_dp_read_bytes_from_dpcd env DpcdAddr.ADJUST_REQUEST_LANE0_1 2 dp).2.2)
      (by simp [htick]; omega) (by omega)
    refine ⟨dX, e, ?_, by omega, ?_, ?_⟩
    · exact Keeps.trans (keeps_read_bytes _ _ _ _)
        (Keeps.trans (keeps_apply_training_lane _ _ _ _ _) k)
    · intro l
      rw [htl l]
      by_cases h1 : lane + 1 ≤ l ∧ l < lane + 1 + n
      · have h2 : lane ≤ l ∧ l < lane + (n + 1) := by omega
        rw [if_pos h1, if_pos h2]
      · rw [if_neg h1]
        by_cases h3 : l = lane
        · subst h3
          rw [if_pos (by omega)]
          simp [requested_swing, requested_pre_emphasis, aux_bytes, htick]
        · rw [if_neg (by omega)]
          simp [Function.update_noteq h3]
    · intro l
      rw [hctl l]
      by_cases h1 : lane + 1 ≤ l ∧ l < lane + 1 + n
      · have h2 : lane ≤ l ∧ l < lane + (n + 1) := by omega
        rw [if_pos h1, if_pos h2]
      · rw [if_neg h1]
        by_cases h3 : l = lane
        · subst h3
          rw [if_pos (by omega), apply_training_lane_ctl _ _ _ _ _ hl4]
          simp [requested_swing, requested_pre_emphasis, aux_bytes, htick]
        · rw [if_neg (by omega), apply_training_lane_ctl _ _ _ _ _ hl4]
          simp [Function.update_noteq h3]


/-- C8: success branch of `s5p_dp_process_clock_recovery`. When every active
lane reports CR_DONE and no register access fails, the poll returns 0 in
state EQUALIZER_TRAINING; for every lane below the lane count the byte stored
in `training_lane[lane]` and in the lane's transmitter register is
`DPCD_VOLTAGE_SWING_SET(v) | DPCD_PRE_EMPHASIS_SET(p)` for the lane's requested
swing `v` and pre-emphasis `p`, with the max-swing flag added exactly when
`v = 3` and the max-pre-emphasis flag exactly when `p = 3`; and the last two
AUX transactions of the poll write `DPCD_SCRAMBLING_DISABLED |
DPCD_TRAINING_PATTERN_2` to TRAINING_PATTERN_SET and then those bytes, lane 0
first, to TRAINING_LANE0_SET. -/
theorem process_clock_recovery_success (hdr : Hdr) (env : Env) (dp : Dev)
    (hlc : dp.link_train.lane_count = 1 ∨ dp.link_train.lane_count = 2 ∨
      dp.link_train.lane_count = 4)
    (hio : ∀ k a, 0 ≤ (env.aux k a).ret)
    (hcr : ∀ lane, lane < dp.link_train.lane_count →
      lane_nibble (aux_bytes env dp.tick DpcdAddr.LANE0_1_STATUS) lane &&&
        hdr.DPCD_LANE_CR_DONE ≠ 0) :
    (s5p_dp_process_clock_recovery hdr env dp).1 = 0 ∧
    (s5p_dp_process_clock_recovery hdr env dp).2.link_train.lt_state =
      LtState.EQUALIZER_TRAINING ∧
    (∀ lane, lane < dp.link_train.lane_count →
      (s5p_dp_process_clock_recovery hdr env dp).2.link_train.training_lane lane =
        training_lane_byte hdr (requested_swing env (dp.tick + 1 + lane) lane)
          (requested_pre_emphasis env (dp.tick + 1 + lane) lane) ∧
      (s5p_dp_process_clock_recovery hdr env dp).2.ln_link_training_ctl lane =
        training_lane_byte hdr (requested_swing env (dp.tick + 1 + lane) lane)
          (requested_pre_emphasis env (dp.tick + 1 + lane) lane)) ∧
    ∃ pre r1 r2, (s5p_dp_process_clock_recovery hdr env dp).2.log = pre ++
      [Event.dpcd_write DpcdAddr.TRAINING_PATTERN_SET
        [(hdr.DPCD_SCRAMBLING_DISABLED ||| hdr.DPCD_TRAINING_PATTERN_2) % 256] r1,
       Event.dpcd_write DpcdAddr.TRAINING_LANE0_SET
        ((List.range dp.link_train.lane_count).map (fun lane =>
          training_lane_byte hdr (requested_swing env (dp.tick + 1 + lane) lane)
            (requested_pre_emphasis env (dp.tick + 1 + lane) lane))) r2] := by
  have hlc4 : 0 + dp.link_train.lane_count ≤ 4 := by omega
  have hok : s5p_dp_clock_recovery_ok hdr (aux_bytes env dp.tick DpcdAddr.LANE0_1_STATUS)
      dp.link_train.lane_count = 0 := (clock_recovery_ok_eq_zero hdr _ _).mpr hcr
  obtain ⟨dX, e, k, ht, htl, hctl⟩ := cr_done_lanes_next hdr env (dp.tick + 1)
    (fun k => hio k _) dp.link_train.lane_count 0
    (s5p_dp_set_training_pattern PatternSet.TRAINING_PTN2
      (s5p_dp_read_bytes_from_dpcd env DpcdAddr.LANE0_1_STATUS 2
        (emit (Event.udelay 100) (emit (Event.call Fn.process_clock_recovery) dp))).2.2)
    (by simp) hlc4
  have hres : s5p_dp_process_clock_recovery hdr env dp =
      (0, set_lt_state LtState.EQUALIZER_TRAINING
        (s5p_dp_write_bytes_to_dpcd env DpcdAddr.TRAINING_LANE0_SET
          (training_lane_buf dX dp.link_train.lane_count)
          (s5p_dp_write_byte_to_dpcd env DpcdAddr.TRAINING_PATTERN_SET
            (hdr.DPCD_SCRAMBLING_DISABLED ||| hdr.DPCD_TRAINING_PATTERN_2) dX).2).2) := by
    unfold s5p_dp_process_clock_recovery
    simp only [read_bytes_ret, emit_tick, emit_link_train, read_bytes_buf]
    rw [if_neg (not_lt.mpr (hio _ _))]
    have hok' := hok
    unfold aux_bytes at hok'
    rw [if_pos hok', e]
    simp only [write_byte_ret, write_bytes_ret]
    rw [if_neg (not_lt.mpr (hio _ _)), if_neg (not_lt.mpr (hio _ _))]
    rfl
  rw [hres]
  refine ⟨rfl, rfl, ?_, ?_⟩
  · intro lane hl
    simp only [set_lt_state_training_lane, write_bytes_link_train, write_byte_link_train,
      set_lt_state_ctl, write_bytes_ctl, write_byte_ctl]
    have hin : 0 ≤ lane ∧ lane < 0 + dp.link_train.lane_count := ⟨Nat.zero_le _, by omega⟩
    rw [htl lane, hctl lane]
    simp only [if_pos hin, next_training_lane_eq, and_self]
  · refine ⟨dX.log, (env.aux dX.tick DpcdAddr.TRAINING_PATTERN_SET).ret,
      (env.aux (dX.tick + 1) DpcdAddr.TRAINING_LANE0_SET).ret, ?_⟩
    simp only [set_lt_state_log, write_bytes_log, write_byte_log, List.append_assoc,
      List.singleton_append]
    have hbuf : training_lane_buf dX dp.link_train.lane_count =
        (List.range dp.link_train.lane_count).map (fun lane =>
          training_lane_byte hdr (requested_swing env (dp.tick + 1 + lane) lane)
            (requested_pre_emphasis env (dp.tick + 1 + lane) lane)) := by
      unfold training_lane_buf
      apply List.map_congr_left
      intro lane hl
      rw [List.mem_range] at hl
      rw [htl lane, if_pos ⟨Nat.zero_le _, by omega⟩, next_training_lane_eq]
    rw [hbuf]
    rfl



/-- One iteration of the retry loop when the request read succeeds. -/
theorem cr_retry_lanes_succ (hdr : Hdr) (env : Env)
    (hio : ∀ k, 0 ≤ (env.aux k DpcdAddr.ADJUST_REQUEST_LANE0_1).ret)
    (n lane : Nat) (dp : Dev) (hl : lane < 4) :
    cr_retry_lanes hdr env (n + 1) lane dp =
      if requested_swing env dp.tick lane = 3 ∨ requested_pre_emphasis env dp.tick lane = 3 then
        Flow.reduce (s5p_dp_read_bytes_from_dpcd env DpcdAddr.ADJUST_REQUEST_LANE0_1 2 dp).2.2
      else if lane_unchanged hdr (dp.ln_link_training_ctl lane)
          (requested_swing env dp.tick lane) (requested_pre_emphasis env dp.tick lane) then
        if dp.link_train.cr_loop lane + 1 = MAX_CR_LOOP then
          Flow.reduce (incr_cr_loop lane
            (s5p_dp_read_bytes_from_dpcd env DpcdAddr.ADJUST_REQUEST_LANE0_1 2 dp).2.2)
        else
          cr_retry_lanes hdr env n (lane + 1)
            (apply_training_lane hdr (requested_swing env dp.tick lane)
              (requested_pre_emphasis env dp.tick lane) lane
              (incr_cr_loop lane
                (s5p_dp_read_bytes_from_dpcd env DpcdAddr.ADJUST_REQUEST_LANE0_1 2 dp).2.2))
      else
        cr_retry_lanes hdr env n (lane + 1)
          (apply_training_lane hdr (requested_swing env dp.tick lane)
            (requested_pre_emphasis env dp.tick lane) lane
            (s5p_dp_read_bytes_from_dpcd env DpcdAddr.ADJUST_REQUEST_LANE0_1 2 dp).2.2) := by
  simp only [cr_retry_lanes]
  have hret : ¬ (s5p_dp_read_bytes_from_dpcd env DpcdAddr.ADJUST_REQUEST_LANE0_1 2 dp).1 < 0 := by
    simp only [read_bytes_ret, not_lt]; exact hio _
  rw [if_neg hret]
  simp only [read_bytes_buf, s5p_dp_get_lane_link_training, if_pos hl, incr_cr_loop_cr_loop,
    read_bytes_link_train, Function.update_same]
  rfl


/-- The retry loop when no visited lane gives up: it runs through, issues
one request read per lane, counts the lanes whose swing and pre-emphasis are
unchanged and programs every lane with the byte computed from its request.
`t0 + l` is the number of the AUX transaction that reads the request for lane
`l`. -/
theorem cr_retry_lanes_next (hdr : Hdr) (env : Env) (t0 : Nat)
    (hio : ∀ k, 0 ≤ (env.aux k DpcdAddr.ADJUST_REQUEST_LANE0_1).ret)
    (n lane : Nat) (dp : Dev) (htick : dp.tick = t0 + lane) (hn : lane + n ≤ 4)
    (hgo : ∀ l, lane ≤ l → l < lane + n →
      ¬ lane_gives_up hdr (dp.ln_link_training_ctl l) (dp.link_train.cr_loop l)
        (requested_swing env (t0 + l) l) (requested_pre_emphasis env (t0 + l) l)) :
    ∃ dX, cr_retry_lanes hdr env n lane dp = Flow.next dX ∧ Keeps dp dX ∧
      dX.tick = t0 + lane + n ∧
      (∀ l, dX.link_train.cr_loop l =
        if lane ≤ l ∧ l < lane + n ∧ lane_unchanged hdr (dp.ln_link_training_ctl l)
            (requested_swing env (t0 + l) l) (requested_pre_emphasis env (t0 + l) l)
        then dp.link_train.cr_loop l + 1 else dp.link_train.cr_loop l) ∧
      (∀ l, dX.link_train.training_lane l =
        if lane ≤ l ∧ l < lane + n then
          next_training_lane hdr (requested_swing env (t0 + l) l)
            (requested_pre_emphasis env (t0 + l) l)
        else dp.link_train.training_lane l) ∧
      (∀ l, dX.ln_link_training_ctl l =
        if lane ≤ l ∧ l < lane + n then
          next_training_lane hdr (requested_swing env (t0 + l) l)
            (requested_pre_emphasis env (t0 + l) l)
        else dp.ln_link_training_ctl l) := by
  induction n generalizing lane dp with
  | zero =>
    refine ⟨dp, rfl, Keeps.refl dp, by simpa using htick, ?_, ?_, ?_⟩
    · intro l; rw [if_neg (by omega)]
    · intro l; rw [if_neg (by omega)]
    · intro l; rw [if_neg (by omega)]
  | succ n ih =>
    have hl4 : lane < 4 := by omega
    have hg := hgo lane (Nat.le_refl _) (by omega)
    rw [← htick] at hg
    unfold lane_gives_up at hg
    simp only [not_or, not_and] at hg
    obtain ⟨hv, hp, hu⟩ := hg
    rw [cr_retry_lanes_succ hdr env hio n lane dp hl4, if_neg (by simp [hv, hp])]
    -- the state handed to the next iteration, in both branches
    have key : ∀ d1 : Dev, d1.tick = t0 + (lane + 1) →
        d1.ln_link_training_ctl = Function.update dp.ln_link_training_ctl lane
          (next_training_lane hdr (requested_swing env dp.tick lane)
            (requested_pre_emphasis env dp.tick lane)) →
        d1.link_train.training_lane = Function.update dp.link_train.training_lane lane
          (next_training_lane hdr (requested_swing env dp.tick lane)
            (requested_pre_emphasis env dp.tick lane)) →
        d1.link_train.cr_loop = Function.update dp.link_train.cr_loop lane
          (if lane_unchanged hdr (dp.ln_link_training_ctl lane)
            (requested_swing env dp.tick lane) (requested_pre_emphasis env dp.tick lane)
           then dp.link_train.cr_loop lane + 1 else dp.link_train.cr_loop lane) →
        Keeps dp d1 →
        ∃ dX, cr_retry_lanes hdr env n (lane + 1) d1 = Flow.next dX ∧ Keeps dp dX ∧
          dX.tick = t0 + lane + (n + 1) ∧
          (∀ l, dX.link_train.cr_loop l =
            if lane ≤ l ∧ l < lane + (n + 1) ∧ lane_unchanged hdr (dp.ln_link_training_ctl l)
                (requested_swing env (t0 + l) l) (requested_pre_emphasis env (t0 + l) l)
            then dp.link_train.cr_loop l + 1 else dp.link_train.cr_loop l) ∧
          (∀ l, dX.link_train.training_lane l =
            if lane ≤ l ∧ l < lane + (n + 1) then
              next_training_lane hdr (requested_swing env (t0 + l) l)
                (requested_pre_emphasis env (t0 + l) l)
            else dp.link_train.training_lane l) ∧
          (∀ l, dX.ln_link_training_ctl l =
            if lane ≤ l ∧ l < lane + (n + 1) then
              next_training_lane hdr (requested_swing env (t0 + l) l)
                (requested_pre_emphasis env (t0 + l) l)
            else dp.ln_link_training_ctl l) := by
      intro d1 ht1 hctl1 htl1 hcr1 hk1
      have hgo1 : ∀ l, lane + 1 ≤ l → l < lane + 1 + n →
          ¬ lane_gives_up hdr (d1.ln_link_training_ctl l) (d1.link_train.cr_loop l)
            (requested_swing env (t0 + l) l) (requested_pre_emphasis env (t0 + l) l) := by
        intro l h1 h2
        have hne : l ≠ lane := by omega
        rw [hctl1, hcr1, Function.update_noteq hne, Function.update_noteq hne]
        exact hgo l (by omega) (by omega)
      obtain ⟨dX, e, k, ht, hcr, htl, hctl⟩ := ih (lane + 1) d1 ht1 (by omega) hgo1
      refine ⟨dX, e, Keeps.trans hk1 k, by omega, ?_, ?_, ?_⟩
      · intro l
        rw [hcr l, hcr1, hctl1]
        by_cases h3 : l = lane
        · subst h3
          rw [if_neg (by omega), Function.update_same, htick]
          by_cases hu' : lane_unchanged hdr (dp.ln_link_training_ctl l)
              (requested_swing env (t0 + l) l) (requested_pre_emphasis env (t0 + l) l)
          · rw [if_pos hu', if_pos ⟨Nat.le_refl _, by omega, hu'⟩]
          · rw [if_neg hu', if_neg (fun h => hu' h.2.2)]
        · rw [Function.update_noteq h3, Function.update_noteq h3]
          by_cases h1 : lane + 1 ≤ l ∧ l < lane + 1 + n ∧
              lane_unchanged hdr (dp.ln_link_training_ctl l)
                (requested_swing env (t0 + l) l) (requested_pre_emphasis env (t0 + l) l)
          · rw [if_pos h1, if_pos ⟨by omega, by omega, h1.2.2⟩]
          · rw [if_neg h1, if_neg (fun h => h1 ⟨by omega, by omega, h.2.2⟩)]
      · intro l
        rw [htl l, htl1]
        by_cases h3 : l = lane
        · subst h3
          rw [if_neg (by omega), if_pos (by omega), Function.update_same, htick]
        · rw [Function.update_noteq h3]
          by_cases h1 : lane + 1 ≤ l ∧ l < lane + 1 + n
          · rw [if_pos h1, if_pos (by omega)]
          · rw [if_neg h1, if_neg (by omega)]
      · intro l
        rw [hctl l, hctl1]
        by_cases h3 : l = lane
        · subst h3
          rw [if_neg (by omega), if_pos (by omega), Function.update_same, htick]
        · rw [Function.update_noteq h3]
          by_cases h1 : lane + 1 ≤ l ∧ l < lane + 1 + n
          · rw [if_pos h1, if_pos (by omega)]
          · rw [if_neg h1, if_neg (by omega)]
    by_cases hu' : lane_unchanged hdr (dp.ln_link_training_ctl lane)
        (requested_swing env dp.tick lane) (requested_pre_emphasis env dp.tick lane)
    · rw [if_pos hu', if_neg (hu hu')]
      apply key
      · simp [htick]; omega
      · rw [apply_training_lane_ctl _ _ _ _ _ hl4]; rfl
      · simp
      · simp [if_pos hu']
      · exact Keeps.trans (keeps_read_bytes _ _ _ _)
          (Keeps.trans (keeps_incr_cr_loop _ _) (keeps_apply_training_lane _ _ _ _ _))
    · rw [if_neg hu']
      apply key
      · simp [htick]; omega
      · rw [apply_training_lane_ctl _ _ _ _ _ hl4]; rfl
      · simp
      · simp [if_neg hu']
      · exact Keeps.trans (keeps_read_bytes _ _ _ _) (keeps_apply_training_lane _ _ _ _ _)


/-- The retry loop when some visited lane gives up: it jumps to
`reduce_link_rate`, at a lane whose request asks for level 3 or whose counter
has just reached `MAX_CR_LOOP`. -/
theorem cr_retry_lanes_reduce (hdr : Hdr) (env : Env) (t0 : Nat)
    (hio : ∀ k, 0 ≤ (env.aux k DpcdAddr.ADJUST_REQUEST_LANE0_1).ret)
    (n lane : Nat) (dp : Dev) (htick : dp.tick = t0 + lane) (hn : lane + n ≤ 4)
    (hex : ∃ l, lane ≤ l ∧ l < lane + n ∧
      lane_gives_up hdr (dp.ln_link_training_ctl l) (dp.link_train.cr_loop l)
        (requested_swing env (t0 + l) l) (requested_pre_emphasis env (t0 + l) l)) :
    ∃ dX, cr_retry_lanes hdr env n lane dp = Flow.reduce dX ∧ Keeps dp dX ∧
      ∃ l, lane ≤ l ∧ l < lane + n ∧
        (requested_swing env (t0 + l) l = 3 ∨ requested_pre_emphasis env (t0 + l) l = 3 ∨
          dX.link_train.cr_loop l = MAX_CR_LOOP) := by
  induction n generalizing lane dp with
  | zero =>
    obtain ⟨l, h1, h2, _⟩ := hex
    omega
  | succ n ih =>
    have hl4 : lane < 4 := by omega
    rw [cr_retry_lanes_succ hdr env hio n lane dp hl4]
    by_cases hvp : requested_swing env dp.tick lane = 3 ∨
        requested_pre_emphasis env dp.tick lane = 3
    · rw [if_pos hvp]
      refine ⟨_, rfl, keeps_read_bytes _ _ _ _, lane, Nat.le_refl _, by omega, ?_⟩
      rw [← htick]
      rcases hvp with h | h
      · exact Or.inl h
      · exact Or.inr (Or.inl h)
    · rw [if_neg hvp]
      -- continuing with the next lane
      have key : ∀ d1 : Dev, d1.tick = t0 + (lane + 1) →
          (∀ l, l ≠ lane → d1.ln_link_training_ctl l = dp.ln_link_training_ctl l) →
          (∀ l, l ≠ lane → d1.link_train.cr_loop l = dp.link_train.cr_loop l) →
          Keeps dp d1 →
          ¬ lane_gives_up hdr (dp.ln_link_training_ctl lane) (dp.link_train.cr_loop lane)
            (requested_swing env (t0 + lane) lane) (requested_pre_emphasis env (t0 + lane) lane) →
          ∃ dX, cr_retry_lanes hdr env n (lane + 1) d1 = Flow.reduce dX ∧ Keeps dp dX ∧
            ∃ l, lane ≤ l ∧ l < lane + (n + 1) ∧
              (requested_swing env (t0 + l) l = 3 ∨
                requested_pre_emphasis env (t0 + l) l = 3 ∨
                dX.link_train.cr_loop l = MAX_CR_LOOP) := by
        intro d1 ht1 hctl1 hcr1 hk1 hng
        obtain ⟨l, h1, h2, hg⟩ := hex
        have hne : l ≠ lane := by
          intro h; subst h; exact hng hg
        have hex1 : ∃ l, lane + 1 ≤ l ∧ l < lane + 1 + n ∧
            lane_gives_up hdr (d1.ln_link_training_ctl l) (d1.link_train.cr_loop l)
              (requested_swing env (t0 + l) l) (requested_pre_emphasis env (t0 + l) l) := by
          refine ⟨l, by omega, by omega, ?_⟩
          rw [hctl1 l hne, hcr1 l hne]
          exact hg
        obtain ⟨dX, e, k, l', h1', h2', h3'⟩ := ih (lane + 1) d1 ht1 (by omega) hex1
        exact ⟨dX, e, Keeps.trans hk1 k, l', by omega, by omega, h3'⟩
      by_cases hu' : lane_unchanged hdr (dp.ln_link_training_ctl lane)
          (requested_swing env dp.tick lane) (requested_pre_emphasis env dp.tick lane)
      · rw [if_pos hu']
        by_cases hmax : dp.link_train.cr_loop lane + 1 = MAX_CR_LOOP
        · rw [if_pos hmax]
          refine ⟨_, rfl, Keeps.trans (keeps_read_bytes _ _ _ _) (keeps_incr_cr_loop _ _),
            lane, Nat.le_refl _, by omega, Or.inr (Or.inr ?_)⟩
          simp [hmax]
        · rw [if_neg hmax]
          apply key
          · simp [htick]; omega
          · intro l hne
            rw [apply_training_lane_ctl _ _ _ _ _ hl4, Function.update_noteq hne]; rfl
          · intro l hne
            simp [Function.update_noteq hne]
          · exact Keeps.trans (keeps_read_bytes _ _ _ _)
              (Keeps.trans (keeps_incr_cr_loop _ _) (keeps_apply_training_lane _ _ _ _ _))
          · rw [← htick]
            unfold lane_gives_up
            simp only [not_or, not_and] at hvp ⊢
            exact ⟨hvp.1, hvp.2, fun _ => hmax⟩
      · rw [if_neg hu']
        apply key
        · simp [htick]; omega
        · intro l hne
          rw [apply_training_lane_ctl _ _ _ _ _ hl4, Function.update_noteq hne]; rfl
        · intro l hne
          simp
        · exact Keeps.trans (keeps_read_bytes _ _ _ _) (keeps_apply_training_lane _ _ _ _ _)
        · rw [← htick]
          unfold lane_gives_up
          simp only [not_or, not_and] at hvp ⊢
          exact ⟨hvp.1, hvp.2, fun h => absurd h hu'⟩


@[simp]
theorem training_pattern_dis_link_train (hdr : Hdr) (env : Env) (dp : Dev) :
    (s5p_dp_training_pattern_dis hdr env dp).2.link_train = dp.link_train := by
  unfold s5p_dp_training_pattern_dis
  simp only []
  split <;> rfl

@[simp]
theorem reduce_link_rate_cr_loop (hdr : Hdr) (env : Env) (dp : Dev) :
    (s5p_dp_reduce_link_rate hdr env dp).link_train.cr_loop = dp.link_train.cr_loop := by
  simp [s5p_dp_reduce_link_rate]

@[simp]
theorem reduce_link_rate_lane_count (hdr : Hdr) (env : Env) (dp : Dev) :
    (s5p_dp_reduce_link_rate hdr env dp).link_train.lane_count = dp.link_train.lane_count := by
  simp [s5p_dp_reduce_link_rate, set_lt_state]

/-- One clock-recovery poll in which some active lane lacks CR_DONE and no
register access fails. If some active lane gives up, the poll goes through
`s5p_dp_reduce_link_rate` and returns `-EIO`; otherwise it returns 0, keeps
state and `eq_loop`, counts the unchanged lanes and programs every active
lane with the byte computed from its request. -/
theorem process_clock_recovery_not_done (hdr : Hdr) (env : Env) (dp : Dev)
    (hlc : dp.link_train.lane_count ≤ 4)
    (hio : ∀ k a, 0 ≤ (env.aux k a).ret)
    (hcr : s5p_dp_clock_recovery_ok hdr (aux_bytes env dp.tick DpcdAddr.LANE0_1_STATUS)
      dp.link_train.lane_count ≠ 0) :
    ((∃ l, l < dp.link_train.lane_count ∧
        lane_gives_up hdr (dp.ln_link_training_ctl l) (dp.link_train.cr_loop l)
          (requested_swing env (dp.tick + 1 + l) l)
          (requested_pre_emphasis env (dp.tick + 1 + l) l)) →
      ∃ dX, s5p_dp_process_clock_recovery hdr env dp =
          (- EIO, s5p_dp_reduce_link_rate hdr env dX) ∧
        Keeps (emit (Event.call Fn.process_clock_recovery) dp) dX ∧
        ∃ l, l < dp.link_train.lane_count ∧
          (requested_swing env (dp.tick + 1 + l) l = 3 ∨
            requested_pre_emphasis env (dp.tick + 1 + l) l = 3 ∨
            dX.link_train.cr_loop l = MAX_CR_LOOP)) ∧
    ((∀ l, l < dp.link_train.lane_count →
        ¬ lane_gives_up hdr (dp.ln_link_training_ctl l) (dp.link_train.cr_loop l)
          (requested_swing env (dp.tick + 1 + l) l)
          (requested_pre_emphasis env (dp.tick + 1 + l) l)) →
      (s5p_dp_process_clock_recovery hdr env dp).1 = 0 ∧
      Keeps (emit (Event.call Fn.process_clock_recovery) dp)
        (s5p_dp_process_clock_recovery hdr env dp).2 ∧
      (∀ l, (s5p_dp_process_clock_recovery hdr env dp).2.link_train.cr_loop l =
        if l < dp.link_train.lane_count ∧ lane_unchanged hdr (dp.ln_link_training_ctl l)
            (requested_swing env (dp.tick + 1 + l) l)
            (requested_pre_emphasis env (dp.tick + 1 + l) l)
        then dp.link_train.cr_loop l + 1 else dp.link_train.cr_loop l) ∧
      (∀ l, (s5p_dp_process_clock_recovery hdr env dp).2.ln_link_training_ctl l =
        if l < dp.link_train.lane_count then
          next_training_lane hdr (requested_swing env (dp.tick + 1 + l) l)
            (requested_pre_emphasis env (dp.tick + 1 + l) l)
        else dp.ln_link_training_ctl l)) := by
  have hstep : s5p_dp_process_clock_recovery hdr env dp =
      match cr_retry_lanes hdr env dp.link_train.lane_count 0
        (s5p_dp_read_bytes_from_dpcd env DpcdAddr.LANE0_1_STATUS 2
          (emit (Event.udelay 100) (emit (Event.call Fn.process_clock_recovery) dp))).2.2 with
      | Flow.ret retval dp => (retval, dp)
      | Flow.reduce dp => (- EIO, s5p_dp_reduce_link_rate hdr env dp)
      | Flow.next dX =>
        (0, (s5p_dp_write_bytes_to_dpcd env DpcdAddr.TRAINING_LANE0_SET
          (training_lane_buf dX dp.link_train.lane_count) dX).2) := by
    unfold s5p_dp_process_clock_recovery
    simp only [read_bytes_ret, emit_tick, emit_link_train, read_bytes_buf]
    rw [if_neg (not_lt.mpr (hio _ _))]
    have hcr' := hcr
    unfold aux_bytes at hcr'
    rw [if_neg hcr']
    split
    · rename_i heq; rw [heq]
    · rename_i heq; rw [heq]
    · rename_i heq
      rw [heq]
      simp only [write_bytes_ret]
      rw [if_neg (not_lt.mpr (hio _ _))]
  have hk0 : Keeps (emit (Event.call Fn.process_clock_recovery) dp)
      (s5p_dp_read_bytes_from_dpcd env DpcdAddr.LANE0_1_STATUS 2
        (emit (Event.udelay 100) (emit (Event.call Fn.process_clock_recovery) dp))).2.2 :=
    Keeps.trans (keeps_udelay _ _) (keeps_read_bytes _ _ _ _)
  constructor
  · rintro ⟨l, hl, hg⟩
    obtain ⟨dX, e, k, l', _, hl', h'⟩ := cr_retry_lanes_reduce hdr env (dp.tick + 1)
      (fun k => hio k _) dp.link_train.lane_count 0
      (s5p_dp_read_bytes_from_dpcd env DpcdAddr.LANE0_1_STATUS 2
        (emit (Event.udelay 100) (emit (Event.call Fn.process_clock_recovery) dp))).2.2
      (by simp) (by omega) ⟨l, Nat.zero_le _, by omega, hg⟩
    rw [hstep, e]
    exact ⟨dX, rfl, Keeps.trans hk0 k, l', by omega, h'⟩
  · intro hgo
    obtain ⟨dX, e, k, ht, hcrl, htl, hctl⟩ := cr_retry_lanes_next hdr env (dp.tick + 1)
      (fun k => hio k _) dp.link_train.lane_count 0
      (s5p_dp_read_bytes_from_dpcd env DpcdAddr.LANE0_1_STATUS 2
        (emit (Event.udelay 100) (emit (Event.call Fn.process_clock_recovery) dp))).2.2
      (by simp) (by omega) (fun l _ h2 => hgo l (by omega))
    rw [hstep, e]
    refine ⟨rfl, Keeps.trans hk0 (Keeps.trans k (keeps_write_bytes _ _ _ _)), ?_, ?_⟩
    · intro l
      simp only [write_bytes_link_train]
      rw [hcrl l]
      simp only [Nat.zero_le, true_and, Nat.zero_add]
      rfl
    · intro l
      simp only [write_bytes_ctl]
      rw [hctl l]
      simp only [Nat.zero_le, true_and, Nat.zero_add]
      rfl



/-- C6: failure branch of `s5p_dp_process_clock_recovery`. When no register
access fails and some active lane lacks CR_DONE, the resulting state is never
EQUALIZER_TRAINING; it is FAILED, with return value `-EIO`, exactly when some
active lane gives up (its request asks for swing 3 or pre-emphasis 3, or its
swing and pre-emphasis equal the request and its counter reaches `MAX_CR_LOOP`
with this poll); otherwise the state stays CLOCK_RECOVERY, the return value is
0 and `cr_loop` grows by one for exactly the active lanes whose swing and
pre-emphasis equal the request. -/
theorem process_clock_recovery_retry (hdr : Hdr) (env : Env) (dp : Dev)
    (hlc : dp.link_train.lane_count = 1 ∨ dp.link_train.lane_count = 2 ∨
      dp.link_train.lane_count = 4)
    (hst : dp.link_train.lt_state = LtState.CLOCK_RECOVERY)
    (hio : ∀ k a, 0 ≤ (env.aux k a).ret)
    (hcr : ∃ lane, lane < dp.link_train.lane_count ∧
      lane_nibble (aux_bytes env dp.tick DpcdAddr.LANE0_1_STATUS) lane &&&
        hdr.DPCD_LANE_CR_DONE = 0) :
    (s5p_dp_process_clock_recovery hdr env dp).2.link_train.lt_state ≠
      LtState.EQUALIZER_TRAINING ∧
    ((s5p_dp_process_clock_recovery hdr env dp).2.link_train.lt_state = LtState.FAILED ↔
      ∃ lane, lane < dp.link_train.lane_count ∧
        lane_gives_up hdr (dp.ln_link_training_ctl lane) (dp.link_train.cr_loop lane)
          (requested_swing env (dp.tick + 1 + lane) lane)
          (requested_pre_emphasis env (dp.tick + 1 + lane) lane)) ∧
    ((s5p_dp_process_clock_recovery hdr env dp).2.link_train.lt_state = LtState.FAILED →
      (s5p_dp_process_clock_recovery hdr env dp).1 = - EIO) ∧
    ((∀ lane, lane < dp.link_train.lane_count →
        ¬ lane_gives_up hdr (dp.ln_link_training_ctl lane) (dp.link_train.cr_loop lane)
          (requested_swing env (dp.tick + 1 + lane) lane)
          (requested_pre_emphasis env (dp.tick + 1 + lane) lane)) →
      (s5p_dp_process_clock_recovery hdr env dp).2.link_train.lt_state =
        LtState.CLOCK_RECOVERY ∧
      (s5p_dp_process_clock_recovery hdr env dp).1 = 0 ∧
      ∀ lane, (s5p_dp_process_clock_recovery hdr env dp).2.link_train.cr_loop lane =
        dp.link_train.cr_loop lane +
          if lane < dp.link_train.lane_count ∧
            lane_unchanged hdr (dp.ln_link_training_ctl lane)
              (requested_swing env (dp.tick + 1 + lane) lane)
              (requested_pre_emphasis env (dp.tick + 1 + lane) lane)
          then 1 else 0) := by
  have hok : s5p_dp_clock_recovery_ok hdr (aux_bytes env dp.tick DpcdAddr.LANE0_1_STATUS)
      dp.link_train.lane_count ≠ 0 := by
    intro h0
    obtain ⟨lane, hl, hbit⟩ := hcr
    exact (clock_recovery_ok_eq_zero hdr _ _).mp h0 lane hl hbit
  obtain ⟨hred, hnext⟩ := process_clock_recovery_not_done hdr env dp (by omega) hio hok
  by_cases hG : ∃ lane, lane < dp.link_train.lane_count ∧
      lane_gives_up hdr (dp.ln_link_training_ctl lane) (dp.link_train.cr_loop lane)
        (requested_swing env (dp.tick + 1 + lane) lane)
        (requested_pre_emphasis env (dp.tick + 1 + lane) lane)
  · obtain ⟨dX, e, _, _⟩ := hred hG
    rw [e]
    refine ⟨by simp [reduce_link_rate_state], ?_, fun _ => rfl, ?_⟩
    · simp only [reduce_link_rate_state, true_iff]; exact hG
    · intro hall
      obtain ⟨lane, hl, hg⟩ := hG
      exact absurd hg (hall lane hl)
  · have hall : ∀ l, l < dp.link_train.lane_count →
        ¬ lane_gives_up hdr (dp.ln_link_training_ctl l) (dp.link_train.cr_loop l)
          (requested_swing env (dp.tick + 1 + l) l)
          (requested_pre_emphasis env (dp.tick + 1 + l) l) :=
      fun l hl hg => hG ⟨l, hl, hg⟩
    obtain ⟨hr, k, hcrl, _⟩ := hnext hall
    have hstate : (s5p_dp_process_clock_recovery hdr env dp).2.link_train.lt_state =
        LtState.CLOCK_RECOVERY := by
      rw [k.1]; exact hst
    refine ⟨by rw [hstate]; decide, ?_, ?_, ?_⟩
    · rw [hstate]
      constructor
      · intro h; exact absurd h (by decide)
      · intro h; exact absurd h hG
    · intro h; rw [hstate] at h; exact absurd h (by decide)
    · intro _
      refine ⟨hstate, hr, ?_⟩
      intro lane
      rw [hcrl lane]
      split <;> rfl

theorem env_no_cr_io (k : Nat) (a : DpcdAddr) : 0 ≤ (env_no_cr.aux k a).ret := by
  cases a <;> exact Int.le_refl 0

theorem env_ok_io (k : Nat) (a : DpcdAddr) : 0 ≤ (env_ok.aux k a).ret := by
  cases a <;> exact Int.le_refl 0

/-- Witness of C6: the first poll after `s5p_dp_link_start` on two lanes,
lane 0 without CR_DONE, request swing 1 and pre-emphasis 0 on both lanes while
the lanes are at swing 0 and pre-emphasis 1: the state stays CLOCK_RECOVERY and
no counter moves. -/
theorem process_clock_recovery_retry_witness :
    (dp_polling.link_train.lane_count = 1 ∨ dp_polling.link_train.lane_count = 2 ∨
      dp_polling.link_train.lane_count = 4) ∧
    dp_polling.link_train.lt_state = LtState.CLOCK_RECOVERY ∧
    (∃ lane, lane < dp_polling.link_train.lane_count ∧
      lane_nibble (aux_bytes env_no_cr dp_polling.tick DpcdAddr.LANE0_1_STATUS) lane &&&
        stdHdr.DPCD_LANE_CR_DONE = 0) ∧
    (s5p_dp_process_clock_recovery stdHdr env_no_cr dp_polling).2.link_train.lt_state =
      LtState.CLOCK_RECOVERY ∧
    (s5p_dp_process_clock_recovery stdHdr env_no_cr dp_polling).2.link_train.cr_loop 0 = 0 ∧
    (s5p_dp_process_clock_recovery stdHdr env_no_cr dp_polling).2.link_train.lt_state ≠
      LtState.EQUALIZER_TRAINING :=
  ⟨by decide, by decide, ⟨0, by decide, by decide⟩, by decide, by decide,
    (process_clock_recovery_retry stdHdr env_no_cr dp_polling (by decide) (by decide)
      env_no_cr_io ⟨0, by decide, by decide⟩).1⟩



/-! ## The clock-recovery retry bound -/

theorem next_training_lane_unchanged (hdr : Hdr) (v p : Nat) (hv : v < 3) (hp : p < 3)
    (hrt : ∀ v p, v < 3 → p < 3 →
      hdr.DPCD_VOLTAGE_SWING_GET
        ((hdr.DPCD_VOLTAGE_SWING_SET v ||| hdr.DPCD_PRE_EMPHASIS_SET p) % 256) = v ∧
      hdr.DPCD_PRE_EMPHASIS_GET
        ((hdr.DPCD_VOLTAGE_SWING_SET v ||| hdr.DPCD_PRE_EMPHASIS_SET p) % 256) = p) :
    lane_unchanged hdr (next_training_lane hdr v p) v p := by
  have hv3 : v ≠ 3 := by omega
  have hp3 : p ≠ 3 := by omega
  unfold lane_unchanged next_training_lane VOLTAGE_LEVEL_3 PRE_EMPHASIS_LEVEL_3
  simp only [if_neg hv3, if_neg hp3, Nat.mod_mod]
  exact hrt v p hv hp

/-- One poll of a session whose sink never reports CR_DONE and always
returns the request `req`: either the poll fails the session, which happens
on the fourth or fifth poll only, or the invariant holds for one more poll. -/
theorem cr_steady_poll (hdr : Hdr) (env : Env) (req : List Nat) (lc c0 cred k : Nat)
    (dp : Dev)
    (hlc : lc = 1 ∨ lc = 2 ∨ lc = 4)
    (hio : ∀ k a, 0 ≤ (env.aux k a).ret)
    (hnocr : ∀ k, ∃ lane, lane < lc ∧
      lane_nibble (aux_bytes env k DpcdAddr.LANE0_1_STATUS) lane &&& hdr.DPCD_LANE_CR_DONE = 0)
    (hreq : ∀ k, aux_bytes env k DpcdAddr.ADJUST_REQUEST_LANE0_1 = req)
    (hlt : ∀ lane, lane < lc → s5p_dp_get_adjust_request_voltage req lane < 3 ∧
      s5p_dp_get_adjust_request_pre_emphasis req lane < 3)
    (hrt : ∀ v p, v < 3 → p < 3 →
      hdr.DPCD_VOLTAGE_SWING_GET
        ((hdr.DPCD_VOLTAGE_SWING_SET v ||| hdr.DPCD_PRE_EMPHASIS_SET p) % 256) = v ∧
      hdr.DPCD_PRE_EMPHASIS_GET
        ((hdr.DPCD_VOLTAGE_SWING_SET v ||| hdr.DPCD_PRE_EMPHASIS_SET p) % 256) = p)
    (hinv : CrSteady hdr req lc c0 cred k dp) :
    ((s5p_dp_process_clock_recovery hdr env dp).2.link_train.lt_state = LtState.FAILED ∧
      3 ≤ k ∧ k ≤ 4 ∧
      calls Fn.process_clock_recovery (s5p_dp_process_clock_recovery hdr env dp).2.log
        = c0 + k + 1 ∧
      calls Fn.reduce_link_rate (s5p_dp_process_clock_recovery hdr env dp).2.log = cred + 1 ∧
      ∃ l, l < lc ∧
        (s5p_dp_process_clock_recovery hdr env dp).2.link_train.cr_loop l = MAX_CR_LOOP) ∨
    CrSteady hdr req lc c0 cred (k + 1) (s5p_dp_process_clock_recovery hdr env dp).2 := by
  obtain ⟨hst, hlane, hcnt, hctl, hcalls, hred⟩ := hinv
  have hV : ∀ t l, requested_swing env t l = s5p_dp_get_adjust_request_voltage req l := by
    intro t l; unfold requested_swing; rw [hreq]
  have hP : ∀ t l, requested_pre_emphasis env t l =
      s5p_dp_get_adjust_request_pre_emphasis req l := by
    intro t l; unfold requested_pre_emphasis; rw [hreq]
  have hok : s5p_dp_clock_recovery_ok hdr (aux_bytes env dp.tick DpcdAddr.LANE0_1_STATUS)
      dp.link_train.lane_count ≠ 0 := by
    intro h0
    obtain ⟨lane, hl, hbit⟩ := hnocr dp.tick
    exact (clock_recovery_ok_eq_zero hdr _ _).mp h0 lane (by omega) hbit
  obtain ⟨hredc, hnext⟩ := process_clock_recovery_not_done hdr env dp (by omega) hio hok
  simp only [hV, hP, hlane] at hredc hnext
  have hcalls0 : ∀ fn, calls fn (emit (Event.call Fn.process_clock_recovery) dp).log =
      calls fn dp.log + if Fn.process_clock_recovery = fn then 1 else 0 := by
    intro fn; simp [calls_append, calls_cons, calls_nil]
  by_cases hG : ∃ l, l < lc ∧
      lane_gives_up hdr (dp.ln_link_training_ctl l) (dp.link_train.cr_loop l)
        (s5p_dp_get_adjust_request_voltage req l) (s5p_dp_get_adjust_request_pre_emphasis req l)
  · left
    obtain ⟨dX, e, kp, l, hl, h3⟩ := hredc hG
    have hmax : dX.link_train.cr_loop l = MAX_CR_LOOP := by
      have := hlt l hl
      rcases h3 with h | h | h
      · omega
      · omega
      · exact h
    obtain ⟨l0, hl0, hg0⟩ := hG
    have hk : 3 ≤ k ∧ k ≤ 4 := by
      have hb := hcnt l0 hl0
      have := hlt l0 hl0
      unfold lane_gives_up MAX_CR_LOOP at hg0
      rcases hg0 with h | h | h
      · omega
      · omega
      · omega
    rw [e]
    refine ⟨reduce_link_rate_state _ _ _, hk.1, hk.2, ?_, ?_, l, hl, ?_⟩
    · rw [reduce_link_rate_calls, kp.2.2.2, hcalls0, hcalls]; simp
    · rw [reduce_link_rate_calls, kp.2.2.2, hcalls0, hred]; simp
    · rw [reduce_link_rate_cr_loop]; exact hmax
  · right
    have hall : ∀ l, l < lc →
        ¬ lane_gives_up hdr (dp.ln_link_training_ctl l) (dp.link_train.cr_loop l)
          (s5p_dp_get_adjust_request_voltage req l)
          (s5p_dp_get_adjust_request_pre_emphasis req l) :=
      fun l hl hg => hG ⟨l, hl, hg⟩
    obtain ⟨_, kp, hcrl, hctl'⟩ := hnext hall
    refine ⟨by rw [kp.1]; exact hst, by rw [kp.2.2.1]; exact hlane, ?_, ?_, ?_, ?_⟩
    · intro l hl
      have hb := hcnt l hl
      have hng := hall l hl
      have hlt' := hlt l hl
      rw [hcrl l]
      by_cases hu : lane_unchanged hdr (dp.ln_link_training_ctl l)
          (s5p_dp_get_adjust_request_voltage req l)
          (s5p_dp_get_adjust_request_pre_emphasis req l)
      · rw [if_pos ⟨hl, hu⟩]
        have hne : dp.link_train.cr_loop l + 1 ≠ MAX_CR_LOOP := by
          intro h; exact hng (Or.inr (Or.inr ⟨hu, h⟩))
        unfold MAX_CR_LOOP at hne
        omega
      · rw [if_neg (fun h => hu h.2)]
        have hk0 : k = 0 := by
          by_contra hk
          have h1 : 1 ≤ k := by omega
          apply hu
          rw [hctl h1 l hl]
          exact next_training_lane_unchanged hdr _ _ hlt'.1 hlt'.2 hrt
        omega
    · intro _ l hl
      rw [hctl' l, if_pos hl]
    · rw [kp.2.2.2, hcalls0, hcalls]; simp; omega
    · rw [kp.2.2.2, hcalls0, hred]; simp


theorem sw_loop_failed (hdr : Hdr) (env : Env) (fuel : Nat) (retval : Int) (dp : Dev)
    (hst : dp.link_train.lt_state = LtState.FAILED) (hfuel : 1 ≤ fuel) :
    sw_link_training_loop hdr env fuel retval dp = some (- EREMOTEIO, dp) := by
  obtain ⟨f, rfl⟩ : ∃ f, fuel = f + 1 := ⟨fuel - 1, by omega⟩
  simp [sw_link_training_loop, sw_link_training_body, hst]

theorem sw_loop_cr_steady (hdr : Hdr) (env : Env) (req : List Nat) (lc c0 cred : Nat)
    (hlc : lc = 1 ∨ lc = 2 ∨ lc = 4)
    (hio : ∀ k a, 0 ≤ (env.aux k a).ret)
    (hnocr : ∀ k, ∃ lane, lane < lc ∧
      lane_nibble (aux_bytes env k DpcdAddr.LANE0_1_STATUS) lane &&& hdr.DPCD_LANE_CR_DONE = 0)
    (hreq : ∀ k, aux_bytes env k DpcdAddr.ADJUST_REQUEST_LANE0_1 = req)
    (hlt : ∀ lane, lane < lc → s5p_dp_get_adjust_request_voltage req lane < 3 ∧
      s5p_dp_get_adjust_request_pre_emphasis req lane < 3)
    (hrt : ∀ v p, v < 3 → p < 3 →
      hdr.DPCD_VOLTAGE_SWING_GET
        ((hdr.DPCD_VOLTAGE_SWING_SET v ||| hdr.DPCD_PRE_EMPHASIS_SET p) % 256) = v ∧
      hdr.DPCD_PRE_EMPHASIS_GET
        ((hdr.DPCD_VOLTAGE_SWING_SET v ||| hdr.DPCD_PRE_EMPHASIS_SET p) % 256) = p)
    (m : Nat) :
    ∀ (k : Nat) (retval : Int) (dp : Dev) (fuel : Nat),
      CrSteady hdr req lc c0 cred k dp → k + m = 5 → m + 1 ≤ fuel →
      ∃ dp', sw_link_training_loop hdr env fuel retval dp = some (- EREMOTEIO, dp') ∧
        dp'.link_train.lt_state = LtState.FAILED ∧
        (∃ l, l < lc ∧ dp'.link_train.cr_loop l = MAX_CR_LOOP) ∧
        c0 + 4 ≤ calls Fn.process_clock_recovery dp'.log ∧
        calls Fn.process_clock_recovery dp'.log ≤ c0 + 5 ∧
        calls Fn.reduce_link_rate dp'.log = cred + 1 := by
  induction m with
  | zero =>
    intro k retval dp fuel hinv hk _
    have h0 := hinv.2.2.1 0 (by omega)
    omega
  | succ m ih =>
    intro k retval dp fuel hinv hk hfuel
    obtain ⟨f, rfl⟩ : ∃ f, fuel = f + 1 := ⟨fuel - 1, by omega⟩
    have hbody : sw_link_training_body hdr env retval dp =
        Sum.inl (s5p_dp_process_clock_recovery hdr env dp) := by
      unfold sw_link_training_body
      rw [hinv.1]
    simp only [sw_link_training_loop, hbody]
    rcases cr_steady_poll hdr env req lc c0 cred k dp hlc hio hnocr hreq hlt hrt hinv with
      ⟨hfail, hk3, hk4, hc, hr, hl⟩ | hnext
    · refine ⟨_, sw_loop_failed hdr env f _ _ hfail (by omega), hfail, hl, ?_, ?_, hr⟩
      · omega
      · omega
    · exact ih (k + 1) _ _ f hnext (by omega) (by omega)

/-- C7: clock-recovery retry bound. In a session in which no register access
fails, the sink never reports CR_DONE on all active lanes and returns the same
adjustment request (swing and pre-emphasis below 3 on every active lane) at
every poll, the call returns `-EREMOTEIO` in state FAILED with some lane's
counter at `MAX_CR_LOOP`, after at least 4 and at most 5 clock-recovery polls,
and `s5p_dp_reduce_link_rate` is called exactly once. The session needs at
most 7 passes of the loop. The header macros are assumed to read back the
swing and pre-emphasis that they encode (`hrt`). -/
theorem cr_retry_bound (hdr : Hdr) (env : Env) (req : List Nat) (dp : Dev) (fuel : Nat)
    (hlc : dp.link_train.lane_count = 1 ∨ dp.link_train.lane_count = 2 ∨
      dp.link_train.lane_count = 4)
    (hio : ∀ k a, 0 ≤ (env.aux k a).ret)
    (hnocr : ∀ k, ∃ lane, lane < dp.link_train.lane_count ∧
      lane_nibble (aux_bytes env k DpcdAddr.LANE0_1_STATUS) lane &&& hdr.DPCD_LANE_CR_DONE = 0)
    (hreq : ∀ k, aux_bytes env k DpcdAddr.ADJUST_REQUEST_LANE0_1 = req)
    (hlt : ∀ lane, lane < dp.link_train.lane_count →
      s5p_dp_get_adjust_request_voltage req lane < 3 ∧
      s5p_dp_get_adjust_request_pre_emphasis req lane < 3)
    (hrt : ∀ v p, v < 3 → p < 3 →
      hdr.DPCD_VOLTAGE_SWING_GET
        ((hdr.DPCD_VOLTAGE_SWING_SET v ||| hdr.DPCD_PRE_EMPHASIS_SET p) % 256) = v ∧
      hdr.DPCD_PRE_EMPHASIS_GET
        ((hdr.DPCD_VOLTAGE_SWING_SET v ||| hdr.DPCD_PRE_EMPHASIS_SET p) % 256) = p)
    (hfuel : 7 ≤ fuel) :
    ∃ dp', s5p_dp_sw_link_training hdr env fuel dp = some (- EREMOTEIO, dp') ∧
      dp'.link_train.lt_state = LtState.FAILED ∧
      (∃ lane, lane < dp.link_train.lane_count ∧
        dp'.link_train.cr_loop lane = MAX_CR_LOOP) ∧
      calls Fn.process_clock_recovery dp.log + 4 ≤ calls Fn.process_clock_recovery dp'.log ∧
      calls Fn.process_clock_recovery dp'.log ≤ calls Fn.process_clock_recovery dp.log + 5 ∧
      calls Fn.reduce_link_rate dp'.log = calls Fn.reduce_link_rate dp.log + 1 := by
  obtain ⟨f, rfl⟩ : ∃ f, fuel = f + 1 := ⟨fuel - 1, by omega⟩
  unfold s5p_dp_sw_link_training
  have hbody : sw_link_training_body hdr env 0 (set_lt_state LtState.START dp) =
      Sum.inl (s5p_dp_link_start hdr env (set_lt_state LtState.START dp)) := rfl
  simp only [sw_link_training_loop, hbody]
  have hinv : CrSteady hdr req dp.link_train.lane_count
      (calls Fn.process_clock_recovery dp.log) (calls Fn.reduce_link_rate dp.log) 0
      (s5p_dp_link_start hdr env (set_lt_state LtState.START dp)).2 := by
    refine ⟨?_, ?_, ?_, ?_, ?_, ?_⟩
    · rw [link_start_link_train]
    · rw [link_start_link_train]; rfl
    · intro l hl
      rw [link_start_link_train]
      simp [hl]
    · intro h; omega
    · rw [link_start_calls]; simp
    · rw [link_start_calls]; simp
  exact sw_loop_cr_steady hdr env req dp.link_train.lane_count _ _ hlc hio hnocr hreq hlt hrt
    5 0 _ _ f hinv (by omega) (by omega)

theorem stdHdr_reads_back (v p : Nat) (hv : v < 3) (hp : p < 3) :
    stdHdr.DPCD_VOLTAGE_SWING_GET
      ((stdHdr.DPCD_VOLTAGE_SWING_SET v ||| stdHdr.DPCD_PRE_EMPHASIS_SET p) % 256) = v ∧
    stdHdr.DPCD_PRE_EMPHASIS_GET
      ((stdHdr.DPCD_VOLTAGE_SWING_SET v ||| stdHdr.DPCD_PRE_EMPHASIS_SET p) % 256) = p := by
  interval_cases v <;> interval_cases p <;> decide

theorem env_no_cr_lane0 (k : Nat) :
    lane_nibble (aux_bytes env_no_cr k DpcdAddr.LANE0_1_STATUS) 0 &&&
      stdHdr.DPCD_LANE_CR_DONE = 0 := by
  have h : aux_bytes env_no_cr k DpcdAddr.LANE0_1_STATUS = [0x10, 0] := rfl
  rw [h]
  decide

/-- Witness of C7: two lanes against `env_no_cr`; the session fails after
five polls. -/
theorem cr_retry_bound_witness :
    (dp_two_lanes.link_train.lane_count = 1 ∨ dp_two_lanes.link_train.lane_count = 2 ∨
      dp_two_lanes.link_train.lane_count = 4) ∧
    (7 : Nat) ≤ 7 ∧
    (s5p_dp_sw_link_training stdHdr env_no_cr 7 dp_two_lanes).map
        (fun x => (x.1, x.2.link_train.lt_state, x.2.link_train.cr_loop 0,
          calls Fn.process_clock_recovery x.2.log, calls Fn.reduce_link_rate x.2.log))
      = some (- EREMOTEIO, LtState.FAILED, 4, 5, 1) ∧
    ∃ dp', s5p_dp_sw_link_training stdHdr env_no_cr 7 dp_two_lanes = some (- EREMOTEIO, dp') ∧
      dp'.link_train.lt_state = LtState.FAILED ∧
      (∃ lane, lane < dp_two_lanes.link_train.lane_count ∧
        dp'.link_train.cr_loop lane = MAX_CR_LOOP) ∧
      calls Fn.process_clock_recovery dp_two_lanes.log + 4 ≤
        calls Fn.process_clock_recovery dp'.log ∧
      calls Fn.process_clock_recovery dp'.log ≤
        calls Fn.process_clock_recovery dp_two_lanes.log + 5 ∧
      calls Fn.reduce_link_rate dp'.log = calls Fn.reduce_link_rate dp_two_lanes.log + 1 :=
  ⟨by decide, by decide, by rfl,
    cr_retry_bound stdHdr env_no_cr [0x11, 0x00] dp_two_lanes 7 (by decide) env_no_cr_io
      (fun k => ⟨0, by decide, env_no_cr_lane0 k⟩) (fun _ => rfl)
      (by decide) stdHdr_reads_back (by decide)⟩



/-! ## The equalizer retry bound -/

theorem eq_adjust_lanes_next (hdr : Hdr) (env : Env)
    (hio : ∀ k a, 0 ≤ (env.aux k a).ret) (n lane : Nat) (dp : Dev) :
    ∃ dX, eq_adjust_lanes hdr env n lane dp = Flow.next dX ∧ Keeps dp dX := by
  have hk := keeps_eq_adjust_lanes hdr env n lane dp
  have hf := eq_adjust_lanes_flow hdr env n lane dp
  cases e : eq_adjust_lanes hdr env n lane dp with
  | next dX =>
    rw [e] at hk
    exact ⟨dX, rfl, hk⟩
  | ret r dX =>
    obtain ⟨hneg, k, a, hka⟩ := hf.1 r dX e
    have := hio k a
    omega
  | reduce dX => exact absurd e (hf.2 dX)

/-- One equalizer poll in which clock recovery holds on every active lane,
channel equalization is not reached and no register access fails. -/
theorem process_equalizer_training_not_done (hdr : Hdr) (env : Env) (dp : Dev)
    (hio : ∀ k a, 0 ≤ (env.aux k a).ret)
    (hcr : s5p_dp_clock_recovery_ok hdr (aux_bytes env dp.tick DpcdAddr.LANE0_1_STATUS)
      dp.link_train.lane_count = 0)
    (heq : s5p_dp_channel_eq_ok hdr
      [(aux_bytes env dp.tick DpcdAddr.LANE0_1_STATUS).getD 0 0,
       (aux_bytes env dp.tick DpcdAddr.LANE0_1_STATUS).getD 1 0,
       aux_byte env (dp.tick + 1) DpcdAddr.LANE_ALIGN_STATUS_UPDATED]
      dp.link_train.lane_count ≠ 0) :
    (s5p_dp_process_equalizer_training hdr env dp).2.link_train.eq_loop =
      dp.link_train.eq_loop + 1 ∧
    (dp.link_train.eq_loop + 1 ≤ MAX_EQ_LOOP →
      (s5p_dp_process_equalizer_training hdr env dp).2.link_train.lt_state =
        dp.link_train.lt_state ∧
      (s5p_dp_process_equalizer_training hdr env dp).1 = 0) ∧
    (MAX_EQ_LOOP < dp.link_train.eq_loop + 1 →
      (s5p_dp_process_equalizer_training hdr env dp).2.link_train.lt_state = LtState.FAILED ∧
      (s5p_dp_process_equalizer_training hdr env dp).1 = - EIO) := by
  obtain ⟨dX, e, k⟩ := eq_adjust_lanes_next hdr env hio dp.link_train.lane_count 0
    (s5p_dp_read_byte_from_dpcd env DpcdAddr.LANE_ALIGN_STATUS_UPDATED
      (s5p_dp_read_bytes_from_dpcd env DpcdAddr.LANE0_1_STATUS 2
        (emit (Event.udelay 400) (emit (Event.call Fn.process_equalizer_training) dp))).2.2).2.2
  have hX : dX.link_train.eq_loop = dp.link_train.eq_loop := k.2.1
  have hXs : dX.link_train.lt_state = dp.link_train.lt_state := k.1
  have hstep : s5p_dp_process_equalizer_training hdr env dp =
      if dX.link_train.eq_loop + 1 > MAX_EQ_LOOP then
        (- EIO, s5p_dp_reduce_link_rate hdr env
          { dX with link_train := { dX.link_train with eq_loop := dX.link_train.eq_loop + 1 } })
      else
        (0, (s5p_dp_write_bytes_to_dpcd env DpcdAddr.TRAINING_LANE0_SET
          (training_lane_buf (set_lanes_link_training dp.link_train.lane_count
            { dX with link_train :=
              { dX.link_train with eq_loop := dX.link_train.eq_loop + 1 } })
            dp.link_train.lane_count)
          (set_lanes_link_training dp.link_train.lane_count
            { dX with link_train :=
              { dX.link_train with eq_loop := dX.link_train.eq_loop + 1 } })).2) := by
    unfold s5p_dp_process_equalizer_training
    simp only [read_bytes_ret, emit_tick, emit_link_train, read_bytes_buf, read_byte_ret,
      read_bytes_tick, read_byte_val]
    rw [if_neg (not_lt.mpr (hio _ _))]
    have hcr' := hcr
    unfold aux_bytes at hcr'
    rw [if_pos hcr', if_neg (not_lt.mpr (hio _ _))]
    rw [e]
    have heq' := heq
    unfold aux_bytes aux_byte at heq'
    simp only [List.getD_cons_zero, List.getD_cons_succ] at heq' ⊢
    rw [if_neg heq']
    simp only [write_bytes_ret]
    split
    · rfl
    · rw [if_neg (not_lt.mpr (hio _ _))]
  rw [hstep]
  refine ⟨?_, ?_, ?_⟩
  · split
    · simp [s5p_dp_reduce_link_rate, hX]
    · simp [hX]
  · intro hle
    rw [if_neg (by rw [hX]; omega)]
    exact ⟨by simp [hXs], rfl⟩
  · intro hgt
    rw [if_pos (by rw [hX]; omega)]
    exact ⟨reduce_link_rate_state _ _ _, rfl⟩

theorem eq_budget_le (c0 : Nat) (dp : Dev) (h : EqBudget c0 dp) :
    calls Fn.process_equalizer_training dp.log ≤ c0 + (MAX_EQ_LOOP + 1) := by
  unfold EqBudget at h
  split at h
  · omega
  · omega
  · omega
  · exact h
  · exact h

theorem eq_budget_body (hdr : Hdr) (env : Env) (hio : ∀ k a, 0 ≤ (env.aux k a).ret)
    (c0 : Nat) (retval : Int) (dp : Dev) (h : EqBudget c0 dp) :
    (∀ y, sw_link_training_body hdr env retval dp = Sum.inl y → EqBudget c0 y.2) ∧
    (∀ y, sw_link_training_body hdr env retval dp = Sum.inr y → EqBudget c0 y.2) := by
  have hcall : ∀ (g : Fn) (d : Dev), calls Fn.process_equalizer_training
      (emit (Event.call g) d).log = calls Fn.process_equalizer_training d.log +
        if g = Fn.process_equalizer_training then 1 else 0 := by
    intro g d; simp [calls_append, calls_cons, calls_nil]
  unfold sw_link_training_body
  unfold EqBudget at h
  split
  · rename_i hst
    rw [hst] at h
    simp only at h
    refine ⟨?_, by simp⟩
    intro y hy
    simp only [Sum.inl.injEq] at hy
    subst hy
    unfold EqBudget
    rw [link_start_link_train]
    simp only
    rw [link_start_calls]
    simp [h]
  · rename_i hst
    rw [hst] at h
    simp only at h
    refine ⟨?_, by simp⟩
    intro y hy
    simp only [Sum.inl.injEq] at hy
    subst hy
    unfold EqBudget
    rcases process_clock_recovery_cases hdr env dp with k | ⟨dX, k, e⟩ | ⟨dX, k, e⟩
    · rw [k.1, emit_link_train, hst]
      simp only
      rw [k.2.2.2, k.2.1, hcall]
      simpa using h
    · rw [e]
      simp only [set_lt_state_state, set_lt_state_log, set_lt_state_eq_loop]
      rw [k.2.2.2, k.2.1, hcall]
      simp [h.1, h.2]
    · rw [e]
      simp only [reduce_link_rate_state]
      rw [reduce_link_rate_calls, k.2.2.2, hcall]
      simp [h.1]
  · rename_i hst
    rw [hst] at h
    simp only at h
    refine ⟨?_, by simp⟩
    intro y hy
    simp only [Sum.inl.injEq] at hy
    subst hy
    unfold EqBudget
    rcases process_equalizer_training_cases hdr env dp with
      ⟨_, hneg, k, a, hka⟩ | ⟨_, hfin, _, hc⟩ | ⟨dX, e, _, hc⟩ | ⟨hs, hl, hle, _, hc⟩
    · have := hio k a
      omega
    · rw [hfin]
      simp only
      rw [hc, hcall]
      unfold MAX_EQ_LOOP at h ⊢
      simp; omega
    · rw [e]
      simp only [reduce_link_rate_state]
      rw [reduce_link_rate_calls, hc, hcall]
      unfold MAX_EQ_LOOP at h ⊢
      simp; omega
    · rw [hs, hst]
      simp only
      rw [hc, hcall, hl]
      refine ⟨?_, hle⟩
      simp; omega
  · rename_i hst
    refine ⟨by simp, ?_⟩
    intro y hy
    simp only [Sum.inr.injEq] at hy
    subst hy
    unfold EqBudget
    rw [hst]
    rw [hst] at h
    exact h
  · rename_i hst
    refine ⟨by simp, ?_⟩
    intro y hy
    simp only [Sum.inr.injEq] at hy
    subst hy
    unfold EqBudget
    rw [hst]
    rw [hst] at h
    exact h

theorem eq_budget_after (hdr : Hdr) (env : Env) (hio : ∀ k a, 0 ≤ (env.aux k a).ret)
    (c0 : Nat) (n : Nat) (x : Int × Dev) (h : EqBudget c0 x.2) :
    EqBudget c0 (sw_link_training_after hdr env n x).2 := by
  induction n generalizing x with
  | zero => exact h
  | succ n ih =>
    simp only [sw_link_training_after]
    have hb := eq_budget_body hdr env hio c0 x.1 x.2 h
    split
    · rename_i y hy
      exact ih y (hb.1 y hy)
    · rename_i y hy
      exact hb.2 y hy


theorem lane_nibble_three (a b c lane : Nat) (h : lane < 4) :
    lane_nibble [a, b, c] lane = lane_nibble [a, b] lane := by
  interval_cases lane <;> rfl

/-- C9: partial-failure branch of `s5p_dp_process_equalizer_training`. When
no register access fails, clock recovery holds on every active lane and
channel equalization is not reached (the align bit is clear or some active
lane lacks one of the EQ bits), `eq_loop` grows by exactly one; the state
stays EQUALIZER_TRAINING with return value 0 if the new `eq_loop` is at most
`MAX_EQ_LOOP`, and becomes FAILED with return value `-EIO` if it is larger.
Hence, while no register access fails, a session records at most
`MAX_EQ_LOOP + 1` equalizer polls, at every point of its run. -/
theorem process_equalizer_training_retry (hdr : Hdr) (env : Env) (dp : Dev)
    (hlc : dp.link_train.lane_count = 1 ∨ dp.link_train.lane_count = 2 ∨
      dp.link_train.lane_count = 4)
    (hst : dp.link_train.lt_state = LtState.EQUALIZER_TRAINING)
    (hio : ∀ k a, 0 ≤ (env.aux k a).ret)
    (hcr : ∀ lane, lane < dp.link_train.lane_count →
      lane_nibble (aux_bytes env dp.tick DpcdAddr.LANE0_1_STATUS) lane &&&
        hdr.DPCD_LANE_CR_DONE ≠ 0)
    (hneq : aux_byte env (dp.tick + 1) DpcdAddr.LANE_ALIGN_STATUS_UPDATED &&&
        hdr.DPCD_INTERLANE_ALIGN_DONE = 0 ∨
      ∃ lane, lane < dp.link_train.lane_count ∧
        lane_nibble (aux_bytes env dp.tick DpcdAddr.LANE0_1_STATUS) lane &&&
          hdr.DPCD_CHANNEL_EQ_BITS ≠ hdr.DPCD_CHANNEL_EQ_BITS) :
    (s5p_dp_process_equalizer_training hdr env dp).2.link_train.eq_loop =
      dp.link_train.eq_loop + 1 ∧
    (dp.link_train.eq_loop + 1 ≤ MAX_EQ_LOOP →
      (s5p_dp_process_equalizer_training hdr env dp).2.link_train.lt_state =
        LtState.EQUALIZER_TRAINING ∧
      (s5p_dp_process_equalizer_training hdr env dp).1 = 0) ∧
    (MAX_EQ_LOOP < dp.link_train.eq_loop + 1 →
      (s5p_dp_process_equalizer_training hdr env dp).2.link_train.lt_state = LtState.FAILED ∧
      (s5p_dp_process_equalizer_training hdr env dp).1 = - EIO) ∧
    (∀ (d : Dev) (n : Nat),
      calls Fn.process_equalizer_training
          (sw_link_training_after hdr env n (0, set_lt_state LtState.START d)).2.log ≤
        calls Fn.process_equalizer_training d.log + (MAX_EQ_LOOP + 1)) := by
  have hok : s5p_dp_clock_recovery_ok hdr (aux_bytes env dp.tick DpcdAddr.LANE0_1_STATUS)
      dp.link_train.lane_count = 0 := (clock_recovery_ok_eq_zero hdr _ _).mpr hcr
  have heq : s5p_dp_channel_eq_ok hdr
      [(aux_bytes env dp.tick DpcdAddr.LANE0_1_STATUS).getD 0 0,
       (aux_bytes env dp.tick DpcdAddr.LANE0_1_STATUS).getD 1 0,
       aux_byte env (dp.tick + 1) DpcdAddr.LANE_ALIGN_STATUS_UPDATED]
      dp.link_train.lane_count ≠ 0 := by
    intro h0
    obtain ⟨halign, hlanes⟩ := (channel_eq_ok_eq_zero hdr _ _).mp h0
    rcases hneq with h | ⟨lane, hl, h⟩
    · exact halign h
    · apply h
      have := hlanes lane hl
      rw [lane_nibble_three _ _ _ _ (by omega)] at this
      exact this
  obtain ⟨h1, h2, h3⟩ := process_equalizer_training_not_done hdr env dp hio hok heq
  refine ⟨h1, ?_, h3, ?_⟩
  · intro hle
    rw [← hst]
    exact h2 hle
  · intro d n
    apply eq_budget_le
    apply eq_budget_after hdr env hio
    unfold EqBudget
    rfl

theorem env_no_eq_io (k : Nat) (a : DpcdAddr) : 0 ≤ (env_no_eq.aux k a).ret := by
  cases a <;> exact Int.le_refl 0

/-- Witness of C9: two lanes, both with CR_DONE, the align bit set and lane 1
without its EQ bits: `eq_loop` goes from 0 to 1 and the state stays
EQUALIZER_TRAINING. -/
theorem process_equalizer_training_retry_witness :
    (dp_equalizing.link_train.lane_count = 1 ∨ dp_equalizing.link_train.lane_count = 2 ∨
      dp_equalizing.link_train.lane_count = 4) ∧
    dp_equalizing.link_train.lt_state = LtState.EQUALIZER_TRAINING ∧
    dp_equalizing.link_train.eq_loop = 0 ∧
    (s5p_dp_process_equalizer_training stdHdr env_no_eq dp_equalizing).2.link_train.lt_state
      = LtState.EQUALIZER_TRAINING ∧
    (s5p_dp_process_equalizer_training stdHdr env_no_eq dp_equalizing).1 = 0 ∧
    (s5p_dp_process_equalizer_training stdHdr env_no_eq dp_equalizing).2.link_train.eq_loop =
      dp_equalizing.link_train.eq_loop + 1 :=
  ⟨by decide, by decide, by decide, by decide, by decide,
    (process_equalizer_training_retry stdHdr env_no_eq dp_equalizing (by decide) (by decide)
      env_no_eq_io (by decide) (Or.inr ⟨1, by decide, by decide⟩)).1⟩

/-- Witness of C8: lane count 2, both lanes with CR_DONE, request swing 1
and pre-emphasis 0 on both lanes: the state becomes EQUALIZER_TRAINING and
both training-lane bytes are 1, the encoding of swing 1 and pre-emphasis 0
without a max flag. -/
theorem process_clock_recovery_success_witness :
    (dp_polling.link_train.lane_count = 1 ∨ dp_polling.link_train.lane_count = 2 ∨
      dp_polling.link_train.lane_count = 4) ∧
    dp_polling.link_train.lane_count = 2 ∧
    requested_swing env_ok (dp_polling.tick + 1 + 0) 0 = 1 ∧
    requested_pre_emphasis env_ok (dp_polling.tick + 1 + 0) 0 = 0 ∧
    requested_swing env_ok (dp_polling.tick + 1 + 1) 1 = 1 ∧
    requested_pre_emphasis env_ok (dp_polling.tick + 1 + 1) 1 = 0 ∧
    training_lane_byte stdHdr 1 0 = 1 ∧
    (s5p_dp_process_clock_recovery stdHdr env_ok dp_polling).2.link_train.training_lane 0 = 1 ∧
    (s5p_dp_process_clock_recovery stdHdr env_ok dp_polling).2.link_train.training_lane 1 = 1 ∧
    (s5p_dp_process_clock_recovery stdHdr env_ok dp_polling).2.log.drop 18 =
      [Event.dpcd_write DpcdAddr.TRAINING_PATTERN_SET [0x22] 0,
       Event.dpcd_write DpcdAddr.TRAINING_LANE0_SET [1, 1] 0] ∧
    (s5p_dp_process_clock_recovery stdHdr env_ok dp_polling).2.link_train.lt_state =
      LtState.EQUALIZER_TRAINING :=
  ⟨by decide, by decide, by decide, by decide, by decide, by decide, by decide, by decide,
    by decide, by decide,
    (process_clock_recovery_success stdHdr env_ok dp_polling (by decide) env_ok_io
      (by decide)).2.1⟩

/-! ## Link negotiation -/

@[simp]
theorem hw_link_train (op : HwOp) (dp : Dev) : (hw op dp).link_train = dp.link_train := rfl
@[simp]
theorem hw_tick (op : HwOp) (dp : Dev) : (hw op dp).tick = dp.tick := rfl
@[simp]
theorem hw_ctl (op : HwOp) (dp : Dev) :
    (hw op dp).ln_link_training_ctl = dp.ln_link_training_ctl := rfl
@[simp]
theorem hw_log (op : HwOp) (dp : Dev) : (hw op dp).log = dp.log ++ [Event.hw op] := rfl

@[simp]
theorem enable_rx_to_enhanced_mode_link_train (hdr : Hdr) (env : Env) (enable : Bool)
    (dp : Dev) :
    (s5p_dp_enable_rx_to_enhanced_mode hdr env enable dp).2.link_train = dp.link_train := by
  unfold s5p_dp_enable_rx_to_enhanced_mode
  simp only []
  split_ifs <;> rfl

@[simp]
theorem init_training_begin_link_train (hdr : Hdr) (env : Env) (dp : Dev) :
    (init_training_begin hdr env dp).link_train = dp.link_train := by
  unfold init_training_begin init_training_psr_block
  simp only []
  split_ifs <;> simp

theorem ite_link_rate (c : Prop) [Decidable c] (a b : Dev) :
    (if c then a else b).link_train.link_rate =
      if c then a.link_train.link_rate else b.link_train.link_rate := by
  split_ifs <;> rfl

theorem ite_lane_count (c : Prop) [Decidable c] (a b : Dev) :
    (if c then a else b).link_train.lane_count =
      if c then a.link_train.lane_count else b.link_train.lane_count := by
  split_ifs <;> rfl

@[simp]
theorem set_link_rate_link_rate (v : Nat) (dp : Dev) :
    (set_link_rate v dp).link_train.link_rate = v := rfl
@[simp]
theorem set_link_rate_lane_count (v : Nat) (dp : Dev) :
    (set_link_rate v dp).link_train.lane_count = dp.link_train.lane_count := rfl
@[simp]
theorem set_lane_count_field_link_rate (v : Nat) (dp : Dev) :
    (set_lane_count_field v dp).link_train.link_rate = dp.link_train.link_rate := rfl
@[simp]
theorem set_lane_count_field_lane_count (v : Nat) (dp : Dev) :
    (set_lane_count_field v dp).link_train.lane_count = v := rfl
@[simp]
theorem set_link_rate_tick (v : Nat) (dp : Dev) : (set_link_rate v dp).tick = dp.tick := rfl
@[simp]
theorem set_lane_count_field_tick (v : Nat) (dp : Dev) :
    (set_lane_count_field v dp).tick = dp.tick := rfl

/-- C11: negotiation in `s5p_dp_init_training`. When the reads of
MAX_LINK_RATE and MAX_LANE_COUNT succeed, with `r` the rate byte and `c` the
lane count (`DPCD_MAX_LANE_COUNT` of the byte, as a `u8`) reported by the
sink, the call returns 0, the resulting `link_rate` is `min max_rate r'` where
`r'` is `r` if `r` is 0x06 or 0x0a and 0x06 otherwise, and the resulting
`lane_count` is `min max_lane c'` where `c'` is `c` if `c ≠ 0` and 1
otherwise. -/
theorem init_training_negotiation (hdr : Hdr) (env : Env) (max_lane max_rate : Nat) (dp : Dev)
    (hrate : 0 ≤ (env.aux (init_training_begin hdr env dp).tick DpcdAddr.MAX_LINK_RATE).ret)
    (hlane : 0 ≤
      (env.aux ((init_training_begin hdr env dp).tick + 1) DpcdAddr.MAX_LANE_COUNT).ret) :
    (s5p_dp_init_training hdr env max_lane max_rate dp).1 = 0 ∧
    (s5p_dp_init_training hdr env max_lane max_rate dp).2.link_train.link_rate =
      min max_rate
        (if aux_byte env (init_training_begin hdr env dp).tick DpcdAddr.MAX_LINK_RATE
              = LINK_RATE_1_62GBPS ∨
            aux_byte env (init_training_begin hdr env dp).tick DpcdAddr.MAX_LINK_RATE
              = LINK_RATE_2_70GBPS
          then aux_byte env (init_training_begin hdr env dp).tick DpcdAddr.MAX_LINK_RATE
          else LINK_RATE_1_62GBPS) ∧
    (s5p_dp_init_training hdr env max_lane max_rate dp).2.link_train.lane_count =
      min max_lane
        (if hdr.DPCD_MAX_LANE_COUNT
              (aux_byte env ((init_training_begin hdr env dp).tick + 1)
                DpcdAddr.MAX_LANE_COUNT) % 256 ≠ 0
          then hdr.DPCD_MAX_LANE_COUNT
              (aux_byte env ((init_training_begin hdr env dp).tick + 1)
                DpcdAddr.MAX_LANE_COUNT) % 256
          else 1) := by
  unfold s5p_dp_init_training s5p_dp_get_max_rx_bandwidth s5p_dp_get_max_rx_lane_count
  generalize init_training_begin hdr env dp = d0 at hrate hlane ⊢
  simp only [read_byte_ret, read_byte_val, read_byte_tick, if_neg (not_lt.mpr hrate),
    set_link_rate_tick, if_neg (not_lt.mpr hlane), lt_irrefl, if_false]
  simp only [ite_link_rate, ite_lane_count, hw_link_train, set_link_rate_link_rate,
    set_link_rate_lane_count, set_lane_count_field_link_rate, set_lane_count_field_lane_count,
    ite_self, read_byte_link_train]
  unfold aux_byte LINK_RATE_1_62GBPS LINK_RATE_2_70GBPS LANE_COUNT1
  have hr : (env.aux d0.tick DpcdAddr.MAX_LINK_RATE).data 0 % 256 < 256 :=
    Nat.mod_lt _ (by decide)
  generalize (env.aux d0.tick DpcdAddr.MAX_LINK_RATE).data 0 % 256 = r at hr ⊢
  have hc : hdr.DPCD_MAX_LANE_COUNT ((env.aux (d0.tick + 1) DpcdAddr.MAX_LANE_COUNT).data 0 % 256)
      % 256 < 256 := Nat.mod_lt _ (by decide)
  generalize hdr.DPCD_MAX_LANE_COUNT
    ((env.aux (d0.tick + 1) DpcdAddr.MAX_LANE_COUNT).data 0 % 256) % 256 = c at hc ⊢
  rw [Nat.min_def, Nat.min_def]
  refine ⟨trivial, ?_, ?_⟩
  · split_ifs <;> omega
  · split_ifs <;> omega

/-- Witness of C11: the sink `env_caps` reports the unsupported rate 0x14 and
four lanes; with `max_lane = 2` and `max_rate = 0x0a` the call returns 0 with
link rate 0x06 and two lanes. -/
theorem init_training_negotiation_witness :
    (s5p_dp_init_training stdHdr env_caps 2 0x0a dp_two_lanes).1 = 0 ∧
    (s5p_dp_init_training stdHdr env_caps 2 0x0a dp_two_lanes).2.link_train.link_rate
      = LINK_RATE_1_62GBPS ∧
    (s5p_dp_init_training stdHdr env_caps 2 0x0a dp_two_lanes).2.link_train.lane_count = 2 :=
  ⟨(init_training_negotiation stdHdr env_caps 2 0x0a dp_two_lanes (by decide) (by decide)).1,
   (init_training_negotiation stdHdr env_caps 2 0x0a dp_two_lanes (by decide)
      (by decide)).2.1.trans (by decide),
   (init_training_negotiation stdHdr env_caps 2 0x0a dp_two_lanes (by decide)
      (by decide)).2.2.trans (by decide)⟩

/-! ## The link rate during a session -/

theorem same_link_refl (dp : Dev) : SameLink dp dp := ⟨rfl, rfl⟩

theorem same_link_trans {a b c : Dev} (h1 : SameLink a b) (h2 : SameLink b c) : SameLink a c :=
  ⟨h2.1.trans h1.1, h2.2.trans h1.2⟩

theorem same_link_of_link_train {a b : Dev} (h : b.link_train = a.link_train) : SameLink a b := by
  unfold SameLink
  rw [h]
  exact ⟨rfl, rfl⟩

theorem same_link_apply_training_lane (hdr : Hdr) (v p lane : Nat) (dp : Dev) :
    SameLink dp (apply_training_lane hdr v p lane dp) := by
  unfold SameLink
  simp [apply_training_lane, set_training_lane]

theorem same_link_cr_done_lanes (hdr : Hdr) (env : Env) (n lane : Nat) (dp : Dev) :
    SameLink dp (cr_done_lanes hdr env n lane dp).dev := by
  induction n generalizing lane dp with
  | zero => exact same_link_refl dp
  | succ n ih =>
    simp only [cr_done_lanes]
    have h1 : SameLink dp
        (s5p_dp_read_bytes_from_dpcd env DpcdAddr.ADJUST_REQUEST_LANE0_1 2 dp).2.2 :=
      same_link_of_link_train rfl
    split
    · exact h1
    · exact same_link_trans h1 (same_link_trans (same_link_apply_training_lane _ _ _ _ _) (ih _ _))

theorem same_link_eq_adjust_lanes (hdr : Hdr) (env : Env) (n lane : Nat) (dp : Dev) :
    SameLink dp (eq_adjust_lanes hdr env n lane dp).dev := by
  induction n generalizing lane dp with
  | zero => exact same_link_refl dp
  | succ n ih =>
    simp only [eq_adjust_lanes]
    have h1 : SameLink dp
        (s5p_dp_read_bytes_from_dpcd env DpcdAddr.ADJUST_REQUEST_LANE0_1 2 dp).2.2 :=
      same_link_of_link_train rfl
    split
    · exact h1
    · exact same_link_trans h1 (same_link_trans ⟨rfl, rfl⟩ (ih _ _))

theorem same_link_cr_retry_lanes (hdr : Hdr) (env : Env) (n lane : Nat) (dp : Dev) :
    SameLink dp (cr_retry_lanes hdr env n lane dp).dev := by
  induction n generalizing lane dp with
  | zero => exact same_link_refl dp
  | succ n ih =>
    simp only [cr_retry_lanes]
    have h1 : SameLink dp
        (s5p_dp_read_bytes_from_dpcd env DpcdAddr.ADJUST_REQUEST_LANE0_1 2 dp).2.2 :=
      same_link_of_link_train rfl
    have h2 : ∀ d : Dev, SameLink d (incr_cr_loop lane d) := fun _ => ⟨rfl, rfl⟩
    split
    · exact h1
    · split
      · exact h1
      · split
        · split
          · exact same_link_trans h1 (h2 _)
          · exact same_link_trans h1 (same_link_trans (h2 _)
              (same_link_trans (same_link_apply_training_lane _ _ _ _ _) (ih _ _)))
        · exact same_link_trans h1
            (same_link_trans (same_link_apply_training_lane _ _ _ _ _) (ih _ _))

theorem same_link_reduce_link_rate (hdr : Hdr) (env : Env) (dp : Dev) :
    SameLink dp (s5p_dp_reduce_link_rate hdr env dp) := by
  unfold SameLink s5p_dp_reduce_link_rate
  simp [set_lt_state, training_pattern_dis_link_train]

theorem same_link_link_start (hdr : Hdr) (env : Env) (dp : Dev) :
    SameLink dp (s5p_dp_link_start hdr env dp).2 := by
  unfold SameLink
  rw [link_start_link_train]
  exact ⟨rfl, rfl⟩

/-- A clock-recovery poll changes neither the link rate nor the lane count,
whatever the AUX channel answers. -/
theorem same_link_process_clock_recovery (hdr : Hdr) (env : Env) (dp : Dev) :
    SameLink dp (s5p_dp_process_clock_recovery hdr env dp).2 := by
  unfold s5p_dp_process_clock_recovery
  have k1 : SameLink dp (s5p_dp_read_bytes_from_dpcd env DpcdAddr.LANE0_1_STATUS 2
      (emit (Event.udelay 100) (emit (Event.call Fn.process_clock_recovery) dp))).2.2 :=
    same_link_of_link_train rfl
  simp only []
  generalize (s5p_dp_read_bytes_from_dpcd env DpcdAddr.LANE0_1_STATUS 2
      (emit (Event.udelay 100) (emit (Event.call Fn.process_clock_recovery) dp))) = rd at k1 ⊢
  obtain ⟨rv, buf, d1⟩ := rd
  simp only [] at k1 ⊢
  split
  · exact k1
  · split
    · have k3 := same_link_cr_done_lanes hdr env
        (emit (Event.udelay 100)
          (emit (Event.call Fn.process_clock_recovery) dp)).link_train.lane_count 0
        (s5p_dp_set_training_pattern PatternSet.TRAINING_PTN2 d1)
      have k2 : SameLink dp (s5p_dp_set_training_pattern PatternSet.TRAINING_PTN2 d1) :=
        same_link_trans k1 (same_link_of_link_train rfl)
      split
      · rename_i r dX heq
        rw [heq] at k3
        exact same_link_trans k2 k3
      · rename_i dX heq
        rw [heq] at k3
        exact same_link_trans (same_link_trans k2 k3) (same_link_reduce_link_rate _ _ _)
      · rename_i dX heq
        rw [heq] at k3
        have k4 : SameLink dp dX := same_link_trans k2 k3
        split
        · exact same_link_trans k4 (same_link_of_link_train rfl)
        · split
          · exact same_link_trans k4 (same_link_of_link_train rfl)
          · exact same_link_trans k4 ⟨rfl, rfl⟩
    · have k3 := same_link_cr_retry_lanes hdr env
        (emit (Event.udelay 100)
          (emit (Event.call Fn.process_clock_recovery) dp)).link_train.lane_count 0 d1
      split
      · rename_i r dX heq
        rw [heq] at k3
        exact same_link_trans k1 k3
      · rename_i dX heq
        rw [heq] at k3
        exact same_link_trans (same_link_trans k1 k3) (same_link_reduce_link_rate _ _ _)
      · rename_i dX heq
        rw [heq] at k3
        have k4 : SameLink dp dX := same_link_trans k1 k3
        split
        · exact same_link_trans k4 (same_link_of_link_train rfl)
        · exact same_link_trans k4 (same_link_of_link_train rfl)

/-- An equalizer poll changes the link rate and the lane count only when it
ends in state FINISHED, where both are read back from the transmitter. -/
theorem same_link_process_equalizer_training (hdr : Hdr) (env : Env) (dp : Dev) :
    SameLink dp (s5p_dp_process_equalizer_training hdr env dp).2 ∨
    (s5p_dp_process_equalizer_training hdr env dp).2.link_train.lt_state = LtState.FINISHED := by
  unfold s5p_dp_process_equalizer_training
  have k1 : SameLink dp (s5p_dp_read_bytes_from_dpcd env DpcdAddr.LANE0_1_STATUS 2
      (emit (Event.udelay 400) (emit (Event.call Fn.process_equalizer_training) dp))).2.2 :=
    same_link_of_link_train rfl
  simp only []
  generalize (s5p_dp_read_bytes_from_dpcd env DpcdAddr.LANE0_1_STATUS 2
      (emit (Event.udelay 400) (emit (Event.call Fn.process_equalizer_training) dp))) = rd
    at k1 ⊢
  obtain ⟨rv, buf, d1⟩ := rd
  simp only [] at k1 ⊢
  split
  · exact Or.inl k1
  · split
    · split
      · exact Or.inl (same_link_trans k1 (same_link_of_link_train rfl))
      · have k2 : SameLink dp
            (s5p_dp_read_byte_from_dpcd env DpcdAddr.LANE_ALIGN_STATUS_UPDATED d1).2.2 :=
          same_link_trans k1 (same_link_of_link_train rfl)
        have k3 := same_link_eq_adjust_lanes hdr env
          (emit (Event.udelay 400)
            (emit (Event.call Fn.process_equalizer_training) dp)).link_train.lane_count 0
          (s5p_dp_read_byte_from_dpcd env DpcdAddr.LANE_ALIGN_STATUS_UPDATED d1).2.2
        split
        · rename_i r dX heq
          rw [heq] at k3
          exact Or.inl (same_link_trans k2 k3)
        · rename_i dX heq
          rw [heq] at k3
          exact Or.inl (same_link_trans (same_link_trans k2 k3)
            (same_link_reduce_link_rate _ _ _))
        · rename_i dX heq
          rw [heq] at k3
          have k4 : SameLink dp dX := same_link_trans k2 k3
          split
          · split
            · exact Or.inl (same_link_trans k4
                (same_link_of_link_train (training_pattern_dis_link_train _ _ _)))
            · exact Or.inr rfl
          · split
            · exact Or.inl (same_link_trans (same_link_trans k4 ⟨rfl, rfl⟩)
                (same_link_reduce_link_rate _ _ _))
            · split
              · exact Or.inl (same_link_trans k4 (by unfold SameLink; simp))
              · exact Or.inl (same_link_trans k4 (by unfold SameLink; simp))
    · exact Or.inl (same_link_trans k1 (same_link_reduce_link_rate _ _ _))

theorem sw_loop_same_link (hdr : Hdr) (env : Env) (fuel : Nat) (retval : Int) (dp : Dev)
    (r : Int × Dev) (h : sw_link_training_loop hdr env fuel retval dp = some r) :
    SameLink dp r.2 ∨ r.2.link_train.lt_state = LtState.FINISHED := by
  induction fuel generalizing retval dp with
  | zero => simp [sw_link_training_loop] at h
  | succ fuel ih =>
    simp only [sw_link_training_loop] at h
    split at h
    · rename_i rv d hb
      have hd : SameLink dp d ∨ d.link_train.lt_state = LtState.FINISHED := by
        unfold sw_link_training_body at hb
        split at hb
        · simp only [Sum.inl.injEq] at hb
          have := same_link_link_start hdr env dp
          rw [hb] at this
          exact Or.inl this
        · simp only [Sum.inl.injEq] at hb
          have := same_link_process_clock_recovery hdr env dp
          rw [hb] at this
          exact Or.inl this
        · simp only [Sum.inl.injEq] at hb
          have := same_link_process_equalizer_training hdr env dp
          rw [hb] at this
          exact this
        · simp at hb
        · simp at hb
      rcases hd with hd | hd
      · rcases ih rv d h with h2 | h2
        · exact Or.inl (same_link_trans hd h2)
        · exact Or.inr h2
      · cases fuel with
        | zero => simp [sw_link_training_loop] at h
        | succ fuel =>
          simp only [sw_link_training_loop, sw_link_training_body, hd] at h
          simp only [Option.some.injEq] at h
          rw [← h]
          exact Or.inr hd
    · rename_i res hb
      simp only [Option.some.injEq] at h
      subst h
      unfold sw_link_training_body at hb
      split at hb
      · simp at hb
      · simp at hb
      · simp at hb
      · simp only [Sum.inr.injEq] at hb
        rw [← hb]
        exact Or.inl (same_link_refl dp)
      · simp only [Sum.inr.injEq] at hb
        rw [← hb]
        exact Or.inl (same_link_refl dp)

/-- C13, counterexample: two lanes at 2.7 Gbps against the sink `env_no_cr`,
which never reports clock recovery. The session goes through
`s5p_dp_reduce_link_rate` once and returns `-EREMOTEIO` in state FAILED, and
the recorded link rate is still 2.7 Gbps (0x0a), not 1.62 Gbps (0x06). -/
theorem link_rate_downgrade_counterexample :
    dp_two_lanes.link_train.link_rate = LINK_RATE_2_70GBPS ∧
    (s5p_dp_sw_link_training stdHdr env_no_cr 7 dp_two_lanes).map
        (fun x => (x.1, x.2.link_train.lt_state, calls Fn.reduce_link_rate x.2.log,
          x.2.link_train.link_rate))
      = some (- EREMOTEIO, LtState.FAILED, 1, LINK_RATE_2_70GBPS) ∧
    ¬ ((s5p_dp_sw_link_training stdHdr env_no_cr 7 dp_two_lanes).map
        (fun x => decide (x.2.link_train.link_rate < LINK_RATE_2_70GBPS)) = some true) :=
  ⟨by rfl, by rfl, by decide⟩

/-- C13, amended: `s5p_dp_reduce_link_rate` sets the state to FAILED and
leaves the recorded link rate as it is, and a call of
`s5p_dp_sw_link_training` that returns in state FAILED leaves the link rate
and the lane count recorded in the link-training state equal to those the
session started with, for every sink and every header constant. Only a
session that ends FINISHED stores a link rate, the one read back from the
transmitter. -/
theorem failed_session_keeps_link_rate (hdr : Hdr) (env : Env) (fuel : Nat) (dp : Dev)
    (r : Int × Dev) (h : s5p_dp_sw_link_training hdr env fuel dp = some r)
    (hfail : r.2.link_train.lt_state = LtState.FAILED) :
    r.2.link_train.link_rate = dp.link_train.link_rate ∧
    r.2.link_train.lane_count = dp.link_train.lane_count ∧
    (∀ d : Dev, (s5p_dp_reduce_link_rate hdr env d).link_train.lt_state = LtState.FAILED ∧
      (s5p_dp_reduce_link_rate hdr env d).link_train.link_rate = d.link_train.link_rate) := by
  unfold s5p_dp_sw_link_training at h
  refine ⟨?_, ?_, fun d => ⟨reduce_link_rate_state hdr env d,
    (same_link_reduce_link_rate hdr env d).1⟩⟩
  · rcases sw_loop_same_link hdr env fuel 0 _ r h with h2 | h2
    · exact h2.1
    · rw [hfail] at h2
      exact absurd h2 (by decide)
  · rcases sw_loop_same_link hdr env fuel 0 _ r h with h2 | h2
    · exact h2.2
    · rw [hfail] at h2
      exact absurd h2 (by decide)

/-- Witness of C13: the session of `dp_two_lanes` against `env_no_cr` returns
in state FAILED with the link rate 2.7 Gbps it started with. -/
theorem failed_session_keeps_link_rate_witness :
    s5p_dp_sw_link_training stdHdr env_no_cr 7 dp_two_lanes =
      some ((s5p_dp_sw_link_training stdHdr env_no_cr 7 dp_two_lanes).getD (0, dp_two_lanes)) ∧
    ((s5p_dp_sw_link_training stdHdr env_no_cr 7 dp_two_lanes).getD
      (0, dp_two_lanes)).2.link_train.lt_state = LtState.FAILED ∧
    ((s5p_dp_sw_link_training stdHdr env_no_cr 7 dp_two_lanes).getD
      (0, dp_two_lanes)).2.link_train.link_rate = LINK_RATE_2_70GBPS :=
  ⟨by rfl, by rfl,
    (failed_session_keeps_link_rate stdHdr env_no_cr 7 dp_two_lanes _ (by rfl) (by rfl)).1⟩

/-! ## The EDID reader -/

theorem checksum_foldl (f : Nat → Nat) (l : List Nat) (a : Nat) (ha : a < 256) :
    l.foldl (fun sum i => (sum + f i) % 256) a = (a + (l.map f).sum) % 256 := by
  induction l generalizing a with
  | nil => simp; omega
  | cons x l ih =>
    simp only [List.foldl_cons, List.map_cons, List.sum_cons]
    rw [ih _ (Nat.mod_lt _ (by decide))]
    omega

theorem calc_edid_check_sum_eq (f : Nat → Nat) :
    s5p_dp_calc_edid_check_sum f = ((List.range 128).map f).sum % 256 := by
  unfold s5p_dp_calc_edid_check_sum EDID_BLOCK_LENGTH
  rw [checksum_foldl f _ 0 (by decide)]
  simp

theorem map_block_at_range (block : List Nat) :
    (List.range block.length).map (block_at block) = block := by
  apply List.ext_getElem
  · simp
  · intro n h1 h2
    simp [block_at, List.getD_eq_getElem?_getD, List.getElem?_eq_getElem h2]

theorem sum_map_update (f : Nat → Nat) (i b n : Nat) (hi : i < n) :
    ((List.range n).map (Function.update f i b)).sum + f i = ((List.range n).map f).sum + b := by
  induction n with
  | zero => omega
  | succ n ih =>
    simp only [List.range_succ, List.map_append, List.sum_append, List.map_cons, List.map_nil,
      List.sum_cons, List.sum_nil, Nat.add_zero]
    by_cases h : i < n
    · have := ih h
      rw [Function.update_noteq (by omega : n ≠ i)]
      omega
    · have hin : i = n := by omega
      subst hin
      have hc : (List.range i).map (Function.update f i b) = (List.range i).map f := by
        apply List.map_congr_left
        intro a ha
        rw [List.mem_range] at ha
        rw [Function.update_noteq (by omega)]
      rw [hc, Function.update_same]
      omega

theorem block_at_set (block : List Nat) (i b : Nat) (hi : i < block.length) :
    block_at (block.set i b) = Function.update (block_at block) i b := by
  funext k
  unfold block_at
  by_cases h : k = i
  · subst h
    simp [List.getD_eq_getElem?_getD, hi]
  · rw [Function.update_noteq h]
    simp [List.getD_eq_getElem?_getD, List.getElem?_set_ne (Ne.symm h)]

theorem calc_edid_check_sum_congr (f g : Nat → Nat)
    (h : ∀ k, k < EDID_BLOCK_LENGTH → f k = g k) :
    s5p_dp_calc_edid_check_sum f = s5p_dp_calc_edid_check_sum g := by
  rw [calc_edid_check_sum_eq, calc_edid_check_sum_eq]
  congr 2
  apply List.map_congr_left
  intro a ha
  rw [List.mem_range] at ha
  exact h a ha

theorem calc_store_base (edid data : Nat → Nat) :
    s5p_dp_calc_edid_check_sum (store_bytes edid EDID_HEADER_PATTERN EDID_BLOCK_LENGTH data) =
      s5p_dp_calc_edid_check_sum data := by
  apply calc_edid_check_sum_congr
  intro k hk
  simp [store_bytes, EDID_HEADER_PATTERN, hk]

theorem calc_store_ext (edid data : Nat → Nat) :
    s5p_dp_calc_edid_check_sum
        (fun i => store_bytes edid EDID_BLOCK_LENGTH EDID_BLOCK_LENGTH data
          (EDID_BLOCK_LENGTH + i)) =
      s5p_dp_calc_edid_check_sum data := by
  apply calc_edid_check_sum_congr
  intro k hk
  simp [store_bytes, hk]

@[simp]
theorem read_byte_from_i2c_ret (env : Env) (d r : Nat) (dp : Dev) :
    (s5p_dp_read_byte_from_i2c env d r dp).1 = (env.i2c dp.tick r).ret := rfl
@[simp]
theorem read_byte_from_i2c_val (env : Env) (d r : Nat) (dp : Dev) :
    (s5p_dp_read_byte_from_i2c env d r dp).2.1 = (env.i2c dp.tick r).data 0 % 256 := rfl
@[simp]
theorem read_byte_from_i2c_tick (env : Env) (d r : Nat) (dp : Dev) :
    (s5p_dp_read_byte_from_i2c env d r dp).2.2.tick = dp.tick + 1 := rfl
@[simp]
theorem read_byte_from_i2c_log (env : Env) (d r : Nat) (dp : Dev) :
    (s5p_dp_read_byte_from_i2c env d r dp).2.2.log =
      dp.log ++ [Event.i2c_read d r 1 (env.i2c dp.tick r).ret] := rfl
@[simp]
theorem read_bytes_from_i2c_ret (env : Env) (d r c : Nat) (dp : Dev) :
    (s5p_dp_read_bytes_from_i2c env d r c dp).1 = (env.i2c dp.tick r).ret := rfl
@[simp]
theorem read_bytes_from_i2c_val (env : Env) (d r c : Nat) (dp : Dev) :
    (s5p_dp_read_bytes_from_i2c env d r c dp).2.1 = i2c_block env dp.tick r := rfl
@[simp]
theorem read_bytes_from_i2c_tick (env : Env) (d r c : Nat) (dp : Dev) :
    (s5p_dp_read_bytes_from_i2c env d r c dp).2.2.tick = dp.tick + 1 := rfl
@[simp]
theorem read_bytes_from_i2c_log (env : Env) (d r c : Nat) (dp : Dev) :
    (s5p_dp_read_bytes_from_i2c env d r c dp).2.2.log =
      dp.log ++ [Event.i2c_read d r c (env.i2c dp.tick r).ret] := rfl

/-- A base block with a non-zero checksum makes `s5p_dp_read_edid` return
`-EIO`, whatever else the channel does. -/
theorem read_edid_bad_base (hdr : Hdr) (env : Env) (edid : Nat → Nat) (dp : Dev)
    (h : s5p_dp_calc_edid_check_sum (i2c_block env (dp.tick + 1) EDID_HEADER_PATTERN) ≠ 0) :
    (s5p_dp_read_edid hdr env edid dp).1 = - EIO := by
  unfold s5p_dp_read_edid
  simp only [read_byte_from_i2c_ret, read_byte_from_i2c_val, read_byte_from_i2c_tick,
    read_bytes_from_i2c_ret, read_bytes_from_i2c_val, read_bytes_from_i2c_tick, calc_store_base,
    calc_store_ext]
  split_ifs <;> rfl

/-- An extension block with a non-zero checksum makes `s5p_dp_read_edid`
return `-EIO` when the extension flag is not 0. -/
theorem read_edid_bad_ext (hdr : Hdr) (env : Env) (edid : Nat → Nat) (dp : Dev)
    (hflag : 0 < (env.i2c dp.tick hdr.EDID_EXTENSION_FLAG).data 0 % 256)
    (h : s5p_dp_calc_edid_check_sum (i2c_block env (dp.tick + 2) EDID_BLOCK_LENGTH) ≠ 0) :
    (s5p_dp_read_edid hdr env edid dp).1 = - EIO := by
  unfold s5p_dp_read_edid
  simp only [read_byte_from_i2c_ret, read_byte_from_i2c_val, read_byte_from_i2c_tick,
    read_bytes_from_i2c_ret, read_bytes_from_i2c_val, read_bytes_from_i2c_tick, calc_store_base,
    calc_store_ext, gt_iff_lt, if_pos hflag]
  split_ifs <;> rfl

theorem mutated_checksum_ne_zero (block : List Nat) (i b : Nat)
    (hlen : block.length = EDID_BLOCK_LENGTH) (hsum : block.sum % 256 = 0)
    (hbyte : ∀ x ∈ block, x < 256)
    (hi : i < EDID_BLOCK_LENGTH) (hb : b < 256) (hne : b ≠ block.getD i 0) :
    s5p_dp_calc_edid_check_sum (block_at (block.set i b)) ≠ 0 := by
  have hi2 : i < block.length := by rw [hlen]; exact hi
  rw [calc_edid_check_sum_eq, block_at_set block i b hi2]
  have h1 := sum_map_update (block_at block) i b 128 hi
  have h2 := map_block_at_range block
  rw [hlen] at h2
  unfold EDID_BLOCK_LENGTH at h2
  rw [h2] at h1
  have hx : block_at block i < 256 := by
    unfold block_at
    rw [List.getD_eq_getElem?_getD, List.getElem?_eq_getElem hi2]
    exact hbyte _ (List.getElem_mem _)
  have hne2 : b ≠ block_at block i := hne
  omega

/-- C15: EDID single-byte mutation. For every 128-byte block whose bytes
sum to 0 modulo 256, replacing the byte at any index `i < 128` by any
different byte `b` gives a block whose `s5p_dp_calc_edid_check_sum` is not 0;
and `s5p_dp_read_edid` returns the error `-EIO` whenever that block is what
the read of the base block delivers, or what the read of the extension block
delivers when the extension flag is not 0. -/
theorem edid_single_byte_mutation (block : List Nat) (i b : Nat)
    (hlen : block.length = EDID_BLOCK_LENGTH) (hsum : block.sum % 256 = 0)
    (hbyte : ∀ x ∈ block, x < 256)
    (hi : i < EDID_BLOCK_LENGTH) (hb : b < 256) (hne : b ≠ block.getD i 0) :
    s5p_dp_calc_edid_check_sum (block_at (block.set i b)) ≠ 0 ∧
    (∀ (hdr : Hdr) (env : Env) (edid : Nat → Nat) (dp : Dev),
      (∀ k, k < EDID_BLOCK_LENGTH →
        i2c_block env (dp.tick + 1) EDID_HEADER_PATTERN k = block_at (block.set i b) k) →
      (s5p_dp_read_edid hdr env edid dp).1 = - EIO) ∧
    (∀ (hdr : Hdr) (env : Env) (edid : Nat → Nat) (dp : Dev),
      0 < (env.i2c dp.tick hdr.EDID_EXTENSION_FLAG).data 0 % 256 →
      (∀ k, k < EDID_BLOCK_LENGTH →
        i2c_block env (dp.tick + 2) EDID_BLOCK_LENGTH k = block_at (block.set i b) k) →
      (s5p_dp_read_edid hdr env edid dp).1 = - EIO) := by
  have hm := mutated_checksum_ne_zero block i b hlen hsum hbyte hi hb hne
  refine ⟨hm, ?_, ?_⟩
  · intro hdr env edid dp hblk
    apply read_edid_bad_base
    rw [calc_edid_check_sum_congr _ _ hblk]
    exact hm
  · intro hdr env edid dp hflag hblk
    apply read_edid_bad_ext _ _ _ _ hflag
    rw [calc_edid_check_sum_congr _ _ hblk]
    exact hm

/-- What the test handshake does, by the answers of the channel: `d.tick` is
the number of the TEST_REQUEST read. -/
theorem edid_test_handshake_cases (hdr : Hdr) (env : Env) (cs : Nat) (d : Dev) :
    ((env.aux d.tick DpcdAddr.TEST_REQUEST).ret < 0 →
      (edid_test_handshake hdr env cs d).1 = (env.aux d.tick DpcdAddr.TEST_REQUEST).ret ∧
      (edid_test_handshake hdr env cs d).2.log = d.log ++
        [Event.dpcd_read DpcdAddr.TEST_REQUEST 1 (env.aux d.tick DpcdAddr.TEST_REQUEST).ret]) ∧
    (0 ≤ (env.aux d.tick DpcdAddr.TEST_REQUEST).ret →
      aux_byte env d.tick DpcdAddr.TEST_REQUEST &&& hdr.DPCD_TEST_EDID_READ = 0 →
      (edid_test_handshake hdr env cs d).1 = 0 ∧
      (edid_test_handshake hdr env cs d).2.log = d.log ++
        [Event.dpcd_read DpcdAddr.TEST_REQUEST 1 (env.aux d.tick DpcdAddr.TEST_REQUEST).ret]) ∧
    (0 ≤ (env.aux d.tick DpcdAddr.TEST_REQUEST).ret →
      aux_byte env d.tick DpcdAddr.TEST_REQUEST &&& hdr.DPCD_TEST_EDID_READ ≠ 0 →
      ((env.aux (d.tick + 1) DpcdAddr.TEST_EDID_CHECKSUM).ret < 0 →
        (edid_test_handshake hdr env cs d).1 =
          (env.aux (d.tick + 1) DpcdAddr.TEST_EDID_CHECKSUM).ret ∧
        (edid_test_handshake hdr env cs d).2.log = d.log ++
          [Event.dpcd_read DpcdAddr.TEST_REQUEST 1 (env.aux d.tick DpcdAddr.TEST_REQUEST).ret,
           Event.dpcd_write DpcdAddr.TEST_EDID_CHECKSUM [cs % 256]
            (env.aux (d.tick + 1) DpcdAddr.TEST_EDID_CHECKSUM).ret]) ∧
      (0 ≤ (env.aux (d.tick + 1) DpcdAddr.TEST_EDID_CHECKSUM).ret →
        (edid_test_handshake hdr env cs d).2.log = d.log ++
          [Event.dpcd_read DpcdAddr.TEST_REQUEST 1 (env.aux d.tick DpcdAddr.TEST_REQUEST).ret,
           Event.dpcd_write DpcdAddr.TEST_EDID_CHECKSUM [cs % 256]
            (env.aux (d.tick + 1) DpcdAddr.TEST_EDID_CHECKSUM).ret,
           Event.dpcd_write DpcdAddr.TEST_RESPONSE [hdr.DPCD_TEST_EDID_CHECKSUM_WRITE % 256]
            (env.aux (d.tick + 2) DpcdAddr.TEST_RESPONSE).ret] ∧
        ((env.aux (d.tick + 2) DpcdAddr.TEST_RESPONSE).ret < 0 →
          (edid_test_handshake hdr env cs d).1 =
            (env.aux (d.tick + 2) DpcdAddr.TEST_RESPONSE).ret) ∧
        (0 ≤ (env.aux (d.tick + 2) DpcdAddr.TEST_RESPONSE).ret →
          (edid_test_handshake hdr env cs d).1 = 0))) := by
  unfold edid_test_handshake aux_byte
  simp only [read_byte_ret, read_byte_val, read_byte_tick, write_byte_ret, write_byte_tick]
  refine ⟨?_, ?_, ?_⟩
  · intro h
    simp [h]
  · intro h1 h2
    simp [not_lt.mpr h1, h2]
  · intro h1 h2
    refine ⟨?_, ?_⟩
    · intro h3
      simp [not_lt.mpr h1, h2, h3]
    · intro h3
      simp only [if_neg (not_lt.mpr h1), if_pos h2, if_neg (not_lt.mpr h3)]
      refine ⟨?_, ?_, ?_⟩
      · split_ifs <;> simp
      · intro h4
        simp [h4]
      · intro h4
        simp [not_lt.mpr h4]

/-- The state in which `s5p_dp_read_edid` enters the test handshake when
there is no extension block. -/
theorem read_edid_base_only (hdr : Hdr) (env : Env) (edid : Nat → Nat) (dp : Dev)
    (hflag : 0 ≤ (env.i2c dp.tick hdr.EDID_EXTENSION_FLAG).ret)
    (hno : (env.i2c dp.tick hdr.EDID_EXTENSION_FLAG).data 0 % 256 = 0)
    (hret : (env.i2c (dp.tick + 1) EDID_HEADER_PATTERN).ret = 0)
    (hsum : s5p_dp_calc_edid_check_sum (i2c_block env (dp.tick + 1) EDID_HEADER_PATTERN) = 0)
    (hcs : hdr.EDID_CHECKSUM < EDID_BLOCK_LENGTH) :
    s5p_dp_read_edid hdr env edid dp =
      edid_test_handshake hdr env
        (i2c_block env (dp.tick + 1) EDID_HEADER_PATTERN hdr.EDID_CHECKSUM)
        { dp with
          tick := dp.tick + 2
          log := dp.log ++
            [Event.i2c_read hdr.I2C_EDID_DEVICE_ADDR hdr.EDID_EXTENSION_FLAG 1
              (env.i2c dp.tick hdr.EDID_EXTENSION_FLAG).ret,
             Event.i2c_read hdr.I2C_EDID_DEVICE_ADDR EDID_HEADER_PATTERN EDID_BLOCK_LENGTH 0] } := by
  unfold s5p_dp_read_edid
  simp only [read_byte_from_i2c_ret, read_byte_from_i2c_val, read_byte_from_i2c_tick,
    read_bytes_from_i2c_ret, read_bytes_from_i2c_val, read_bytes_from_i2c_tick, calc_store_base,
    calc_store_ext, if_neg (not_lt.mpr hflag), hno, gt_iff_lt, lt_irrefl, if_false, hret, hsum,
    ne_eq, not_true_eq_false]
  have hst : store_bytes edid EDID_HEADER_PATTERN EDID_BLOCK_LENGTH
      (i2c_block env (dp.tick + 1) EDID_HEADER_PATTERN) hdr.EDID_CHECKSUM =
      i2c_block env (dp.tick + 1) EDID_HEADER_PATTERN hdr.EDID_CHECKSUM := by
    simp [store_bytes, EDID_HEADER_PATTERN, hcs]
  rw [hst]
  congr 1
  simp [s5p_dp_read_bytes_from_i2c, s5p_dp_read_byte_from_i2c, hret]

/-- The state in which `s5p_dp_read_edid` enters the test handshake when
there is an extension block. -/
theorem read_edid_with_ext (hdr : Hdr) (env : Env) (edid : Nat → Nat) (dp : Dev)
    (hflag : 0 ≤ (env.i2c dp.tick hdr.EDID_EXTENSION_FLAG).ret)
    (hext : 0 < (env.i2c dp.tick hdr.EDID_EXTENSION_FLAG).data 0 % 256)
    (hret : (env.i2c (dp.tick + 1) EDID_HEADER_PATTERN).ret = 0)
    (hsum : s5p_dp_calc_edid_check_sum (i2c_block env (dp.tick + 1) EDID_HEADER_PATTERN) = 0)
    (hret2 : (env.i2c (dp.tick + 2) EDID_BLOCK_LENGTH).ret = 0)
    (hsum2 : s5p_dp_calc_edid_check_sum (i2c_block env (dp.tick + 2) EDID_BLOCK_LENGTH) = 0)
    (hcs : hdr.EDID_CHECKSUM < EDID_BLOCK_LENGTH) :
    s5p_dp_read_edid hdr env edid dp =
      edid_test_handshake hdr env
        (i2c_block env (dp.tick + 2) EDID_BLOCK_LENGTH hdr.EDID_CHECKSUM)
        { dp with
          tick := dp.tick + 3
          log := dp.log ++
            [Event.i2c_read hdr.I2C_EDID_DEVICE_ADDR hdr.EDID_EXTENSION_FLAG 1
              (env.i2c dp.tick hdr.EDID_EXTENSION_FLAG).ret,
             Event.i2c_read hdr.I2C_EDID_DEVICE_ADDR EDID_HEADER_PATTERN EDID_BLOCK_LENGTH 0,
             Event.i2c_read hdr.I2C_EDID_DEVICE_ADDR EDID_BLOCK_LENGTH EDID_BLOCK_LENGTH 0] } := by
  unfold s5p_dp_read_edid
  simp only [read_byte_from_i2c_ret, read_byte_from_i2c_val, read_byte_from_i2c_tick,
    read_bytes_from_i2c_ret, read_bytes_from_i2c_val, read_bytes_from_i2c_tick, calc_store_base,
    calc_store_ext, if_neg (not_lt.mpr hflag), gt_iff_lt, if_pos hext, hret, hsum, hret2, hsum2,
    ne_eq, not_true_eq_false, if_false]
  have hst : store_bytes
      (store_bytes edid EDID_HEADER_PATTERN EDID_BLOCK_LENGTH
        (i2c_block env (dp.tick + 1) EDID_HEADER_PATTERN))
      EDID_BLOCK_LENGTH EDID_BLOCK_LENGTH
      (i2c_block env (dp.tick + 1 + 1) EDID_BLOCK_LENGTH) (EDID_BLOCK_LENGTH + hdr.EDID_CHECKSUM) =
      i2c_block env (dp.tick + 2) EDID_BLOCK_LENGTH hdr.EDID_CHECKSUM := by
    simp [store_bytes, hcs]
  rw [hst]
  congr 1
  simp [s5p_dp_read_bytes_from_i2c, s5p_dp_read_byte_from_i2c, hret, hret2]

theorem read_edid_abort_base (hdr : Hdr) (env : Env) (edid : Nat → Nat) (dp : Dev)
    (hflag : 0 ≤ (env.i2c dp.tick hdr.EDID_EXTENSION_FLAG).ret)
    (hret : (env.i2c (dp.tick + 1) EDID_HEADER_PATTERN).ret = 0)
    (hsum : s5p_dp_calc_edid_check_sum (i2c_block env (dp.tick + 1) EDID_HEADER_PATTERN) ≠ 0) :
    s5p_dp_read_edid hdr env edid dp =
      (- EIO, { dp with
          tick := dp.tick + 2
          log := dp.log ++
            [Event.i2c_read hdr.I2C_EDID_DEVICE_ADDR hdr.EDID_EXTENSION_FLAG 1
              (env.i2c dp.tick hdr.EDID_EXTENSION_FLAG).ret,
             Event.i2c_read hdr.I2C_EDID_DEVICE_ADDR EDID_HEADER_PATTERN
              EDID_BLOCK_LENGTH 0] }) := by
  unfold s5p_dp_read_edid
  simp only [read_byte_from_i2c_ret, read_byte_from_i2c_val, read_byte_from_i2c_tick,
    read_bytes_from_i2c_ret, read_bytes_from_i2c_val, read_bytes_from_i2c_tick, calc_store_base,
    calc_store_ext, if_neg (not_lt.mpr hflag), hret, ne_eq, not_true_eq_false, if_false, hsum,
    not_false_eq_true, if_true]
  split_ifs <;> simp [s5p_dp_read_bytes_from_i2c, s5p_dp_read_byte_from_i2c, hret]

theorem read_edid_abort_ext (hdr : Hdr) (env : Env) (edid : Nat → Nat) (dp : Dev)
    (hflag : 0 ≤ (env.i2c dp.tick hdr.EDID_EXTENSION_FLAG).ret)
    (hext : 0 < (env.i2c dp.tick hdr.EDID_EXTENSION_FLAG).data 0 % 256)
    (hret : (env.i2c (dp.tick + 1) EDID_HEADER_PATTERN).ret = 0)
    (hsum : s5p_dp_calc_edid_check_sum (i2c_block env (dp.tick + 1) EDID_HEADER_PATTERN) = 0)
    (hret2 : (env.i2c (dp.tick + 2) EDID_BLOCK_LENGTH).ret = 0)
    (hsum2 : s5p_dp_calc_edid_check_sum (i2c_block env (dp.tick + 2) EDID_BLOCK_LENGTH) ≠ 0) :
    s5p_dp_read_edid hdr env edid dp =
      (- EIO, { dp with
          tick := dp.tick + 3
          log := dp.log ++
            [Event.i2c_read hdr.I2C_EDID_DEVICE_ADDR hdr.EDID_EXTENSION_FLAG 1
              (env.i2c dp.tick hdr.EDID_EXTENSION_FLAG).ret,
             Event.i2c_read hdr.I2C_EDID_DEVICE_ADDR EDID_HEADER_PATTERN EDID_BLOCK_LENGTH 0,
             Event.i2c_read hdr.I2C_EDID_DEVICE_ADDR EDID_BLOCK_LENGTH
              EDID_BLOCK_LENGTH 0] }) := by
  unfold s5p_dp_read_edid
  simp only [read_byte_from_i2c_ret, read_byte_from_i2c_val, read_byte_from_i2c_tick,
    read_bytes_from_i2c_ret, read_bytes_from_i2c_val, read_bytes_from_i2c_tick, calc_store_base,
    calc_store_ext, if_neg (not_lt.mpr hflag), gt_iff_lt, if_pos hext, hret, hsum, hret2, hsum2,
    ne_eq, not_true_eq_false, if_false, not_false_eq_true, if_true]
  simp [s5p_dp_read_bytes_from_i2c, s5p_dp_read_byte_from_i2c, hret, hret2]

/-- C16: `s5p_dp_calc_edid_check_sum` returns, for every 128-byte block,
the sum of its bytes modulo 256; and `s5p_dp_read_edid` returns `-EIO` as soon
as a block it has just read has a non-zero check sum: the log then ends with
the read of that block and the transaction counter stands right after it, so
no further register is read or written. -/
theorem calc_edid_check_sum_spec (hdr : Hdr) (env : Env) (edid : Nat → Nat) (dp : Dev)
    (hflag : 0 ≤ (env.i2c dp.tick hdr.EDID_EXTENSION_FLAG).ret)
    (hret : (env.i2c (dp.tick + 1) EDID_HEADER_PATTERN).ret = 0) :
    (∀ block : List Nat, block.length = EDID_BLOCK_LENGTH →
      s5p_dp_calc_edid_check_sum (block_at block) = block.sum % 256) ∧
    (s5p_dp_calc_edid_check_sum (i2c_block env (dp.tick + 1) EDID_HEADER_PATTERN) ≠ 0 →
      s5p_dp_read_edid hdr env edid dp =
        (- EIO, { dp with
            tick := dp.tick + 2
            log := dp.log ++
              [Event.i2c_read hdr.I2C_EDID_DEVICE_ADDR hdr.EDID_EXTENSION_FLAG 1
                (env.i2c dp.tick hdr.EDID_EXTENSION_FLAG).ret,
               Event.i2c_read hdr.I2C_EDID_DEVICE_ADDR EDID_HEADER_PATTERN
                EDID_BLOCK_LENGTH 0] })) ∧
    (0 < (env.i2c dp.tick hdr.EDID_EXTENSION_FLAG).data 0 % 256 →
      s5p_dp_calc_edid_check_sum (i2c_block env (dp.tick + 1) EDID_HEADER_PATTERN) = 0 →
      (env.i2c (dp.tick + 2) EDID_BLOCK_LENGTH).ret = 0 →
      s5p_dp_calc_edid_check_sum (i2c_block env (dp.tick + 2) EDID_BLOCK_LENGTH) ≠ 0 →
      s5p_dp_read_edid hdr env edid dp =
        (- EIO, { dp with
            tick := dp.tick + 3
            log := dp.log ++
              [Event.i2c_read hdr.I2C_EDID_DEVICE_ADDR hdr.EDID_EXTENSION_FLAG 1
                (env.i2c dp.tick hdr.EDID_EXTENSION_FLAG).ret,
               Event.i2c_read hdr.I2C_EDID_DEVICE_ADDR EDID_HEADER_PATTERN EDID_BLOCK_LENGTH 0,
               Event.i2c_read hdr.I2C_EDID_DEVICE_ADDR EDID_BLOCK_LENGTH
                EDID_BLOCK_LENGTH 0] })) := by
  refine ⟨?_, ?_, ?_⟩
  · intro block hlen
    rw [calc_edid_check_sum_eq]
    have h := map_block_at_range block
    rw [hlen] at h
    unfold EDID_BLOCK_LENGTH at h
    rw [h]
  · intro hsum
    exact read_edid_abort_base hdr env edid dp hflag hret hsum
  · intro hext hsum hret2 hsum2
    exact read_edid_abort_ext hdr env edid dp hflag hext hret hsum hret2 hsum2

/-- C17: the block reads and the test handshake of `s5p_dp_read_edid`, for
blocks that arrive with check sum 0. With extension flag 0 the I2C reads are
the flag and the base block (register 0, 128 bytes); with a flag of at least 1
they are the flag, the base block and one extension block (register 128, 128
bytes). `reads` lists them, `t` numbers the transaction that follows and `cs`
is byte 127 of the block read last. Then TEST_REQUEST is read. If that read
fails its error is returned. If the TEST_EDID_READ bit is clear the function
returns 0 and no write is issued. If the bit is set, `cs` is written to
TEST_EDID_CHECKSUM; if that write fails its error is returned and TEST_RESPONSE
is not written; otherwise TEST_EDID_CHECKSUM_WRITE is written to TEST_RESPONSE
next, and the function returns the error of that write if it fails and 0
otherwise. -/
theorem read_edid_test_handshake (hdr : Hdr) (env : Env) (edid : Nat → Nat) (dp : Dev)
    (hcs : hdr.EDID_CHECKSUM = 127)
    (hflag : 0 ≤ (env.i2c dp.tick hdr.EDID_EXTENSION_FLAG).ret)
    (hret : (env.i2c (dp.tick + 1) EDID_HEADER_PATTERN).ret = 0)
    (hsum : s5p_dp_calc_edid_check_sum (i2c_block env (dp.tick + 1) EDID_HEADER_PATTERN) = 0)
    (hext : 0 < (env.i2c dp.tick hdr.EDID_EXTENSION_FLAG).data 0 % 256 →
      (env.i2c (dp.tick + 2) EDID_BLOCK_LENGTH).ret = 0 ∧
      s5p_dp_calc_edid_check_sum (i2c_block env (dp.tick + 2) EDID_BLOCK_LENGTH) = 0) :
    ∃ (reads : List Event) (t cs : Nat),
      (((env.i2c dp.tick hdr.EDID_EXTENSION_FLAG).data 0 % 256 = 0 ∧
          reads =
            [Event.i2c_read hdr.I2C_EDID_DEVICE_ADDR hdr.EDID_EXTENSION_FLAG 1
              (env.i2c dp.tick hdr.EDID_EXTENSION_FLAG).ret,
             Event.i2c_read hdr.I2C_EDID_DEVICE_ADDR 0 128 0] ∧
          t = dp.tick + 2 ∧ cs = i2c_block env (dp.tick + 1) 0 127) ∨
        (1 ≤ (env.i2c dp.tick hdr.EDID_EXTENSION_FLAG).data 0 % 256 ∧
          reads =
            [Event.i2c_read hdr.I2C_EDID_DEVICE_ADDR hdr.EDID_EXTENSION_FLAG 1
              (env.i2c dp.tick hdr.EDID_EXTENSION_FLAG).ret,
             Event.i2c_read hdr.I2C_EDID_DEVICE_ADDR 0 128 0,
             Event.i2c_read hdr.I2C_EDID_DEVICE_ADDR 128 128 0] ∧
          t = dp.tick + 3 ∧ cs = i2c_block env (dp.tick + 2) 128 127)) ∧
      ((env.aux t DpcdAddr.TEST_REQUEST).ret < 0 →
        (s5p_dp_read_edid hdr env edid dp).1 = (env.aux t DpcdAddr.TEST_REQUEST).ret ∧
        (s5p_dp_read_edid hdr env edid dp).2.log = dp.log ++ reads ++
          [Event.dpcd_read DpcdAddr.TEST_REQUEST 1 (env.aux t DpcdAddr.TEST_REQUEST).ret]) ∧
      (0 ≤ (env.aux t DpcdAddr.TEST_REQUEST).ret →
        aux_byte env t DpcdAddr.TEST_REQUEST &&& hdr.DPCD_TEST_EDID_READ = 0 →
        (s5p_dp_read_edid hdr env edid dp).1 = 0 ∧
        (s5p_dp_read_edid hdr env edid dp).2.log = dp.log ++ reads ++
          [Event.dpcd_read DpcdAddr.TEST_REQUEST 1 (env.aux t DpcdAddr.TEST_REQUEST).ret]) ∧
      (0 ≤ (env.aux t DpcdAddr.TEST_REQUEST).ret →
        aux_byte env t DpcdAddr.TEST_REQUEST &&& hdr.DPCD_TEST_EDID_READ ≠ 0 →
        ((env.aux (t + 1) DpcdAddr.TEST_EDID_CHECKSUM).ret < 0 →
          (s5p_dp_read_edid hdr env edid dp).1 =
            (env.aux (t + 1) DpcdAddr.TEST_EDID_CHECKSUM).ret ∧
          (s5p_dp_read_edid hdr env edid dp).2.log = dp.log ++ reads ++
            [Event.dpcd_read DpcdAddr.TEST_REQUEST 1 (env.aux t DpcdAddr.TEST_REQUEST).ret,
             Event.dpcd_write DpcdAddr.TEST_EDID_CHECKSUM [cs]
              (env.aux (t + 1) DpcdAddr.TEST_EDID_CHECKSUM).ret]) ∧
        (0 ≤ (env.aux (t + 1) DpcdAddr.TEST_EDID_CHECKSUM).ret →
          (s5p_dp_read_edid hdr env edid dp).2.log = dp.log ++ reads ++
            [Event.dpcd_read DpcdAddr.TEST_REQUEST 1 (env.aux t DpcdAddr.TEST_REQUEST).ret,
             Event.dpcd_write DpcdAddr.TEST_EDID_CHECKSUM [cs]
              (env.aux (t + 1) DpcdAddr.TEST_EDID_CHECKSUM).ret,
             Event.dpcd_write DpcdAddr.TEST_RESPONSE [hdr.DPCD_TEST_EDID_CHECKSUM_WRITE % 256]
              (env.aux (t + 2) DpcdAddr.TEST_RESPONSE).ret] ∧
          ((env.aux (t + 2) DpcdAddr.TEST_RESPONSE).ret < 0 →
            (s5p_dp_read_edid hdr env edid dp).1 =
              (env.aux (t + 2) DpcdAddr.TEST_RESPONSE).ret) ∧
          (0 ≤ (env.aux (t + 2) DpcdAddr.TEST_RESPONSE).ret →
            (s5p_dp_read_edid hdr env edid dp).1 = 0))) := by
  have hcs2 : hdr.EDID_CHECKSUM < EDID_BLOCK_LENGTH := by rw [hcs]; decide
  have hmod : ∀ tk r, i2c_block env tk r 127 % 256 = i2c_block env tk r 127 := by
    intro tk r
    unfold i2c_block
    exact Nat.mod_mod _ _
  by_cases hno : (env.i2c dp.tick hdr.EDID_EXTENSION_FLAG).data 0 % 256 = 0
  · refine ⟨_, dp.tick + 2, i2c_block env (dp.tick + 1) 0 127, Or.inl ⟨hno, rfl, rfl, rfl⟩, ?_⟩
    have e := read_edid_base_only hdr env edid dp hflag hno hret hsum hcs2
    rw [e, hcs]
    have c := edid_test_handshake_cases hdr env
      (i2c_block env (dp.tick + 1) EDID_HEADER_PATTERN 127)
      { dp with
        tick := dp.tick + 2
        log := dp.log ++
          [Event.i2c_read hdr.I2C_EDID_DEVICE_ADDR hdr.EDID_EXTENSION_FLAG 1
            (env.i2c dp.tick hdr.EDID_EXTENSION_FLAG).ret,
           Event.i2c_read hdr.I2C_EDID_DEVICE_ADDR EDID_HEADER_PATTERN EDID_BLOCK_LENGTH 0] }
    simp only [hmod] at c
    exact c
  · have hpos : 0 < (env.i2c dp.tick hdr.EDID_EXTENSION_FLAG).data 0 % 256 :=
      Nat.pos_of_ne_zero hno
    refine ⟨_, dp.tick + 3, i2c_block env (dp.tick + 2) 128 127, Or.inr ⟨hpos, rfl, rfl, rfl⟩, ?_⟩
    have e := read_edid_with_ext hdr env edid dp hflag hpos hret hsum (hext hpos).1
      (hext hpos).2 hcs2
    rw [e, hcs]
    have c := edid_test_handshake_cases hdr env
      (i2c_block env (dp.tick + 2) EDID_BLOCK_LENGTH 127)
      { dp with
        tick := dp.tick + 3
        log := dp.log ++
          [Event.i2c_read hdr.I2C_EDID_DEVICE_ADDR hdr.EDID_EXTENSION_FLAG 1
            (env.i2c dp.tick hdr.EDID_EXTENSION_FLAG).ret,
           Event.i2c_read hdr.I2C_EDID_DEVICE_ADDR EDID_HEADER_PATTERN EDID_BLOCK_LENGTH 0,
           Event.i2c_read hdr.I2C_EDID_DEVICE_ADDR EDID_BLOCK_LENGTH EDID_BLOCK_LENGTH 0] }
    simp only [hmod] at c
    exact c

set_option maxRecDepth 8192

theorem block_at_mod (block : List Nat) (h : ∀ x ∈ block, x < 256) (k : Nat) :
    block_at block k % 256 = block_at block k := by
  apply Nat.mod_eq_of_lt
  unfold block_at
  rw [List.getD_eq_getElem?_getD]
  by_cases hk : k < block.length
  · rw [List.getElem?_eq_getElem hk]
    exact h _ (List.getElem_mem _)
  · rw [List.getElem?_eq_none (by omega)]
    decide

/-- Witness of C15: byte 5 of `edid_base_block` changed from 0 to 7 gives
check sum 7, and the sink `env_edid_bad` that delivers this block is rejected
with `-EIO`. -/
theorem edid_single_byte_mutation_witness :
    edid_base_block.sum % 256 = 0 ∧
    s5p_dp_calc_edid_check_sum (block_at (edid_base_block.set 5 7)) = 7 ∧
    (s5p_dp_read_edid stdHdr env_edid_bad (fun _ => 0) dp_two_lanes).1 = - EIO :=
  ⟨by decide, by decide,
    (edid_single_byte_mutation edid_base_block 5 7 (by decide) (by decide) (by decide)
      (by decide) (by decide) (by decide)).2.1 stdHdr env_edid_bad (fun _ => 0) dp_two_lanes
      (fun k _ => block_at_mod (edid_base_block.set 5 7) (by decide) k)⟩

/-- Witness of C16: against `env_edid_bad` the function returns `-EIO` after
the reads of the extension flag and of the base block, and the log holds these
two reads only. -/
theorem calc_edid_check_sum_spec_witness :
    s5p_dp_calc_edid_check_sum (block_at edid_ext_block) = 0 ∧
    s5p_dp_read_edid stdHdr env_edid_bad (fun _ => 0) dp_two_lanes =
      (- EIO, { dp_two_lanes with
          tick := 2
          log := [Event.i2c_read 0x50 0x7e 1 0, Event.i2c_read 0x50 0 128 0] }) :=
  ⟨by decide,
    (calc_edid_check_sum_spec stdHdr env_edid_bad (fun _ => 0) dp_two_lanes (by decide)
      (by decide)).2.1 (by decide)⟩

/-- Witness of C17: against `env_edid` the function reads the flag, the base
block and the extension block, reads TEST_REQUEST, writes the last byte 0x80
of the extension block to TEST_EDID_CHECKSUM and then 0x04 to TEST_RESPONSE,
and returns 0. -/
theorem read_edid_test_handshake_witness :
    (s5p_dp_read_edid stdHdr env_edid (fun _ => 0) dp_two_lanes).1 = 0 ∧
    (s5p_dp_read_edid stdHdr env_edid (fun _ => 0) dp_two_lanes).2.log =
      [Event.i2c_read 0x50 0x7e 1 0, Event.i2c_read 0x50 0 128 0,
       Event.i2c_read 0x50 128 128 0, Event.dpcd_read DpcdAddr.TEST_REQUEST 1 0,
       Event.dpcd_write DpcdAddr.TEST_EDID_CHECKSUM [0x80] 0,
       Event.dpcd_write DpcdAddr.TEST_RESPONSE [0x04] 0] ∧
    ∃ (reads : List Event) (t cs : Nat), reads.length + 0 = t ∧ cs = 0x80 ∧
      (s5p_dp_read_edid stdHdr env_edid (fun _ => 0) dp_two_lanes).2.log =
        dp_two_lanes.log ++ reads ++
          [Event.dpcd_read DpcdAddr.TEST_REQUEST 1 (env_edid.aux t DpcdAddr.TEST_REQUEST).ret,
           Event.dpcd_write DpcdAddr.TEST_EDID_CHECKSUM [cs]
            (env_edid.aux (t + 1) DpcdAddr.TEST_EDID_CHECKSUM).ret,
           Event.dpcd_write DpcdAddr.TEST_RESPONSE [stdHdr.DPCD_TEST_EDID_CHECKSUM_WRITE % 256]
            (env_edid.aux (t + 2) DpcdAddr.TEST_RESPONSE).ret] := by
  refine ⟨by decide, by decide, ?_⟩
  obtain ⟨reads, t, cs, hc, _, _, h3⟩ := read_edid_test_handshake stdHdr env_edid (fun _ => 0)
    dp_two_lanes (by decide) (by decide) (by decide) (by decide) (fun _ => by decide)
  rcases hc with ⟨h, _⟩ | ⟨_, hr, ht, hcs⟩
  · exact absurd h (by decide)
  · subst hr ht hcs
    exact ⟨_, _, _, rfl, by decide, ((h3 (le_refl _) (by decide)).2 (le_refl _)).1⟩

/-! ## The PSR controller -/

@[simp]
theorem psr_hw_enter_state (op : HwOp) (d : PsrDev) :
    (psr_hw op d).psr_enter_state = d.psr_enter_state := rfl
@[simp]
theorem psr_hw_exit_state (op : HwOp) (d : PsrDev) :
    (psr_hw op d).psr_exit_state = d.psr_exit_state := rfl
@[simp]
theorem psr_hw_hw_tick (op : HwOp) (d : PsrDev) : (psr_hw op d).hw_tick = d.hw_tick := rfl
@[simp]
theorem psr_hw_log (op : HwOp) (d : PsrDev) :
    (psr_hw op d).dp.log = d.dp.log ++ [Event.hw op] := rfl
@[simp]
theorem psr_hw_tick (op : HwOp) (d : PsrDev) : (psr_hw op d).dp.tick = d.dp.tick := rfl

theorem hw_calls_append (op : HwOp) (l1 l2 : List Event) :
    hw_calls op (l1 ++ l2) = hw_calls op l1 + hw_calls op l2 := by
  simp [hw_calls]

theorem hw_calls_singleton (op op2 : HwOp) :
    hw_calls op [Event.hw op2] = if op2 = op then 1 else 0 := by
  unfold hw_calls
  by_cases h : op2 = op
  · subst h
    simp
  · rw [if_neg h]
    apply List.count_eq_zero_of_not_mem
    simp [Ne.symm h]

theorem keeps_flags_psr_active (hdr : Hdr) (env : Env) : KeepsFlags (read_psr_active hdr env) :=
  fun _ => ⟨rfl, rfl⟩

theorem keeps_flags_psr_inactive (hdr : Hdr) (env : Env) :
    KeepsFlags (read_psr_inactive hdr env) :=
  fun _ => ⟨rfl, rfl⟩

theorem keeps_flags_video (env : Env) : KeepsFlags (read_video_stream_on env) :=
  fun _ => ⟨rfl, rfl⟩

theorem keeps_flags_sink (hdr : Hdr) (env : Env) : KeepsFlags (read_sink_psr_inactive hdr env) :=
  fun _ => ⟨rfl, rfl⟩

/-- A poll loop keeps the two PSR state flags. -/
theorem poll_loop_flags (hdr : Hdr) (read : PsrDev → Bool × PsrDev) (delay : HwOp)
    (hread : KeepsFlags read) (fuel tl : Nat) (d : PsrDev) (b : Bool) (d' : PsrDev)
    (h : poll_loop hdr read delay fuel tl d = some (b, d')) :
    d'.psr_enter_state = d.psr_enter_state ∧ d'.psr_exit_state = d.psr_exit_state := by
  induction fuel generalizing tl d with
  | zero => simp [poll_loop] at h
  | succ fuel ih =>
    simp only [poll_loop] at h
    split_ifs at h with h1 h2
    · simp only [Option.some.injEq, Prod.mk.injEq] at h
      rw [← h.2]
      exact hread d
    · simp only [Option.some.injEq, Prod.mk.injEq] at h
      rw [← h.2]
      exact hread d
    · have := ih _ _ h
      simp only [psr_hw_enter_state, psr_hw_exit_state] at this
      exact ⟨this.1.trans (hread d).1, this.2.trans (hread d).2⟩

/-- A poll loop ends within `DP_TIMEOUT_LOOP_COUNT + 1` passes. -/
theorem poll_loop_returns (hdr : Hdr) (read : PsrDev → Bool × PsrDev) (delay : HwOp)
    (fuel tl : Nat) (d : PsrDev) (hfuel : hdr.DP_TIMEOUT_LOOP_COUNT + 1 ≤ fuel + tl)
    (htl : tl ≤ hdr.DP_TIMEOUT_LOOP_COUNT) :
    ∃ res, poll_loop hdr read delay fuel tl d = some res := by
  induction fuel generalizing tl d with
  | zero => omega
  | succ fuel ih =>
    simp only [poll_loop]
    split_ifs with h1 h2
    · exact ⟨_, rfl⟩
    · exact ⟨_, rfl⟩
    · exact ih _ _ (by omega) (by omega)

/-- A poll loop whose condition never holds does not end by `break`. -/
theorem poll_loop_never (hdr : Hdr) (read : PsrDev → Bool × PsrDev) (delay : HwOp)
    (hno : ∀ d, (read d).1 = false) (fuel tl : Nat) (d : PsrDev) (b : Bool) (d' : PsrDev)
    (h : poll_loop hdr read delay fuel tl d = some (b, d')) : b = false := by
  induction fuel generalizing tl d with
  | zero => simp [poll_loop] at h
  | succ fuel ih =>
    simp only [poll_loop] at h
    split_ifs at h with h1 h2
    · rw [hno d] at h1
      exact absurd h1 (by decide)
    · simp only [Option.some.injEq, Prod.mk.injEq] at h
      exact h.1.symm
    · exact ih _ _ h

/-- A poll loop whose condition always holds ends by `break`. -/
theorem poll_loop_always (hdr : Hdr) (read : PsrDev → Bool × PsrDev) (delay : HwOp)
    (hyes : ∀ d, (read d).1 = true) (fuel tl : Nat) (d : PsrDev) (b : Bool) (d' : PsrDev)
    (h : poll_loop hdr read delay fuel tl d = some (b, d')) : b = true := by
  cases fuel with
  | zero => simp [poll_loop] at h
  | succ fuel =>
    simp only [poll_loop, hyes d, if_true] at h
    simp only [Option.some.injEq, Prod.mk.injEq] at h
    exact h.1.symm

@[simp]
theorem read_psr_active_ok (hdr : Hdr) (env : Env) (d : PsrDev) :
    (read_psr_active hdr env d).1 = decide (env.psr_status d.hw_tick = hdr.PSR_STATUS_ACTIVE) :=
  rfl
@[simp]
theorem read_psr_active_hw_tick (hdr : Hdr) (env : Env) (d : PsrDev) :
    (read_psr_active hdr env d).2.hw_tick = d.hw_tick + 1 := rfl
@[simp]
theorem read_psr_active_log (hdr : Hdr) (env : Env) (d : PsrDev) :
    (read_psr_active hdr env d).2.dp.log =
      d.dp.log ++ [Event.hw (HwOp.get_psr_status (env.psr_status d.hw_tick))] := rfl

theorem psr_status_reads_append (l1 l2 : List Event) :
    psr_status_reads (l1 ++ l2) = psr_status_reads l1 + psr_status_reads l2 := by
  simp [psr_status_reads]

/-- The poll for "PSR active" when no read within the bound finds the status
active: it times out after reading the status once per remaining pass, and
records nothing but these reads and the delays. -/
theorem poll_active_timeout (hdr : Hdr) (env : Env) (ms : Nat) (fuel tl : Nat) (d : PsrDev)
    (hfuel : hdr.DP_TIMEOUT_LOOP_COUNT + 1 ≤ fuel + tl)
    (htl : tl ≤ hdr.DP_TIMEOUT_LOOP_COUNT)
    (hno : ∀ k, tl + k ≤ hdr.DP_TIMEOUT_LOOP_COUNT →
      env.psr_status (d.hw_tick + k) ≠ hdr.PSR_STATUS_ACTIVE) :
    ∃ d', poll_loop hdr (read_psr_active hdr env) (HwOp.mdelay ms) fuel tl d = some (false, d') ∧
      d'.hw_tick = d.hw_tick + (hdr.DP_TIMEOUT_LOOP_COUNT + 1 - tl) ∧
      psr_status_reads d'.dp.log =
        psr_status_reads d.dp.log + (hdr.DP_TIMEOUT_LOOP_COUNT + 1 - tl) ∧
      (∀ op, (∀ s, op ≠ HwOp.get_psr_status s) → op ≠ HwOp.mdelay ms →
        hw_calls op d'.dp.log = hw_calls op d.dp.log) ∧
      d'.dp.tick = d.dp.tick := by
  induction fuel generalizing tl d with
  | zero => omega
  | succ fuel ih =>
    simp only [poll_loop, read_psr_active_ok]
    have h0 := hno 0 (by omega)
    simp only [Nat.add_zero] at h0
    simp only [decide_eq_true_eq, if_neg h0]
    have hreads : psr_status_reads (read_psr_active hdr env d).2.dp.log =
        psr_status_reads d.dp.log + 1 := by
      rw [read_psr_active_log, psr_status_reads_append]
      rfl
    have hcalls : ∀ op, (∀ s, op ≠ HwOp.get_psr_status s) →
        hw_calls op (read_psr_active hdr env d).2.dp.log = hw_calls op d.dp.log := by
      intro op hop
      rw [read_psr_active_log, hw_calls_append, hw_calls_singleton,
        if_neg (Ne.symm (hop _))]
      rfl
    split_ifs with h2
    · refine ⟨_, rfl, ?_, ?_, ?_, rfl⟩
      · rw [read_psr_active_hw_tick]; omega
      · rw [hreads]; omega
      · intro op hop _
        exact hcalls op hop
    · obtain ⟨d', e, ht, hr, hc, hk⟩ := ih (tl + 1)
        (psr_hw (HwOp.mdelay ms) (read_psr_active hdr env d).2) (by omega) (by omega)
        (by
          intro k hk
          have := hno (k + 1) (by omega)
          simp only [psr_hw_hw_tick, read_psr_active_hw_tick]
          rw [show d.hw_tick + 1 + k = d.hw_tick + (k + 1) by omega]
          exact this)
      refine ⟨d', e, ?_, ?_, ?_, ?_⟩
      · rw [ht]
        simp only [psr_hw_hw_tick, read_psr_active_hw_tick]
        omega
      · rw [hr, psr_hw_log, psr_status_reads_append, hreads]
        have : psr_status_reads [Event.hw (HwOp.mdelay ms)] = 0 := rfl
        omega
      · intro op hop hop2
        rw [hc op hop hop2, psr_hw_log, hw_calls_append, hw_calls_singleton,
          if_neg (Ne.symm hop2), hcalls op hop]
        rfl
      · rw [hk]
        rfl

/-- The poll for "PSR active" ends by `break` only when one of the reads
within the bound finds the status active. -/
theorem poll_active_true (hdr : Hdr) (env : Env) (delay : HwOp) (fuel tl : Nat) (d d' : PsrDev)
    (htl : tl ≤ hdr.DP_TIMEOUT_LOOP_COUNT)
    (h : poll_loop hdr (read_psr_active hdr env) delay fuel tl d = some (true, d')) :
    ∃ k, tl + k ≤ hdr.DP_TIMEOUT_LOOP_COUNT ∧
      env.psr_status (d.hw_tick + k) = hdr.PSR_STATUS_ACTIVE := by
  induction fuel generalizing tl d with
  | zero => simp [poll_loop] at h
  | succ fuel ih =>
    simp only [poll_loop, read_psr_active_ok, decide_eq_true_eq] at h
    split_ifs at h with h1 h2
    · exact ⟨0, by omega, h1⟩
    · simp at h
    · obtain ⟨k, hk, hs⟩ := ih _ _ (by omega) h
      refine ⟨k + 1, by omega, ?_⟩
      simp only [psr_hw_hw_tick, read_psr_active_hw_tick] at hs
      rw [← hs]
      congr 1
      omega


/-- C18: PSR enter idempotence. If a call of `s5p_dp_psr_enter` returns
with `psr_enter_state = PSR_ENTER_DONE`, a call that follows it right away
returns 0 and changes nothing but the log, to which it adds the lock and the
unlock of the mutex: both PSR state flags, the counters of AUX transactions
and of status reads and the link-training state are as before, and no PSR
enable, no status read, no analog power-down, no clock gating and no PSR_DONE
notification is recorded. -/
theorem psr_enter_idempotent (hdr : Hdr) (env : Env) (fuel fuel2 : Nat) (d d1 : PsrDev)
    (r : Int) (h : s5p_dp_psr_enter hdr env fuel d = some (r, d1))
    (hdone : d1.psr_enter_state = PsrState.PSR_ENTER_DONE) :
    s5p_dp_psr_enter hdr env fuel2 d1 =
      some (0, { d1 with dp := { d1.dp with
        log := d1.dp.log ++ [Event.hw HwOp.mutex_lock, Event.hw HwOp.mutex_unlock] } }) := by
  have _ := h
  unfold s5p_dp_psr_enter
  simp only [psr_hw_enter_state, hdone, if_true]
  simp [psr_hw, hw, emit, hdone]

/-- Witness of C18: against `env_psr_active` the first call enters self
refresh after three status reads; the second call returns 0 and adds the lock
and the unlock of the mutex to the log. -/
theorem psr_enter_idempotent_witness :
    (s5p_dp_psr_enter stdHdr env_psr_active 101 psr_dev_none).map
        (fun x => (x.1, x.2.psr_enter_state, x.2.hw_tick)) =
      some (0, PsrState.PSR_ENTER_DONE, 3) ∧
    (s5p_dp_psr_enter stdHdr env_psr_active 0
        ((s5p_dp_psr_enter stdHdr env_psr_active 101 psr_dev_none).getD (1, psr_dev_none)).2).map
        (fun x => (x.1, x.2.psr_enter_state, x.2.psr_exit_state, x.2.hw_tick,
          x.2.dp.log.drop 11)) =
      some (0, PsrState.PSR_ENTER_DONE, PsrState.PSR_NONE, 3,
        [Event.hw HwOp.mutex_unlock, Event.hw HwOp.mutex_lock, Event.hw HwOp.mutex_unlock]) := by
  refine ⟨by decide, ?_⟩
  rw [psr_enter_idempotent stdHdr env_psr_active 101 0 psr_dev_none
    ((s5p_dp_psr_enter stdHdr env_psr_active 101 psr_dev_none).getD (1, psr_dev_none)).2 0
    (by rfl) (by rfl)]
  decide

/-- C19: PSR enter timeout. For a call that passes the two guards, with
fuel for `DP_TIMEOUT_LOOP_COUNT + 1` passes of the poll loop: the call
returns. If none of the first `DP_TIMEOUT_LOOP_COUNT + 1` status reads finds
the PSR status active, it returns `-ETIMEDOUT` after exactly these reads with
`psr_enter_state = PSR_NONE` and `psr_exit_state` unchanged, and records no
analog power-down, no `clk_disable` and no PSR_DONE notification. Conversely,
if the call ends with `psr_enter_state = PSR_ENTER_DONE` it returns 0 and one
of the first `DP_TIMEOUT_LOOP_COUNT + 1` status reads found the status
active. -/
theorem psr_enter_timeout (hdr : Hdr) (env : Env) (fuel : Nat) (d : PsrDev)
    (henter : d.psr_enter_state ≠ PsrState.PSR_ENTER_DONE)
    (hexit : d.psr_exit_state ≠ PsrState.PSR_PRE_EXIT)
    (hfuel : hdr.DP_TIMEOUT_LOOP_COUNT + 1 ≤ fuel) :
    (∃ res, s5p_dp_psr_enter hdr env fuel d = some res) ∧
    ((∀ k, k ≤ hdr.DP_TIMEOUT_LOOP_COUNT →
        env.psr_status (d.hw_tick + k) ≠ hdr.PSR_STATUS_ACTIVE) →
      ∃ d', s5p_dp_psr_enter hdr env fuel d = some (- ETIMEDOUT, d') ∧
        d'.psr_enter_state = PsrState.PSR_NONE ∧
        d'.psr_exit_state = d.psr_exit_state ∧
        d'.hw_tick = d.hw_tick + (hdr.DP_TIMEOUT_LOOP_COUNT + 1) ∧
        psr_status_reads d'.dp.log =
          psr_status_reads d.dp.log + (hdr.DP_TIMEOUT_LOOP_COUNT + 1) ∧
        hw_calls (HwOp.set_analog_power_down PowerBlock.ANALOG_TOTAL true) d'.dp.log =
          hw_calls (HwOp.set_analog_power_down PowerBlock.ANALOG_TOTAL true) d.dp.log ∧
        hw_calls HwOp.clk_disable d'.dp.log = hw_calls HwOp.clk_disable d.dp.log ∧
        hw_calls HwOp.fb_notifier_call_chain_PSR_DONE d'.dp.log =
          hw_calls HwOp.fb_notifier_call_chain_PSR_DONE d.dp.log) ∧
    (∀ r d', s5p_dp_psr_enter hdr env fuel d = some (r, d') →
      d'.psr_enter_state = PsrState.PSR_ENTER_DONE →
      r = 0 ∧ ∃ k, k ≤ hdr.DP_TIMEOUT_LOOP_COUNT ∧
        env.psr_status (d.hw_tick + k) = hdr.PSR_STATUS_ACTIVE) := by
  unfold s5p_dp_psr_enter
  simp only [psr_hw_enter_state, psr_hw_exit_state, if_neg henter, if_neg hexit]
  generalize hd0 : psr_hw HwOp.enable_psr _ = d0
  have ht0 : d0.hw_tick = d.hw_tick := by rw [← hd0]; rfl
  have hx0 : d0.psr_exit_state = d.psr_exit_state := by rw [← hd0]; rfl
  have hl0 : d0.dp.log = d.dp.log ++ [Event.hw HwOp.mutex_lock, Event.hw HwOp.enable_psr] := by
    rw [← hd0]
    simp [psr_hw, hw, emit]
  have hc0 : ∀ op, op ≠ HwOp.mutex_lock → op ≠ HwOp.enable_psr →
      hw_calls op d0.dp.log = hw_calls op d.dp.log := by
    intro op h1 h2
    rw [hl0, hw_calls_append]
    have : hw_calls op [Event.hw HwOp.mutex_lock, Event.hw HwOp.enable_psr] = 0 := by
      apply List.count_eq_zero_of_not_mem
      simp [h1, h2]
    omega
  refine ⟨?_, ?_, ?_⟩
  · obtain ⟨res, e⟩ := poll_loop_returns hdr (read_psr_active hdr env) (HwOp.mdelay 1) fuel 0 d0
      (by omega) (by omega)
    rw [e]
    obtain ⟨b, d2⟩ := res
    cases b <;> exact ⟨_, rfl⟩
  · intro hno
    obtain ⟨d2, e, ht, hr, hc, _⟩ := poll_active_timeout hdr env 1 fuel 0 d0 (by omega)
      (by omega) (by
        intro k hk
        rw [ht0]
        exact hno k (by omega))
    have hf := poll_loop_flags hdr _ _ (keeps_flags_psr_active hdr env) _ _ _ _ _ e
    rw [e]
    refine ⟨_, rfl, rfl, ?_, ?_, ?_, ?_, ?_, ?_⟩
    · simp only [psr_hw_exit_state]
      rw [hf.2, hx0]
    · simp only [psr_hw_hw_tick]
      rw [ht, ht0]
      rfl
    · simp only [psr_hw_log]
      rw [psr_status_reads_append, hr, hl0, psr_status_reads_append]
      have h1 : psr_status_reads [Event.hw HwOp.mutex_unlock] = 0 := rfl
      have h2 : psr_status_reads [Event.hw HwOp.mutex_lock, Event.hw HwOp.enable_psr] = 0 := rfl
      omega
    · simp only [psr_hw_log]
      rw [hw_calls_append, hw_calls_singleton, hc _ (by simp) (by simp),
        hc0 _ (by simp) (by simp)]
      simp
    · simp only [psr_hw_log]
      rw [hw_calls_append, hw_calls_singleton, hc _ (by simp) (by simp),
        hc0 _ (by simp) (by simp)]
      simp
    · simp only [psr_hw_log]
      rw [hw_calls_append, hw_calls_singleton, hc _ (by simp) (by simp),
        hc0 _ (by simp) (by simp)]
      simp
  · intro r d' h hdone
    split at h
    · simp at h
    · simp only [Option.some.injEq, Prod.mk.injEq] at h
      rw [← h.2] at hdone
      simp at hdone
    · rename_i d2 e
      simp only [Option.some.injEq, Prod.mk.injEq] at h
      refine ⟨h.1.symm, ?_⟩
      obtain ⟨k, hk, hs⟩ := poll_active_true hdr env _ fuel 0 d0 d2 (by omega) e
      rw [ht0] at hs
      exact ⟨k, by omega, hs⟩

/-- Witness of C19: against `env_ok`, whose PSR status always reads 0, with
bound 100 the call returns `-ETIMEDOUT` after 101 status reads. -/
theorem psr_enter_timeout_witness :
    (s5p_dp_psr_enter stdHdr env_ok 101 psr_dev_none).map
        (fun x => (x.1, x.2.psr_enter_state, x.2.hw_tick, psr_status_reads x.2.dp.log,
          hw_calls HwOp.clk_disable x.2.dp.log)) =
      some (- ETIMEDOUT, PsrState.PSR_NONE, 101, 101, 0) ∧
    ∃ d', s5p_dp_psr_enter stdHdr env_ok 101 psr_dev_none = some (- ETIMEDOUT, d') ∧
      d'.psr_enter_state = PsrState.PSR_NONE ∧
      d'.hw_tick = psr_dev_none.hw_tick + (stdHdr.DP_TIMEOUT_LOOP_COUNT + 1) := by
  refine ⟨by decide, ?_⟩
  obtain ⟨d', h1, h2, _, h4, _⟩ :=
    (psr_enter_timeout stdHdr env_ok 101 psr_dev_none (by decide) (by decide) (by decide)).2.1
      (fun _ _ => (by decide : (0 : Nat) ≠ 2))
  exact ⟨d', h1, h2, h4⟩

/-- The wait for the PLL lock keeps the two PSR state flags. -/
theorem pll_wait_loop_flags (hdr : Hdr) (env : Env) (fuel tl : Nat) (d : PsrDev) (b : Bool)
    (d' : PsrDev) (h : pll_wait_loop hdr env fuel tl d = some (b, d')) :
    d'.psr_enter_state = d.psr_enter_state ∧ d'.psr_exit_state = d.psr_exit_state := by
  induction fuel generalizing tl d with
  | zero => simp [pll_wait_loop] at h
  | succ fuel ih =>
    simp only [pll_wait_loop] at h
    split_ifs at h with h1 h2
    · simp only [Option.some.injEq, Prod.mk.injEq] at h
      rw [← h.2]
      exact ⟨rfl, rfl⟩
    · have := ih _ _ h
      exact this
    · simp only [Option.some.injEq, Prod.mk.injEq] at h
      rw [← h.2]
      exact ⟨rfl, rfl⟩

theorem pll_wait_loop_returns (hdr : Hdr) (env : Env) (fuel tl : Nat) (d : PsrDev)
    (hfuel : hdr.DP_TIMEOUT_LOOP_COUNT + 1 ≤ fuel + tl)
    (htl : tl ≤ hdr.DP_TIMEOUT_LOOP_COUNT) :
    ∃ res, pll_wait_loop hdr env fuel tl d = some res := by
  induction fuel generalizing tl d with
  | zero => omega
  | succ fuel ih =>
    simp only [pll_wait_loop]
    split_ifs with h1 h2
    · exact ⟨_, rfl⟩
    · exact ih _ _ (by omega) (by omega)
    · exact ⟨_, rfl⟩

theorem pll_wait_loop_never (hdr : Hdr) (env : Env)
    (hno : ∀ k, env.pll_lock_status k = hdr.PLL_UNLOCKED) (fuel tl : Nat) (d : PsrDev)
    (b : Bool) (d' : PsrDev) (h : pll_wait_loop hdr env fuel tl d = some (b, d')) :
    b = false := by
  induction fuel generalizing tl d with
  | zero => simp [pll_wait_loop] at h
  | succ fuel ih =>
    simp only [pll_wait_loop] at h
    split_ifs at h with h1 h2
    · simp only [Option.some.injEq, Prod.mk.injEq] at h
      exact h.1.symm
    · exact ih _ _ h
    · exact absurd (hno _) h1

theorem pll_wait_flags (hdr : Hdr) (env : Env) (fuel : Nat) (d : PsrDev) (b : Bool)
    (d' : PsrDev) (h : pll_wait hdr env fuel d = some (b, d')) :
    d'.psr_enter_state = d.psr_enter_state ∧ d'.psr_exit_state = d.psr_exit_state := by
  unfold pll_wait at h
  simp only [] at h
  split_ifs at h with h1
  · exact pll_wait_loop_flags hdr env fuel 0 (s5p_dp_get_pll_lock_status env d).2 b d' h
  · simp only [Option.some.injEq, Prod.mk.injEq] at h
    rw [← h.2]
    exact ⟨rfl, rfl⟩

theorem pll_wait_returns (hdr : Hdr) (env : Env) (fuel : Nat) (d : PsrDev)
    (hfuel : hdr.DP_TIMEOUT_LOOP_COUNT + 1 ≤ fuel) :
    ∃ res, pll_wait hdr env fuel d = some res := by
  unfold pll_wait
  simp only []
  split_ifs with h1
  · exact pll_wait_loop_returns hdr env fuel 0 _ (by omega) (by omega)
  · exact ⟨_, rfl⟩

theorem pll_wait_never (hdr : Hdr) (env : Env)
    (hno : ∀ k, env.pll_lock_status k = hdr.PLL_UNLOCKED) (fuel : Nat) (d : PsrDev)
    (b : Bool) (d' : PsrDev) (h : pll_wait hdr env fuel d = some (b, d')) : b = false := by
  unfold pll_wait at h
  simp only [] at h
  split_ifs at h with h1
  · exact pll_wait_loop_never hdr env hno fuel 0 _ b d' h
  · exact absurd (hno _) h1

theorem pll_wait_always (hdr : Hdr) (env : Env)
    (hyes : ∀ k, env.pll_lock_status k ≠ hdr.PLL_UNLOCKED) (fuel : Nat) (d : PsrDev)
    (b : Bool) (d' : PsrDev) (h : pll_wait hdr env fuel d = some (b, d')) : b = true := by
  unfold pll_wait at h
  simp only [] at h
  split_ifs at h with h1
  · exact absurd h1 (hyes _)
  · simp only [Option.some.injEq, Prod.mk.injEq] at h
    exact h.1.symm

/-- The error exit of `s5p_dp_psr_exit` returns the error with
`psr_exit_state = PSR_NONE` and `psr_enter_state` as it is. -/
theorem psr_exit_err_exit_spec (ret : Int) (d : PsrDev) :
    (psr_exit_err_exit ret d).1 = ret ∧
    (psr_exit_err_exit ret d).2.psr_exit_state = PsrState.PSR_NONE ∧
    (psr_exit_err_exit ret d).2.psr_enter_state = d.psr_enter_state :=
  ⟨rfl, rfl, rfl⟩

/-- The part of `s5p_dp_psr_exit` before the link training: it returns, it
keeps the flags when it goes on, and it leaves through `err_exit` exactly when
the wait for the PLL lock times out. -/
theorem psr_exit_resume_spec (hdr : Hdr) (env : Env) (fuel : Nat) (d : PsrDev) :
    (hdr.DP_TIMEOUT_LOOP_COUNT + 1 ≤ fuel → ∃ res, psr_exit_resume hdr env fuel d = some res) ∧
    (∀ d1, psr_exit_resume hdr env fuel d = some (Sum.inl d1) →
      d1.psr_enter_state = d.psr_enter_state ∧ d1.psr_exit_state = d.psr_exit_state ∧
      ¬ ∀ k, env.pll_lock_status k = hdr.PLL_UNLOCKED) ∧
    (∀ r d', psr_exit_resume hdr env fuel d = some (Sum.inr (r, d')) →
      r = - ETIMEDOUT ∧ d'.psr_exit_state = PsrState.PSR_NONE ∧
      d'.psr_enter_state = d.psr_enter_state ∧
      ¬ ∀ k, env.pll_lock_status k ≠ hdr.PLL_UNLOCKED) := by
  unfold psr_exit_resume
  simp only []
  generalize hd0 : psr_hw (HwOp.set_analog_power_down PowerBlock.ANALOG_TOTAL false) _ = d0
  have hf0 : d0.psr_enter_state = d.psr_enter_state ∧ d0.psr_exit_state = d.psr_exit_state := by
    rw [← hd0]
    exact ⟨rfl, rfl⟩
  refine ⟨?_, ?_, ?_⟩
  · intro hfuel
    obtain ⟨⟨b, d2⟩, e⟩ := pll_wait_returns hdr env fuel d0 hfuel
    rw [e]
    cases b <;> exact ⟨_, rfl⟩
  · intro d1 h
    split at h
    · simp at h
    · simp at h
    · rename_i d2 e
      simp only [Option.some.injEq, Sum.inl.injEq] at h
      have hf := pll_wait_flags hdr env fuel d0 true d2 e
      rw [← h]
      refine ⟨hf.1.trans hf0.1, hf.2.trans hf0.2, ?_⟩
      intro hno
      have := pll_wait_never hdr env hno fuel d0 true d2 e
      exact absurd this (by decide)
  · intro r d' h
    split at h
    · simp at h
    · rename_i d2 e
      simp only [Option.some.injEq, Sum.inr.injEq] at h
      have hf := pll_wait_flags hdr env fuel d0 false d2 e
      have hs := psr_exit_err_exit_spec (- ETIMEDOUT) d2
      rw [h] at hs
      refine ⟨hs.1, hs.2.1, hs.2.2.trans (hf.1.trans hf0.1), ?_⟩
      intro hyes
      have := pll_wait_always hdr env hyes fuel d0 false d2 e
      exact absurd this (by decide)
    · simp at h

theorem read_psr_inactive_never (hdr : Hdr) (env : Env)
    (h : ∀ k, env.psr_status k ≠ hdr.PSR_STATUS_INACTIVE) (d : PsrDev) :
    (read_psr_inactive hdr env d).1 = false := by
  simp [read_psr_inactive, s5p_dp_get_psr_status, h]

theorem read_psr_inactive_always (hdr : Hdr) (env : Env)
    (h : ∀ k, env.psr_status k = hdr.PSR_STATUS_INACTIVE) (d : PsrDev) :
    (read_psr_inactive hdr env d).1 = true := by
  simp [read_psr_inactive, s5p_dp_get_psr_status, h]

theorem read_video_stream_on_never (env : Env) (h : ∀ k, env.video_stream_on k ≠ 0)
    (d : PsrDev) : (read_video_stream_on env d).1 = false := by
  simp [read_video_stream_on, s5p_dp_is_video_stream_on, h]

theorem read_video_stream_on_always (env : Env) (h : ∀ k, env.video_stream_on k = 0)
    (d : PsrDev) : (read_video_stream_on env d).1 = true := by
  simp [read_video_stream_on, s5p_dp_is_video_stream_on, h]

theorem read_sink_psr_inactive_never (hdr : Hdr) (env : Env)
    (h : ∀ t, sink_psr_status env t ≠ hdr.SINK_PSR_INACTIVE_STATE ∧ sink_psr_status env t ≠ 4)
    (d : PsrDev) : (read_sink_psr_inactive hdr env d).1 = false := by
  have := h d.dp.tick
  unfold sink_psr_status aux_byte at this
  simp [read_sink_psr_inactive, this]

theorem read_sink_psr_inactive_always (hdr : Hdr) (env : Env)
    (h : ∀ t, sink_psr_status env t = hdr.SINK_PSR_INACTIVE_STATE ∨ sink_psr_status env t = 4)
    (d : PsrDev) : (read_sink_psr_inactive hdr env d).1 = true := by
  have := h d.dp.tick
  unfold sink_psr_status aux_byte at this
  simp [read_sink_psr_inactive, this]

/-- The part of `s5p_dp_psr_exit` after the link training: it returns; a
timeout of one of its three polls gives `-ETIMEDOUT` with `psr_exit_state =
PSR_NONE` and `psr_enter_state` unchanged, and otherwise it returns 0 with
`psr_exit_state = PSR_EXIT_DONE` and `psr_enter_state = PSR_NONE`. -/
theorem psr_exit_polls_spec (hdr : Hdr) (env : Env) (fuel : Nat) (d : PsrDev) :
    (hdr.DP_TIMEOUT_LOOP_COUNT + 1 ≤ fuel → ∃ res, psr_exit_polls hdr env fuel d = some res) ∧
    (∀ r d', psr_exit_polls hdr env fuel d = some (r, d') →
      ((r = - ETIMEDOUT ∧ d'.psr_exit_state = PsrState.PSR_NONE ∧
          d'.psr_enter_state = d.psr_enter_state ∧
          ¬ ((∀ k, env.psr_status k = hdr.PSR_STATUS_INACTIVE) ∧
            (∀ k, env.video_stream_on k = 0) ∧
            (∀ t, sink_psr_status env t = hdr.SINK_PSR_INACTIVE_STATE ∨
              sink_psr_status env t = 4))) ∨
        (r = 0 ∧ d'.psr_exit_state = PsrState.PSR_EXIT_DONE ∧
          d'.psr_enter_state = PsrState.PSR_NONE ∧
          ¬ (∀ k, env.psr_status k ≠ hdr.PSR_STATUS_INACTIVE) ∧
          ¬ (∀ k, env.video_stream_on k ≠ 0) ∧
          ¬ (∀ t, sink_psr_status env t ≠ hdr.SINK_PSR_INACTIVE_STATE ∧
            sink_psr_status env t ≠ 4)))) := by
  unfold psr_exit_polls
  simp only []
  generalize hd0 : psr_hw HwOp.set_idle_en d = d0
  have hf0 : d0.psr_enter_state = d.psr_enter_state := by rw [← hd0]; rfl
  refine ⟨?_, ?_⟩
  · intro hfuel
    obtain ⟨⟨b1, d1⟩, e1⟩ := poll_loop_returns hdr (read_psr_inactive hdr env)
      (HwOp.usleep_range 100 110) fuel 0 d0 (by omega) (by omega)
    rw [e1]
    cases b1
    · exact ⟨_, rfl⟩
    · simp only []
      obtain ⟨⟨b2, d2⟩, e2⟩ := poll_loop_returns hdr (read_video_stream_on env)
        (HwOp.usleep_range 1000 1100) fuel 0 (psr_hw HwOp.set_force_stream_valid d1)
        (by omega) (by omega)
      rw [e2]
      cases b2
      · exact ⟨_, rfl⟩
      · simp only []
        obtain ⟨⟨b3, d3⟩, e3⟩ := poll_loop_returns hdr (read_sink_psr_inactive hdr env)
          (HwOp.usleep_range 100 110) fuel 0 d2 (by omega) (by omega)
        rw [e3]
        cases b3 <;> exact ⟨_, rfl⟩
  · intro r d' h
    split at h
    · simp at h
    · rename_i d1 e1
      simp only [Option.some.injEq] at h
      have hf1 := poll_loop_flags hdr _ _ (keeps_flags_psr_inactive hdr env) _ _ _ _ _ e1
      have hs := psr_exit_err_exit_spec (- ETIMEDOUT) d1
      rw [h] at hs
      refine Or.inl ⟨hs.1, hs.2.1, hs.2.2.trans (hf1.1.trans hf0), ?_⟩
      intro hall
      have := poll_loop_always hdr _ _ (read_psr_inactive_always hdr env hall.1) _ _ _ _ _ e1
      exact absurd this (by decide)
    · rename_i d1 e1
      have hf1 := poll_loop_flags hdr _ _ (keeps_flags_psr_inactive hdr env) _ _ _ _ _ e1
      have hn1 : ¬ (∀ k, env.psr_status k ≠ hdr.PSR_STATUS_INACTIVE) := by
        intro hno
        have := poll_loop_never hdr _ _ (read_psr_inactive_never hdr env hno) _ _ _ _ _ e1
        exact absurd this (by decide)
      split at h
      · simp at h
      · rename_i d2 e2
        simp only [Option.some.injEq] at h
        have hf2 := poll_loop_flags hdr _ _ (keeps_flags_video env) _ _ _ _ _ e2
        have hs := psr_exit_err_exit_spec (- ETIMEDOUT) d2
        rw [h] at hs
        refine Or.inl ⟨hs.1, hs.2.1, hs.2.2.trans (hf2.1.trans (hf1.1.trans hf0)), ?_⟩
        intro hall
        have := poll_loop_always hdr _ _ (read_video_stream_on_always env hall.2.1) _ _ _ _ _ e2
        exact absurd this (by decide)
      · rename_i d2 e2
        have hn2 : ¬ (∀ k, env.video_stream_on k ≠ 0) := by
          intro hno
          have := poll_loop_never hdr _ _ (read_video_stream_on_never env hno) _ _ _ _ _ e2
          exact absurd this (by decide)
        split at h
        · simp at h
        · rename_i d3 e3
          simp only [Option.some.injEq] at h
          have hf2 := poll_loop_flags hdr _ _ (keeps_flags_video env) _ _ _ _ _ e2
          have hf3 := poll_loop_flags hdr _ _ (keeps_flags_sink hdr env) _ _ _ _ _ e3
          have hs := psr_exit_err_exit_spec (- ETIMEDOUT) d3
          rw [h] at hs
          refine Or.inl ⟨hs.1, hs.2.1,
            hs.2.2.trans (hf3.1.trans (hf2.1.trans (hf1.1.trans hf0))), ?_⟩
          intro hall
          have := poll_loop_always hdr _ _ (read_sink_psr_inactive_always hdr env hall.2.2)
            _ _ _ _ _ e3
          exact absurd this (by decide)
        · rename_i d3 e3
          simp only [Option.some.injEq, Prod.mk.injEq] at h
          have hn3 : ¬ (∀ t, sink_psr_status env t ≠ hdr.SINK_PSR_INACTIVE_STATE ∧
              sink_psr_status env t ≠ 4) := by
            intro hno
            have := poll_loop_never hdr _ _ (read_sink_psr_inactive_never hdr env hno)
              _ _ _ _ _ e3
            exact absurd this (by decide)
          refine Or.inr ⟨h.1.symm, ?_, ?_, hn1, hn2, hn3⟩
          · rw [← h.2]; rfl
          · rw [← h.2]; rfl

/-- The outcomes of `s5p_dp_psr_exit` in outline, with fuel for
`DP_TIMEOUT_LOOP_COUNT + 1` passes of every poll loop: the guard on
`psr_enter_state = PSR_NONE`, the two shapes of a returned result, the only
way not to return, and the return value when a status is never good or all
are always good. -/
theorem psr_exit_shape (hdr : Hdr) (env : Env) (fuel : Nat) (d : PsrDev)
    (hfuel : hdr.DP_TIMEOUT_LOOP_COUNT + 1 ≤ fuel) :
    (d.psr_enter_state = PsrState.PSR_NONE →
      s5p_dp_psr_exit hdr env fuel d =
        some (0, { d with dp := { d.dp with
          log := d.dp.log ++ [Event.hw HwOp.mutex_lock, Event.hw HwOp.mutex_unlock] } })) ∧
    (d.psr_enter_state ≠ PsrState.PSR_NONE →
      (∀ r d', s5p_dp_psr_exit hdr env fuel d = some (r, d') →
        (r = - ETIMEDOUT ∧ d'.psr_exit_state = PsrState.PSR_NONE ∧
          d'.psr_enter_state = d.psr_enter_state) ∨
        (r = 0 ∧ d'.psr_exit_state = PsrState.PSR_EXIT_DONE ∧
          d'.psr_enter_state = PsrState.PSR_NONE)) ∧
      (s5p_dp_psr_exit hdr env fuel d = none →
        ∃ d1, psr_exit_resume hdr env fuel (psr_hw HwOp.mutex_lock d) = some (Sum.inl d1) ∧
          s5p_dp_set_link_train_for_psr hdr env fuel 0 d1.dp = none) ∧
      ((∀ k, env.pll_lock_status k = hdr.PLL_UNLOCKED) →
        ∃ d', s5p_dp_psr_exit hdr env fuel d = some (- ETIMEDOUT, d')) ∧
      (∀ r d', s5p_dp_psr_exit hdr env fuel d = some (r, d') →
        ((∀ k, env.psr_status k ≠ hdr.PSR_STATUS_INACTIVE) ∨
          (∀ k, env.video_stream_on k ≠ 0) ∨
          (∀ t, sink_psr_status env t ≠ hdr.SINK_PSR_INACTIVE_STATE ∧
            sink_psr_status env t ≠ 4)) →
        r = - ETIMEDOUT) ∧
      (∀ r d', s5p_dp_psr_exit hdr env fuel d = some (r, d') →
        (∀ k, env.pll_lock_status k ≠ hdr.PLL_UNLOCKED) →
        (∀ k, env.psr_status k = hdr.PSR_STATUS_INACTIVE) →
        (∀ k, env.video_stream_on k = 0) →
        (∀ t, sink_psr_status env t = hdr.SINK_PSR_INACTIVE_STATE ∨
          sink_psr_status env t = 4) →
        r = 0)) := by
  refine ⟨?_, ?_⟩
  · intro hnone
    unfold s5p_dp_psr_exit
    simp only [psr_hw_enter_state, hnone, if_true]
    simp [psr_hw, hw, emit, hnone]
  · intro hne
    unfold s5p_dp_psr_exit
    simp only [psr_hw_enter_state, if_neg hne]
    obtain ⟨hret, hinl, hinr⟩ := psr_exit_resume_spec hdr env fuel (psr_hw HwOp.mutex_lock d)
    obtain ⟨res, hres⟩ := hret hfuel
    rw [hres]
    rcases res with d1 | ⟨r1, d1⟩
    · -- the link training is reached
      obtain ⟨hf1, hf2, hpll⟩ := hinl d1 hres
      simp only []
      rcases htr : s5p_dp_set_link_train_for_psr hdr env fuel 0 d1.dp with _ | ⟨rv, dp2⟩
      · simp only []
        refine ⟨by simp, fun _ => ⟨d1, rfl, htr⟩, fun hno => absurd hno hpll, by simp, by simp⟩
      · simp only []
        obtain ⟨hpr, hps⟩ := psr_exit_polls_spec hdr env fuel { d1 with dp := dp2 }
        obtain ⟨res2, hres2⟩ := hpr hfuel
        refine ⟨?_, ?_, fun hno => absurd hno hpll, ?_, ?_⟩
        · intro r d' h
          rcases hps r d' h with ⟨h1, h2, h3, _⟩ | ⟨h1, h2, h3, _⟩
          · exact Or.inl ⟨h1, h2, h3.trans hf1⟩
          · exact Or.inr ⟨h1, h2, h3⟩
        · intro h
          rw [hres2] at h
          simp at h
        · intro r d' h hnever
          rcases hps r d' h with ⟨h1, _⟩ | ⟨_, _, _, n1, n2, n3⟩
          · exact h1
          · rcases hnever with hn | hn | hn
            · exact absurd hn n1
            · exact absurd hn n2
            · exact absurd hn n3
        · intro r d' h _ a1 a2 a3
          rcases hps r d' h with ⟨_, _, _, n⟩ | ⟨h1, _⟩
          · exact absurd ⟨a1, a2, a3⟩ n
          · exact h1
    · -- the wait for the PLL lock timed out
      obtain ⟨h1, h2, h3, hpll⟩ := hinr r1 d1 hres
      simp only []
      refine ⟨?_, by simp, ?_, ?_, ?_⟩
      · intro r d' h
        simp only [Option.some.injEq, Prod.mk.injEq] at h
        rw [← h.1, ← h.2]
        exact Or.inl ⟨h1, h2, h3⟩
      · intro _
        exact ⟨d1, by rw [h1]⟩
      · intro r d' h _
        simp only [Option.some.injEq, Prod.mk.injEq] at h
        rw [← h.1]
        exact h1
      · intro r d' h hyes
        exact absurd hyes hpll

/-- A poll loop keeps whatever its read step and its delay keep. -/
theorem poll_loop_keeps {α : Type} (f : PsrDev → α) (hdr : Hdr)
    (read : PsrDev → Bool × PsrDev) (delay : HwOp)
    (hr : ∀ d, f (read d).2 = f d) (hd : ∀ d, f (psr_hw delay d) = f d)
    (fuel tl : Nat) (d : PsrDev) (b : Bool) (d' : PsrDev)
    (h : poll_loop hdr read delay fuel tl d = some (b, d')) : f d' = f d := by
  induction fuel generalizing tl d with
  | zero => simp [poll_loop] at h
  | succ fuel ih =>
    simp only [poll_loop] at h
    split_ifs at h with h1 h2
    · simp only [Option.some.injEq, Prod.mk.injEq] at h
      rw [← h.2]
      exact hr d
    · simp only [Option.some.injEq, Prod.mk.injEq] at h
      rw [← h.2]
      exact hr d
    · have := ih _ _ h
      rw [this, hd, hr]

/-- A poll loop whose reads are numbered by `key` and whose read number `k`
is good when `good k`: with fuel for its passes it ends by `break` exactly
when one of the reads that the bound allows is good, and then it has made the
reads up to the first good one. -/
theorem poll_loop_exact (hdr : Hdr) (read : PsrDev → Bool × PsrDev) (delay : HwOp)
    (key : PsrDev → Nat) (good : Nat → Bool)
    (h1 : ∀ d, (read d).1 = good (key d)) (h2 : ∀ d, key (read d).2 = key d + 1)
    (h3 : ∀ d, key (psr_hw delay d) = key d) (fuel tl : Nat) (d : PsrDev)
    (hfuel : hdr.DP_TIMEOUT_LOOP_COUNT + 1 ≤ fuel + tl)
    (htl : tl ≤ hdr.DP_TIMEOUT_LOOP_COUNT) :
    ∃ d', poll_loop hdr read delay fuel tl d =
        some ((first_good good (key d) (hdr.DP_TIMEOUT_LOOP_COUNT + 1 - tl)).isSome, d') ∧
      ∀ i, first_good good (key d) (hdr.DP_TIMEOUT_LOOP_COUNT + 1 - tl) = some i →
        key d' = i + 1 := by
  induction fuel generalizing tl d with
  | zero => omega
  | succ fuel ih =>
    obtain ⟨b, hb⟩ : ∃ b, hdr.DP_TIMEOUT_LOOP_COUNT + 1 - tl = b + 1 :=
      ⟨hdr.DP_TIMEOUT_LOOP_COUNT - tl, by omega⟩
    rw [hb]
    simp only [poll_loop, first_good, h1]
    by_cases hg : good (key d) = true
    · simp only [hg, if_true]
      refine ⟨_, rfl, ?_⟩
      intro i hi
      simp only [Option.some.injEq] at hi
      rw [← hi, h2]
    · simp only [hg, Bool.false_eq_true, if_false]
      split_ifs with h4
      · have hb0 : b = 0 := by omega
        subst hb0
        exact ⟨_, rfl, by simp [first_good]⟩
      · obtain ⟨d', e, hk⟩ := ih (tl + 1) (psr_hw delay (read d).2) (by omega) (by omega)
        have hb' : hdr.DP_TIMEOUT_LOOP_COUNT + 1 - (tl + 1) = b := by omega
        rw [hb', h3, h2] at e hk
        exact ⟨d', e, hk⟩

/-- The wait loop for the PLL lock, with fuel for its passes: it finds the
PLL locked exactly when one of the reads that the bound allows does, and then
it has made the reads up to that one. -/
theorem pll_wait_loop_exact (hdr : Hdr) (env : Env) (fuel tl : Nat) (d : PsrDev)
    (hfuel : hdr.DP_TIMEOUT_LOOP_COUNT + 1 ≤ fuel + tl)
    (htl : tl ≤ hdr.DP_TIMEOUT_LOOP_COUNT) :
    ∃ d', pll_wait_loop hdr env fuel tl d =
        some ((first_good (pll_locked hdr env) d.hw_tick
          (hdr.DP_TIMEOUT_LOOP_COUNT + 1 - tl)).isSome, d') ∧
      d'.dp.tick = d.dp.tick ∧
      ∀ i, first_good (pll_locked hdr env) d.hw_tick
          (hdr.DP_TIMEOUT_LOOP_COUNT + 1 - tl) = some i → d'.hw_tick = i + 1 := by
  induction fuel generalizing tl d with
  | zero => omega
  | succ fuel ih =>
    obtain ⟨b, hb⟩ : ∃ b, hdr.DP_TIMEOUT_LOOP_COUNT + 1 - tl = b + 1 :=
      ⟨hdr.DP_TIMEOUT_LOOP_COUNT - tl, by omega⟩
    rw [hb]
    simp only [pll_wait_loop, first_good, pll_locked]
    by_cases hu : env.pll_lock_status d.hw_tick = hdr.PLL_UNLOCKED
    · have hu' : (s5p_dp_get_pll_lock_status env d).1 = hdr.PLL_UNLOCKED := hu
      simp only [hu', hu, if_true, ne_eq, not_true_eq_false, decide_False, Bool.false_eq_true,
        if_false]
      split_ifs with h4
      · have hb0 : b = 0 := by omega
        subst hb0
        exact ⟨_, rfl, rfl, by simp [first_good]⟩
      · obtain ⟨d', e, ht, hk⟩ := ih (tl + 1)
          { (s5p_dp_get_pll_lock_status env d).2 with
            dp := emit (Event.udelay 10) (s5p_dp_get_pll_lock_status env d).2.dp }
          (by omega) (by omega)
        have hb' : hdr.DP_TIMEOUT_LOOP_COUNT + 1 - (tl + 1) = b := by omega
        rw [hb'] at e hk
        exact ⟨d', e, ht, hk⟩
    · have hu' : ¬ (s5p_dp_get_pll_lock_status env d).1 = hdr.PLL_UNLOCKED := hu
      simp only [hu', hu, if_false, ne_eq, not_false_eq_true, decide_True, if_true]
      refine ⟨_, rfl, rfl, ?_⟩
      intro i hi
      simp only [Option.some.injEq] at hi
      rw [← hi]
      rfl

/-- The wait for the PLL lock of `s5p_dp_psr_exit`: it makes at most
`DP_TIMEOUT_LOOP_COUNT + 2` reads of the lock status and succeeds exactly when
one of them finds the PLL locked. -/
theorem pll_wait_exact (hdr : Hdr) (env : Env) (fuel : Nat) (d : PsrDev)
    (hfuel : hdr.DP_TIMEOUT_LOOP_COUNT + 1 ≤ fuel) :
    ∃ d', pll_wait hdr env fuel d =
        some ((first_good (pll_locked hdr env) d.hw_tick
          (hdr.DP_TIMEOUT_LOOP_COUNT + 2)).isSome, d') ∧
      d'.dp.tick = d.dp.tick ∧
      ∀ i, first_good (pll_locked hdr env) d.hw_tick
          (hdr.DP_TIMEOUT_LOOP_COUNT + 2) = some i → d'.hw_tick = i + 1 := by
  unfold pll_wait
  simp only [first_good, pll_locked]
  by_cases hu : env.pll_lock_status d.hw_tick = hdr.PLL_UNLOCKED
  · have hu' : (s5p_dp_get_pll_lock_status env d).1 = hdr.PLL_UNLOCKED := hu
    simp only [hu', hu, if_true, ne_eq, not_true_eq_false, decide_False, Bool.false_eq_true,
      if_false]
    obtain ⟨d', e, ht, hk⟩ := pll_wait_loop_exact hdr env fuel 0
      (s5p_dp_get_pll_lock_status env d).2 (by omega) (by omega)
    exact ⟨d', e, ht, hk⟩
  · have hu' : ¬ (s5p_dp_get_pll_lock_status env d).1 = hdr.PLL_UNLOCKED := hu
    simp only [hu', hu, if_false, ne_eq, not_false_eq_true, decide_True, if_true]
    refine ⟨_, rfl, rfl, ?_⟩
    intro i hi
    simp only [Option.some.injEq] at hi
    rw [← hi]
    rfl

/-- The part of `s5p_dp_psr_exit` before the link training, with fuel for
the wait: it leaves through `err_exit` with `-ETIMEDOUT` when none of the
`DP_TIMEOUT_LOOP_COUNT + 2` reads of the lock status finds the PLL locked, and
otherwise it goes on after the first read that does, having made one AUX
transaction. -/
theorem psr_exit_resume_exact (hdr : Hdr) (env : Env) (fuel : Nat) (d : PsrDev)
    (hfuel : hdr.DP_TIMEOUT_LOOP_COUNT + 1 ≤ fuel) :
    (first_good (pll_locked hdr env) d.hw_tick (hdr.DP_TIMEOUT_LOOP_COUNT + 2) = none →
      ∃ d', psr_exit_resume hdr env fuel d = some (Sum.inr (- ETIMEDOUT, d'))) ∧
    (∀ i, first_good (pll_locked hdr env) d.hw_tick (hdr.DP_TIMEOUT_LOOP_COUNT + 2) = some i →
      ∃ d1, psr_exit_resume hdr env fuel d = some (Sum.inl d1) ∧ d1.hw_tick = i + 1 ∧
        d1.dp.tick = d.dp.tick + 1) := by
  obtain ⟨d2, e, ht, hk⟩ := pll_wait_exact hdr env fuel
    (psr_hw (HwOp.set_analog_power_down PowerBlock.ANALOG_TOTAL false)
      (psr_hw HwOp.set_fifo_reset (psr_hw HwOp.exit_psr (psr_hw HwOp.clk_enable d)))) hfuel
  simp only [psr_hw_hw_tick, psr_hw_tick] at e ht hk
  refine ⟨?_, ?_⟩
  · intro hnone
    rw [hnone] at e
    unfold psr_exit_resume
    simp only []
    rw [e]
    exact ⟨_, rfl⟩
  · intro i hi
    rw [hi] at e
    unfold psr_exit_resume
    simp only []
    rw [e]
    refine ⟨_, rfl, ?_, ?_⟩
    · exact hk i hi
    · simp only [write_byte_tick, psr_hw_tick]
      rw [ht]

/-- The part of `s5p_dp_psr_exit` after the link training, with fuel for
its polls: it returns what the three bounded polls come to. -/
theorem psr_exit_polls_exact (hdr : Hdr) (env : Env) (fuel : Nat) (d : PsrDev)
    (hfuel : hdr.DP_TIMEOUT_LOOP_COUNT + 1 ≤ fuel) :
    ∃ d', psr_exit_polls hdr env fuel d =
      some (psr_exit_polls_result hdr env d.hw_tick d.dp.tick, d') := by
  unfold psr_exit_polls psr_exit_polls_result
  simp only []
  obtain ⟨d1, e1, k1⟩ := poll_loop_exact hdr (read_psr_inactive hdr env)
    (HwOp.usleep_range 100 110) (fun x => x.hw_tick) (psr_inactive hdr env)
    (fun _ => rfl) (fun _ => rfl) (fun _ => rfl) fuel 0 (psr_hw HwOp.set_idle_en d)
    (by omega) (by omega)
  have t1 := poll_loop_keeps (fun x => x.dp.tick) hdr _ _ (fun _ => rfl) (fun _ => rfl)
    _ _ _ _ _ e1
  simp only [psr_hw_tick] at t1
  simp only [Nat.sub_zero, psr_hw_hw_tick] at e1 k1
  rw [e1]
  cases hf1 : first_good (psr_inactive hdr env) d.hw_tick (hdr.DP_TIMEOUT_LOOP_COUNT + 1) with
  | none => exact ⟨_, rfl⟩
  | some i1 =>
    have hk1 := k1 i1 hf1
    simp only [Option.isSome_some]
    obtain ⟨d2, e2, k2⟩ := poll_loop_exact hdr (read_video_stream_on env)
      (HwOp.usleep_range 1000 1100) (fun x => x.hw_tick) (video_on env)
      (fun _ => rfl) (fun _ => rfl) (fun _ => rfl) fuel 0
      (psr_hw HwOp.set_force_stream_valid d1) (by omega) (by omega)
    have t2 := poll_loop_keeps (fun x => x.dp.tick) hdr _ _ (fun _ => rfl) (fun _ => rfl)
      _ _ _ _ _ e2
    simp only [psr_hw_tick] at t2
    simp only [Nat.sub_zero, psr_hw_hw_tick, hk1] at e2 k2
    rw [e2]
    cases hf2 : first_good (video_on env) (i1 + 1) (hdr.DP_TIMEOUT_LOOP_COUNT + 1) with
    | none => exact ⟨_, rfl⟩
    | some i2 =>
      simp only [Option.isSome_some]
      obtain ⟨d3, e3, _⟩ := poll_loop_exact hdr (read_sink_psr_inactive hdr env)
        (HwOp.usleep_range 100 110) (fun x => x.dp.tick) (sink_inactive hdr env)
        (fun _ => rfl) (fun _ => rfl) (fun _ => rfl) fuel 0 d2 (by omega) (by omega)
      simp only [Nat.sub_zero, t2, t1] at e3
      rw [e3]
      cases hf3 : first_good (sink_inactive hdr env) d.dp.tick
          (hdr.DP_TIMEOUT_LOOP_COUNT + 1) with
      | none => exact ⟨_, rfl⟩
      | some i3 => exact ⟨_, rfl⟩

/-- C20: PSR exit outcomes, with fuel for `DP_TIMEOUT_LOOP_COUNT + 1`
passes of every poll loop. Called with `psr_enter_state = PSR_NONE` the
function returns 0 and changes nothing but the log, to which it adds the lock
and the unlock of the mutex. Otherwise: whenever it returns, it returns either
`-ETIMEDOUT` with `psr_exit_state = PSR_NONE` and `psr_enter_state` unchanged,
or 0 with `psr_exit_state = PSR_EXIT_DONE` and `psr_enter_state = PSR_NONE`;
it fails to return only when the link training of
`s5p_dp_set_link_train_for_psr` does not return. Which of the two it returns
is fixed by the bounded polls. The wait for the PLL lock times out, and the
function returns `-ETIMEDOUT`, when none of the first `DP_TIMEOUT_LOOP_COUNT +
2` reads of the lock status finds the PLL locked. When read `i` is the first
that does, the link training starts after `i + 1` status reads and one more
AUX transaction, and when it returns the function returns what the three
polls that follow come to (`psr_exit_polls_result`): `-ETIMEDOUT` when the PSR
status is not inactive in any of the next `DP_TIMEOUT_LOOP_COUNT + 1` status
reads, or the video stream is not on in any of the `DP_TIMEOUT_LOOP_COUNT + 1`
status reads after that, or the sink's PSR status is neither
`SINK_PSR_INACTIVE_STATE` nor 4 in any of the `DP_TIMEOUT_LOOP_COUNT + 1` AUX
reads that follow the training, and 0 otherwise. In particular a status that
is never good gives `-ETIMEDOUT` and statuses that are always good give 0. -/
theorem psr_exit_outcomes (hdr : Hdr) (env : Env) (fuel : Nat) (d : PsrDev)
    (hfuel : hdr.DP_TIMEOUT_LOOP_COUNT + 1 ≤ fuel) :
    (d.psr_enter_state = PsrState.PSR_NONE →
      s5p_dp_psr_exit hdr env fuel d =
        some (0, { d with dp := { d.dp with
          log := d.dp.log ++ [Event.hw HwOp.mutex_lock, Event.hw HwOp.mutex_unlock] } })) ∧
    (d.psr_enter_state ≠ PsrState.PSR_NONE →
      (∀ r d', s5p_dp_psr_exit hdr env fuel d = some (r, d') →
        (r = - ETIMEDOUT ∧ d'.psr_exit_state = PsrState.PSR_NONE ∧
          d'.psr_enter_state = d.psr_enter_state) ∨
        (r = 0 ∧ d'.psr_exit_state = PsrState.PSR_EXIT_DONE ∧
          d'.psr_enter_state = PsrState.PSR_NONE)) ∧
      (s5p_dp_psr_exit hdr env fuel d = none →
        ∃ d1, psr_exit_resume hdr env fuel (psr_hw HwOp.mutex_lock d) = some (Sum.inl d1) ∧
          s5p_dp_set_link_train_for_psr hdr env fuel 0 d1.dp = none) ∧
      (first_good (pll_locked hdr env) d.hw_tick (hdr.DP_TIMEOUT_LOOP_COUNT + 2) = none →
        ∃ d', s5p_dp_psr_exit hdr env fuel d = some (- ETIMEDOUT, d')) ∧
      (∀ i, first_good (pll_locked hdr env) d.hw_tick (hdr.DP_TIMEOUT_LOOP_COUNT + 2) =
          some i →
        ∃ d1, psr_exit_resume hdr env fuel (psr_hw HwOp.mutex_lock d) = some (Sum.inl d1) ∧
          d1.hw_tick = i + 1 ∧ d1.dp.tick = d.dp.tick + 1 ∧
          ∀ rv dp2, s5p_dp_set_link_train_for_psr hdr env fuel 0 d1.dp = some (rv, dp2) →
            ∃ d', s5p_dp_psr_exit hdr env fuel d =
              some (psr_exit_polls_result hdr env (i + 1) dp2.tick, d')) ∧
      ((∀ k, env.pll_lock_status k = hdr.PLL_UNLOCKED) →
        ∃ d', s5p_dp_psr_exit hdr env fuel d = some (- ETIMEDOUT, d')) ∧
      (∀ r d', s5p_dp_psr_exit hdr env fuel d = some (r, d') →
        ((∀ k, env.psr_status k ≠ hdr.PSR_STATUS_INACTIVE) ∨
          (∀ k, env.video_stream_on k ≠ 0) ∨
          (∀ t, sink_psr_status env t ≠ hdr.SINK_PSR_INACTIVE_STATE ∧
            sink_psr_status env t ≠ 4)) →
        r = - ETIMEDOUT) ∧
      (∀ r d', s5p_dp_psr_exit hdr env fuel d = some (r, d') →
        (∀ k, env.pll_lock_status k ≠ hdr.PLL_UNLOCKED) →
        (∀ k, env.psr_status k = hdr.PSR_STATUS_INACTIVE) →
        (∀ k, env.video_stream_on k = 0) →
        (∀ t, sink_psr_status env t = hdr.SINK_PSR_INACTIVE_STATE ∨
          sink_psr_status env t = 4) →
        r = 0)) := by
  obtain ⟨hg, hrest⟩ := psr_exit_shape hdr env fuel d hfuel
  refine ⟨hg, fun hne => ?_⟩
  obtain ⟨s1, s2, s3, s4, s5⟩ := hrest hne
  obtain ⟨r1, r2⟩ := psr_exit_resume_exact hdr env fuel (psr_hw HwOp.mutex_lock d) hfuel
  simp only [psr_hw_hw_tick, psr_hw_tick] at r1 r2
  refine ⟨s1, s2, ?_, ?_, s3, s4, s5⟩
  · intro hnone
    obtain ⟨d', e⟩ := r1 hnone
    unfold s5p_dp_psr_exit
    simp only [psr_hw_enter_state, if_neg hne]
    rw [e]
    exact ⟨_, rfl⟩
  · intro i hi
    obtain ⟨d1, e, h1, h2⟩ := r2 i hi
    refine ⟨d1, e, h1, h2, ?_⟩
    intro rv dp2 htr
    unfold s5p_dp_psr_exit
    simp only [psr_hw_enter_state, if_neg hne]
    rw [e]
    simp only []
    rw [htr]
    simp only []
    rw [← h1]
    exact psr_exit_polls_exact hdr env fuel { d1 with dp := dp2 } hfuel

/-- Witness of C20. Against `env_psr_slow`, whose PSR status turns inactive
with the fourth read of the poll, a device in self refresh returns 0 with
`psr_exit_state = PSR_EXIT_DONE` and `psr_enter_state = PSR_NONE` after six
status reads; against `env_psr_late`, where it stays active for longer than
the poll lasts, and against `env_pll_unlocked` it returns `-ETIMEDOUT` with
`psr_exit_state = PSR_NONE` and `psr_enter_state` still `PSR_ENTER_DONE`; a
device outside self refresh returns 0 and only takes and releases the lock. -/
theorem psr_exit_outcomes_witness :
    (s5p_dp_psr_exit stdHdr env_psr_slow 101 psr_dev_entered).map
        (fun x => (x.1, x.2.psr_enter_state, x.2.psr_exit_state, x.2.hw_tick)) =
      some (0, PsrState.PSR_NONE, PsrState.PSR_EXIT_DONE, 6) ∧
    (s5p_dp_psr_exit stdHdr env_psr_late 101 psr_dev_entered).map
        (fun x => (x.1, x.2.psr_enter_state, x.2.psr_exit_state, x.2.hw_tick)) =
      some (- ETIMEDOUT, PsrState.PSR_ENTER_DONE, PsrState.PSR_NONE, 102) ∧
    (s5p_dp_psr_exit stdHdr env_pll_unlocked 101 psr_dev_entered).map
        (fun x => (x.1, x.2.psr_enter_state, x.2.psr_exit_state, x.2.hw_tick)) =
      some (- ETIMEDOUT, PsrState.PSR_ENTER_DONE, PsrState.PSR_NONE, 102) ∧
    (∃ d', s5p_dp_psr_exit stdHdr env_pll_unlocked 101 psr_dev_entered =
      some (- ETIMEDOUT, d')) ∧
    (∃ d1, psr_exit_resume stdHdr env_psr_slow 101 (psr_hw HwOp.mutex_lock psr_dev_entered) =
        some (Sum.inl d1) ∧ d1.hw_tick = 1 ∧ d1.dp.tick = 1 ∧
      ∀ rv dp2, s5p_dp_set_link_train_for_psr stdHdr env_psr_slow 101 0 d1.dp = some (rv, dp2) →
        ∃ d', s5p_dp_psr_exit stdHdr env_psr_slow 101 psr_dev_entered =
          some (psr_exit_polls_result stdHdr env_psr_slow 1 dp2.tick, d')) ∧
    psr_exit_polls_result stdHdr env_psr_slow 1 9 = 0 ∧
    psr_exit_polls_result stdHdr env_psr_late 1 9 = - ETIMEDOUT ∧
    (s5p_dp_psr_exit stdHdr env_ok 101 psr_dev_none).map
        (fun x => (x.1, x.2.psr_enter_state, x.2.psr_exit_state, x.2.dp.log)) =
      some (0, PsrState.PSR_NONE, PsrState.PSR_NONE,
        [Event.hw HwOp.mutex_lock, Event.hw HwOp.mutex_unlock]) := by
  refine ⟨by decide, by decide, by decide, ?_, ?_, by decide, by decide, ?_⟩
  · exact ((psr_exit_outcomes stdHdr env_pll_unlocked 101 psr_dev_entered (by decide)).2
      (by decide)).2.2.1 (by decide)
  · exact ((psr_exit_outcomes stdHdr env_psr_slow 101 psr_dev_entered (by decide)).2
      (by decide)).2.2.2.1 0 (by decide)
  · rw [(psr_exit_outcomes stdHdr env_ok 101 psr_dev_none (by decide)).1 rfl]
    decide

/-! ## The retry-counter invariant -/

theorem CrInv.bound {lc : Nat} {dp : Dev} (h : CrInv lc dp) : CrBound lc dp := by
  intro lane hl
  rcases h.2 with h1 | ⟨h1, h2⟩
  · have := h1 lane hl
    exact ⟨le_of_lt this, fun e => absurd e (ne_of_lt this)⟩
  · exact ⟨h2 lane hl, fun _ => h1⟩

theorem cr_below_of_cr_loop {lc : Nat} {a b : Dev}
    (h : b.link_train.cr_loop = a.link_train.cr_loop) (ha : CrBelow lc a) : CrBelow lc b := by
  intro lane hl
  rw [h]
  exact ha lane hl

theorem cr_done_lanes_cr_loop (hdr : Hdr) (env : Env) (n lane : Nat) (dp : Dev) :
    (cr_done_lanes hdr env n lane dp).dev.link_train.cr_loop = dp.link_train.cr_loop := by
  induction n generalizing lane dp with
  | zero => rfl
  | succ n ih =>
    simp only [cr_done_lanes]
    split
    · rfl
    · rw [ih]
      simp

theorem eq_adjust_lanes_cr_loop (hdr : Hdr) (env : Env) (n lane : Nat) (dp : Dev) :
    (eq_adjust_lanes hdr env n lane dp).dev.link_train.cr_loop = dp.link_train.cr_loop := by
  induction n generalizing lane dp with
  | zero => rfl
  | succ n ih =>
    simp only [eq_adjust_lanes]
    split
    · rfl
    · rw [ih]
      rfl

/-- The lane loop of the failure branch, started with every counter below
`MAX_CR_LOOP`: it ends with every counter below `MAX_CR_LOOP`, or it jumps to
`reduce_link_rate` with every counter at most `MAX_CR_LOOP`. -/
theorem cr_retry_lanes_cr_loop (hdr : Hdr) (env : Env) (lc n lane : Nat) (dp : Dev)
    (h : CrBelow lc dp) :
    (∀ d', cr_retry_lanes hdr env n lane dp = Flow.next d' → CrBelow lc d') ∧
    (∀ r d', cr_retry_lanes hdr env n lane dp = Flow.ret r d' → CrBelow lc d') ∧
    (∀ d', cr_retry_lanes hdr env n lane dp = Flow.reduce d' →
      ∀ l, l < lc → d'.link_train.cr_loop l ≤ MAX_CR_LOOP) := by
  induction n generalizing lane dp with
  | zero =>
    simp only [cr_retry_lanes]
    refine ⟨?_, by simp, by simp⟩
    intro d' e
    simp only [Flow.next.injEq] at e
    rw [← e]
    exact h
  | succ n ih =>
    simp only [cr_retry_lanes]
    have h1 : CrBelow lc
        (s5p_dp_read_bytes_from_dpcd env DpcdAddr.ADJUST_REQUEST_LANE0_1 2 dp).2.2 :=
      cr_below_of_cr_loop rfl h
    split
    · refine ⟨by simp, ?_, by simp⟩
      intro r d' e
      simp only [Flow.ret.injEq] at e
      rw [← e.2]
      exact h1
    · split
      · refine ⟨by simp, by simp, ?_⟩
        intro d' e l hl
        simp only [Flow.reduce.injEq] at e
        rw [← e]
        exact le_of_lt (h1 l hl)
      · split
        · split
          · rename_i hmax
            refine ⟨by simp, by simp, ?_⟩
            intro d' e l hl
            simp only [Flow.reduce.injEq] at e
            rw [← e]
            simp only [incr_cr_loop_cr_loop]
            by_cases hll : l = lane
            · subst hll
              simp only [Function.update_same, read_bytes_link_train]
              have := h l hl
              omega
            · rw [Function.update_noteq hll]
              exact le_of_lt (h1 l hl)
          · rename_i hmax
            apply ih
            intro l hl
            simp only [apply_training_lane_cr_loop, incr_cr_loop_cr_loop]
            by_cases hll : l = lane
            · subst hll
              simp only [Function.update_same, read_bytes_link_train]
              simp only [incr_cr_loop_cr_loop, Function.update_same, read_bytes_link_train] at hmax
              have := h l hl
              omega
            · rw [Function.update_noteq hll]
              exact h1 l hl
        · apply ih
          exact cr_below_of_cr_loop (by simp) h1

theorem same_cr_refl (dp : Dev) : SameCr dp dp := rfl

theorem same_cr_trans {a b c : Dev} (h1 : SameCr a b) (h2 : SameCr b c) : SameCr a c :=
  Eq.trans h2 h1

theorem same_cr_of_link_train {a b : Dev} (h : b.link_train = a.link_train) : SameCr a b := by
  unfold SameCr
  rw [h]

theorem same_cr_reduce_link_rate (hdr : Hdr) (env : Env) (dp : Dev) :
    SameCr dp (s5p_dp_reduce_link_rate hdr env dp) :=
  reduce_link_rate_cr_loop hdr env dp

/-- An equalizer poll leaves the retry counters alone. -/
theorem same_cr_process_equalizer_training (hdr : Hdr) (env : Env) (dp : Dev) :
    SameCr dp (s5p_dp_process_equalizer_training hdr env dp).2 := by
  unfold s5p_dp_process_equalizer_training
  have k1 : SameCr dp (s5p_dp_read_bytes_from_dpcd env DpcdAddr.LANE0_1_STATUS 2
      (emit (Event.udelay 400) (emit (Event.call Fn.process_equalizer_training) dp))).2.2 :=
    same_cr_of_link_train rfl
  simp only []
  generalize (s5p_dp_read_bytes_from_dpcd env DpcdAddr.LANE0_1_STATUS 2
      (emit (Event.udelay 400) (emit (Event.call Fn.process_equalizer_training) dp))) = rd
    at k1 ⊢
  obtain ⟨rv, buf, d1⟩ := rd
  simp only [] at k1 ⊢
  split
  · exact k1
  · split
    · split
      · exact same_cr_trans k1 (same_cr_of_link_train rfl)
      · have k2 : SameCr dp
            (s5p_dp_read_byte_from_dpcd env DpcdAddr.LANE_ALIGN_STATUS_UPDATED d1).2.2 :=
          same_cr_trans k1 (same_cr_of_link_train rfl)
        have k3 : SameCr _ _ := eq_adjust_lanes_cr_loop hdr env
          (emit (Event.udelay 400)
            (emit (Event.call Fn.process_equalizer_training) dp)).link_train.lane_count 0
          (s5p_dp_read_byte_from_dpcd env DpcdAddr.LANE_ALIGN_STATUS_UPDATED d1).2.2
        split
        · rename_i r dX heq
          rw [heq] at k3
          exact same_cr_trans k2 k3
        · rename_i dX heq
          rw [heq] at k3
          exact same_cr_trans (same_cr_trans k2 k3) (same_cr_reduce_link_rate _ _ _)
        · rename_i dX heq
          rw [heq] at k3
          have k4 : SameCr dp dX := same_cr_trans k2 k3
          split
          · split
            · exact same_cr_trans k4
                (same_cr_of_link_train (training_pattern_dis_link_train _ _ _))
            · exact same_cr_trans k4 (by unfold SameCr; simp [training_pattern_dis_link_train])
          · split
            · exact same_cr_trans (same_cr_trans k4 (same_cr_refl _))
                (same_cr_reduce_link_rate _ _ _)
            · split
              · exact same_cr_trans k4 (by unfold SameCr; simp)
              · exact same_cr_trans k4 (by unfold SameCr; simp)
    · exact same_cr_trans k1 (same_cr_reduce_link_rate _ _ _)

/-- A clock-recovery poll started with every counter below `MAX_CR_LOOP`
ends with every counter below `MAX_CR_LOOP`, or in state FAILED with every
counter at most `MAX_CR_LOOP`. -/
theorem cr_below_process_clock_recovery (hdr : Hdr) (env : Env) (lc : Nat) (dp : Dev)
    (h : CrBelow lc dp) :
    CrBelow lc (s5p_dp_process_clock_recovery hdr env dp).2 ∨
    ((s5p_dp_process_clock_recovery hdr env dp).2.link_train.lt_state = LtState.FAILED ∧
      ∀ l, l < lc →
        (s5p_dp_process_clock_recovery hdr env dp).2.link_train.cr_loop l ≤ MAX_CR_LOOP) := by
  unfold s5p_dp_process_clock_recovery
  have k1 : CrBelow lc (s5p_dp_read_bytes_from_dpcd env DpcdAddr.LANE0_1_STATUS 2
      (emit (Event.udelay 100) (emit (Event.call Fn.process_clock_recovery) dp))).2.2 :=
    cr_below_of_cr_loop rfl h
  simp only []
  generalize (s5p_dp_read_bytes_from_dpcd env DpcdAddr.LANE0_1_STATUS 2
      (emit (Event.udelay 100) (emit (Event.call Fn.process_clock_recovery) dp))) = rd at k1 ⊢
  obtain ⟨rv, buf, d1⟩ := rd
  simp only [] at k1 ⊢
  have hred : ∀ dX : Dev, (∀ l, l < lc → dX.link_train.cr_loop l ≤ MAX_CR_LOOP) →
      (s5p_dp_reduce_link_rate hdr env dX).link_train.lt_state = LtState.FAILED ∧
      ∀ l, l < lc → (s5p_dp_reduce_link_rate hdr env dX).link_train.cr_loop l ≤ MAX_CR_LOOP := by
    intro dX hX
    refine ⟨reduce_link_rate_state hdr env dX, ?_⟩
    intro l hl
    rw [reduce_link_rate_cr_loop]
    exact hX l hl
  split
  · exact Or.inl k1
  · split
    · have k3 := cr_done_lanes_cr_loop hdr env
        (emit (Event.udelay 100)
          (emit (Event.call Fn.process_clock_recovery) dp)).link_train.lane_count 0
        (s5p_dp_set_training_pattern PatternSet.TRAINING_PTN2 d1)
      split
      · rename_i r dX heq
        rw [heq] at k3
        exact Or.inl (cr_below_of_cr_loop k3 k1)
      · rename_i dX heq
        rw [heq] at k3
        exact Or.inr (hred dX (fun l hl => le_of_lt (cr_below_of_cr_loop k3 k1 l hl)))
      · rename_i dX heq
        rw [heq] at k3
        have k4 : CrBelow lc dX := cr_below_of_cr_loop k3 k1
        split
        · exact Or.inl (cr_below_of_cr_loop rfl k4)
        · split
          · exact Or.inl (cr_below_of_cr_loop rfl k4)
          · exact Or.inl (cr_below_of_cr_loop rfl k4)
    · obtain ⟨c1, c2, c3⟩ := cr_retry_lanes_cr_loop hdr env lc
        (emit (Event.udelay 100)
          (emit (Event.call Fn.process_clock_recovery) dp)).link_train.lane_count 0 d1 k1
      split
      · rename_i r dX heq
        exact Or.inl (c2 r dX heq)
      · rename_i dX heq
        exact Or.inr (hred dX (c3 dX heq))
      · rename_i dX heq
        have k4 : CrBelow lc dX := c1 dX heq
        split
        · exact Or.inl (cr_below_of_cr_loop rfl k4)
        · exact Or.inl (cr_below_of_cr_loop rfl k4)

/-- One pass through the loop body of `s5p_dp_sw_link_training` keeps
`CrInv`. -/
theorem cr_inv_body (hdr : Hdr) (env : Env) (lc : Nat) (retval : Int) (dp : Dev)
    (y : Int × Dev) (h : CrInv lc dp)
    (hb : sw_link_training_body hdr env retval dp = Sum.inl y) : CrInv lc y.2 := by
  unfold sw_link_training_body at hb
  split at hb
  · rename_i hst
    simp only [Sum.inl.injEq] at hb
    subst hb
    have hlc : dp.link_train.lane_count = lc := by
      rcases h.1 with h1 | h1
      · exact h1
      · rw [hst] at h1
        exact absurd h1 (by decide)
    refine ⟨Or.inl ?_, Or.inl ?_⟩
    · rw [link_start_link_train]
      exact hlc
    · intro l hl
      rw [link_start_link_train]
      simp only []
      rw [if_pos (by omega)]
      decide
  · rename_i hst
    simp only [Sum.inl.injEq] at hb
    subst hb
    have hlc : dp.link_train.lane_count = lc := by
      rcases h.1 with h1 | h1
      · exact h1
      · rw [hst] at h1
        exact absurd h1 (by decide)
    have hbelow : CrBelow lc dp := by
      rcases h.2 with h2 | ⟨h2, _⟩
      · exact h2
      · rw [hst] at h2
        exact absurd h2 (by decide)
    refine ⟨Or.inl ?_, cr_below_process_clock_recovery hdr env lc dp hbelow⟩
    rw [(same_link_process_clock_recovery hdr env dp).2]
    exact hlc
  · rename_i hst
    simp only [Sum.inl.injEq] at hb
    subst hb
    have hlc : dp.link_train.lane_count = lc := by
      rcases h.1 with h1 | h1
      · exact h1
      · rw [hst] at h1
        exact absurd h1 (by decide)
    have hbelow : CrBelow lc dp := by
      rcases h.2 with h2 | ⟨h2, _⟩
      · exact h2
      · rw [hst] at h2
        exact absurd h2 (by decide)
    refine ⟨?_, Or.inl (cr_below_of_cr_loop
      (same_cr_process_equalizer_training hdr env dp) hbelow)⟩
    rcases same_link_process_equalizer_training hdr env dp with h1 | h1
    · exact Or.inl (h1.2.trans hlc)
    · exact Or.inr h1
  · simp at hb
  · simp at hb

/-- `CrInv` holds after any number of passes of a session that has it. -/
theorem cr_inv_after (hdr : Hdr) (env : Env) (lc n : Nat) (x : Int × Dev)
    (h : CrInv lc x.2) : CrInv lc (sw_link_training_after hdr env n x).2 := by
  induction n generalizing x with
  | zero => exact h
  | succ n ih =>
    simp only [sw_link_training_after]
    split
    · rename_i y hb
      exact ih y (cr_inv_body hdr env lc x.1 x.2 y h hb)
    · rename_i y hb
      unfold sw_link_training_body at hb
      split at hb
      · simp at hb
      · simp at hb
      · simp at hb
      · simp only [Sum.inr.injEq] at hb
        rw [← hb]
        exact h
      · simp only [Sum.inr.injEq] at hb
        rw [← hb]
        exact h

/-- The lane loop of `s5p_dp_get_adjust_train` changes `training_lane[]`
only. -/
theorem get_adjust_train_lanes_frame (hdr : Hdr) (req : List Nat) (n lane : Nat) (dp : Dev) :
    (get_adjust_train_lanes hdr req n lane dp).link_train.cr_loop = dp.link_train.cr_loop ∧
    (get_adjust_train_lanes hdr req n lane dp).link_train.lane_count =
      dp.link_train.lane_count ∧
    (get_adjust_train_lanes hdr req n lane dp).link_train.lt_state = dp.link_train.lt_state := by
  induction n generalizing lane dp with
  | zero => exact ⟨rfl, rfl, rfl⟩
  | succ n ih =>
    simp only [get_adjust_train_lanes]
    obtain ⟨h1, h2, h3⟩ := ih (lane + 1)
      (set_training_lane lane
        (adjust_train_lane hdr (s5p_dp_get_adjust_request_voltage req lane)
          (s5p_dp_get_adjust_request_pre_emphasis req lane)) dp)
    exact ⟨h1, h2, h3⟩

theorem get_adjust_train_frame (hdr : Hdr) (req : List Nat) (dp : Dev) :
    (s5p_dp_get_adjust_train hdr req dp).link_train.cr_loop = dp.link_train.cr_loop ∧
    (s5p_dp_get_adjust_train hdr req dp).link_train.lane_count = dp.link_train.lane_count ∧
    (s5p_dp_get_adjust_train hdr req dp).link_train.lt_state = dp.link_train.lt_state :=
  get_adjust_train_lanes_frame hdr req _ 0 dp

@[simp]
theorem psr_set_lanes_link_train (env : Env) (n lane : Nat) (dp : Dev) :
    (psr_set_lanes env n lane dp).link_train = dp.link_train := by
  induction n generalizing lane dp with
  | zero => rfl
  | succ n ih =>
    simp only [psr_set_lanes]
    rw [ih]
    simp

/-- The counting loop of the PSR engine adds at most 1 to a counter and
leaves lane count and state alone. -/
theorem cr_count_lanes_for_psr_frame (hdr : Hdr) (req : List Nat) (n lane vs : Nat) (dp : Dev) :
    (∀ l, (cr_count_lanes_for_psr hdr req n lane vs dp).2.link_train.cr_loop l ≤
      dp.link_train.cr_loop l + 1) ∧
    (cr_count_lanes_for_psr hdr req n lane vs dp).2.link_train.lane_count =
      dp.link_train.lane_count ∧
    (cr_count_lanes_for_psr hdr req n lane vs dp).2.link_train.lt_state =
      dp.link_train.lt_state := by
  suffices h : (∀ l, (l < lane → (cr_count_lanes_for_psr hdr req n lane vs dp).2.link_train.cr_loop l
        = dp.link_train.cr_loop l) ∧
      (cr_count_lanes_for_psr hdr req n lane vs dp).2.link_train.cr_loop l ≤
        dp.link_train.cr_loop l + 1) ∧
      (cr_count_lanes_for_psr hdr req n lane vs dp).2.link_train.lane_count =
        dp.link_train.lane_count ∧
      (cr_count_lanes_for_psr hdr req n lane vs dp).2.link_train.lt_state =
        dp.link_train.lt_state from ⟨fun l => (h.1 l).2, h.2⟩
  induction n generalizing lane vs dp with
  | zero =>
    simp [cr_count_lanes_for_psr]
  | succ n ih =>
    simp only [cr_count_lanes_for_psr]
    split_ifs with hm
    · obtain ⟨h1, h2, h3⟩ := ih (lane + 1) (s5p_dp_get_adjust_request_voltage req lane)
        (set_training_lane lane (s5p_dp_get_lane_link_training dp lane % 256)
          (incr_cr_loop lane dp))
      have e1 : (set_training_lane lane (s5p_dp_get_lane_link_training dp lane % 256)
          (incr_cr_loop lane dp)).link_train.cr_loop =
          Function.update dp.link_train.cr_loop lane (dp.link_train.cr_loop lane + 1) := rfl
      refine ⟨?_, h2, h3⟩
      intro l
      have hl := h1 l
      rw [e1] at hl
      by_cases hll : l = lane
      · subst hll
        rw [Function.update_same] at hl
        refine ⟨fun hlt => absurd hlt (lt_irrefl _), ?_⟩
        rw [hl.1 (Nat.lt_succ_self _)]
      · rw [Function.update_noteq hll] at hl
        exact ⟨fun hlt => hl.1 (by omega), hl.2⟩
    · obtain ⟨h1, h2, h3⟩ := ih (lane + 1) (s5p_dp_get_adjust_request_voltage req lane)
        (set_training_lane lane (s5p_dp_get_lane_link_training dp lane % 256) dp)
      refine ⟨?_, h2, h3⟩
      intro l
      have hl := h1 l
      exact ⟨fun hlt => hl.1 (by omega), hl.2⟩

/-- When `s5p_dp_check_max_cr_loop` returns 0, no counter of the lanes it
visits equals `MAX_CR_LOOP`. -/
theorem check_max_cr_loop_lanes_zero (dp : Dev) (vs n lane : Nat)
    (h : check_max_cr_loop_lanes dp vs n lane = 0) :
    ∀ l, lane ≤ l → l < lane + n → dp.link_train.cr_loop l ≠ MAX_CR_LOOP := by
  induction n generalizing lane with
  | zero =>
    intro l h1 h2
    omega
  | succ n ih =>
    simp only [check_max_cr_loop_lanes] at h
    split_ifs at h with hc
    · exact absurd h (by decide)
    · intro l h1 h2
      by_cases hl : l = lane
      · subst hl
        intro e
        exact hc (Or.inr e)
      · exact ih (lane + 1) h l (by omega) (by omega)

theorem link_start_for_psr_link_train (hdr : Hdr) (env : Env) (dp : Dev) :
    (s5p_dp_link_start_for_psr hdr env dp).link_train =
      { dp.link_train with
        lt_state := LtState.CLOCK_RECOVERY
        eq_loop := 0
        cr_loop := fun l => if l < dp.link_train.lane_count then 0 else dp.link_train.cr_loop l } := by
  unfold s5p_dp_link_start_for_psr
  simp only [reset_cr_loop_eq]
  simp [set_lt_state]

/-- A clock-recovery poll of the PSR engine on `lc` lanes, started with
every counter below `MAX_CR_LOOP`: the lane count stays, and the poll ends
with every counter below `MAX_CR_LOOP`, or in state FAILED with every counter
at most `MAX_CR_LOOP`. -/
theorem cr_below_process_clock_recovery_for_psr (hdr : Hdr) (env : Env) (lc : Nat) (dp : Dev)
    (hlc : dp.link_train.lane_count = lc) (h : CrBelow lc dp) :
    (s5p_dp_process_clock_recovery_for_psr hdr env dp).2.link_train.lane_count = lc ∧
    (CrBelow lc (s5p_dp_process_clock_recovery_for_psr hdr env dp).2 ∨
      ((s5p_dp_process_clock_recovery_for_psr hdr env dp).2.link_train.lt_state =
          LtState.FAILED ∧
        ∀ l, l < lc →
          (s5p_dp_process_clock_recovery_for_psr hdr env dp).2.link_train.cr_loop l ≤
            MAX_CR_LOOP)) := by
  unfold s5p_dp_process_clock_recovery_for_psr
  simp only [read_bytes_link_train]
  split_ifs with hok hchk
  · -- clock recovery reached
    simp only [set_lt_state_lane_count, set_lt_state_cr_loop, psr_set_lanes_link_train,
      write_byte_link_train]
    obtain ⟨f1, f2, _⟩ := get_adjust_train_frame hdr
      [(s5p_dp_read_bytes_from_dpcd env DpcdAddr.LANE0_1_STATUS 6 dp).2.1.getD 4 0,
        (s5p_dp_read_bytes_from_dpcd env DpcdAddr.LANE0_1_STATUS 6 dp).2.1.getD 5 0]
      (s5p_dp_set_training_pattern PatternSet.TRAINING_PTN2
        (s5p_dp_read_bytes_from_dpcd env DpcdAddr.LANE0_1_STATUS 6 dp).2.2)
    refine ⟨f2.trans hlc, Or.inl ?_⟩
    intro l hl
    simp only [set_lt_state_cr_loop, psr_set_lanes_link_train, write_byte_link_train]
    rw [f1]
    exact h l hl
  · -- some counter is at the bound or the last request is at level 3
    generalize hcnt : cr_count_lanes_for_psr hdr _ _ 0 0 _ = cnt at hchk ⊢
    obtain ⟨c1, c2, c3⟩ := cr_count_lanes_for_psr_frame hdr
      [(s5p_dp_read_byte_from_dpcd env DpcdAddr.ADJUST_REQUEST_LANE0_1
          (s5p_dp_read_bytes_from_dpcd env DpcdAddr.LANE0_1_STATUS 6 dp).2.2).2.1,
        (s5p_dp_read_byte_from_dpcd env DpcdAddr.ADJUST_REQUEST_LANE2_3
          (s5p_dp_read_byte_from_dpcd env DpcdAddr.ADJUST_REQUEST_LANE0_1
            (s5p_dp_read_bytes_from_dpcd env DpcdAddr.LANE0_1_STATUS 6 dp).2.2).2.2).2.1]
      dp.link_train.lane_count 0 0
      (s5p_dp_read_byte_from_dpcd env DpcdAddr.ADJUST_REQUEST_LANE2_3
        (s5p_dp_read_byte_from_dpcd env DpcdAddr.ADJUST_REQUEST_LANE0_1
          (s5p_dp_read_bytes_from_dpcd env DpcdAddr.LANE0_1_STATUS 6 dp).2.2).2.2).2.2
    rw [hcnt] at c1 c2 c3
    simp only [read_byte_link_train, read_bytes_link_train] at c1 c2 c3
    refine ⟨?_, Or.inr ⟨reduce_link_rate_state hdr env _, ?_⟩⟩
    · rw [reduce_link_rate_lane_count, c2]
      exact hlc
    · intro l hl
      rw [reduce_link_rate_cr_loop]
      have := c1 l
      have := h l hl
      omega
  · -- every counter is off the bound
    generalize hcnt : cr_count_lanes_for_psr hdr _ _ 0 0 _ = cnt at hchk ⊢
    obtain ⟨c1, c2, c3⟩ := cr_count_lanes_for_psr_frame hdr
      [(s5p_dp_read_byte_from_dpcd env DpcdAddr.ADJUST_REQUEST_LANE0_1
          (s5p_dp_read_bytes_from_dpcd env DpcdAddr.LANE0_1_STATUS 6 dp).2.2).2.1,
        (s5p_dp_read_byte_from_dpcd env DpcdAddr.ADJUST_REQUEST_LANE2_3
          (s5p_dp_read_byte_from_dpcd env DpcdAddr.ADJUST_REQUEST_LANE0_1
            (s5p_dp_read_bytes_from_dpcd env DpcdAddr.LANE0_1_STATUS 6 dp).2.2).2.2).2.1]
      dp.link_train.lane_count 0 0
      (s5p_dp_read_byte_from_dpcd env DpcdAddr.ADJUST_REQUEST_LANE2_3
        (s5p_dp_read_byte_from_dpcd env DpcdAddr.ADJUST_REQUEST_LANE0_1
          (s5p_dp_read_bytes_from_dpcd env DpcdAddr.LANE0_1_STATUS 6 dp).2.2).2.2).2.2
    rw [hcnt] at c1 c2 c3
    simp only [read_byte_link_train, read_bytes_link_train] at c1 c2 c3
    simp only [ne_eq, not_not] at hchk
    unfold s5p_dp_check_max_cr_loop at hchk
    have hz := check_max_cr_loop_lanes_zero _ _ _ _ hchk
    obtain ⟨f1, f2, _⟩ := get_adjust_train_frame hdr
      [(s5p_dp_read_byte_from_dpcd env DpcdAddr.ADJUST_REQUEST_LANE0_1
          (s5p_dp_read_bytes_from_dpcd env DpcdAddr.LANE0_1_STATUS 6 dp).2.2).2.1,
        (s5p_dp_read_byte_from_dpcd env DpcdAddr.ADJUST_REQUEST_LANE2_3
          (s5p_dp_read_byte_from_dpcd env DpcdAddr.ADJUST_REQUEST_LANE0_1
            (s5p_dp_read_bytes_from_dpcd env DpcdAddr.LANE0_1_STATUS 6 dp).2.2).2.2).2.1]
      cnt.2
    simp only [psr_set_lanes_link_train]
    refine ⟨?_, Or.inl ?_⟩
    · rw [f2, c2]
      exact hlc
    · intro l hl
      simp only [psr_set_lanes_link_train]
      rw [f1]
      have h1 := c1 l
      have h2 := h l hl
      have h3 := hz l (Nat.zero_le _) (by rw [Nat.zero_add, c2, hlc]; exact hl)
      omega

/-- An equalizer poll of the PSR engine leaves the retry counters alone, and
the lane count too unless it ends in state FINISHED. -/
theorem process_equalizer_training_for_psr_frame (hdr : Hdr) (env : Env) (dp : Dev) :
    (s5p_dp_process_equalizer_training_for_psr hdr env dp).2.link_train.cr_loop =
      dp.link_train.cr_loop ∧
    ((s5p_dp_process_equalizer_training_for_psr hdr env dp).2.link_train.lane_count =
        dp.link_train.lane_count ∨
      (s5p_dp_process_equalizer_training_for_psr hdr env dp).2.link_train.lt_state =
        LtState.FINISHED) := by
  unfold s5p_dp_process_equalizer_training_for_psr
  simp only [read_bytes_link_train, hw_link_train]
  split_ifs with h1 h2 h3
  · exact ⟨by simp [training_pattern_dis_link_train], Or.inr rfl⟩
  · exact ⟨by simp, Or.inl (by simp)⟩
  · obtain ⟨f1, f2, _⟩ := get_adjust_train_frame hdr
      [(s5p_dp_read_bytes_from_dpcd env DpcdAddr.LANE0_1_STATUS 6
          (hw HwOp.sr_wait_on dp)).2.1.getD 4 0,
        (s5p_dp_read_bytes_from_dpcd env DpcdAddr.LANE0_1_STATUS 6
          (hw HwOp.sr_wait_on dp)).2.1.getD 5 0]
      { (s5p_dp_read_bytes_from_dpcd env DpcdAddr.LANE0_1_STATUS 6 (hw HwOp.sr_wait_on dp)).2.2
        with link_train :=
          { (s5p_dp_read_bytes_from_dpcd env DpcdAddr.LANE0_1_STATUS 6
              (hw HwOp.sr_wait_on dp)).2.2.link_train with
            eq_loop := (s5p_dp_read_bytes_from_dpcd env DpcdAddr.LANE0_1_STATUS 6
              (hw HwOp.sr_wait_on dp)).2.2.link_train.eq_loop + 1 } }
    simp only [psr_set_lanes_link_train]
    exact ⟨f1, Or.inl f2⟩
  · exact ⟨by simp, Or.inl (by simp)⟩

/-- One pass through the loop body of `s5p_dp_sw_link_training_for_psr`
keeps `CrInv`. -/
theorem cr_inv_body_for_psr (hdr : Hdr) (env : Env) (lc : Nat) (dp y : Dev) (h : CrInv lc dp)
    (hb : sw_link_training_for_psr_body hdr env dp = Sum.inl y) : CrInv lc y := by
  unfold sw_link_training_for_psr_body at hb
  have hlc : dp.link_train.lt_state ≠ LtState.FINISHED → dp.link_train.lane_count = lc := by
    intro hne
    rcases h.1 with h1 | h1
    · exact h1
    · exact absurd h1 hne
  have hbelow : dp.link_train.lt_state ≠ LtState.FAILED → CrBelow lc dp := by
    intro hne
    rcases h.2 with h2 | ⟨h2, _⟩
    · exact h2
    · exact absurd h2 hne
  split at hb
  · rename_i hst
    simp only [Sum.inl.injEq] at hb
    subst hb
    have hl := hlc (by rw [hst]; decide)
    refine ⟨Or.inl ?_, Or.inl ?_⟩
    · rw [link_start_for_psr_link_train]
      exact hl
    · intro l hl2
      rw [link_start_for_psr_link_train]
      simp only []
      rw [if_pos (by omega)]
      decide
  · rename_i hst
    simp only [Sum.inl.injEq] at hb
    subst hb
    obtain ⟨c1, c2⟩ := cr_below_process_clock_recovery_for_psr hdr env lc dp
      (hlc (by rw [hst]; decide)) (hbelow (by rw [hst]; decide))
    exact ⟨Or.inl c1, c2⟩
  · rename_i hst
    simp only [Sum.inl.injEq] at hb
    subst hb
    obtain ⟨f1, f2⟩ := process_equalizer_training_for_psr_frame hdr env dp
    refine ⟨?_, Or.inl (cr_below_of_cr_loop f1 (hbelow (by rw [hst]; decide)))⟩
    rcases f2 with f2 | f2
    · exact Or.inl (f2.trans (hlc (by rw [hst]; decide)))
    · exact Or.inr f2
  · simp at hb
  · simp at hb

/-- `CrInv` holds after any number of passes of a PSR session that has
it. -/
theorem cr_inv_after_for_psr (hdr : Hdr) (env : Env) (lc n : Nat) (dp : Dev)
    (h : CrInv lc dp) : CrInv lc (sw_link_training_for_psr_after hdr env n dp) := by
  induction n generalizing dp with
  | zero => exact h
  | succ n ih =>
    simp only [sw_link_training_for_psr_after]
    split
    · rename_i y hb
      exact ih y (cr_inv_body_for_psr hdr env lc dp y h hb)
    · rename_i y hb
      unfold sw_link_training_for_psr_body at hb
      split at hb
      · simp at hb
      · simp at hb
      · simp at hb
      · simp only [Sum.inr.injEq] at hb
        rw [← hb]
        exact h
      · simp only [Sum.inr.injEq] at hb
        rw [← hb]
        exact h

/-- C12: the retry-counter invariant of both engines. In every state that a
session of `s5p_dp_sw_link_training` or of `s5p_dp_sw_link_training_for_psr`
reaches from its first pass (the link start) on, whatever the sink and the
channel do, every lane below the session's lane count has `cr_loop[lane] ≤
MAX_CR_LOOP`, and a counter that equals `MAX_CR_LOOP` comes with the state
FAILED: the pass that brings a counter to the bound sets FAILED, so that the
next pass returns and no poll adds to that counter. -/
theorem cr_loop_invariant (hdr : Hdr) (env : Env) (dp : Dev) (n : Nat) (hn : 1 ≤ n) :
    CrBound dp.link_train.lane_count
      (sw_link_training_after hdr env n (0, set_lt_state LtState.START dp)).2 ∧
    CrBound dp.link_train.lane_count
      (sw_link_training_for_psr_after hdr env n (set_lt_state LtState.START dp)) ∧
    (∀ d : Dev, d.link_train.lt_state = LtState.FAILED →
      (∀ retval, sw_link_training_body hdr env retval d = Sum.inr (- EREMOTEIO, d)) ∧
      sw_link_training_for_psr_body hdr env d = Sum.inr (- EREMOTEIO, d)) := by
  obtain ⟨m, rfl⟩ : ∃ m, n = m + 1 := ⟨n - 1, by omega⟩
  refine ⟨?_, ?_, ?_⟩
  · have hb : sw_link_training_body hdr env 0 (set_lt_state LtState.START dp) =
        Sum.inl (s5p_dp_link_start hdr env (set_lt_state LtState.START dp)) := rfl
    simp only [sw_link_training_after, hb]
    apply CrInv.bound
    apply cr_inv_after
    refine ⟨Or.inl ?_, Or.inl ?_⟩
    · rw [link_start_link_train]
      rfl
    · intro l hl
      rw [link_start_link_train]
      simp only [set_lt_state_lane_count]
      rw [if_pos hl]
      decide
  · have hb : sw_link_training_for_psr_body hdr env (set_lt_state LtState.START dp) =
        Sum.inl (s5p_dp_link_start_for_psr hdr env (set_lt_state LtState.START dp)) := rfl
    simp only [sw_link_training_for_psr_after, hb]
    apply CrInv.bound
    apply cr_inv_after_for_psr
    refine ⟨Or.inl ?_, Or.inl ?_⟩
    · rw [link_start_for_psr_link_train]
      rfl
    · intro l hl
      rw [link_start_for_psr_link_train]
      simp only [set_lt_state_lane_count]
      rw [if_pos hl]
      decide
  · intro d hd
    refine ⟨fun retval => ?_, ?_⟩
    · simp [sw_link_training_body, hd]
    · simp [sw_link_training_for_psr_body, hd]

/-- Witness of C12: two lanes against `env_no_cr`. After five passes the
counter of lane 0 is 3 in state CLOCK_RECOVERY, after six passes it is 4 and
the state is FAILED, in both engines. -/
theorem cr_loop_invariant_witness :
    ((sw_link_training_after stdHdr env_no_cr 5
        (0, set_lt_state LtState.START dp_two_lanes)).2.link_train.cr_loop 0,
      (sw_link_training_after stdHdr env_no_cr 5
        (0, set_lt_state LtState.START dp_two_lanes)).2.link_train.lt_state) =
      (3, LtState.CLOCK_RECOVERY) ∧
    ((sw_link_training_after stdHdr env_no_cr 6
        (0, set_lt_state LtState.START dp_two_lanes)).2.link_train.cr_loop 0,
      (sw_link_training_after stdHdr env_no_cr 6
        (0, set_lt_state LtState.START dp_two_lanes)).2.link_train.lt_state) =
      (4, LtState.FAILED) ∧
    ((sw_link_training_for_psr_after stdHdr env_no_cr 6
        (set_lt_state LtState.START dp_two_lanes)).link_train.cr_loop 0,
      (sw_link_training_for_psr_after stdHdr env_no_cr 6
        (set_lt_state LtState.START dp_two_lanes)).link_train.lt_state) =
      (4, LtState.FAILED) ∧
    CrBound dp_two_lanes.link_train.lane_count
      (sw_link_training_after stdHdr env_no_cr 6
        (0, set_lt_state LtState.START dp_two_lanes)).2 ∧
    CrBound dp_two_lanes.link_train.lane_count
      (sw_link_training_for_psr_after stdHdr env_no_cr 6
        (set_lt_state LtState.START dp_two_lanes)) :=
  ⟨by decide, by decide, by decide,
    (cr_loop_invariant stdHdr env_no_cr dp_two_lanes 6 (by decide)).1,
    (cr_loop_invariant stdHdr env_no_cr dp_two_lanes 6 (by decide)).2.1⟩

/-! ## Termination of a session -/

theorem get_adjust_train_lanes_below (hdr : Hdr) (req : List Nat) (n lane l : Nat) (dp : Dev)
    (h : l < lane) :
    (get_adjust_train_lanes hdr req n lane dp).link_train.training_lane l =
      dp.link_train.training_lane l := by
  induction n generalizing lane dp with
  | zero => rfl
  | succ n ih =>
    simp only [get_adjust_train_lanes]
    rw [ih (lane + 1) _ (by omega)]
    simp only [set_training_lane]
    exact Function.update_noteq (by omega) _ _

theorem get_adjust_train_lanes_stored (hdr : Hdr) (req : List Nat) (n lane l : Nat) (dp : Dev)
    (h1 : lane ≤ l) (h2 : l < lane + n) :
    (get_adjust_train_lanes hdr req n lane dp).link_train.training_lane l =
      adjust_train_lane hdr (s5p_dp_get_adjust_request_voltage req l)
        (s5p_dp_get_adjust_request_pre_emphasis req l) := by
  induction n generalizing lane dp with
  | zero => omega
  | succ n ih =>
    simp only [get_adjust_train_lanes]
    by_cases hl : l = lane
    · subst hl
      rw [get_adjust_train_lanes_below hdr req n (l + 1) l _ (by omega)]
      simp [set_training_lane]
    · exact ih (lane + 1) _ (by omega) (by omega)

theorem adjust_train_lane_eq (hdr : Hdr) (v p : Nat) :
    adjust_train_lane hdr v p =
      if v = 3 ∨ p = 3 then
        (next_training_lane hdr v p ||| hdr.DPCD_MAX_SWING_REACHED |||
          hdr.DPCD_MAX_PRE_EMPHASIS_REACHED) % 256
      else next_training_lane hdr v p := by
  unfold adjust_train_lane next_training_lane VOLTAGE_LEVEL_3 PRE_EMPHASIS_LEVEL_3
  apply Nat.eq_of_testBit_eq
  intro i
  have h : (256 : Nat) = 2 ^ 8 := rfl
  by_cases hv : v = 3 <;> by_cases hp : p = 3 <;>
    simp only [hv, hp, if_true, if_false, or_true, true_or, or_self, h,
      Nat.testBit_mod_two_pow, Nat.testBit_or] <;>
    cases decide (i < 8) <;> cases (hdr.DPCD_VOLTAGE_SWING_SET v).testBit i <;>
    cases (hdr.DPCD_PRE_EMPHASIS_SET p).testBit i <;>
    cases (hdr.DPCD_MAX_SWING_REACHED).testBit i <;>
    cases (hdr.DPCD_MAX_PRE_EMPHASIS_REACHED).testBit i <;> simp

/-- The training-lane byte that `s5p_dp_get_adjust_train` stores (PSR
engine) for a lane below the lane count, compared with the byte that the
normal engine stores for the same request: the same byte when neither the
swing nor the pre-emphasis requested is 3, and that byte with both "max
reached" flags added when the swing or the pre-emphasis is 3; the two bytes
are equal whenever the swing and the pre-emphasis are either both 3 or both
below 3. -/
theorem get_adjust_train_lane_byte (hdr : Hdr) (req : List Nat) (dp dn : Dev) (lane : Nat)
    (hl : lane < dp.link_train.lane_count) :
    ((s5p_dp_get_adjust_train hdr req dp).link_train.training_lane lane =
      if s5p_dp_get_adjust_request_voltage req lane = 3 ∨
          s5p_dp_get_adjust_request_pre_emphasis req lane = 3 then
        ((apply_training_lane hdr (s5p_dp_get_adjust_request_voltage req lane)
            (s5p_dp_get_adjust_request_pre_emphasis req lane) lane dn).link_train.training_lane
            lane ||| hdr.DPCD_MAX_SWING_REACHED ||| hdr.DPCD_MAX_PRE_EMPHASIS_REACHED) % 256
      else
        (apply_training_lane hdr (s5p_dp_get_adjust_request_voltage req lane)
          (s5p_dp_get_adjust_request_pre_emphasis req lane) lane dn).link_train.training_lane
          lane) ∧
    ((s5p_dp_get_adjust_request_voltage req lane = 3 ↔
        s5p_dp_get_adjust_request_pre_emphasis req lane = 3) →
      (s5p_dp_get_adjust_train hdr req dp).link_train.training_lane lane =
        (apply_training_lane hdr (s5p_dp_get_adjust_request_voltage req lane)
          (s5p_dp_get_adjust_request_pre_emphasis req lane) lane dn).link_train.training_lane
          lane) := by
  have hs : (s5p_dp_get_adjust_train hdr req dp).link_train.training_lane lane =
      adjust_train_lane hdr (s5p_dp_get_adjust_request_voltage req lane)
        (s5p_dp_get_adjust_request_pre_emphasis req lane) :=
    get_adjust_train_lanes_stored hdr req _ 0 lane dp (Nat.zero_le _) (by omega)
  have hn : ∀ v p, (apply_training_lane hdr v p lane dn).link_train.training_lane lane =
      next_training_lane hdr v p := by
    intro v p
    simp
  rw [hs, hn, adjust_train_lane_eq]
  refine ⟨rfl, ?_⟩
  intro hiff
  by_cases hv : s5p_dp_get_adjust_request_voltage req lane = 3
  · have hp := hiff.1 hv
    rw [if_pos (Or.inl hv)]
    unfold next_training_lane VOLTAGE_LEVEL_3 PRE_EMPHASIS_LEVEL_3
    simp only [if_pos hv, if_pos hp]
    apply Nat.eq_of_testBit_eq
    intro i
    have h : (256 : Nat) = 2 ^ 8 := rfl
    simp only [h, Nat.testBit_mod_two_pow, Nat.testBit_or]
    cases decide (i < 8) <;>
      cases (hdr.DPCD_VOLTAGE_SWING_SET (s5p_dp_get_adjust_request_voltage req lane)).testBit i <;>
      cases (hdr.DPCD_PRE_EMPHASIS_SET
        (s5p_dp_get_adjust_request_pre_emphasis req lane)).testBit i <;>
      cases (hdr.DPCD_MAX_SWING_REACHED).testBit i <;>
      cases (hdr.DPCD_MAX_PRE_EMPHASIS_REACHED).testBit i <;> simp
  · have hp : ¬ s5p_dp_get_adjust_request_pre_emphasis req lane = 3 := fun h => hv (hiff.2 h)
    rw [if_neg (by tauto)]

/-- An instance of `get_adjust_train_lane_byte`: for a request of swing 3
and pre-emphasis 3 both engines store 0x3f. -/
theorem get_adjust_train_lane_byte_witness :
    (0 : Nat) < dp_two_lanes.link_train.lane_count ∧
    (s5p_dp_get_adjust_train stdHdr [0x0f, 0x00] dp_two_lanes).link_train.training_lane 0 = 0x3f ∧
    (apply_training_lane stdHdr 3 3 0 dp_one_lane).link_train.training_lane 0 = 0x3f ∧
    (s5p_dp_get_adjust_train stdHdr [0x0f, 0x00] dp_two_lanes).link_train.training_lane 0 =
      (apply_training_lane stdHdr
        (s5p_dp_get_adjust_request_voltage [0x0f, 0x00] 0)
        (s5p_dp_get_adjust_request_pre_emphasis [0x0f, 0x00] 0) 0
        dp_one_lane).link_train.training_lane 0 :=
  ⟨by decide, by decide, by decide,
    (get_adjust_train_lane_byte stdHdr [0x0f, 0x00] dp_two_lanes dp_one_lane 0
      (by decide)).2 (by decide)⟩

/-- C23: the two engines at the request bytes `[0x03, 0x00]`, where lane 0
asks for swing 3 and pre-emphasis 0. The normal engine stores 0x07: the two
fields and the max-swing flag. `s5p_dp_get_adjust_train` of the PSR engine
stores 0x27: it sets the max-pre-emphasis flag as well, although the
pre-emphasis is not 3, so the two engines do not compute the same lane
adjustment. -/
theorem psr_lane_adjustment_diverges :
    s5p_dp_get_adjust_request_voltage [0x03, 0x00] 0 = 3 ∧
    s5p_dp_get_adjust_request_pre_emphasis [0x03, 0x00] 0 = 0 ∧
    (0 : Nat) < dp_two_lanes.link_train.lane_count ∧
    (s5p_dp_get_adjust_train stdHdr [0x03, 0x00] dp_two_lanes).link_train.training_lane 0 = 0x27 ∧
    (apply_training_lane stdHdr 3 0 0 dp_two_lanes).link_train.training_lane 0 = 0x07 ∧
    ¬ ((s5p_dp_get_adjust_train stdHdr [0x03, 0x00] dp_two_lanes).link_train.training_lane 0 =
      (apply_training_lane stdHdr
        (s5p_dp_get_adjust_request_voltage [0x03, 0x00] 0)
        (s5p_dp_get_adjust_request_pre_emphasis [0x03, 0x00] 0) 0
        dp_two_lanes).link_train.training_lane 0) := by
  decide

/-! ## Bring-up: the bounded retry of `s5p_dp_enable` -/

@[simp]
theorem plat_call_psr (c : PlatCall) (dev : DpDevice) : (plat_call c dev).psr = dev.psr := rfl
@[simp]
theorem plat_call_enabled (c : PlatCall) (dev : DpDevice) :
    (plat_call c dev).enabled = dev.enabled := rfl
@[simp]
theorem plat_call_log (c : PlatCall) (dev : DpDevice) :
    (plat_call c dev).plat_log = dev.plat_log ++ [c] := rfl
@[simp]
theorem plat_hook_psr (b : Bool) (c : PlatCall) (dev : DpDevice) :
    (plat_hook b c dev).psr = dev.psr := by
  unfold plat_hook
  split_ifs <;> rfl
@[simp]
theorem plat_hook_enabled (b : Bool) (c : PlatCall) (dev : DpDevice) :
    (plat_hook b c dev).enabled = dev.enabled := by
  unfold plat_hook
  split_ifs <;> rfl
@[simp]
theorem plat_hook_log (b : Bool) (c : PlatCall) (dev : DpDevice) :
    (plat_hook b c dev).plat_log = dev.plat_log ++ hook_calls b c := by
  unfold plat_hook hook_calls
  split_ifs <;> simp

theorem dp_device_ext (a b : DpDevice) (h1 : a.psr = b.psr) (h2 : a.enabled = b.enabled)
    (h3 : a.plat_log = b.plat_log) : a = b := by
  cases a
  cases b
  simp only [DpDevice.mk.injEq]
  exact ⟨h1, h2, h3⟩

/-- From the label `dp_phy_init` on: when the next `k` passes fail and the
pass after them ends the function (it succeeds, or the retries are used up),
the function returns what that pass returns, after `k` retried passes. -/
theorem enable_goto_passes (hdr : Hdr) (bd : Board) (env : Env) (fuel : Nat) (k : Nat) :
    ∀ (n retry : Nat) (ret0 : Int) (dev : DpDevice) (x : Int × PsrDev),
      2 * k + 2 ≤ n → retry + k ≤ 3 →
      (∀ j, j < k → ∃ y, bring_up_pass hdr bd env fuel j dev.psr = some y ∧ y.1 ≠ 0) →
      bring_up_pass hdr bd env fuel k dev.psr = some x →
      (x.1 = 0 ∨ retry + k = 3) →
      enable_goto hdr bd env fuel n EnableLabel.dp_phy_init ret0 retry dev =
        some (x.1, { psr := x.2, enabled := dev.enabled,
                     plat_log := dev.plat_log ++ (List.replicate k (retried_pass bd)).flatten ++
                       [PlatCall.dp_phy_init] ++ final_calls bd x.1 }) := by
  induction k with
  | zero =>
    intro n retry ret0 dev x hn hr _ hlast hend
    obtain ⟨m, rfl⟩ : ∃ m, n = m + 1 := ⟨n - 1, by omega⟩
    obtain ⟨m2, rfl⟩ : ∃ m2, m = m2 + 1 := ⟨m - 1, by omega⟩
    obtain ⟨r, d⟩ := x
    simp only [bring_up_pass] at hlast
    simp only [enable_goto, plat_call_psr, hlast]
    by_cases h0 : r = 0
    · subst h0
      simp only [ne_eq, not_true_eq_false, if_false]
      congr 1
      congr 1
      apply dp_device_ext <;> simp [final_calls]
    · have h3 : retry = 3 := by
        rcases hend with h | h
        · exact absurd h h0
        · omega
      subst h3
      simp only [ne_eq, h0, not_false_eq_true, if_true, enable_goto, lt_irrefl, if_false]
      congr 1
      congr 1
      apply dp_device_ext <;> simp [final_calls, h0]
  | succ k ih =>
    intro n retry ret0 dev x hn hr hfail hlast hend
    obtain ⟨m, rfl⟩ : ∃ m, n = m + 1 := ⟨n - 1, by omega⟩
    obtain ⟨m2, rfl⟩ : ∃ m2, m = m2 + 1 := ⟨m - 1, by omega⟩
    obtain ⟨y, hy, hy0⟩ := hfail 0 (by omega)
    obtain ⟨r, d⟩ := y
    simp only [bring_up_pass] at hy
    have hlt : retry < 3 := by omega
    have hfail2 : ∀ j, j < k → ∃ y, bring_up_pass hdr bd env fuel j d = some y ∧ y.1 ≠ 0 := by
      intro j hj
      have := hfail (j + 1) (by omega)
      simpa only [bring_up_pass, hy] using this
    have hlast2 : bring_up_pass hdr bd env fuel k d = some x := by
      simpa only [bring_up_pass, hy] using hlast
    simp only [enable_goto, plat_call_psr, hy]
    simp only at hy0
    simp only [ne_eq, hy0, not_false_eq_true, if_true, hlt]
    rw [ih m2 (retry + 1) r _ x (by omega) (by omega) (by simpa using hfail2)
      (by simpa using hlast2) (by omega)]
    congr 1
    congr 1
    apply dp_device_ext <;>
      simp [List.replicate_succ, retried_pass, List.append_assoc]

/-- C21: `s5p_dp_enable` on a device that is not enabled, with enough fuel
for the jumps. When the first `k` bring-up passes fail (`k` at most 3) and
pass `k` either succeeds or is the fourth pass, the function returns what pass
`k` returns: 0 after a success, the error of the fourth pass after four
failures. The calls it makes are the lock, `clk_enable`,
`pm_runtime_get_sync`, then for each failed pass that is retried the pass
followed by the hooks `lcd_off` and `lcd_on`, then the last pass, then the hook
`backlight_on` after a success or the hooks `backlight_off` and `lcd_off` after
the fourth failure, then the release of the lock; the device is left in the
state of the last pass. So four failures give exactly four passes, and a
success ends the retries. A pass fails when `s5p_dp_enable_scramble`,
`s5p_dp_enable_rx_to_enhanced_mode`, `s5p_dp_set_link_train` or
`s5p_dp_config_video` returns a number other than 0, and a hook is called when
the platform data installs it. -/
theorem enable_bounded_retry (hdr : Hdr) (bd : Board) (env : Env) (fuel : Nat) (dev : DpDevice)
    (k : Nat) (x : Int × PsrDev) (hoff : dev.enabled = false) (hfuel : 8 ≤ fuel) (hk : k ≤ 3)
    (hfail : ∀ j, j < k → ∃ y, bring_up_pass hdr bd env fuel j dev.psr = some y ∧ y.1 ≠ 0)
    (hlast : bring_up_pass hdr bd env fuel k dev.psr = some x)
    (hend : x.1 = 0 ∨ k = 3) :
    s5p_dp_enable hdr bd env fuel dev =
      some (x.1,
        { psr := x.2, enabled := true,
          plat_log := dev.plat_log ++
            [PlatCall.mutex_lock, PlatCall.clk_enable, PlatCall.pm_runtime_get_sync] ++
            (List.replicate k (retried_pass bd)).flatten ++ [PlatCall.dp_phy_init] ++
            (if x.1 = 0 then hook_calls bd.backlight_on PlatCall.backlight_on
              else hook_calls bd.backlight_off PlatCall.backlight_off ++
                hook_calls bd.lcd_off PlatCall.lcd_off) ++
            [PlatCall.mutex_unlock] }) ∧
    (x.1 ≠ 0 →
      plat_calls PlatCall.dp_phy_init
        ((List.replicate k (retried_pass bd)).flatten ++ [PlatCall.dp_phy_init]) = 4) := by
  constructor
  · unfold s5p_dp_enable
    simp only [plat_call_enabled, hoff, Bool.false_eq_true, if_false]
    rw [enable_goto_passes hdr bd env fuel k fuel 0 0 _ x (by omega) (by omega)
      (by simpa using hfail) (by simpa using hlast) (by omega)]
    congr 1
    congr 1
    apply dp_device_ext <;> simp [final_calls, List.append_assoc]
  · intro hx
    have h3 : k = 3 := by
      rcases hend with h | h
      · exact absurd h hx
      · exact h
    subst h3
    unfold plat_calls retried_pass hook_calls
    cases bd.lcd_off <;> cases bd.lcd_on <;> decide

/-- Witness of C21: against `env_no_cr`, where every training session fails,
the board with all four hooks sees four passes, each but the last followed by
`lcd_off` and `lcd_on`, then `backlight_off`, `lcd_off` and the release of the
lock, and the call returns `-EREMOTEIO`; against `env_ok` the first pass
succeeds and the call returns 0 after `backlight_on`. -/
theorem enable_bounded_retry_witness :
    dp_device_off.enabled = false ∧
    (∃ d', s5p_dp_enable stdHdr board_hooks env_no_cr 200 dp_device_off =
        some (- EREMOTEIO, d') ∧
      d'.plat_log =
        [PlatCall.mutex_lock, PlatCall.clk_enable, PlatCall.pm_runtime_get_sync,
          PlatCall.dp_phy_init, PlatCall.lcd_off, PlatCall.lcd_on,
          PlatCall.dp_phy_init, PlatCall.lcd_off, PlatCall.lcd_on,
          PlatCall.dp_phy_init, PlatCall.lcd_off, PlatCall.lcd_on,
          PlatCall.dp_phy_init, PlatCall.backlight_off, PlatCall.lcd_off,
          PlatCall.mutex_unlock]) ∧
    (s5p_dp_enable stdHdr board_hooks env_ok 200 dp_device_off).map
        (fun r => (r.1, r.2.plat_log)) =
      some (0, [PlatCall.mutex_lock, PlatCall.clk_enable, PlatCall.pm_runtime_get_sync,
        PlatCall.dp_phy_init, PlatCall.backlight_on, PlatCall.mutex_unlock]) := by
  refine ⟨rfl, ?_, by decide⟩
  have hf : ∀ j, j < 4 →
      (bring_up_pass stdHdr board_hooks env_no_cr 200 j dp_device_off.psr).map Prod.fst =
        some (- EREMOTEIO) := by decide
  obtain ⟨x, hx, hx1⟩ := Option.map_eq_some'.1 (hf 3 (by decide))
  have h := (enable_bounded_retry stdHdr board_hooks env_no_cr 200 dp_device_off 3 x rfl
    (by decide) (by decide)
    (fun j hj => by
      obtain ⟨y, hy, hy1⟩ := Option.map_eq_some'.1 (hf j (by omega))
      exact ⟨y, hy, by rw [hy1]; decide⟩)
    hx (Or.inr rfl)).1
  rw [hx1] at h
  exact ⟨_, h, rfl⟩

/-! ## What a failed `s5p_dp_enable` leaves behind -/

theorem plat_calls_append (c : PlatCall) (l1 l2 : List PlatCall) :
    plat_calls c (l1 ++ l2) = plat_calls c l1 + plat_calls c l2 := by
  simp [plat_calls]

theorem plat_calls_panel (c : PlatCall) (l : List PlatCall) (hl : ∀ x ∈ l, PanelCall x)
    (hc : ¬ PanelCall c) : plat_calls c l = 0 := by
  unfold plat_calls
  apply List.count_eq_zero_of_not_mem
  intro h
  exact hc (hl c h)

theorem panel_hook_calls (b : Bool) (c : PlatCall) (hc : PanelCall c) :
    ∀ x ∈ hook_calls b c, PanelCall x := by
  intro x hx
  unfold hook_calls at hx
  split_ifs at hx
  · simp only [List.mem_singleton] at hx
    rw [hx]
    exact hc
  · simp at hx

theorem plat_calls_hook (c c2 : PlatCall) (b : Bool) (h : c2 ≠ c) :
    plat_calls c (hook_calls b c2) = 0 := by
  unfold plat_calls hook_calls
  split_ifs
  · exact List.count_eq_zero_of_not_mem (by simp [Ne.symm h])
  · rfl

/-- The second poll loop of `s5p_dp_config_video` keeps the two PSR state
flags. -/
theorem video_stream_loop_flags (hdr : Hdr) (env : Env) (fuel tl dc : Nat) (d : PsrDev)
    (b : Bool) (d' : PsrDev) (h : video_stream_loop hdr env fuel tl dc d = some (b, d')) :
    d'.psr_enter_state = d.psr_enter_state ∧ d'.psr_exit_state = d.psr_exit_state := by
  induction fuel generalizing tl dc d with
  | zero => simp [video_stream_loop] at h
  | succ fuel ih =>
    simp only [video_stream_loop] at h
    split_ifs at h
    all_goals first
      | (simp only [Option.some.injEq, Prod.mk.injEq] at h
         rw [← h.2]
         exact ⟨rfl, rfl⟩)
      | (have h2 := ih _ _ _ h
         exact h2)

theorem keeps_flags_slave_clock (env : Env) :
    KeepsFlags (read_slave_video_stream_clock_on env) :=
  fun _ => ⟨rfl, rfl⟩

/-- `s5p_dp_config_video` keeps the two PSR state flags. -/
theorem config_video_flags (hdr : Hdr) (env : Env) (fuel : Nat) (d : PsrDev) (r : Int)
    (d' : PsrDev) (h : s5p_dp_config_video hdr env fuel d = some (r, d')) :
    d'.psr_enter_state = d.psr_enter_state ∧ d'.psr_exit_state = d.psr_exit_state := by
  unfold s5p_dp_config_video at h
  simp only at h
  split_ifs at h
  · simp only [Option.some.injEq, Prod.mk.injEq] at h
    rw [← h.2]
    exact ⟨rfl, rfl⟩
  · split at h
    · simp at h
    · rename_i d1 e1
      have h1 := poll_loop_flags hdr _ _ (keeps_flags_slave_clock env) _ _ _ _ _ e1
      simp only [Option.some.injEq, Prod.mk.injEq] at h
      rw [← h.2]
      exact h1
    · rename_i d1 e1
      have h1 := poll_loop_flags hdr _ _ (keeps_flags_slave_clock env) _ _ _ _ _ e1
      split at h
      · simp at h
      · rename_i d2 e2
        have h2 := video_stream_loop_flags hdr env _ _ _ _ _ _ e2
        simp only [Option.some.injEq, Prod.mk.injEq] at h
        rw [← h.2]
        exact ⟨h2.1.trans h1.1, h2.2.trans h1.2⟩
      · rename_i d2 e2
        have h2 := video_stream_loop_flags hdr env _ _ _ _ _ _ e2
        simp only [Option.some.injEq, Prod.mk.injEq] at h
        rw [← h.2]
        exact ⟨h2.1.trans h1.1, h2.2.trans h1.2⟩

/-- A bring-up pass keeps the two PSR state flags. -/
theorem enable_bring_up_flags (hdr : Hdr) (bd : Board) (env : Env) (fuel : Nat) (d : PsrDev)
    (r : Int) (d' : PsrDev) (h : enable_bring_up hdr bd env fuel d = some (r, d')) :
    d'.psr_enter_state = d.psr_enter_state ∧ d'.psr_exit_state = d.psr_exit_state := by
  unfold enable_bring_up at h
  cases hsoc : bd.soc_is_exynos5250 <;> cases hpsr : hdr.CONFIG_S5P_DP_PSR <;>
    simp only [hsoc, hpsr, Bool.false_eq_true, if_true, if_false] at h <;>
    (split_ifs at h
     · simp only [Option.some.injEq, Prod.mk.injEq] at h
       rw [← h.2]
       exact ⟨rfl, rfl⟩
     · simp only [Option.some.injEq, Prod.mk.injEq] at h
       rw [← h.2]
       exact ⟨rfl, rfl⟩
     · split at h
       · simp at h
       · split_ifs at h
         · simp only [Option.some.injEq, Prod.mk.injEq] at h
           rw [← h.2]
           exact ⟨rfl, rfl⟩
         · split at h
           · simp at h
           · rename_i r2 d2 e2
             have h2 := config_video_flags hdr env _ _ _ _ e2
             split_ifs at h
             · simp only [Option.some.injEq, Prod.mk.injEq] at h
               rw [← h.2]
               exact h2
             · simp only [Option.some.injEq, Prod.mk.injEq] at h
               rw [← h.2]
               exact h2)

/-- From either label on, `s5p_dp_enable` keeps the flag `enabled` and the
PSR state flags, ends with the release of the lock, and before it calls only
hooks of the platform data. When it returns a failure, the passes made from
the label on are all that the retry counter leaves: `3 - retry` of them after
`out`, one more after `dp_phy_init`. -/
theorem enable_goto_frame (hdr : Hdr) (bd : Board) (env : Env) (fuel : Nat) (n : Nat) :
    ∀ (label : EnableLabel) (ret : Int) (retry : Nat) (dev : DpDevice) (r : Int)
      (dev' : DpDevice),
      enable_goto hdr bd env fuel n label ret retry dev = some (r, dev') →
      dev'.enabled = dev.enabled ∧
      dev'.psr.psr_enter_state = dev.psr.psr_enter_state ∧
      ∃ l, dev'.plat_log = dev.plat_log ++ l ++ [PlatCall.mutex_unlock] ∧
        (∀ c ∈ l, PanelCall c) ∧
        (r ≠ 0 → retry ≤ 3 → (label = EnableLabel.out → ret ≠ 0) →
          plat_calls PlatCall.dp_phy_init l =
            3 - retry + (if label = EnableLabel.dp_phy_init then 1 else 0)) := by
  induction n with
  | zero =>
    intro label ret retry dev r dev' h
    simp [enable_goto] at h
  | succ n ih =>
    intro label ret retry dev r dev' h
    cases label with
    | dp_phy_init =>
      simp only [enable_goto, plat_call_psr] at h
      split at h
      · simp at h
      · rename_i r1 d1 e1
        have hfl := enable_bring_up_flags hdr bd env fuel _ _ _ e1
        split_ifs at h with hr1
        · obtain ⟨h1, h2, l, h3, h4, h5⟩ := ih _ _ _ _ _ _ h
          refine ⟨h1, h2.trans hfl.1, [PlatCall.dp_phy_init] ++ l, ?_, ?_, ?_⟩
          · rw [h3]
            simp [List.append_assoc]
          · intro c hc
            simp only [List.singleton_append, List.mem_cons] at hc
            rcases hc with hc | hc
            · rw [hc]
              exact Or.inl rfl
            · exact h4 c hc
          · intro hr hretry _
            rw [plat_calls_append, h5 hr hretry (fun _ => hr1)]
            simp only [plat_calls, List.count_singleton_self, reduceCtorEq, if_false, if_true]
            omega
        · simp only [Option.some.injEq, Prod.mk.injEq] at h
          obtain ⟨hr, hd⟩ := h
          subst hd
          refine ⟨by simp, by simpa using hfl.1,
            [PlatCall.dp_phy_init] ++ hook_calls bd.backlight_on PlatCall.backlight_on,
            by simp [List.append_assoc], ?_, ?_⟩
          · intro c hc
            simp only [List.singleton_append, List.mem_cons] at hc
            rcases hc with hc | hc
            · rw [hc]
              exact Or.inl rfl
            · exact panel_hook_calls _ _ (Or.inr (Or.inr (Or.inr (Or.inl rfl)))) c hc
          · intro hr0
            exact absurd hr.symm hr0
    | out =>
      simp only [enable_goto] at h
      split_ifs at h with hlt
      · obtain ⟨h1, h2, l, h3, h4, h5⟩ := ih _ _ _ _ _ _ h
        refine ⟨by simpa using h1, by simpa using h2,
          hook_calls bd.lcd_off PlatCall.lcd_off ++ hook_calls bd.lcd_on PlatCall.lcd_on ++ l,
          ?_, ?_, ?_⟩
        · rw [h3]
          simp [List.append_assoc]
        · intro c hc
          simp only [List.mem_append] at hc
          rcases hc with (hc | hc) | hc
          · exact panel_hook_calls _ _ (Or.inr (Or.inl rfl)) c hc
          · exact panel_hook_calls _ _ (Or.inr (Or.inr (Or.inl rfl))) c hc
          · exact h4 c hc
        · intro hr hretry _
          rw [plat_calls_append, plat_calls_append, h5 hr (by omega) (by simp),
            plat_calls_hook _ _ _ (by decide), plat_calls_hook _ _ _ (by decide)]
          simp only [reduceCtorEq, if_false, if_true]
          omega
      · simp only [Option.some.injEq, Prod.mk.injEq] at h
        obtain ⟨hr, hd⟩ := h
        subst hd
        refine ⟨by simp, by simp,
          hook_calls bd.backlight_off PlatCall.backlight_off ++
            hook_calls bd.lcd_off PlatCall.lcd_off,
          by simp [List.append_assoc], ?_, ?_⟩
        · intro c hc
          simp only [List.mem_append] at hc
          rcases hc with hc | hc
          · exact panel_hook_calls _ _ (Or.inr (Or.inr (Or.inr (Or.inr rfl)))) c hc
          · exact panel_hook_calls _ _ (Or.inr (Or.inl rfl)) c hc
        · intro _ hretry _
          rw [plat_calls_append, plat_calls_hook _ _ _ (by decide),
            plat_calls_hook _ _ _ (by decide)]
          simp only [reduceCtorEq, if_false]
          omega

/-- C22 (as the code has it): when `s5p_dp_enable`, called on a device that
is not enabled, returns a failure, it has made four bring-up passes and has
released the lock, but the device stays recorded as brought up: the flag
`enabled` is set, and the call has made one `clk_enable` and one
`pm_runtime_get_sync` and no `clk_disable` and no `pm_runtime_put_sync`. It is
the next `s5p_dp_disable` that clears the flag and makes the
`pm_runtime_put_sync` and, unless the build has `CONFIG_S5P_DP_PSR` and the
device is in `PSR_ENTER_DONE`, the `clk_disable`. -/
theorem enable_failure_stays_enabled (hdr : Hdr) (bd : Board) (env : Env) (fuel : Nat)
    (dev : DpDevice) (ret : Int) (dev' : DpDevice) (hoff : dev.enabled = false)
    (h : s5p_dp_enable hdr bd env fuel dev = some (ret, dev')) (hret : ret ≠ 0) :
    plat_calls PlatCall.dp_phy_init dev'.plat_log =
      plat_calls PlatCall.dp_phy_init dev.plat_log + 4 ∧
    dev'.plat_log.getLast? = some PlatCall.mutex_unlock ∧
    plat_calls PlatCall.mutex_lock dev'.plat_log =
      plat_calls PlatCall.mutex_lock dev.plat_log + 1 ∧
    plat_calls PlatCall.mutex_unlock dev'.plat_log =
      plat_calls PlatCall.mutex_unlock dev.plat_log + 1 ∧
    dev'.enabled = true ∧
    plat_calls PlatCall.clk_enable dev'.plat_log =
      plat_calls PlatCall.clk_enable dev.plat_log + 1 ∧
    plat_calls PlatCall.pm_runtime_get_sync dev'.plat_log =
      plat_calls PlatCall.pm_runtime_get_sync dev.plat_log + 1 ∧
    plat_calls PlatCall.clk_disable dev'.plat_log =
      plat_calls PlatCall.clk_disable dev.plat_log ∧
    plat_calls PlatCall.pm_runtime_put_sync dev'.plat_log =
      plat_calls PlatCall.pm_runtime_put_sync dev.plat_log ∧
    (s5p_dp_disable hdr dev').enabled = false ∧
    plat_calls PlatCall.pm_runtime_put_sync (s5p_dp_disable hdr dev').plat_log =
      plat_calls PlatCall.pm_runtime_put_sync dev.plat_log + 1 ∧
    plat_calls PlatCall.clk_disable (s5p_dp_disable hdr dev').plat_log =
      plat_calls PlatCall.clk_disable dev.plat_log +
        (if hdr.CONFIG_S5P_DP_PSR = true ∧
            dev.psr.psr_enter_state = PsrState.PSR_ENTER_DONE then 0 else 1) := by
  unfold s5p_dp_enable at h
  simp only [plat_call_enabled, hoff, Bool.false_eq_true, if_false] at h
  obtain ⟨h1, h2, l, h3, h4, h5⟩ := enable_goto_frame hdr bd env fuel _ _ _ _ _ _ _ h
  simp only [plat_call_enabled, plat_call_psr, plat_call_log] at h1 h2 h3
  have h5 := h5 hret (by omega) (by simp)
  simp only [if_true] at h5
  have hp : ∀ c, ¬ PanelCall c → plat_calls c l = 0 := fun c hc => plat_calls_panel c l h4 hc
  have hen : dev'.enabled = true := h1
  have hlog : ∀ c, plat_calls c dev'.plat_log = plat_calls c dev.plat_log +
      plat_calls c [PlatCall.mutex_lock] + plat_calls c [PlatCall.clk_enable] +
      plat_calls c [PlatCall.pm_runtime_get_sync] +
      plat_calls c l + plat_calls c [PlatCall.mutex_unlock] := by
    intro c
    rw [h3]
    simp only [plat_calls_append]
  have hdis : s5p_dp_disable hdr dev' =
      plat_call PlatCall.mutex_unlock (plat_call PlatCall.pm_runtime_put_sync
        (if hdr.CONFIG_S5P_DP_PSR = true ∧
            dev.psr.psr_enter_state = PsrState.PSR_ENTER_DONE then
          { (plat_call PlatCall.mutex_lock dev') with
            enabled := false,
            psr := psr_hw (HwOp.set_analog_power_down PowerBlock.POWER_ALL true)
              (psr_hw (HwOp.set_pll_power_down true) (psr_hw HwOp.reset dev'.psr)) }
        else plat_call PlatCall.clk_disable
          { (plat_call PlatCall.mutex_lock dev') with
            enabled := false,
            psr := psr_hw (HwOp.set_analog_power_down PowerBlock.POWER_ALL true)
              (psr_hw (HwOp.set_pll_power_down true) (psr_hw HwOp.reset dev'.psr)) })) := by
    unfold s5p_dp_disable
    simp only [plat_call_enabled, hen, Bool.not_true, Bool.false_eq_true, if_false,
      plat_call_psr, psr_hw_enter_state, h2]
    by_cases hc : hdr.CONFIG_S5P_DP_PSR = true
    · by_cases hs : dev.psr.psr_enter_state = PsrState.PSR_ENTER_DONE
      · simp [hc, hs]
      · simp [hc, hs]
    · simp [hc]
  have hnp : ∀ c, c = PlatCall.mutex_lock ∨ c = PlatCall.mutex_unlock ∨
      c = PlatCall.clk_enable ∨ c = PlatCall.clk_disable ∨
      c = PlatCall.pm_runtime_get_sync ∨ c = PlatCall.pm_runtime_put_sync → ¬ PanelCall c := by
    intro c hc hp
    unfold PanelCall at hp
    rcases hc with rfl | rfl | rfl | rfl | rfl | rfl <;> simp at hp
  have hclk : plat_calls PlatCall.clk_disable dev'.plat_log =
      plat_calls PlatCall.clk_disable dev.plat_log := by
    rw [hlog, hp PlatCall.clk_disable (hnp _ (by simp))]
    simp [plat_calls]
  have hput : plat_calls PlatCall.pm_runtime_put_sync dev'.plat_log =
      plat_calls PlatCall.pm_runtime_put_sync dev.plat_log := by
    rw [hlog, hp PlatCall.pm_runtime_put_sync (hnp _ (by simp))]
    simp [plat_calls]
  refine ⟨?_, ?_, ?_, ?_, hen, ?_, ?_, hclk, hput, ?_, ?_, ?_⟩
  · rw [hlog, h5]
    simp [plat_calls]
  · rw [h3, List.getLast?_append]
    rfl
  · rw [hlog, hp PlatCall.mutex_lock (hnp _ (by simp))]
    simp [plat_calls]
  · rw [hlog, hp PlatCall.mutex_unlock (hnp _ (by simp))]
    simp [plat_calls]
  · rw [hlog, hp PlatCall.clk_enable (hnp _ (by simp))]
    simp [plat_calls]
  · rw [hlog, hp PlatCall.pm_runtime_get_sync (hnp _ (by simp))]
    simp [plat_calls]
  · rw [hdis]
    split_ifs <;> rfl
  · rw [hdis]
    split_ifs
    · show plat_calls _ (dev'.plat_log ++ [PlatCall.mutex_lock] ++
        [PlatCall.pm_runtime_put_sync] ++ [PlatCall.mutex_unlock]) = _
      simp only [plat_calls_append, hput]
      simp [plat_calls]
    · show plat_calls _ (dev'.plat_log ++ [PlatCall.mutex_lock] ++ [PlatCall.clk_disable] ++
        [PlatCall.pm_runtime_put_sync] ++ [PlatCall.mutex_unlock]) = _
      simp only [plat_calls_append, hput]
      simp [plat_calls]
  · rw [hdis]
    split_ifs
    · show plat_calls _ (dev'.plat_log ++ [PlatCall.mutex_lock] ++
        [PlatCall.pm_runtime_put_sync] ++ [PlatCall.mutex_unlock]) = _
      simp only [plat_calls_append, hclk]
      simp [plat_calls]
    · show plat_calls _ (dev'.plat_log ++ [PlatCall.mutex_lock] ++ [PlatCall.clk_disable] ++
        [PlatCall.pm_runtime_put_sync] ++ [PlatCall.mutex_unlock]) = _
      simp only [plat_calls_append, hclk]
      simp [plat_calls]

/-- Witness of C22: against `env_all_fail` the call on `dp_device_off`
returns `-EIO`. -/
theorem enable_failure_stays_enabled_witness :
    dp_device_off.enabled = false ∧
    ∃ dev', s5p_dp_enable stdHdr board_hooks env_all_fail 200 dp_device_off =
        some (- EIO, dev') ∧
      dev'.enabled = true ∧
      plat_calls PlatCall.clk_disable dev'.plat_log = 0 ∧
      plat_calls PlatCall.pm_runtime_put_sync dev'.plat_log = 0 ∧
      (s5p_dp_disable stdHdr dev').enabled = false ∧
      plat_calls PlatCall.clk_disable (s5p_dp_disable stdHdr dev').plat_log = 1 ∧
      plat_calls PlatCall.pm_runtime_put_sync (s5p_dp_disable stdHdr dev').plat_log = 1 := by
  refine ⟨rfl, ?_⟩
  have hs : (s5p_dp_enable stdHdr board_hooks env_all_fail 200 dp_device_off).map Prod.fst =
      some (- EIO) := by decide
  obtain ⟨x, hx, hx1⟩ := Option.map_eq_some'.1 hs
  obtain ⟨r, dev'⟩ := x
  simp only at hx1
  subst hx1
  have h := enable_failure_stays_enabled stdHdr board_hooks env_all_fail 200 dp_device_off
    (- EIO) dev' rfl hx (by decide)
  exact ⟨dev', hx, h.2.2.2.2.1, h.2.2.2.2.2.2.2.1, h.2.2.2.2.2.2.2.2.1, h.2.2.2.2.2.2.2.2.2.1,
    h.2.2.2.2.2.2.2.2.2.2.2, h.2.2.2.2.2.2.2.2.2.2.1⟩

/-- C22 as the spec states it fails: against `env_all_fail` the call on
`dp_device_off` returns the failure `-EIO` after four bring-up passes and
leaves the flag `enabled` set, with one `clk_enable` and one
`pm_runtime_get_sync` made and no `clk_disable` and no `pm_runtime_put_sync`;
the `s5p_dp_disable` that follows does have something to undo: it resets the
transmitter and makes the `clk_disable` and the `pm_runtime_put_sync`. -/
theorem enable_failure_counterexample :
    dp_device_off.enabled = false ∧
    (s5p_dp_enable stdHdr board_hooks env_all_fail 200 dp_device_off).map
        (fun r => (r.1, r.2.enabled, plat_calls PlatCall.dp_phy_init r.2.plat_log,
          r.2.plat_log.getLast?)) =
      some (- EIO, true, 4, some PlatCall.mutex_unlock) ∧
    (s5p_dp_enable stdHdr board_hooks env_all_fail 200 dp_device_off).map
        (fun r => (plat_calls PlatCall.clk_enable r.2.plat_log,
          plat_calls PlatCall.pm_runtime_get_sync r.2.plat_log,
          plat_calls PlatCall.clk_disable r.2.plat_log,
          plat_calls PlatCall.pm_runtime_put_sync r.2.plat_log)) =
      some (1, 1, 0, 0) ∧
    (s5p_dp_enable stdHdr board_hooks env_all_fail 200 dp_device_off).map
        (fun r => ((s5p_dp_disable stdHdr r.2).plat_log.drop r.2.plat_log.length,
          hw_calls HwOp.reset (s5p_dp_disable stdHdr r.2).psr.dp.log -
            hw_calls HwOp.reset r.2.psr.dp.log)) =
      some ([PlatCall.mutex_lock, PlatCall.clk_disable, PlatCall.pm_runtime_put_sync,
        PlatCall.mutex_unlock], 1) := by
  decide

/-! ## `s5p_dp_enable` on a device that is enabled -/

/-- C24: the code on a device that is already enabled. The guard `if
(dp->enabled) goto out;` lands on the retry code of the label `out` with
`retry` 0, so against `env_ok` the call on `dp_device_on` calls the hooks
`lcd_off` and `lcd_on`, runs a bring-up pass (the transmitter is reset and a
training session is started, 74 calls in all), calls `backlight_on` and
returns 0; the same happens to the second of two calls in a row on
`dp_device_off`. Against `env_all_fail` it runs three passes and returns
`-EIO`. `s5p_dp_disable` on a device that is not enabled only takes and
releases the lock. -/
theorem enable_when_enabled_runs_bring_up :
    dp_device_on.enabled = true ∧ dp_device_on.psr.dp.log = [] ∧
    (s5p_dp_enable stdHdr board_hooks env_ok 200 dp_device_on).map
        (fun r => (r.1, r.2.plat_log)) =
      some (0, [PlatCall.mutex_lock, PlatCall.lcd_off, PlatCall.lcd_on, PlatCall.dp_phy_init,
        PlatCall.backlight_on, PlatCall.mutex_unlock]) ∧
    (s5p_dp_enable stdHdr board_hooks env_ok 200 dp_device_on).map
        (fun r => (hw_calls HwOp.reset r.2.psr.dp.log, calls Fn.link_start r.2.psr.dp.log,
          r.2.psr.dp.log.length)) =
      some (1, 1, 74) ∧
    ((s5p_dp_enable stdHdr board_hooks env_ok 200 dp_device_off).bind
        (fun r => s5p_dp_enable stdHdr board_hooks env_ok 200 r.2)).map
        (fun r => (r.1, r.2.plat_log.drop 6, calls Fn.link_start r.2.psr.dp.log)) =
      some (0, [PlatCall.mutex_lock, PlatCall.lcd_off, PlatCall.lcd_on, PlatCall.dp_phy_init,
        PlatCall.backlight_on, PlatCall.mutex_unlock], 2) ∧
    (s5p_dp_enable stdHdr board_hooks env_all_fail 200 dp_device_on).map
        (fun r => (r.1, plat_calls PlatCall.dp_phy_init r.2.plat_log,
          plat_calls PlatCall.lcd_off r.2.plat_log, r.2.psr.dp.log.length)) =
      some (- EIO, 3, 4, 24) ∧
    (s5p_dp_disable stdHdr dp_device_off).plat_log =
      [PlatCall.mutex_lock, PlatCall.mutex_unlock] ∧
    (s5p_dp_disable stdHdr dp_device_off).psr.dp.log = [] ∧
    (s5p_dp_disable stdHdr dp_device_off).enabled = false := by
  decide

end S5pDp
